import Mathlib

/-!
# WaveBreaker: the per-frame simulation core of `src/main.cpp`

A shallow embedding of the simulation core of the wave-survival game and the
properties of its specification.

Modelling conventions.

* C++ `int` is `Int`. Signed overflow is undefined behaviour in C++ and is
  outside the model.
* C++ `float` is `ℚ`: every arithmetic operation is the exact one, so the
  rounding error of binary32 is outside the model. `std::round` / `std::lround`
  are `roundHalfAway`, `static_cast<int>` of a float is `truncToInt`.
* The definitions in the namespace `Binary32` are the exception: they embed
  `Player::SetMaxHealthMultiplier`, `SpawnWave` and `TryDropPowerUp` with every
  `float` operation rounded to binary32 by `f32` (to nearest, halves to even,
  no fused multiply-add), `sqrtf` being the correctly rounded square root, and
  a conversion to `int` that leaves the range of `int` being undefined. The
  properties of the max-health rescale (C2), of the drop roll (C10) and of the
  safe radius (C27), which depend on the rounding, are stated over them.
* The raylib / raymath / libm functions the program calls (`sqrtf`, `sinf`,
  `Vector2Length`, `CheckCollisionCircles`, the screen size, `rand`) are not
  part of the program: they are the fields of the parameter `Raylib`, and
  every theorem holds for every value of that parameter.
* Drawing, audio and colours are left out: they never feed back into the
  simulation state.
* A loop that erases from a `std::vector` while it walks it is a recursion on
  the list of the elements still to visit.
-/

namespace WaveBreaker

/-! ## Numbers -/

/-- C++ `std::round` and `std::lround`: nearest integer, halves away from zero. -/
def roundHalfAway (q : ℚ) : Int :=
  if 0 ≤ q then ⌊q + 1 / 2⌋ else ⌈q - 1 / 2⌉

/-- C++ `static_cast<int>` of a float: truncation toward zero. -/
def truncToInt (q : ℚ) : Int :=
  if 0 ≤ q then ⌊q⌋ else ⌈q⌉

/-! ## Types -/

structure Vector2 where
  x : ℚ
  y : ℚ
deriving DecidableEq

inductive EnemyType where
  | GRUNT
  | RUNNER
  | TANK
deriving DecidableEq, Repr

inductive PowerUpType where
  | RAPID_FIRE
  | SPREAD_SHOT
  | DAMAGE_BOOST
  | SPEED_BOOST
  | SHIELD
  | ROCKET_LAUNCHER
  | HEALTH_PACK
deriving DecidableEq, Repr

inductive ProjectileType where
  | BULLET
  | ROCKET
deriving DecidableEq, Repr

inductive GameState where
  | SPLASH
  | MENU
  | PLAYING
  | PAUSED
  | UPGRADE
  | GAME_OVER
deriving DecidableEq, Repr

structure VirtualJoystick where
  anchor : Vector2
  position : Vector2
  baseRadius : ℚ
  knobRadius : ℚ
  pointerId : Int
  active : Bool
  direction : Vector2
deriving DecidableEq

structure PowerUp where
  type : PowerUpType
  position : Vector2
  radius : ℚ
  duration : ℚ
deriving DecidableEq

structure ActivePowerUp where
  type : PowerUpType
  remaining : ℚ
deriving DecidableEq

structure Player where
  position : Vector2
  health : Int
  speed : ℚ
  baseSpeed : ℚ
  radius : ℚ
  baseMaxHealth : Int
  maxHealth : Int
  shieldCharges : Int
  shieldTimer : ℚ
deriving DecidableEq

structure Explosion where
  position : Vector2
  radius : ℚ
  lifetime : ℚ
  elapsed : ℚ
  damage : Int
  applied : Bool
deriving DecidableEq

structure Bullet where
  type : ProjectileType
  position : Vector2
  velocity : Vector2
  radius : ℚ
  damage : Int
  explosionRadius : ℚ
deriving DecidableEq

structure Enemy where
  type : EnemyType
  position : Vector2
  facing : Vector2
  health : Int
  speed : ℚ
  radius : ℚ
  flashTimer : ℚ
  contactDamage : Int
  knockbackResistance : ℚ
  behaviorTimer : ℚ
deriving DecidableEq

structure Rectangle where
  x : ℚ
  y : ℚ
  width : ℚ
  height : ℚ
deriving DecidableEq

/-- The library and platform functions the program calls. `rand n` is the
value of the n-th call of the C library `rand()` made by `GetRandomValue`. -/
structure Raylib where
  GetScreenWidth : Int
  GetScreenHeight : Int
  DEG2RAD : ℚ
  sqrtf : ℚ → ℚ
  sinf : ℚ → ℚ
  cosf : ℚ → ℚ
  atan2f : ℚ → ℚ → ℚ
  Vector2Length : Vector2 → ℚ
  Vector2Normalize : Vector2 → Vector2
  Vector2Distance : Vector2 → Vector2 → ℚ
  CheckCollisionCircles : Vector2 → ℚ → Vector2 → ℚ → Bool
  CheckCollisionPointRec : Vector2 → Rectangle → Bool
  rand : Nat → Nat

structure TouchPoint where
  id : Int
  position : Vector2
deriving DecidableEq

/-- What the input provider reports for one frame. -/
structure Input where
  GetFrameTime : ℚ
  GetMousePosition : Vector2
  touches : List TouchPoint
  mouseLeftDown : Bool
  mouseLeftPressed : Bool
  keySpaceDown : Bool
  keySpacePressed : Bool
  keyEnterPressed : Bool
  keyEscapePressed : Bool
  keyW : Bool
  keyUp : Bool
  keyS : Bool
  keyDown : Bool
  keyA : Bool
  keyLeft : Bool
  keyD : Bool
  keyRight : Bool

structure PowerStats where
  speedMultiplier : ℚ
  fireRateMultiplier : ℚ
  damageMultiplier : ℚ
  spreadLevel : Int
  shieldRemaining : ℚ
  rocketLauncher : Bool
deriving DecidableEq

/-- The locals of `main` that the simulation lambdas capture, the
web-configurable globals, and the number of `rand()` calls made so far. -/
structure Game where
  player : Player
  enemies : List Enemy
  bullets : List Bullet
  powerUps : List PowerUp
  activePowerUps : List ActivePowerUp
  explosions : List Explosion
  moveStick : VirtualJoystick
  currentWave : Int
  enemiesRemaining : Int
  gameOver : Bool
  state : GameState
  splashTimer : ℚ
  prevTouchCount : Int
  fireTimer : ℚ
  powerUpSpawnTimer : ℚ
  permanentHealthMultiplier : ℚ
  permanentFireRateMultiplier : ℚ
  permanentDamageMultiplier : ℚ
  pendingWave : Int
  enemyCountMultiplier : ℚ
  powerUpSpawnIntervalMin : ℚ
  powerUpSpawnIntervalMax : ℚ
  enemyDropChance : ℚ
  startingWaveOverride : Int
  randCalls : Nat

/-! ## Constants of `main` -/

def maxFieldPowerUps : Int := 3
def healthPickupAmount : Int := 30
def healthDropBias : ℚ := 55 / 100
def rocketExplosionRadius : ℚ := 110
def baseFireCooldown : ℚ := 22 / 100
def baseBulletDamage : Int := 20
def baseBulletSpeed : ℚ := 520
def baseRocketCooldown : ℚ := 65 / 100
def baseRocketDamage : Int := 70
def baseRocketSpeed : ℚ := 360
def permanentUpgradePercent : ℚ := 15 / 100
def splashDuration : ℚ := 10

/-! ## raymath vector arithmetic (exact) and `GetRandomValue` -/

def Vector2Add (a b : Vector2) : Vector2 := ⟨a.x + b.x, a.y + b.y⟩
def Vector2Subtract (a b : Vector2) : Vector2 := ⟨a.x - b.x, a.y - b.y⟩
def Vector2Scale (v : Vector2) (s : ℚ) : Vector2 := ⟨v.x * s, v.y * s⟩
def Vector2Zero : Vector2 := ⟨0, 0⟩

/-- raylib `GetRandomValue(min, max)` at the n-th call of `rand()`: the bounds
are swapped when out of order and the value is `rand() % (|max - min| + 1) + min`. -/
def GetRandomValue (rl : Raylib) (n : Nat) (min max : Int) : Int :=
  let lo := if min > max then max else min
  let hi := if min > max then min else max
  (rl.rand n : Int) % (|hi - lo| + 1) + lo

/-! ## Power-up tables -/

def GetPowerUpDuration : PowerUpType → ℚ
  | .RAPID_FIRE => 8
  | .SPREAD_SHOT => 10
  | .DAMAGE_BOOST => 8
  | .SPEED_BOOST => 6
  | .SHIELD => 12
  | .ROCKET_LAUNCHER => 12
  | .HEALTH_PACK => 0

/-! ## Player -/

/-- The constructor `Player()`. -/
def Player.new : Player :=
  { position := ⟨500, 500⟩
    baseMaxHealth := 100
    maxHealth := 100
    health := 100
    baseSpeed := 300
    speed := 300
    radius := 20
    shieldCharges := 0
    shieldTimer := 0 }

def Player.ResetHealth (p : Player) : Player := { p with health := p.maxHealth }

def Player.ResetPosition (p : Player) : Player := { p with position := ⟨500, 500⟩ }

def Player.ResetStatus (p : Player) : Player :=
  { p with speed := p.baseSpeed, shieldCharges := 0, shieldTimer := 0 }

def Player.SetMaxHealthMultiplier (p : Player) (multiplier : ℚ) : Player :=
  let multiplier := if multiplier < 1 then 1 else multiplier
  let oldMax := p.maxHealth
  let newMax := roundHalfAway ((p.baseMaxHealth : ℚ) * multiplier)
  let newMax := if newMax < p.baseMaxHealth then p.baseMaxHealth else newMax
  let newMax := if newMax ≤ 0 then p.baseMaxHealth else newMax
  let healthRatio : ℚ := if oldMax > 0 then (p.health : ℚ) / (oldMax : ℚ) else 1
  let newHealth := roundHalfAway (healthRatio * (newMax : ℚ))
  let newHealth := if newHealth < 0 then 0 else newHealth
  let newHealth := if newHealth > newMax then newMax else newHealth
  { p with maxHealth := newMax, health := newHealth }

def Player.UpdateShield (p : Player) (delta : ℚ) : Player :=
  if p.shieldTimer > 0 then
    let t := p.shieldTimer - delta
    if t ≤ 0 then { p with shieldTimer := 0, shieldCharges := 0 }
    else { p with shieldTimer := t }
  else p

def Player.Update (rl : Raylib) (p : Player) (delta : ℚ) (inputDir : Vector2) : Player :=
  let inputDir := if rl.Vector2Length inputDir > 1 then rl.Vector2Normalize inputDir else inputDir
  let pos := Vector2Add p.position (Vector2Scale inputDir (p.speed * delta))
  let pos : Vector2 := if pos.x < p.radius then ⟨p.radius, pos.y⟩ else pos
  let pos : Vector2 :=
    if pos.x > (rl.GetScreenWidth : ℚ) - p.radius then ⟨(rl.GetScreenWidth : ℚ) - p.radius, pos.y⟩
    else pos
  let pos : Vector2 := if pos.y < p.radius then ⟨pos.x, p.radius⟩ else pos
  let pos : Vector2 :=
    if pos.y > (rl.GetScreenHeight : ℚ) - p.radius then ⟨pos.x, (rl.GetScreenHeight : ℚ) - p.radius⟩
    else pos
  Player.UpdateShield { p with position := pos } delta

/-! ## Enemy -/

/-- The constructor `Enemy(spawnPos, enemyType, wave)`; its member initialiser
draws `GetRandomValue(0, 360)` as the n-th call of `rand()`. -/
def Enemy.new (rl : Raylib) (n : Nat) (spawnPos : Vector2) (enemyType : EnemyType)
    (wave : Int) : Enemy :=
  let behaviorTimer : ℚ := (GetRandomValue rl n 0 360 : ℚ) * rl.DEG2RAD
  let healthScale : ℚ := 1 + ((wave - 1 : Int) : ℚ) * (18 / 100)
  let speedScale : ℚ := 1 + ((wave - 1 : Int) : ℚ) * (5 / 100)
  let damageScale : ℚ := 1 + ((wave - 1 : Int) : ℚ) * (1 / 10)
  let e : Enemy :=
    match enemyType with
    | .GRUNT =>
      { type := enemyType, position := spawnPos, facing := ⟨1, 0⟩, flashTimer := 0
        behaviorTimer := behaviorTimer
        radius := 16
        contactDamage := roundHalfAway (12 * damageScale)
        health := roundHalfAway (45 * healthScale)
        speed := 90 * speedScale
        knockbackResistance := 25 / 100 }
    | .RUNNER =>
      { type := enemyType, position := spawnPos, facing := ⟨1, 0⟩, flashTimer := 0
        behaviorTimer := behaviorTimer
        radius := 12
        contactDamage := roundHalfAway (9 * damageScale)
        health := roundHalfAway (28 * healthScale)
        speed := 140 * speedScale
        knockbackResistance := 5 / 100 }
    | .TANK =>
      { type := enemyType, position := spawnPos, facing := ⟨1, 0⟩, flashTimer := 0
        behaviorTimer := behaviorTimer
        radius := 22
        contactDamage := roundHalfAway (20 * damageScale)
        health := roundHalfAway (110 * healthScale)
        speed := 60 * speedScale * (85 / 100)
        knockbackResistance := 7 / 10 }
  let e : Enemy := if e.health < 1 then { e with health := 1 } else e
  if e.contactDamage < 1 then { e with contactDamage := 1 } else e

/-- The wave scale factor of the enemy health, the local `healthScale` of the
`Enemy` constructor. -/
def healthScale (wave : Int) : ℚ := 1 + ((wave - 1 : Int) : ℚ) * (18 / 100)

/-- The wave scale factor of the enemy speed, the local `speedScale` of the
`Enemy` constructor. -/
def speedScale (wave : Int) : ℚ := 1 + ((wave - 1 : Int) : ℚ) * (5 / 100)

/-- The wave scale factor of the contact damage, the local `damageScale` of the
`Enemy` constructor. -/
def damageScale (wave : Int) : ℚ := 1 + ((wave - 1 : Int) : ℚ) * (1 / 10)

/-- The base health of an enemy type in the `Enemy` constructor. -/
def baseHealth : EnemyType → Int
  | .GRUNT => 45
  | .RUNNER => 28
  | .TANK => 110

/-- The base contact damage of an enemy type in the `Enemy` constructor. -/
def baseContactDamage : EnemyType → Int
  | .GRUNT => 12
  | .RUNNER => 9
  | .TANK => 20

def Enemy.Update (rl : Raylib) (e : Enemy) (delta : ℚ) (playerPos : Vector2) : Enemy :=
  let behaviorTimer := e.behaviorTimer + delta
  let toPlayer := Vector2Subtract playerPos e.position
  let distance := rl.Vector2Length toPlayer
  let dir := if distance > 1 / 1000 then Vector2Scale toPlayer (1 / distance) else Vector2Zero
  let moveDir : Vector2 :=
    if e.type = EnemyType.RUNNER ∧ distance > 1 / 1000 then
      let perp : Vector2 := ⟨-dir.y, dir.x⟩
      let sway := rl.sinf (behaviorTimer * 6) * (55 / 100)
      let m := Vector2Add dir (Vector2Scale perp sway)
      if rl.Vector2Length m > 1 / 1000 then rl.Vector2Normalize m else m
    else if e.type = EnemyType.TANK then
      let pulse := 1 + rl.sinf (behaviorTimer * (3 / 2)) * (12 / 100)
      Vector2Scale dir pulse
    else dir
  let facing := if rl.Vector2Length moveDir > 1 / 1000 then rl.Vector2Normalize moveDir else e.facing
  let position := Vector2Add e.position (Vector2Scale moveDir (e.speed * delta))
  let flashTimer :=
    if e.flashTimer > 0 then
      let t := e.flashTimer - delta
      if t < 0 then 0 else t
    else e.flashTimer
  { e with behaviorTimer := behaviorTimer, facing := facing, position := position,
           flashTimer := flashTimer }

def Enemy.ApplyHit (rl : Raylib) (e : Enemy) (damage : Int) (knockbackDir : Vector2)
    (knockbackStrength : ℚ) : Enemy :=
  let health := e.health - damage
  let health := if health < 0 then 0 else health
  let resistance := e.knockbackResistance
  let resistance := if resistance < 0 then 0 else resistance
  let resistance := if resistance > 95 / 100 then 95 / 100 else resistance
  let position :=
    if knockbackStrength > 0 ∧ (knockbackDir.x ≠ 0 ∨ knockbackDir.y ≠ 0) then
      let dir := rl.Vector2Normalize knockbackDir
      let scaled := knockbackStrength * (1 - resistance)
      Vector2Add e.position (Vector2Scale dir scaled)
    else e.position
  { e with health := health, flashTimer := 12 / 100, position := position }

/-! ## Bullet -/

def Bullet.Update (b : Bullet) (delta : ℚ) : Bullet :=
  { b with position := ⟨b.position.x + b.velocity.x * delta, b.position.y + b.velocity.y * delta⟩ }

def Bullet.IsOffScreen (rl : Raylib) (b : Bullet) : Bool :=
  decide (b.position.x < 0) || decide (b.position.x > (rl.GetScreenWidth : ℚ)) ||
  decide (b.position.y < 0) || decide (b.position.y > (rl.GetScreenHeight : ℚ))

/-! ## Power-ups -/

/-- The search loop of `ActivatePowerUp`: the first effect of the given type
gets the duration; the flag is the local `found`. -/
def refreshEffect (type : PowerUpType) (duration : ℚ) :
    List ActivePowerUp → List ActivePowerUp × Bool
  | [] => ([], false)
  | effect :: rest =>
    if effect.type = type then ({ effect with remaining := duration } :: rest, true)
    else
      let r := refreshEffect type duration rest
      (effect :: r.1, r.2)

def ActivatePowerUp (g : Game) (type : PowerUpType) : Game :=
  if type = PowerUpType.HEALTH_PACK then
    if g.player.health < g.player.maxHealth then
      { g with player :=
          { g.player with health := min g.player.maxHealth (g.player.health + healthPickupAmount) } }
    else g
  else
    let duration := GetPowerUpDuration type
    let r := refreshEffect type duration g.activePowerUps
    let effects := if r.2 then r.1 else r.1 ++ [⟨type, duration⟩]
    let g := { g with activePowerUps := effects }
    match type with
    | .SHIELD =>
      { g with player :=
          { g.player with shieldCharges := min (g.player.shieldCharges + 2) 4
                          shieldTimer := duration } }
    | .ROCKET_LAUNCHER => { g with fireTimer := 0 }
    | _ => g

/-- The active-effect expiry loop of the PLAYING branch. -/
def expireEffects (delta : ℚ) : List ActivePowerUp → Player → List ActivePowerUp × Player
  | [], p => ([], p)
  | effect :: rest, p =>
    let effect := { effect with remaining := effect.remaining - delta }
    if effect.remaining ≤ 0 then
      let p :=
        if effect.type = PowerUpType.SHIELD then { p with shieldCharges := 0, shieldTimer := 0 }
        else p
      expireEffects delta rest p
    else
      let r := expireEffects delta rest p
      (effect :: r.1, r.2)

def expiryPass (g : Game) (delta : ℚ) : Game :=
  let r := expireEffects delta g.activePowerUps g.player
  { g with activePowerUps := r.1, player := r.2 }

def CreatePowerUpInstance (rl : Raylib) (g : Game) (type : PowerUpType) (position : Vector2) :
    Game :=
  let radius : ℚ :=
    if type = PowerUpType.SHIELD ∨ type = PowerUpType.ROCKET_LAUNCHER then 20 else 18
  let screenW : ℚ := rl.GetScreenWidth
  let screenH : ℚ := rl.GetScreenHeight
  let drop : PowerUp :=
    { type := type
      radius := radius
      duration := GetPowerUpDuration type
      position := ⟨max radius (min position.x (screenW - radius)),
                   max radius (min position.y (screenH - radius))⟩ }
  { g with powerUps := g.powerUps ++ [drop] }

def SpawnRandomPowerUp (rl : Raylib) (g : Game) (position : Vector2) : Game :=
  if (g.powerUps.length : Int) ≥ maxFieldPowerUps then g
  else
    let bag : List PowerUpType :=
      [PowerUpType.RAPID_FIRE, PowerUpType.SPREAD_SHOT, PowerUpType.DAMAGE_BOOST,
       PowerUpType.SPEED_BOOST]
    let bag := if g.currentWave ≥ 2 then bag ++ [PowerUpType.SHIELD] else bag
    let bag := if g.currentWave ≥ 3 then bag ++ [PowerUpType.ROCKET_LAUNCHER] else bag
    let idx := GetRandomValue rl g.randCalls 0 ((bag.length : Int) - 1)
    let type := bag.getD idx.toNat PowerUpType.RAPID_FIRE
    CreatePowerUpInstance rl { g with randCalls := g.randCalls + 1 } type position

def TryDropPowerUp (rl : Raylib) (g : Game) (position : Vector2) : Game :=
  if (g.powerUps.length : Int) ≥ maxFieldPowerUps then g
  else
    let roll := GetRandomValue rl g.randCalls 0 999
    let g := { g with randCalls := g.randCalls + 1 }
    if roll < truncToInt (g.enemyDropChance * 1000) then
      if g.player.health < g.player.maxHealth then
        let missingRatio : ℚ := 1 - (g.player.health : ℚ) / (g.player.maxHealth : ℚ)
        let adjustedChance := healthDropBias + missingRatio * (35 / 100)
        let adjustedChance := if adjustedChance > 95 / 100 then 95 / 100 else adjustedChance
        let adjustedChance := if adjustedChance < 0 then 0 else adjustedChance
        let healthRoll := GetRandomValue rl g.randCalls 0 999
        let g := { g with randCalls := g.randCalls + 1 }
        if healthRoll < truncToInt (adjustedChance * 1000) then
          CreatePowerUpInstance rl g PowerUpType.HEALTH_PACK position
        else SpawnRandomPowerUp rl g position
      else SpawnRandomPowerUp rl g position
    else g

def SpawnExplosion (g : Game) (position : Vector2) (radius : ℚ) (damage : Int) : Game :=
  { g with explosions := g.explosions ++ [⟨position, radius, 35 / 100, 0, damage, false⟩] }

/-! ## Wave director -/

/-- The lambda `pickType` of `SpawnWave`, drawing its index at call n. -/
def pickType (rl : Raylib) (n : Nat) (waveNum : Int) : EnemyType :=
  let bag : List EnemyType := [EnemyType.GRUNT, EnemyType.GRUNT, EnemyType.GRUNT]
  let bag := if waveNum ≥ 2 then bag ++ [EnemyType.RUNNER, EnemyType.RUNNER] else bag
  let bag := if waveNum ≥ 4 then bag ++ [EnemyType.TANK] else bag
  let idx := GetRandomValue rl n 0 ((bag.length : Int) - 1)
  bag.getD idx.toNat EnemyType.GRUNT

/-- The edge point chosen by the `switch (side)` of the spawn loop: the side is
drawn at call n and the coordinate along the edge at call n + 1. -/
def edgeSpawn (rl : Raylib) (n : Nat) : Vector2 :=
  let side := GetRandomValue rl n 0 3
  if side = 0 then ⟨-60, (GetRandomValue rl (n + 1) 0 rl.GetScreenHeight : ℚ)⟩
  else if side = 1 then
    ⟨(rl.GetScreenWidth : ℚ) + 60, (GetRandomValue rl (n + 1) 0 rl.GetScreenHeight : ℚ)⟩
  else if side = 2 then ⟨(GetRandomValue rl (n + 1) 0 rl.GetScreenWidth : ℚ), -60⟩
  else ⟨(GetRandomValue rl (n + 1) 0 rl.GetScreenWidth : ℚ), (rl.GetScreenHeight : ℚ) + 60⟩

/-- The safe-radius push of the spawn loop. -/
def pushOutOfSafeRadius (rl : Raylib) (playerPos spawn : Vector2) : Vector2 :=
  let safeRadius : ℚ := 180
  let toPlayer : Vector2 := ⟨playerPos.x - spawn.x, playerPos.y - spawn.y⟩
  let distance := rl.sqrtf (toPlayer.x * toPlayer.x + toPlayer.y * toPlayer.y)
  if distance < safeRadius then
    let dir : Vector2 :=
      if distance = 0 then ⟨1, 0⟩ else ⟨toPlayer.x / distance, toPlayer.y / distance⟩
    ⟨spawn.x - dir.x * (safeRadius - distance), spawn.y - dir.y * (safeRadius - distance)⟩
  else spawn

/-- The spawn loop `for (int i = 0; i < count; i++)`: the first argument is the
number of iterations left, the second the number of `rand()` calls made. -/
def spawnLoop (rl : Raylib) (wave : Int) (playerPos : Vector2) :
    Nat → Nat → List Enemy → List Enemy × Nat
  | 0, n, enemies => (enemies, n)
  | k + 1, n, enemies =>
    let spawn := pushOutOfSafeRadius rl playerPos (edgeSpawn rl n)
    let type := pickType rl (n + 2) wave
    spawnLoop rl wave playerPos k (n + 4) (enemies ++ [Enemy.new rl (n + 3) spawn type wave])

/-- The enemy count of `SpawnWave`. -/
def waveEnemyCount (wave : Int) (enemyCountMultiplier : ℚ) : Int :=
  let baseCount : Int := 8 + (wave - 1) * 3
  let count := roundHalfAway ((baseCount : ℚ) * enemyCountMultiplier)
  let count := if count < 1 then 1 else count
  if count > 45 then 45 else count

def SpawnWave (rl : Raylib) (g : Game) (wave : Int) : Game :=
  let player := g.player.SetMaxHealthMultiplier g.permanentHealthMultiplier
  let player := if wave = 1 then player.ResetHealth.ResetPosition else player
  let player := player.ResetStatus
  let powerUpSpawnTimer : ℚ :=
    (GetRandomValue rl g.randCalls (truncToInt (g.powerUpSpawnIntervalMin * 10))
      (truncToInt (g.powerUpSpawnIntervalMax * 10)) : ℚ) / 10
  let anchor : Vector2 := ⟨130, (rl.GetScreenHeight : ℚ) - 140⟩
  let moveStick : VirtualJoystick :=
    { g.moveStick with anchor := anchor, position := anchor, pointerId := -1, active := false
                       direction := ⟨0, 0⟩ }
  let count := waveEnemyCount wave g.enemyCountMultiplier
  let spawned := spawnLoop rl wave player.position count.toNat (g.randCalls + 1) []
  { g with
    enemies := spawned.1
    bullets := []
    powerUps := []
    activePowerUps := []
    explosions := []
    player := player
    fireTimer := 0
    powerUpSpawnTimer := powerUpSpawnTimer
    moveStick := moveStick
    enemiesRemaining := count
    randCalls := spawned.2 }

/-! ## Combat resolution of the PLAYING branch -/

/-- The projectile loop: move every projectile, remove the ones that left the
screen. The projectiles kept so far are `g.bullets`. -/
def bulletLoop (rl : Raylib) (delta : ℚ) : List Bullet → Game → Game
  | [], g => g
  | b :: rest, g =>
    let b := b.Update delta
    if b.IsOffScreen rl then
      if b.type = ProjectileType.ROCKET then
        let radius := if b.explosionRadius > 0 then b.explosionRadius else rocketExplosionRadius
        bulletLoop rl delta rest (SpawnExplosion g b.position radius b.damage)
      else bulletLoop rl delta rest g
    else bulletLoop rl delta rest { g with bullets := g.bullets ++ [b] }

def bulletPass (rl : Raylib) (g : Game) (delta : ℚ) : Game :=
  bulletLoop rl delta g.bullets { g with bullets := [] }

/-- The body of the enemy-vs-player branch; the enemy is erased. -/
def contactHit (rl : Raylib) (g : Game) (e : Enemy) : Game :=
  let blocked : Bool := decide (g.player.shieldCharges > 0)
  let g : Game :=
    if blocked then
      let charges := g.player.shieldCharges - 1
      { g with
        player := { g.player with shieldCharges := charges }
        activePowerUps := g.activePowerUps.map fun effect =>
          if effect.type = PowerUpType.SHIELD ∧ charges ≤ 0 then { effect with remaining := 0 }
          else effect }
    else
      let health := g.player.health - e.contactDamage
      { g with player := { g.player with health := if health < 0 then 0 else health } }
  let g := TryDropPowerUp rl g e.position
  let g := { g with enemiesRemaining := g.enemiesRemaining - 1 }
  if !blocked ∧ g.player.health ≤ 0 then { g with gameOver := true, state := GameState.GAME_OVER }
  else g

/-- The inner loop over the projectiles: the first one that overlaps the enemy,
and the projectile list with it erased. -/
def findHit (rl : Raylib) (e : Enemy) : List Bullet → Option (Bullet × List Bullet)
  | [] => none
  | b :: rest =>
    if rl.CheckCollisionCircles b.position b.radius e.position e.radius then some (b, rest)
    else (findHit rl e rest).map fun r => (r.1, b :: r.2)

/-- The enemy as the projectile leaves it: `ApplyHit` with the projectile's
damage, the normalised direction from the projectile to the enemy, and a
knockback strength of 70 for a rocket and 40 for a bullet. -/
def enemyAfterHit (rl : Raylib) (e : Enemy) (b : Bullet) : Enemy :=
  let knockbackDir := Vector2Subtract e.position b.position
  let knockbackDir :=
    if rl.Vector2Length knockbackDir > 0 then rl.Vector2Normalize knockbackDir else knockbackDir
  e.ApplyHit rl b.damage knockbackDir (if b.type = ProjectileType.ROCKET then 70 else 40)

/-- The body of the projectile-vs-enemy branch; the enemy is kept when it
survives the hit. -/
def projectileHit (rl : Raylib) (g : Game) (e : Enemy) (projectile : Bullet)
    (others : List Bullet) : Game :=
  let e := enemyAfterHit rl e projectile
  let deathPos := e.position
  let g := { g with bullets := others }
  let g :=
    if projectile.type = ProjectileType.ROCKET then
      let radius :=
        if projectile.explosionRadius > 0 then projectile.explosionRadius
        else rocketExplosionRadius
      SpawnExplosion g deathPos radius projectile.damage
    else g
  if e.health ≤ 0 then
    let g := TryDropPowerUp rl g deathPos
    { g with enemiesRemaining := g.enemiesRemaining - 1 }
  else { g with enemies := g.enemies ++ [e] }

/-- The enemy loop. The enemies kept so far are `g.enemies`. -/
def enemyLoop (rl : Raylib) (delta : ℚ) : List Enemy → Game → Game
  | [], g => g
  | e :: rest, g =>
    let e := e.Update rl delta g.player.position
    if rl.CheckCollisionCircles g.player.position g.player.radius e.position e.radius then
      enemyLoop rl delta rest (contactHit rl g e)
    else
      match findHit rl e g.bullets with
      | some (projectile, others) => enemyLoop rl delta rest (projectileHit rl g e projectile others)
      | none => enemyLoop rl delta rest { g with enemies := g.enemies ++ [e] }

def enemyPass (rl : Raylib) (g : Game) (delta : ℚ) : Game :=
  enemyLoop rl delta g.enemies { g with enemies := [] }

/-- The area-damage test of an explosion on an enemy:
`Vector2Distance(explosion, enemy) ≤ explosion.radius + enemy.radius`. -/
def inBlast (rl : Raylib) (explosion : Explosion) (e : Enemy) : Bool :=
  decide (rl.Vector2Distance explosion.position e.position ≤ explosion.radius + e.radius)

/-- The enemy as the explosion leaves it: `ApplyHit` with the explosion's
damage, the normalised direction from the explosion to the enemy, and a
knockback strength of 90. -/
def enemyAfterBlast (rl : Raylib) (explosion : Explosion) (e : Enemy) : Enemy :=
  let knockDir := Vector2Subtract e.position explosion.position
  let knockDir := if rl.Vector2Length knockDir > 0 then rl.Vector2Normalize knockDir else knockDir
  e.ApplyHit rl explosion.damage knockDir 90

/-- The inner loop of the area-damage pass for one explosion. The enemies kept
so far are `g.enemies`. -/
def explosionDamage (rl : Raylib) (explosion : Explosion) : List Enemy → Game → Game
  | [], g => g
  | e :: rest, g =>
    if inBlast rl explosion e then
      let e := enemyAfterBlast rl explosion e
      if e.health ≤ 0 then
        let g := TryDropPowerUp rl g e.position
        explosionDamage rl explosion rest { g with enemiesRemaining := g.enemiesRemaining - 1 }
      else explosionDamage rl explosion rest { g with enemies := g.enemies ++ [e] }
    else explosionDamage rl explosion rest { g with enemies := g.enemies ++ [e] }

/-- The area-damage loop over the explosions. The explosions visited so far
are `g.explosions`. -/
def explosionLoop (rl : Raylib) : List Explosion → Game → Game
  | [], g => g
  | explosion :: rest, g =>
    if explosion.applied then
      explosionLoop rl rest { g with explosions := g.explosions ++ [explosion] }
    else
      let g := explosionDamage rl explosion g.enemies { g with enemies := [] }
      explosionLoop rl rest
        { g with explosions := g.explosions ++ [{ explosion with applied := true }] }

def explosionPass (rl : Raylib) (g : Game) : Game :=
  explosionLoop rl g.explosions { g with explosions := [] }

/-- The loop that ages the explosions and erases the expired ones. -/
def explosionExpiry (delta : ℚ) : List Explosion → List Explosion
  | [] => []
  | explosion :: rest =>
    let explosion := { explosion with elapsed := explosion.elapsed + delta }
    if explosion.elapsed ≥ explosion.lifetime then explosionExpiry delta rest
    else explosion :: explosionExpiry delta rest

/-! ## Stacked power-up effects, joystick, pickups, firing -/

def ComputePowerStats (effects : List ActivePowerUp) : PowerStats :=
  effects.foldl
    (fun stats effect =>
      match effect.type with
      | .RAPID_FIRE => { stats with fireRateMultiplier := stats.fireRateMultiplier * (175 / 100) }
      | .SPREAD_SHOT => { stats with spreadLevel := max stats.spreadLevel 1 }
      | .DAMAGE_BOOST => { stats with damageMultiplier := stats.damageMultiplier * (16 / 10) }
      | .SPEED_BOOST => { stats with speedMultiplier := stats.speedMultiplier * (135 / 100) }
      | .SHIELD => { stats with shieldRemaining := max stats.shieldRemaining effect.remaining }
      | .ROCKET_LAUNCHER => { stats with rocketLauncher := true }
      | .HEALTH_PACK => stats)
    ⟨1, 1, 1, 0, 0, false⟩

/-- The two assignments that follow every `ComputePowerStats` in the PLAYING
branch: the clamped speed and the shield timer. -/
def applyStats (p : Player) (stats : PowerStats) : Player :=
  let speed := p.baseSpeed * stats.speedMultiplier
  let speed := if speed < p.baseSpeed * (6 / 10) then p.baseSpeed * (6 / 10) else speed
  let speed := if speed > p.baseSpeed * (22 / 10) then p.baseSpeed * (22 / 10) else speed
  let p := { p with speed := speed }
  if stats.shieldRemaining > 0 then { p with shieldTimer := stats.shieldRemaining } else p

def UpdateJoystick (rl : Raylib) (stick : VirtualJoystick) (touches : List TouchPoint) :
    VirtualJoystick × Vector2 :=
  let r : VirtualJoystick × Bool :=
    match touches.find? (fun t => decide (stick.pointerId = t.id)) with
    | some t => ({ stick with position := t.position, active := true }, true)
    | none =>
      let stick := { stick with pointerId := -1, active := false, position := stick.anchor }
      match touches.find? (fun t => decide (t.position.x ≤ (rl.GetScreenWidth : ℚ) * (1 / 2))) with
      | some t =>
        ({ stick with pointerId := t.id, anchor := t.position, position := t.position
                      active := true }, true)
      | none => (stick, false)
  let stick := r.1
  if r.2 then
    let delta := Vector2Subtract stick.position stick.anchor
    let len := rl.Vector2Length delta
    let scaled := Vector2Scale delta (stick.baseRadius / (if len > 0 then len else 1))
    let delta := if len > stick.baseRadius then scaled else delta
    let stick :=
      if len > stick.baseRadius then { stick with position := Vector2Add stick.anchor delta }
      else stick
    let direction : Vector2 :=
      if stick.baseRadius > 0 then Vector2Scale delta (1 / stick.baseRadius) else ⟨0, 0⟩
    ({ stick with direction := direction }, direction)
  else ({ stick with direction := ⟨0, 0⟩ }, ⟨0, 0⟩)

/-- The `do ... while` of the periodic power-up spawn: the first argument is the
number of attempts left after this one, the second the number of `rand()` calls
made. The result is the position, `foundSpot`, and the calls made. -/
def findSpawnSpot (rl : Raylib) (g : Game) : Nat → Nat → Vector2 × Bool × Nat
  | k, n =>
    let spawnPos : Vector2 :=
      ⟨(GetRandomValue rl n 80 (rl.GetScreenWidth - 80) : ℚ),
       (GetRandomValue rl (n + 1) 80 (rl.GetScreenHeight - 80) : ℚ)⟩
    let nearPlayer : Bool := decide (rl.Vector2Distance spawnPos g.player.position < 140)
    let overlaps : Bool :=
      g.powerUps.any fun existing =>
        decide (rl.Vector2Distance spawnPos existing.position < existing.radius + 50)
    let foundSpot : Bool := !nearPlayer && !overlaps
    match k with
    | 0 => (spawnPos, foundSpot, n + 2)
    | k + 1 => if foundSpot then (spawnPos, true, n + 2) else findSpawnSpot rl g k (n + 2)

/-- The periodic world spawn of the PLAYING branch. -/
def periodicSpawn (rl : Raylib) (g : Game) (delta : ℚ) : Game :=
  let g :=
    if g.powerUpSpawnTimer > 0 then { g with powerUpSpawnTimer := g.powerUpSpawnTimer - delta }
    else g
  if g.powerUpSpawnTimer ≤ 0 ∧ (g.powerUps.length : Int) < maxFieldPowerUps then
    let r := findSpawnSpot rl g 11 g.randCalls
    let g := { g with randCalls := r.2.2 }
    let fallback : Vector2 :=
      ⟨(GetRandomValue rl g.randCalls 80 (rl.GetScreenWidth - 80) : ℚ),
       (GetRandomValue rl (g.randCalls + 1) 80 (rl.GetScreenHeight - 80) : ℚ)⟩
    let spawnPos := if r.2.1 then r.1 else fallback
    let g := if r.2.1 then g else { g with randCalls := g.randCalls + 2 }
    let g := SpawnRandomPowerUp rl g spawnPos
    { g with
      powerUpSpawnTimer :=
        (GetRandomValue rl g.randCalls (truncToInt (g.powerUpSpawnIntervalMin * 10))
          (truncToInt (g.powerUpSpawnIntervalMax * 10)) : ℚ) / 10
      randCalls := g.randCalls + 1 }
  else g

/-- The pickup loop. The pickups kept so far are `g.powerUps`; the second
component is the local `stats`, the third `pickedPowerUp`. -/
def pickupLoop (rl : Raylib) : List PowerUp → Game × PowerStats × Bool → Game × PowerStats × Bool
  | [], r => r
  | powerUp :: rest, (g, stats, picked) =>
    if rl.CheckCollisionCircles g.player.position (g.player.radius + 6) powerUp.position
        powerUp.radius then
      let g := ActivatePowerUp g powerUp.type
      pickupLoop rl rest (g, ComputePowerStats g.activePowerUps, true)
    else pickupLoop rl rest ({ g with powerUps := g.powerUps ++ [powerUp] }, stats, picked)

/-- The constructor `Bullet(start, target, dmg, tint, speedValue, projType, explosion)`. -/
def Bullet.new (rl : Raylib) (start target : Vector2) (dmg : Int) (speedValue : ℚ)
    (projType : ProjectileType) (explosion : ℚ) : Bullet :=
  let angle := rl.atan2f (target.y - start.y) (target.x - start.x)
  { type := projType
    position := start
    velocity := ⟨rl.cosf angle * speedValue, rl.sinf angle * speedValue⟩
    radius := if projType = ProjectileType.ROCKET then 8 else 5
    damage := dmg
    explosionRadius := explosion }

/-- Method `Gun::GetPosition` with `distanceFromPlayer = 40`. -/
def Gun.GetPosition (rl : Raylib) (playerPos aimPos : Vector2) : Vector2 :=
  let angle := rl.atan2f (aimPos.y - playerPos.y) (aimPos.x - playerPos.x)
  ⟨playerPos.x + rl.cosf angle * 40, playerPos.y + rl.sinf angle * 40⟩

def combinedFireRateMultiplier (g : Game) (stats : PowerStats) : ℚ :=
  let m := stats.fireRateMultiplier * g.permanentFireRateMultiplier
  if m < 1 / 10 then 1 / 10 else m

def effectiveCooldown (g : Game) (stats : PowerStats) : ℚ :=
  let c :=
    (if stats.rocketLauncher then baseRocketCooldown else baseFireCooldown) /
      combinedFireRateMultiplier g stats
  if c < 5 / 100 then 5 / 100 else c

def projectileDamage (g : Game) (stats : PowerStats) : Int :=
  let combinedDamageMultiplier := stats.damageMultiplier * g.permanentDamageMultiplier
  if stats.rocketLauncher then
    max 1 (roundHalfAway ((baseRocketDamage : ℚ) * combinedDamageMultiplier))
  else max 1 (roundHalfAway ((baseBulletDamage : ℚ) * combinedDamageMultiplier))

/-- The firing block of the PLAYING branch. -/
def fire (rl : Raylib) (g : Game) (stats : PowerStats) (fireInput : Bool) (mouse : Vector2) :
    Game :=
  if fireInput ∧ g.fireTimer ≤ 0 then
    let origin := Gun.GetPosition rl g.player.position mouse
    let direction := rl.Vector2Normalize (Vector2Subtract mouse origin)
    let direction : Vector2 := if rl.Vector2Length direction ≤ 1 / 1000 then ⟨1, 0⟩ else direction
    let rocket := stats.rocketLauncher
    let rate := combinedFireRateMultiplier g stats
    let projectileSpeed : ℚ :=
      if rocket then baseRocketSpeed * (if rate > 1 then 1 + (rate - 1) * (2 / 10) else 1)
      else baseBulletSpeed * (if rate > 1 then 1 + (rate - 1) * (25 / 100) else 1)
    let offsets : List ℚ := if !rocket ∧ stats.spreadLevel > 0 then [0, 18 / 100, -(18 / 100)] else [0]
    let shots := offsets.map fun offset =>
      let angle := rl.atan2f direction.y direction.x + offset
      let aim : Vector2 := ⟨origin.x + rl.cosf angle * 1000, origin.y + rl.sinf angle * 1000⟩
      Bullet.new rl origin aim (projectileDamage g stats) projectileSpeed
        (if rocket then ProjectileType.ROCKET else ProjectileType.BULLET)
        (if rocket then rocketExplosionRadius else 0)
    { g with bullets := g.bullets ++ shots, fireTimer := effectiveCooldown g stats }
  else g

/-! ## Session state machine: one frame of the main loop -/

def ResetPermanentUpgrades (g : Game) : Game :=
  let g :=
    { g with permanentHealthMultiplier := 1, permanentFireRateMultiplier := 1
             permanentDamageMultiplier := 1 }
  { g with player := (g.player.SetMaxHealthMultiplier g.permanentHealthMultiplier).ResetHealth }

/-- The block shared by Play (MENU), Restart (PAUSED) and Replay (GAME_OVER). -/
def startRun (rl : Raylib) (g : Game) : Game :=
  let g := ResetPermanentUpgrades g
  let g := { g with pendingWave := 0, currentWave := g.startingWaveOverride }
  let g := SpawnWave rl g g.currentWave
  { g with gameOver := false, state := GameState.PLAYING }

/-- The block shared by the MENU buttons of PAUSED and GAME_OVER. -/
def backToMenu (g : Game) : Game :=
  let g := ResetPermanentUpgrades g
  { g with pendingWave := 0, state := GameState.MENU }

/-- The wave-clear check that ends the PLAYING branch. -/
def waveClearCheck (g : Game) : Game :=
  let g := if g.enemiesRemaining < 0 then { g with enemiesRemaining := 0 } else g
  if g.enemiesRemaining ≤ 0 ∧ !g.gameOver then
    { g with enemiesRemaining := 0, pendingWave := g.currentWave + 1, state := GameState.UPGRADE }
  else g

/-- The movement block of the PLAYING branch: the joystick, the keyboard
direction, and `player.Update`. -/
def movePlayer (rl : Raylib) (inp : Input) (g : Game) : Game :=
  let stick := UpdateJoystick rl g.moveStick inp.touches
  let g := { g with moveStick := stick.1 }
  let keyboardDir : Vector2 := ⟨0, 0⟩
  let keyboardDir : Vector2 :=
    if inp.keyW || inp.keyUp then ⟨keyboardDir.x, keyboardDir.y - 1⟩ else keyboardDir
  let keyboardDir : Vector2 :=
    if inp.keyS || inp.keyDown then ⟨keyboardDir.x, keyboardDir.y + 1⟩ else keyboardDir
  let keyboardDir : Vector2 :=
    if inp.keyA || inp.keyLeft then ⟨keyboardDir.x - 1, keyboardDir.y⟩ else keyboardDir
  let keyboardDir : Vector2 :=
    if inp.keyD || inp.keyRight then ⟨keyboardDir.x + 1, keyboardDir.y⟩ else keyboardDir
  let moveInput := Vector2Add stick.2 keyboardDir
  let moveInput :=
    if rl.Vector2Length moveInput > 1 then rl.Vector2Normalize moveInput else moveInput
  { g with player := g.player.Update rl inp.GetFrameTime moveInput }

/-- The first `ComputePowerStats` of the PLAYING branch and the assignments
that follow it. -/
def refreshStats (g : Game) : Game :=
  { g with player := applyStats g.player (ComputePowerStats g.activePowerUps) }

/-- The pickup loop over the field pickups, started with the `stats` computed
after the expiry pass. -/
def pickupPass (rl : Raylib) (g : Game) (stats : PowerStats) : Game × PowerStats × Bool :=
  pickupLoop rl g.powerUps ({ g with powerUps := [] }, stats, false)

/-- The last two lines of the pickup block: the shield timer follows the
longest remaining SHIELD effect, and is cleared when no charge is left. -/
def syncShieldTimer (g : Game) (stats : PowerStats) : Game :=
  if stats.shieldRemaining > 0 then
    { g with player := { g.player with shieldTimer := stats.shieldRemaining } }
  else if g.player.shieldCharges ≤ 0 then
    { g with player := { g.player with shieldTimer := 0 } }
  else g

/-- The assignments that follow the pickup loop: the stats are applied again
when something was picked up, then the shield timer is synchronised. -/
def afterPickup (r : Game × PowerStats × Bool) : Game :=
  let g := r.1
  let stats := r.2.1
  let g := if r.2.2 then { g with player := applyStats g.player stats } else g
  syncShieldTimer g stats

def explosionExpiryPass (g : Game) (delta : ℚ) : Game :=
  { g with explosions := explosionExpiry delta g.explosions }

/-- The PLAYING branch; `mouse` and `fireInput` are the locals computed at the
top of the frame. -/
def playingFrame (rl : Raylib) (inp : Input) (g : Game) (mouse : Vector2) (fireInput : Bool) :
    Game :=
  let delta := inp.GetFrameTime
  if inp.keyEscapePressed then { g with state := GameState.PAUSED }
  else
    let g := periodicSpawn rl g delta
    let g := expiryPass g delta
    let stats := ComputePowerStats g.activePowerUps
    let g := refreshStats g
    let g := movePlayer rl inp g
    let r := pickupPass rl g stats
    let g := afterPickup r
    let g := fire rl g r.2.1 fireInput mouse
    let g := bulletPass rl g delta
    let g := enemyPass rl g delta
    let g := explosionPass rl g
    let g := explosionExpiryPass g delta
    waveClearCheck g

/-- The PLAYING branch without the pause key, up to the wave-clear check. -/
def combatFrame (rl : Raylib) (inp : Input) (g : Game) (mouse : Vector2) (fireInput : Bool) :
    Game :=
  let delta := inp.GetFrameTime
  let g := periodicSpawn rl g delta
  let g := expiryPass g delta
  let stats := ComputePowerStats g.activePowerUps
  let g := refreshStats g
  let g := movePlayer rl inp g
  let r := pickupPass rl g stats
  let g := afterPickup r
  let g := fire rl g r.2.1 fireInput mouse
  let g := bulletPass rl g delta
  let g := enemyPass rl g delta
  let g := explosionPass rl g
  explosionExpiryPass g delta

/-- The PLAYING branch up to the enemy loop: spawning, expiry, movement,
pickups, firing and the projectile loop. -/
def beforeCombat (rl : Raylib) (inp : Input) (g : Game) (mouse : Vector2) (fireInput : Bool) :
    Game :=
  let delta := inp.GetFrameTime
  let g := periodicSpawn rl g delta
  let g := expiryPass g delta
  let stats := ComputePowerStats g.activePowerUps
  let g := refreshStats g
  let g := movePlayer rl inp g
  let r := pickupPass rl g stats
  let g := afterPickup r
  let g := fire rl g r.2.1 fireInput mouse
  bulletPass rl g delta

/-- The `switch (chosenOption)` of the UPGRADE branch. -/
def applyChoice (g : Game) (chosenOption : Int) : Game :=
  if chosenOption = 0 then
    let m := g.permanentHealthMultiplier * (1 + permanentUpgradePercent)
    { g with permanentHealthMultiplier := m, player := g.player.SetMaxHealthMultiplier m }
  else if chosenOption = 1 then
    { g with permanentFireRateMultiplier :=
        g.permanentFireRateMultiplier * (1 + permanentUpgradePercent) }
  else if chosenOption = 2 then
    { g with permanentDamageMultiplier :=
        g.permanentDamageMultiplier * (1 + permanentUpgradePercent) }
  else g

/-- The wave advance that follows the `switch` in the UPGRADE branch. -/
def advanceWave (rl : Raylib) (g : Game) : Game :=
  let g := { g with fireTimer := 0 }
  let g := if g.pendingWave ≤ g.currentWave then { g with pendingWave := g.currentWave + 1 } else g
  let g := { g with currentWave := g.pendingWave }
  let g := { g with pendingWave := 0 }
  let g := SpawnWave rl g g.currentWave
  { g with state := GameState.PLAYING }

/-- The selection block of the UPGRADE branch for the chosen option 0, 1 or 2. -/
def applyUpgrade (rl : Raylib) (g : Game) (chosenOption : Int) : Game :=
  advanceWave rl (applyChoice g chosenOption)

/-- The three option boxes of the UPGRADE screen. -/
def upgradeOption (rl : Raylib) (i : Int) : Rectangle :=
  let boxWidth : ℚ := 240
  let boxHeight : ℚ := 140
  let spacing : ℚ := 40
  let totalWidth := boxWidth * 3 + spacing * 2
  let startX := ((rl.GetScreenWidth : ℚ) - totalWidth) * (1 / 2)
  let centerY := (rl.GetScreenHeight : ℚ) * (1 / 2)
  ⟨startX + (i : ℚ) * (boxWidth + spacing), centerY - boxHeight * (1 / 2), boxWidth, boxHeight⟩

/-- A button of the overlays: `{GetScreenWidth()/2 + dx, GetScreenHeight()/2 + dy, w, h}`. -/
def button (rl : Raylib) (dx dy : Int) (w h : ℚ) : Rectangle :=
  ⟨((Int.tdiv rl.GetScreenWidth 2 + dx : Int) : ℚ), ((Int.tdiv rl.GetScreenHeight 2 + dy : Int) : ℚ),
   w, h⟩

/-- The locals computed at the top of a frame, before the branch on the
session state. -/
structure FrameLocals where
  mouse : Vector2
  uiPointer : Vector2
  fireInput : Bool
  touchPressedThisFrame : Bool
  pressed : Bool

def frameLocals (rl : Raylib) (inp : Input) (g : Game) : FrameLocals :=
  let mouse := inp.GetMousePosition
  let touchCount : Int := inp.touches.length
  let touchPressedThisFrame : Bool := decide (touchCount > 0) && decide (g.prevTouchCount = 0)
  let uiPointer : Vector2 :=
    match inp.touches with
    | t :: _ => t.position
    | [] => mouse
  let fireTouch := inp.touches.find? fun t =>
    !decide (t.id = g.moveStick.pointerId) &&
      decide (t.position.x ≥ (rl.GetScreenWidth : ℚ) * (55 / 100))
  let mouse : Vector2 :=
    match fireTouch with
    | some t => t.position
    | none => mouse
  let touchFire := fireTouch.isSome
  { mouse := mouse
    uiPointer := uiPointer
    fireInput := inp.mouseLeftDown || touchFire || inp.keySpaceDown
    touchPressedThisFrame := touchPressedThisFrame
    pressed := inp.mouseLeftPressed || touchPressedThisFrame }

/-- The state written at the top of a frame: the touch count and the fire
timer countdown. -/
def frameStart (inp : Input) (g : Game) : Game :=
  let g := { g with prevTouchCount := (inp.touches.length : Int) }
  if g.fireTimer > 0 then
    let t := g.fireTimer - inp.GetFrameTime
    { g with fireTimer := if t < 0 then 0 else t }
  else g

def splashFrame (inp : Input) (loc : FrameLocals) (g : Game) : Game :=
  let g := { g with splashTimer := g.splashTimer + inp.GetFrameTime }
  let skip : Bool :=
    inp.keyEnterPressed || inp.keySpacePressed || inp.keyEscapePressed ||
      inp.mouseLeftPressed || loc.touchPressedThisFrame
  if g.splashTimer ≥ splashDuration ∨ skip then { g with state := GameState.MENU } else g

/-- The MENU branch; `none` when QUIT returns from `main`. -/
def menuFrame (rl : Raylib) (loc : FrameLocals) (g : Game) : Option Game :=
  let playBtn := button rl (-100) (-60) 200 60
  let quitBtn := button rl (-100) 20 200 60
  let g := if rl.CheckCollisionPointRec loc.uiPointer playBtn && loc.pressed then startRun rl g else g
  if rl.CheckCollisionPointRec loc.uiPointer quitBtn && loc.pressed then none else some g

def pausedFrame (rl : Raylib) (inp : Input) (loc : FrameLocals) (g : Game) : Game :=
  let g := if inp.keyEscapePressed then { g with state := GameState.PLAYING } else g
  let resumeBtn := button rl (-100) (-100) 200 60
  let restartBtn := button rl (-100) (-20) 200 60
  let quitBtn := button rl (-100) 60 200 60
  let g :=
    if rl.CheckCollisionPointRec loc.uiPointer resumeBtn && loc.pressed then
      { g with state := GameState.PLAYING }
    else g
  let g :=
    if rl.CheckCollisionPointRec loc.uiPointer restartBtn && loc.pressed then startRun rl g else g
  if rl.CheckCollisionPointRec loc.uiPointer quitBtn && loc.pressed then backToMenu g else g

/-- The loop of the UPGRADE branch that sets `chosenOption`. -/
def chosenUpgrade (rl : Raylib) (loc : FrameLocals) : Int :=
  let hit : Int → Bool := fun i =>
    rl.CheckCollisionPointRec loc.uiPointer (upgradeOption rl i) && loc.pressed
  let chosenOption : Int := -1
  let chosenOption := if hit 0 then 0 else chosenOption
  let chosenOption := if hit 1 then 1 else chosenOption
  if hit 2 then 2 else chosenOption

def upgradeFrame (rl : Raylib) (loc : FrameLocals) (g : Game) : Game :=
  if chosenUpgrade rl loc ≠ -1 then applyUpgrade rl g (chosenUpgrade rl loc) else g

def gameOverFrame (rl : Raylib) (loc : FrameLocals) (g : Game) : Game :=
  let replayBtn := button rl (-150) (-40) 120 70
  let menuBtn := button rl 30 (-40) 120 70
  let g :=
    if rl.CheckCollisionPointRec loc.uiPointer replayBtn && loc.pressed then startRun rl g else g
  if rl.CheckCollisionPointRec loc.uiPointer menuBtn && loc.pressed then backToMenu g else g

/-- One iteration of the `while (!WindowShouldClose())` loop. The result is
`none` when the iteration returns from `main` (the QUIT button). -/
def frame (rl : Raylib) (inp : Input) (g : Game) : Option Game :=
  let loc := frameLocals rl inp g
  let g := frameStart inp g
  match g.state with
  | .SPLASH => some (splashFrame inp loc g)
  | .MENU => menuFrame rl loc g
  | .PAUSED => some (pausedFrame rl inp loc g)
  | .PLAYING => some (playingFrame rl inp g loc.mouse loc.fireInput)
  | .UPGRADE => some (upgradeFrame rl loc g)
  | .GAME_OVER => some (gameOverFrame rl loc g)

/-- The state of a PLAYING frame (without the pause key) when it reaches the
wave-clear check. -/
def atWaveClearCheck (rl : Raylib) (inp : Input) (g : Game) : Game :=
  combatFrame rl inp (frameStart inp g) (frameLocals rl inp g).mouse
    (frameLocals rl inp g).fireInput

/-- The function `ApplyDailySeed`, called from the page when the seed request
completes (between two frames). -/
def ApplyDailySeed (g : Game) (daySeed : Int) : Game :=
  let enemyMult : ℚ := 9 / 10 + ((Int.tmod daySeed 9 : Int) : ℚ) * (5 / 100)
  let drop : ℚ := 18 / 100 + ((Int.tmod (Int.tdiv daySeed 7) 9 : Int) : ℚ) * (2 / 100)
  let pMin : ℚ := 6 + ((Int.tmod (Int.tdiv daySeed 97) 4 : Int) : ℚ) * (1 / 2)
  let pMax : ℚ := 10 + ((Int.tmod (Int.tdiv daySeed 37) 5 : Int) : ℚ) * (1 / 2)
  let pMax := if pMax < pMin + 1 then pMin + 1 else pMax
  let sWave : Int := 1 + Int.tmod daySeed 3
  { g with
    enemyCountMultiplier := enemyMult
    enemyDropChance := drop
    powerUpSpawnIntervalMin := pMin
    powerUpSpawnIntervalMax := pMax
    startingWaveOverride := sWave }

/-- The state of `main` when the loop is entered. -/
def Game.initial (rl : Raylib) : Game :=
  let anchor : Vector2 := ⟨130, (rl.GetScreenHeight : ℚ) - 140⟩
  { player := Player.new.SetMaxHealthMultiplier 1
    enemies := []
    bullets := []
    powerUps := []
    activePowerUps := []
    explosions := []
    moveStick :=
      { anchor := anchor, position := anchor, baseRadius := 95, knobRadius := 36, pointerId := -1
        active := false, direction := ⟨0, 0⟩ }
    currentWave := 1
    enemiesRemaining := 0
    gameOver := false
    state := GameState.SPLASH
    splashTimer := 0
    prevTouchCount := 0
    fireTimer := 0
    powerUpSpawnTimer := 6
    permanentHealthMultiplier := 1
    permanentFireRateMultiplier := 1
    permanentDamageMultiplier := 1
    pendingWave := 0
    enemyCountMultiplier := 1
    powerUpSpawnIntervalMin := 8
    powerUpSpawnIntervalMax := 14
    enemyDropChance := 22 / 100
    startingWaveOverride := 1
    randCalls := 0 }

/-- The session states the program can reach: the initial one, and from a
reachable one the state after one more frame (for any input) or after the
daily seed is applied (for any seed). -/
inductive Reachable (rl : Raylib) : Game → Prop where
  | initial : Reachable rl (Game.initial rl)
  | step (inp : Input) (g g2 : Game) :
      Reachable rl g → frame rl inp g = some g2 → Reachable rl g2
  | seed (daySeed : Int) (g : Game) : Reachable rl g → Reachable rl (ApplyDailySeed g daySeed)

/-! ## A concrete library, for evaluating the model -/

/-- A library instance on a 1000 x 1000 window: circle overlap by squared
distance, every `rand()` equal to 0, and the transcendental functions replaced
by rational stand-ins. -/
def sampleRaylib : Raylib :=
  { GetScreenWidth := 1000
    GetScreenHeight := 1000
    DEG2RAD := 314159 / 18000000
    sqrtf := fun q => q
    sinf := fun _ => 0
    cosf := fun _ => 1
    atan2f := fun _ _ => 0
    Vector2Length := fun v => |v.x| + |v.y|
    Vector2Normalize := fun v => v
    Vector2Distance := fun a b => |a.x - b.x| + |a.y - b.y|
    CheckCollisionCircles := fun c1 r1 c2 r2 =>
      decide ((c2.x - c1.x) * (c2.x - c1.x) + (c2.y - c1.y) * (c2.y - c1.y) ≤ (r1 + r2) * (r1 + r2))
    CheckCollisionPointRec := fun pt r =>
      decide (pt.x ≥ r.x) && decide (pt.x < r.x + r.width) && decide (pt.y ≥ r.y) &&
        decide (pt.y < r.y + r.height)
    rand := fun _ => 0 }

/-- A session in wave 1 whose player holds two shield charges. -/
def shieldedGame : Game :=
  { Game.initial sampleRaylib with
    player := { Player.new with shieldCharges := 2, shieldTimer := 12 }
    activePowerUps := [⟨PowerUpType.SHIELD, 12⟩]
    state := GameState.PLAYING
    enemiesRemaining := 1 }

/-- A session in wave 1 whose player holds one last shield charge. -/
def lastChargeGame : Game :=
  { shieldedGame with player := { Player.new with shieldCharges := 1, shieldTimer := 12 } }

/-- A session in wave 1 whose player is at full health, with the default drop
chance of 0.22 and no pickup on the field. -/
def fullHealthGame : Game :=
  { Game.initial sampleRaylib with player := Player.new, state := GameState.PLAYING }

/-- A session in wave 1 whose player is at 50 of 100 health. -/
def hurtGame : Game :=
  { Game.initial sampleRaylib with
    player := { Player.new with health := 50 }
    state := GameState.PLAYING }

/-- A GRUNT with the wave-1 values (health 45, contact damage 12) standing on
the player. -/
def gruntOnPlayer : Enemy :=
  { type := EnemyType.GRUNT
    position := ⟨500, 500⟩
    facing := ⟨1, 0⟩
    health := 45
    speed := 90
    radius := 16
    flashTimer := 0
    contactDamage := 12
    knockbackResistance := 25 / 100
    behaviorTimer := 0 }

/-- An input in which nothing is pressed: a frame of 1/60 s with the mouse at
the centre of the window. -/
def idleInput : Input :=
  { GetFrameTime := 1 / 60
    GetMousePosition := ⟨500, 500⟩
    touches := []
    mouseLeftDown := false
    mouseLeftPressed := false
    keySpaceDown := false
    keySpacePressed := false
    keyEnterPressed := false
    keyEscapePressed := false
    keyW := false
    keyUp := false
    keyS := false
    keyDown := false
    keyA := false
    keyLeft := false
    keyD := false
    keyRight := false }

/-- An input that skips the splash screen: the Enter key, in a frame of no
duration. -/
def enterInput : Input := { idleInput with GetFrameTime := 0, keyEnterPressed := true }

/-- An input that presses the pointer on the Play button of the menu. -/
def playInput : Input :=
  { idleInput with GetFrameTime := 0, GetMousePosition := ⟨500, 470⟩, mouseLeftPressed := true }

/-- The session on the menu screen, right after the splash screen was skipped. -/
def menuGame : Game := { Game.initial sampleRaylib with state := GameState.MENU }

/-! ## Specification-side definitions -/

/-- The clamp of the specification: `v` clamped to `[lo, hi]`. -/
def clampTo (lo hi v : Int) : Int := min hi (max lo v)

/-- The new maximum of the specification:
`M2 = max(baseMaxHealth, round(baseMaxHealth * max(multiplier, 1)))`. -/
def rescaledMaxHealth (baseMaxHealth : Int) (multiplier : ℚ) : Int :=
  max baseMaxHealth (roundHalfAway ((baseMaxHealth : ℚ) * max multiplier 1))

/-- The new health of the specification: `round(old_health / M1 * M2)` clamped
to `[0, M2]`. -/
def rescaledHealth (oldHealth M1 M2 : Int) : Int :=
  clampTo 0 M2 (roundHalfAway ((oldHealth : ℚ) / (M1 : ℚ) * (M2 : ℚ)))

/-- The player invariant: the base maximum is the constructor's 100, the
maximum is at least the base, the health is within `[0, maxHealth]` and the
shield charges within `[0, 4]`. -/
structure PlayerInv (p : Player) : Prop where
  base : p.baseMaxHealth = 100
  maxGe : 100 ≤ p.maxHealth
  healthNonneg : 0 ≤ p.health
  healthLe : p.health ≤ p.maxHealth
  chargesNonneg : 0 ≤ p.shieldCharges
  chargesLe : p.shieldCharges ≤ 4

/-- The session invariant: the player invariant, and every enemy in the list
has a contact damage of at least 1. -/
structure GameInv (g : Game) : Prop where
  player : PlayerInv g.player
  enemies : ∀ e ∈ g.enemies, 1 ≤ e.contactDamage

/-- The enemy-vs-player test of the enemy loop for one enemy: the enemy is
moved by `Update`, then its circle is tested against the player's. -/
def touchesPlayer (rl : Raylib) (delta : ℚ) (p : Player) (e : Enemy) : Bool :=
  rl.CheckCollisionCircles p.position p.radius (e.Update rl delta p.position).position
    (e.Update rl delta p.position).radius

/-- The health left after the unshielded contacts of the given enemies, in
order: each takes its contact damage off the health, floored at 0. -/
def healthAfterContacts (health : Int) (es : List Enemy) : Int :=
  es.foldl (fun h e => if h - e.contactDamage < 0 then 0 else h - e.contactDamage) health

/-- The types of the active effects, in list order. -/
def effectTypes (effects : List ActivePowerUp) : List PowerUpType :=
  effects.map fun effect => effect.type

/-- The active-effect invariant: at most one entry per type. -/
def EffectsInv (g : Game) : Prop := (effectTypes g.activePowerUps).Nodup

/-- The enemy count of the specification:
`clamp(round((8 + (w - 1) * 3) * m), 1, 45)`. -/
def specWaveCount (w : Int) (m : ℚ) : Int :=
  clampTo 1 45 (roundHalfAway (((8 + (w - 1) * 3 : Int) : ℚ) * m))

/-- The explosion a rocket leaves: at the given position, with the rocket's
explosion radius (110 when that is not positive) and damage, a lifetime of
0.35 s, nothing elapsed, and the area damage not applied yet. -/
def rocketExplosion (position : Vector2) (b : Bullet) : Explosion :=
  { position := position
    radius := if b.explosionRadius > 0 then b.explosionRadius else rocketExplosionRadius
    lifetime := 35 / 100
    elapsed := 0
    damage := b.damage
    applied := false }

/-- What one area-damage pass of an explosion makes of an enemy: an enemy out
of the blast is kept as it is, an enemy in the blast is hit once and kept only
if the hit leaves it some health. -/
def blastOutcome (rl : Raylib) (explosion : Explosion) (e : Enemy) : Option Enemy :=
  if inBlast rl explosion e then
    if (enemyAfterBlast rl explosion e).health ≤ 0 then none
    else some (enemyAfterBlast rl explosion e)
  else some e

/-- The health-pack bias of the specification:
`min(0.95, healthDropBias + 0.35 * missingRatio)` with
`missingRatio = 1 - health / maxHealth`. -/
def specHealthPackBias (health maxHealth : Int) : ℚ :=
  min (95 / 100) (healthDropBias + 35 / 100 * (1 - (health : ℚ) / (maxHealth : ℚ)))

/-- The clamp of the specification on rationals: `v` clamped to `[lo, hi]`. -/
def clampRat (lo hi v : ℚ) : ℚ := min hi (max lo v)

/-- The ordering of the scale factors as the specification states it: health
scales at a gentler rate than damage, and damage scales faster than speed. -/
def scaleOrderClaim (w : Int) : Prop :=
  healthScale w < damageScale w ∧ speedScale w < damageScale w

/-- The remaining times of the SHIELD entries of an active-effect list, in
list order. -/
def shieldTimes (effects : List ActivePowerUp) : List ℚ :=
  (effects.filter fun effect => effect.type = PowerUpType.SHIELD).map fun effect =>
    effect.remaining

/-- The largest element of a list, and `d` for the empty list. -/
def largestOr (d : ℚ) : List ℚ → ℚ
  | [] => d
  | x :: xs => xs.foldl max x

/-- The stacked stats as the specification states them: each multiplier is its
factor to the power of the number of entries of its type, the spread level is
1 iff a SPREAD_SHOT entry exists, the rocket flag is set iff a ROCKET_LAUNCHER
entry exists, and the shield time is the largest remaining time over the
SHIELD entries (0 if there is none). -/
def specPowerStats (effects : List ActivePowerUp) : PowerStats :=
  { speedMultiplier := (135 / 100) ^ (effectTypes effects).count PowerUpType.SPEED_BOOST
    fireRateMultiplier := (175 / 100) ^ (effectTypes effects).count PowerUpType.RAPID_FIRE
    damageMultiplier := (16 / 10) ^ (effectTypes effects).count PowerUpType.DAMAGE_BOOST
    spreadLevel := if PowerUpType.SPREAD_SHOT ∈ effectTypes effects then 1 else 0
    shieldRemaining := largestOr 0 (shieldTimes effects)
    rocketLauncher := decide (PowerUpType.ROCKET_LAUNCHER ∈ effectTypes effects) }

/-- The effective cooldown as the specification states it:
`max(0.05, base / max(0.1, f * p))` with base 0.65 for the rocket launcher and
0.22 otherwise. -/
def specCooldown (rocket : Bool) (f p : ℚ) : ℚ :=
  max (5 / 100) ((if rocket then 65 / 100 else 22 / 100) / max (1 / 10) (f * p))

/-- The wave counters, the permanent upgrade multipliers and the
web-configurable globals of a session. -/
def runFields (g : Game) : (Int × Int) × (ℚ × ℚ × ℚ) × (ℚ × ℚ × ℚ × ℚ × Int) :=
  ((g.currentWave, g.pendingWave),
   (g.permanentHealthMultiplier, g.permanentFireRateMultiplier, g.permanentDamageMultiplier),
   (g.enemyCountMultiplier, g.powerUpSpawnIntervalMin, g.powerUpSpawnIntervalMax,
    g.enemyDropChance, g.startingWaveOverride))

/-- The part of a session that only the enemy loop, the explosions and the
state transitions write: the enemies, their counter, the session state, the
game-over flag and the run fields. -/
def quietFields (g : Game) :
    List Enemy × Int × GameState × Bool ×
      ((Int × Int) × (ℚ × ℚ × ℚ) × (ℚ × ℚ × ℚ × ℚ × Int)) :=
  (g.enemies, g.enemiesRemaining, g.state, g.gameOver, runFields g)

/-- The relation between a session and a later point of the same PLAYING
frame: the run fields are the same, and the session state and game-over flag
are either the same or those of a lost game. -/
structure SameRun (g g2 : Game) : Prop where
  fields : runFields g2 = runFields g
  mode : (g2.state = g.state ∧ g2.gameOver = g.gameOver) ∨
    (g2.state = GameState.GAME_OVER ∧ g2.gameOver = true)

/-- The enemy invariant of a session: `enemiesRemaining` is the number of
enemies in the list, and every enemy in the list has some health left. -/
structure HordeInv (g : Game) : Prop where
  count : g.enemiesRemaining = (g.enemies.length : Int)
  alive : ∀ e ∈ g.enemies, 1 ≤ e.health

/-- The bag of the enemy-type picker for a wave: three GRUNT entries, two
RUNNER entries from wave 2 on and one TANK entry from wave 4 on. -/
def typeBag (waveNum : Int) : List EnemyType :=
  [EnemyType.GRUNT, EnemyType.GRUNT, EnemyType.GRUNT] ++
    (if waveNum ≥ 2 then [EnemyType.RUNNER, EnemyType.RUNNER] else []) ++
    (if waveNum ≥ 4 then [EnemyType.TANK] else [])

/-- The index the enemy-type picker draws at call n. -/
def typeIndex (rl : Raylib) (n : Nat) (waveNum : Int) : Int :=
  GetRandomValue rl n 0 (((typeBag waveNum).length : Int) - 1)

/-- The fields that tie the player's maximum health to the permanent health
upgrade. -/
def healthFields (g : Game) : Int × Int × ℚ :=
  (g.player.baseMaxHealth, g.player.maxHealth, g.permanentHealthMultiplier)

/-- The pickup and max-health invariant of a session: the field holds at most
`maxFieldPowerUps` pickups, and the player's maximum health is the one
`SetMaxHealthMultiplier` computes from the permanent health multiplier. -/
structure StockInv (g : Game) : Prop where
  pickups : (g.powerUps.length : Int) ≤ maxFieldPowerUps
  sync : g.player.maxHealth = rescaledMaxHealth g.player.baseMaxHealth g.permanentHealthMultiplier

/-- What one call of a pickup spawner may do to the field: nothing, or append
one pickup to a field that held fewer than `maxFieldPowerUps`. -/
def AddsAtMostOne (g g2 : Game) : Prop :=
  g2.powerUps = g.powerUps ∨
    ((g.powerUps.length : Int) < maxFieldPowerUps ∧ ∃ p : PowerUp, g2.powerUps = g.powerUps ++ [p])

/-- A session on the upgrade screen after wave 1 was cleared. -/
def upgradeGame : Game :=
  { fullHealthGame with state := GameState.UPGRADE, pendingWave := 2 }

/-- Frame locals with the pointer pressed on the third option (Damage) of the
upgrade screen. -/
def damageChoice : FrameLocals :=
  { mouse := ⟨700, 500⟩, uiPointer := ⟨700, 500⟩, fireInput := true
    touchPressedThisFrame := false, pressed := true }

/-- The squared distance between two points. -/
def distSq (a b : Vector2) : ℚ :=
  (a.x - b.x) * (a.x - b.x) + (a.y - b.y) * (a.y - b.y)

/-- An input that presses the pause key. -/
def pauseInput : Input := { idleInput with GetFrameTime := 0, keyEscapePressed := true }

/-- An input that presses the pointer on the MENU button of the pause screen. -/
def pauseMenuInput : Input :=
  { idleInput with GetFrameTime := 0, GetMousePosition := ⟨500, 580⟩, mouseLeftPressed := true }

/-- The wave-1 session of `menuGame` after Play, paused. -/
def pausedGame : Game := { startRun sampleRaylib menuGame with state := GameState.PAUSED }

/-- The state transitions the specification lists. -/
def claimedTransition : GameState → GameState → Bool
  | .SPLASH, .MENU => true
  | .MENU, .PLAYING => true
  | .PLAYING, .PAUSED => true
  | .PAUSED, .PLAYING => true
  | .PLAYING, .UPGRADE => true
  | .UPGRADE, .PLAYING => true
  | .PLAYING, .GAME_OVER => true
  | .GAME_OVER, .MENU => true
  | _, _ => false

/-- The state transitions of one frame of the main loop: the listed ones, and
PAUSED to MENU (the MENU button of the pause screen) and GAME_OVER to PLAYING
(the REPLAY button). -/
def frameTransition (a b : GameState) : Bool :=
  claimedTransition a b ||
    (decide (a = GameState.PAUSED) && decide (b = GameState.MENU)) ||
    (decide (a = GameState.GAME_OVER) && decide (b = GameState.PLAYING))

/-- Whether some enemy contact of the enemy loop is not blocked by a shield
charge and leaves the player's health at 0: the loop is followed enemy by
enemy, each contact being judged in the session it happens in. -/
def deadlyContact (rl : Raylib) (delta : ℚ) : List Enemy → Game → Bool
  | [], _ => false
  | e :: rest, g =>
    if rl.CheckCollisionCircles g.player.position g.player.radius
        (e.Update rl delta g.player.position).position
        (e.Update rl delta g.player.position).radius then
      (decide (g.player.shieldCharges ≤ 0) &&
          decide ((contactHit rl g (e.Update rl delta g.player.position)).player.health = 0)) ||
        deadlyContact rl delta rest (contactHit rl g (e.Update rl delta g.player.position))
    else
      match findHit rl (e.Update rl delta g.player.position) g.bullets with
      | some (projectile, others) =>
        deadlyContact rl delta rest
          (projectileHit rl g (e.Update rl delta g.player.position) projectile others)
      | none =>
        deadlyContact rl delta rest
          { g with enemies := g.enemies ++ [e.Update rl delta g.player.position] }

/-- Whether a PLAYING frame (without the pause key) has a deadly contact: the
enemy loop runs over the enemies in the session that the earlier stages of the
frame leave. -/
def frameDeadlyContact (rl : Raylib) (inp : Input) (g : Game) : Bool :=
  deadlyContact rl inp.GetFrameTime
    (beforeCombat rl inp (frameStart inp g) (frameLocals rl inp g).mouse
      (frameLocals rl inp g).fireInput).enemies
    { beforeCombat rl inp (frameStart inp g) (frameLocals rl inp g).mouse
        (frameLocals rl inp g).fireInput with enemies := [] }

/-- The session state and the game-over flag. -/
def modeFields (g : Game) : GameState × Bool := (g.state, g.gameOver)

/-- A session in wave 1 whose player is at 10 health without a shield. -/
def weakGame : Game :=
  { Game.initial sampleRaylib with
    player := { Player.new with health := 10 }
    state := GameState.PLAYING }

/-- The session of `weakGame` with one wave-1 GRUNT standing on the player. -/
def ambushGame : Game := { weakGame with enemies := [gruntOnPlayer], enemiesRemaining := 1 }

/-- An idle input in a frame of no duration. -/
def stillInput : Input := { idleInput with GetFrameTime := 0 }

/-- The game-over flag invariant of a session: the flag is down in the states
PLAYING, PAUSED and UPGRADE. -/
def FlagInv (g : Game) : Prop :=
  (g.state = GameState.PLAYING ∨ g.state = GameState.PAUSED ∨ g.state = GameState.UPGRADE) →
    g.gameOver = false

/-! The definitions from here to the end of the definitions embed
`Player::SetMaxHealthMultiplier`, the spawn loop of `SpawnWave` and the lambda
`TryDropPowerUp` a second time, in the namespace `Binary32`: every `float`
operation of the source is rounded to binary32 (to nearest, halves to even), one
rounding for each operation. The definitions of the same names above compute
the same expressions in exact rational arithmetic. -/

/-- Nearest integer, halves to the even one: the rounding of IEEE 754
arithmetic. -/
def roundHalfEven (x : ℚ) : Int :=
  if x - ⌊x⌋ < 1 / 2 then ⌊x⌋
  else if 1 / 2 < x - ⌊x⌋ then ⌊x⌋ + 1
  else if ⌊x⌋ % 2 = 0 then ⌊x⌋ else ⌊x⌋ + 1

/-- The binary32 (`float`) value nearest to `q`: 24 significant bits, least
exponent -126 (subnormals below), halves to even. -/
def f32 (q : ℚ) : ℚ :=
  (roundHalfEven (q / 2 ^ (max (Int.log 2 |q|) (-126) - 23)) : ℚ) *
    2 ^ (max (Int.log 2 |q|) (-126) - 23)

/-- The function `sqrtf` on binary32 values: the binary32 value nearest to the
square root (IEEE 754 requires the square root to be correctly rounded); 0 for
an argument that is not positive. -/
def Binary32.sqrtf (x : ℚ) : ℚ :=
  if x ≤ 0 then 0
  else
    (((Nat.sqrt ⌊4 * (x / 2 ^ (2 * (Int.log 2 x / 2 - 23)))⌋₊ + 1) / 2 : Nat) : ℚ) *
      2 ^ (Int.log 2 x / 2 - 23)

/-- The local `toPlayer` of the spawn loop, in binary32. -/
def Binary32.toPlayer (playerPos spawn : Vector2) : Vector2 :=
  ⟨f32 (playerPos.x - spawn.x), f32 (playerPos.y - spawn.y)⟩

/-- The local `distance` of the spawn loop, in binary32:
`sqrtf(toPlayer.x * toPlayer.x + toPlayer.y * toPlayer.y)`. -/
def Binary32.distance (playerPos spawn : Vector2) : ℚ :=
  Binary32.sqrtf
    (f32 (f32 ((Binary32.toPlayer playerPos spawn).x * (Binary32.toPlayer playerPos spawn).x) +
      f32 ((Binary32.toPlayer playerPos spawn).y * (Binary32.toPlayer playerPos spawn).y)))

/-- The safe-radius push of the spawn loop with every operation rounded to
binary32, each on its own (no fused multiply-add). -/
def Binary32.pushOutOfSafeRadius (playerPos spawn : Vector2) : Vector2 :=
  let safeRadius : ℚ := 180
  let toPlayer := Binary32.toPlayer playerPos spawn
  let distance := Binary32.distance playerPos spawn
  if distance < safeRadius then
    let dir : Vector2 :=
      if distance = 0 then ⟨1, 0⟩
      else ⟨f32 (toPlayer.x / distance), f32 (toPlayer.y / distance)⟩
    ⟨f32 (spawn.x - f32 (dir.x * f32 (safeRadius - distance))),
     f32 (spawn.y - f32 (dir.y * f32 (safeRadius - distance)))⟩
  else spawn

/-- C++ `static_cast<int>` of an integer-valued `float`: undefined (`none`) when
the value is outside the range of `int`. -/
def Binary32.castInt (z : Int) : Option Int :=
  if -2147483648 ≤ z ∧ z ≤ 2147483647 then some z else none

/-- The function `Player::SetMaxHealthMultiplier` with every `float` operation
rounded to binary32; `none` when a cast to `int` is undefined. -/
def Binary32.SetMaxHealthMultiplier (p : Player) (multiplier : ℚ) : Option Player :=
  let multiplier := if multiplier < 1 then 1 else multiplier
  let oldMax := p.maxHealth
  match Binary32.castInt (roundHalfAway (f32 (f32 (p.baseMaxHealth : ℚ) * multiplier))) with
  | none => none
  | some newMax =>
    let newMax := if newMax < p.baseMaxHealth then p.baseMaxHealth else newMax
    let newMax := if newMax ≤ 0 then p.baseMaxHealth else newMax
    let healthRatio : ℚ :=
      if oldMax > 0 then f32 (f32 (p.health : ℚ) / f32 (oldMax : ℚ)) else 1
    match Binary32.castInt (roundHalfAway (f32 (healthRatio * f32 (newMax : ℚ)))) with
    | none => none
    | some newHealth =>
      let newHealth := if newHealth < 0 then 0 else newHealth
      let newHealth := if newHealth > newMax then newMax else newHealth
      some { p with maxHealth := newMax, health := newHealth }

/-- The new maximum of the specification with the product rounded to binary32:
`max(baseMaxHealth, round(fl(baseMaxHealth * max(multiplier, 1))))`. -/
def Binary32.rescaledMaxHealth (baseMaxHealth : Int) (multiplier : ℚ) : Int :=
  max baseMaxHealth (roundHalfAway (f32 (f32 (baseMaxHealth : ℚ) * max multiplier 1)))

/-- The new health of the specification with the quotient and the product
rounded to binary32: `round(fl(fl(old_health / M1) * M2))` clamped to `[0, M2]`. -/
def Binary32.rescaledHealth (oldHealth M1 M2 : Int) : Int :=
  clampTo 0 M2
    (roundHalfAway (f32 (f32 (f32 (oldHealth : ℚ) / f32 (M1 : ℚ)) * f32 (M2 : ℚ))))

/-- The rescale as the claim words it: the new maximum and the new health are
the exact `rescaledMaxHealth` and `rescaledHealth`. -/
def rescaleClaim (p : Player) (multiplier : ℚ) : Prop :=
  0 < p.maxHealth → 0 ≤ p.health → p.health ≤ p.maxHealth →
    ∃ p2 : Player, Binary32.SetMaxHealthMultiplier p multiplier = some p2 ∧
      p2.maxHealth = rescaledMaxHealth p.baseMaxHealth multiplier ∧
      p2.health = rescaledHealth p.health p.maxHealth p2.maxHealth

/-- The permanent health multiplier after the given number of Health upgrades,
in binary32: `permanentHealthMultiplier *= (1.f + permanentUpgradePercent)`. -/
def Binary32.upgradedMultiplier : Nat → ℚ
  | 0 => 1
  | k + 1 => f32 (Binary32.upgradedMultiplier k * f32 (1 + f32 permanentUpgradePercent))

/-- A player at 21 of 40 health, with the base maximum 100 of the constructor. -/
def lowMaxPlayer : Player := { Player.new with maxHealth := 40, health := 21 }

/-- A player at 5045 of 10070 health: the maximum after 33 Health upgrades. -/
def upgradedPlayer : Player := { Player.new with maxHealth := 10070, health := 5045 }

/-- The edge point of the spawn loop in binary32: the `int` results are cast to
`float` and 60 is added in binary32. -/
def Binary32.edgeSpawn (rl : Raylib) (n : Nat) : Vector2 :=
  let side := GetRandomValue rl n 0 3
  if side = 0 then ⟨-60, f32 (GetRandomValue rl (n + 1) 0 rl.GetScreenHeight : ℚ)⟩
  else if side = 1 then
    ⟨f32 (f32 (rl.GetScreenWidth : ℚ) + 60),
     f32 (GetRandomValue rl (n + 1) 0 rl.GetScreenHeight : ℚ)⟩
  else if side = 2 then ⟨f32 (GetRandomValue rl (n + 1) 0 rl.GetScreenWidth : ℚ), -60⟩
  else
    ⟨f32 (GetRandomValue rl (n + 1) 0 rl.GetScreenWidth : ℚ),
     f32 (f32 (rl.GetScreenHeight : ℚ) + 60)⟩

/-- The spawn loop of `SpawnWave` with the spawn point computed in binary32: the
first argument is the number of iterations left, the second the number of
`rand()` calls made. -/
def Binary32.spawnLoop (rl : Raylib) (wave : Int) (playerPos : Vector2) :
    Nat → Nat → List Enemy → List Enemy × Nat
  | 0, n, enemies => (enemies, n)
  | k + 1, n, enemies =>
    let spawn := Binary32.pushOutOfSafeRadius playerPos (Binary32.edgeSpawn rl n)
    let type := pickType rl (n + 2) wave
    Binary32.spawnLoop rl wave playerPos k (n + 4)
      (enemies ++ [Enemy.new rl (n + 3) spawn type wave])

/-- The claim that every enemy of the spawn loop stands at least 180 from the
player. -/
def safeRadiusClaim (rl : Raylib) (wave : Int) (playerPos : Vector2) (count n : Nat) : Prop :=
  ∀ e ∈ (Binary32.spawnLoop rl wave playerPos count n []).1,
    180 * 180 ≤ distSq playerPos e.position

/-- The health-roll threshold of `TryDropPowerUp` in binary32:
`static_cast<int>(adjustedChance * 1000.f)`, with `healthDropBias = 0.55f`. -/
def Binary32.healthThreshold (health maxHealth : Int) : Int :=
  let missingRatio := f32 (1 - f32 (f32 (health : ℚ) / f32 (maxHealth : ℚ)))
  let adjustedChance := f32 (f32 healthDropBias + f32 (missingRatio * f32 (35 / 100)))
  let adjustedChance := if adjustedChance > f32 (95 / 100) then f32 (95 / 100) else adjustedChance
  let adjustedChance := if adjustedChance < 0 then 0 else adjustedChance
  truncToInt (f32 (adjustedChance * 1000))

/-- The lambda `TryDropPowerUp` with the two thresholds computed in binary32;
`enemyDropChance` is read as the `float` nearest to the configured value. -/
def Binary32.TryDropPowerUp (rl : Raylib) (g : Game) (position : Vector2) : Game :=
  if (g.powerUps.length : Int) ≥ maxFieldPowerUps then g
  else
    let roll := GetRandomValue rl g.randCalls 0 999
    let g := { g with randCalls := g.randCalls + 1 }
    if roll < truncToInt (f32 (f32 g.enemyDropChance * 1000)) then
      if g.player.health < g.player.maxHealth then
        let healthRoll := GetRandomValue rl g.randCalls 0 999
        let g := { g with randCalls := g.randCalls + 1 }
        if healthRoll < Binary32.healthThreshold g.player.health g.player.maxHealth then
          CreatePowerUpInstance rl g PowerUpType.HEALTH_PACK position
        else SpawnRandomPowerUp rl g position
      else SpawnRandomPowerUp rl g position
    else g

/-- The types of the pickups that `Binary32.TryDropPowerUp` adds to the field. -/
def Binary32.droppedTypes (rl : Raylib) (g : Game) (position : Vector2) : List PowerUpType :=
  ((Binary32.TryDropPowerUp rl g position).powerUps.drop g.powerUps.length).map fun p => p.type

/-- The drop rule as the claim words it, for the binary32 code: once the field
has room and the drop gate passes, a health pack is dropped iff the next roll
is below the health-pack bias. -/
def Binary32.healthPackDropClaim (rl : Raylib) (g : Game) (position : Vector2) : Prop :=
  (g.powerUps.length : Int) < maxFieldPowerUps →
    GetRandomValue rl g.randCalls 0 999 < truncToInt (f32 (f32 g.enemyDropChance * 1000)) →
      (Binary32.droppedTypes rl g position = [PowerUpType.HEALTH_PACK] ↔
        GetRandomValue rl (g.randCalls + 1) 0 999 <
          truncToInt (specHealthPackBias g.player.health g.player.maxHealth * 1000))

/-- The lambda `SpawnWave` with every `float` operation rounded to binary32;
`none` when a conversion to `int` leaves the range of `int`. -/
def Binary32.SpawnWave (rl : Raylib) (g : Game) (wave : Int) : Option Game :=
  match Binary32.SetMaxHealthMultiplier g.player g.permanentHealthMultiplier,
    Binary32.castInt (truncToInt (f32 (g.powerUpSpawnIntervalMin * 10))),
    Binary32.castInt (truncToInt (f32 (g.powerUpSpawnIntervalMax * 10))),
    Binary32.castInt
      (roundHalfAway (f32 (f32 ((8 + (wave - 1) * 3 : Int) : ℚ) * g.enemyCountMultiplier))) with
  | some player, some lo, some hi, some count =>
    let player := if wave = 1 then player.ResetHealth.ResetPosition else player
    let player := player.ResetStatus
    let powerUpSpawnTimer : ℚ := f32 (f32 (GetRandomValue rl g.randCalls lo hi : ℚ) / 10)
    let anchor : Vector2 := ⟨130, f32 (f32 (rl.GetScreenHeight : ℚ) - 140)⟩
    let moveStick : VirtualJoystick :=
      { g.moveStick with anchor := anchor, position := anchor, pointerId := -1, active := false
                         direction := ⟨0, 0⟩ }
    let count := if count < 1 then 1 else count
    let count := if count > 45 then 45 else count
    let spawned := Binary32.spawnLoop rl wave player.position count.toNat (g.randCalls + 1) []
    some { g with
      enemies := spawned.1
      bullets := []
      powerUps := []
      activePowerUps := []
      explosions := []
      player := player
      fireTimer := 0
      powerUpSpawnTimer := powerUpSpawnTimer
      moveStick := moveStick
      enemiesRemaining := count
      randCalls := spawned.2 }
  | _, _, _, _ => none

/-- A session whose player stands in the corner (20, 20) of the playfield. -/
def cornerGame : Game :=
  { Game.initial sampleRaylib with
    player := { Player.new with position := ⟨20, 20⟩ }
    state := GameState.PLAYING }

/-! ## Rounding -/

theorem roundHalfAway_intCast (z : Int) : roundHalfAway (z : ℚ) = z := by
  unfold roundHalfAway
  split
  · rw [Int.floor_eq_iff]
    constructor <;> linarith
  · rw [Int.ceil_eq_iff]
    constructor <;> linarith

theorem roundHalfAway_mono {a b : ℚ} (h : a ≤ b) : roundHalfAway a ≤ roundHalfAway b := by
  unfold roundHalfAway
  by_cases ha : 0 ≤ a
  · have hb : 0 ≤ b := le_trans ha h
    rw [if_pos ha, if_pos hb]
    exact Int.floor_mono (by linarith)
  · rw [if_neg ha]
    by_cases hb : 0 ≤ b
    · rw [if_pos hb]
      have h1 : ⌈a - 1 / 2⌉ ≤ 0 := by
        rw [Int.ceil_le]
        push_neg at ha
        have : (a : ℚ) - 1 / 2 ≤ 0 := by linarith
        simpa using this
      have h2 : (0 : Int) ≤ ⌊b + 1 / 2⌋ := by
        rw [Int.le_floor]
        have : (0 : ℚ) ≤ b + 1 / 2 := by linarith
        simpa using this
      exact le_trans h1 h2
    · rw [if_neg hb]
      exact Int.ceil_mono (by linarith)

/-! ## Max-health rescale -/

theorem setMaxHealth_maxHealth (p : Player) (multiplier : ℚ) :
    (p.SetMaxHealthMultiplier multiplier).maxHealth =
      rescaledMaxHealth p.baseMaxHealth multiplier := by
  have hm : (if multiplier < 1 then (1 : ℚ) else multiplier) = max multiplier 1 := by
    split
    · rw [max_eq_right]; linarith
    · rw [max_eq_left]; linarith
  have h1 : (1 : ℚ) ≤ max multiplier 1 := le_max_right _ _
  simp only [Player.SetMaxHealthMultiplier, rescaledMaxHealth, hm]
  generalize max multiplier 1 = m at h1
  by_cases hlt : roundHalfAway ((p.baseMaxHealth : ℚ) * m) < p.baseMaxHealth
  · simp only [hlt, if_true, ite_self]
    rw [max_eq_left (le_of_lt hlt)]
  · simp only [hlt, if_false]
    push_neg at hlt
    rw [max_eq_right hlt]
    split
    · rename_i hle
      have hb : p.baseMaxHealth ≤ 0 := le_trans hlt hle
      have hq : (p.baseMaxHealth : ℚ) * m ≤ (p.baseMaxHealth : ℚ) := by
        have : (p.baseMaxHealth : ℚ) ≤ 0 := by exact_mod_cast hb
        nlinarith
      have := roundHalfAway_mono hq
      rw [roundHalfAway_intCast] at this
      omega
    · rfl

/-! ## Frame lemmas: what each operation leaves alone -/

@[simp]
theorem CreatePowerUpInstance_player (rl : Raylib) (g : Game) (t : PowerUpType)
    (pos : Vector2) : (CreatePowerUpInstance rl g t pos).player = g.player := rfl

@[simp]
theorem CreatePowerUpInstance_enemies (rl : Raylib) (g : Game) (t : PowerUpType)
    (pos : Vector2) : (CreatePowerUpInstance rl g t pos).enemies = g.enemies := rfl

@[simp]
theorem SpawnRandomPowerUp_player (rl : Raylib) (g : Game) (pos : Vector2) :
    (SpawnRandomPowerUp rl g pos).player = g.player := by
  unfold SpawnRandomPowerUp
  split <;> simp

@[simp]
theorem SpawnRandomPowerUp_enemies (rl : Raylib) (g : Game) (pos : Vector2) :
    (SpawnRandomPowerUp rl g pos).enemies = g.enemies := by
  unfold SpawnRandomPowerUp
  split <;> simp

@[simp]
theorem TryDropPowerUp_player (rl : Raylib) (g : Game) (pos : Vector2) :
    (TryDropPowerUp rl g pos).player = g.player := by
  unfold TryDropPowerUp
  simp only
  split_ifs <;> simp

@[simp]
theorem TryDropPowerUp_enemies (rl : Raylib) (g : Game) (pos : Vector2) :
    (TryDropPowerUp rl g pos).enemies = g.enemies := by
  unfold TryDropPowerUp
  simp only
  split_ifs <;> simp

/-! ## The player invariant through the player operations -/

theorem PlayerInv.new : PlayerInv Player.new := by
  constructor <;> decide

theorem PlayerInv.SetMaxHealthMultiplier {p : Player} (h : PlayerInv p) (m : ℚ) :
    PlayerInv (p.SetMaxHealthMultiplier m) := by
  obtain ⟨a, b, c, d, e, f⟩ := h
  constructor <;> simp only [Player.SetMaxHealthMultiplier] <;> (try split_ifs) <;> omega

theorem PlayerInv.ResetHealth {p : Player} (h : PlayerInv p) : PlayerInv p.ResetHealth := by
  obtain ⟨a, b, c, d, e, f⟩ := h
  constructor <;> simp only [Player.ResetHealth] <;> omega

theorem PlayerInv.ResetPosition {p : Player} (h : PlayerInv p) : PlayerInv p.ResetPosition := by
  obtain ⟨a, b, c, d, e, f⟩ := h
  constructor <;> simp only [Player.ResetPosition] <;> omega

theorem PlayerInv.ResetStatus {p : Player} (h : PlayerInv p) : PlayerInv p.ResetStatus := by
  obtain ⟨a, b, c, d, e, f⟩ := h
  constructor <;> simp only [Player.ResetStatus] <;> omega

theorem PlayerInv.UpdateShield {p : Player} (h : PlayerInv p) (delta : ℚ) :
    PlayerInv (p.UpdateShield delta) := by
  obtain ⟨a, b, c, d, e, f⟩ := h
  simp only [Player.UpdateShield]
  split_ifs <;> constructor <;> (try simp only) <;> omega

theorem PlayerInv.Update {p : Player} (h : PlayerInv p) (rl : Raylib) (delta : ℚ)
    (dir : Vector2) : PlayerInv (p.Update rl delta dir) := by
  unfold Player.Update
  apply PlayerInv.UpdateShield
  obtain ⟨a, b, c, d, e, f⟩ := h
  constructor <;> (try simp only) <;> omega

theorem PlayerInv.applyStats {p : Player} (h : PlayerInv p) (stats : PowerStats) :
    PlayerInv (applyStats p stats) := by
  obtain ⟨a, b, c, d, e, f⟩ := h
  simp only [WaveBreaker.applyStats]
  split_ifs <;> constructor <;> (try simp only) <;> omega

theorem PlayerInv.expireEffects (delta : ℚ) (effects : List ActivePowerUp) :
    ∀ {p : Player}, PlayerInv p → PlayerInv (expireEffects delta effects p).2 := by
  induction effects with
  | nil => intro p h; simpa [WaveBreaker.expireEffects] using h
  | cons effect rest ih =>
    intro p h
    simp only [WaveBreaker.expireEffects]
    split_ifs
    · apply ih
      obtain ⟨a, b, c, d, e, f⟩ := h
      constructor <;> simp only <;> omega
    · exact ih h
    · exact ih h

/-! ## The session invariant through the operations of a frame -/

theorem Enemy.new_contactDamage (rl : Raylib) (n : Nat) (pos : Vector2) (t : EnemyType)
    (wave : Int) : 1 ≤ (Enemy.new rl n pos t wave).contactDamage := by
  cases t <;> simp only [Enemy.new] <;> split_ifs <;> first | omega | exact le_refl _

@[simp]
theorem Enemy.Update_contactDamage (rl : Raylib) (e : Enemy) (delta : ℚ) (pos : Vector2) :
    (e.Update rl delta pos).contactDamage = e.contactDamage := rfl

@[simp]
theorem Enemy.ApplyHit_contactDamage (rl : Raylib) (e : Enemy) (damage : Int) (dir : Vector2)
    (strength : ℚ) : (e.ApplyHit rl damage dir strength).contactDamage = e.contactDamage := rfl

theorem GameInv.ActivatePowerUp {g : Game} (h : GameInv g) (t : PowerUpType) :
    GameInv (ActivatePowerUp g t) := by
  obtain ⟨⟨a, b, c, d, e, f⟩, he⟩ := h
  unfold WaveBreaker.ActivatePowerUp
  split_ifs
  · refine ⟨?_, he⟩
    constructor <;> simp only [healthPickupAmount] <;> omega
  · exact ⟨⟨a, b, c, d, e, f⟩, he⟩
  · cases t <;> first
      | exact ⟨⟨a, b, c, d, e, f⟩, he⟩
      | (refine ⟨?_, he⟩
         constructor <;> simp only <;> omega)

theorem GameInv.expiryPass {g : Game} (h : GameInv g) (delta : ℚ) :
    GameInv (expiryPass g delta) :=
  ⟨PlayerInv.expireEffects delta g.activePowerUps h.player, h.enemies⟩

theorem GameInv.pickupLoop (rl : Raylib) (todo : List PowerUp) :
    ∀ (r : Game × PowerStats × Bool), GameInv r.1 → GameInv (pickupLoop rl todo r).1 := by
  induction todo with
  | nil => intro r h; simpa [WaveBreaker.pickupLoop] using h
  | cons powerUp rest ih =>
    rintro ⟨g, stats, picked⟩ h
    simp only [WaveBreaker.pickupLoop]
    split_ifs
    · exact ih _ (GameInv.ActivatePowerUp h _)
    · exact ih _ ⟨h.player, h.enemies⟩

@[simp]
theorem periodicSpawn_player (rl : Raylib) (g : Game) (delta : ℚ) :
    (periodicSpawn rl g delta).player = g.player := by
  simp only [periodicSpawn]
  split_ifs <;> simp

@[simp]
theorem periodicSpawn_enemies (rl : Raylib) (g : Game) (delta : ℚ) :
    (periodicSpawn rl g delta).enemies = g.enemies := by
  simp only [periodicSpawn]
  split_ifs <;> simp

@[simp]
theorem fire_player (rl : Raylib) (g : Game) (stats : PowerStats) (fireInput : Bool)
    (mouse : Vector2) : (fire rl g stats fireInput mouse).player = g.player := by
  simp only [fire]
  split_ifs <;> rfl

@[simp]
theorem fire_enemies (rl : Raylib) (g : Game) (stats : PowerStats) (fireInput : Bool)
    (mouse : Vector2) : (fire rl g stats fireInput mouse).enemies = g.enemies := by
  simp only [fire]
  split_ifs <;> rfl

theorem bulletLoop_player_enemies (rl : Raylib) (delta : ℚ) (todo : List Bullet) :
    ∀ g : Game, (bulletLoop rl delta todo g).player = g.player ∧
      (bulletLoop rl delta todo g).enemies = g.enemies := by
  induction todo with
  | nil => intro g; simp [bulletLoop]
  | cons b rest ih =>
    intro g
    simp only [bulletLoop]
    split_ifs <;> exact ih _

theorem GameInv.bulletPass {g : Game} (h : GameInv g) (rl : Raylib) (delta : ℚ) :
    GameInv (bulletPass rl g delta) := by
  have := bulletLoop_player_enemies rl delta g.bullets { g with bullets := [] }
  constructor
  · unfold WaveBreaker.bulletPass; rw [this.1]; exact h.player
  · unfold WaveBreaker.bulletPass; rw [this.2]; exact h.enemies

/-- The player after an enemy contact: one charge less when shielded, the
contact damage off the health (floored at 0) otherwise. -/
theorem contactHit_player (rl : Raylib) (g : Game) (e : Enemy) :
    (contactHit rl g e).player =
      if g.player.shieldCharges > 0 then
        { g.player with shieldCharges := g.player.shieldCharges - 1 }
      else
        { g.player with
          health := if g.player.health - e.contactDamage < 0 then 0
                    else g.player.health - e.contactDamage } := by
  by_cases h : g.player.shieldCharges > 0
  · simp only [contactHit, h, decide_True, if_true, Bool.not_true, Bool.false_eq_true,
      false_and, if_false, TryDropPowerUp_player, TryDropPowerUp_enemies]
  · simp only [contactHit, h, decide_False, if_false, Bool.false_eq_true]
    split_ifs <;> simp only [TryDropPowerUp_player, TryDropPowerUp_enemies]

@[simp]
theorem contactHit_enemies (rl : Raylib) (g : Game) (e : Enemy) :
    (contactHit rl g e).enemies = g.enemies := by
  by_cases h : g.player.shieldCharges > 0
  · simp only [contactHit, h, decide_True, if_true, Bool.not_true, Bool.false_eq_true,
      false_and, if_false, TryDropPowerUp_player, TryDropPowerUp_enemies]
  · simp only [contactHit, h, decide_False, if_false, Bool.false_eq_true]
    split_ifs <;> simp only [TryDropPowerUp_player, TryDropPowerUp_enemies]

theorem GameInv.contactHit {g : Game} (h : GameInv g) (rl : Raylib) (e : Enemy)
    (he : 1 ≤ e.contactDamage) : GameInv (contactHit rl g e) := by
  obtain ⟨⟨a, b, c, d, p, q⟩, hen⟩ := h
  refine ⟨?_, by simpa using hen⟩
  rw [contactHit_player]
  split_ifs <;> constructor <;> (try simp only) <;> omega

@[simp]
theorem projectileHit_player (rl : Raylib) (g : Game) (e : Enemy) (b : Bullet)
    (others : List Bullet) : (projectileHit rl g e b others).player = g.player := by
  simp only [projectileHit]
  split_ifs <;> simp [SpawnExplosion]

theorem projectileHit_enemies (rl : Raylib) (g : Game) (e : Enemy) (b : Bullet)
    (others : List Bullet) :
    ∀ x ∈ (projectileHit rl g e b others).enemies,
      x ∈ g.enemies ∨ x.contactDamage = e.contactDamage := by
  intro x
  simp only [projectileHit]
  split_ifs <;> simp [SpawnExplosion] <;> intro hx
  all_goals
    first
      | exact Or.inl hx
      | (rcases hx with hx | hx
         · exact Or.inl hx
         · exact Or.inr (by rw [hx]; rfl))

theorem GameInv.enemyLoop (rl : Raylib) (delta : ℚ) (todo : List Enemy) :
    ∀ g : Game, GameInv g → (∀ e ∈ todo, 1 ≤ e.contactDamage) →
      GameInv (enemyLoop rl delta todo g) := by
  induction todo with
  | nil => intro g h _; simpa [WaveBreaker.enemyLoop] using h
  | cons e rest ih =>
    intro g h htodo
    have he : 1 ≤ e.contactDamage := htodo e (List.mem_cons_self _ _)
    have hrest : ∀ x ∈ rest, 1 ≤ x.contactDamage := fun x hx => htodo x (List.mem_cons_of_mem _ hx)
    simp only [WaveBreaker.enemyLoop]
    split_ifs
    · exact ih _ (GameInv.contactHit h rl _ (by simpa using he)) hrest
    · split
      · refine ih _ ⟨by simpa using h.player, ?_⟩ hrest
        intro x hx
        rcases projectileHit_enemies rl g _ _ _ x hx with hx | hx
        · exact h.enemies x hx
        · rw [hx]; simpa using he
      · refine ih _ ⟨h.player, ?_⟩ hrest
        intro x hx
        simp only [List.mem_append, List.mem_singleton] at hx
        rcases hx with hx | hx
        · exact h.enemies x hx
        · rw [hx]; simpa using he

theorem GameInv.enemyPass {g : Game} (h : GameInv g) (rl : Raylib) (delta : ℚ) :
    GameInv (enemyPass rl g delta) :=
  GameInv.enemyLoop rl delta g.enemies _ ⟨h.player, by simp⟩ h.enemies

theorem GameInv.explosionDamage (rl : Raylib) (explosion : Explosion) (todo : List Enemy) :
    ∀ g : Game, GameInv g → (∀ e ∈ todo, 1 ≤ e.contactDamage) →
      GameInv (explosionDamage rl explosion todo g) := by
  induction todo with
  | nil => intro g h _; simpa [WaveBreaker.explosionDamage] using h
  | cons e rest ih =>
    intro g h htodo
    have he : 1 ≤ e.contactDamage := htodo e (List.mem_cons_self _ _)
    have hrest : ∀ x ∈ rest, 1 ≤ x.contactDamage := fun x hx => htodo x (List.mem_cons_of_mem _ hx)
    have hkeep : ∀ y : Enemy, y.contactDamage = e.contactDamage →
        GameInv { g with enemies := g.enemies ++ [y] } := by
      intro y hy
      refine ⟨h.player, ?_⟩
      intro x hx
      simp only [List.mem_append, List.mem_singleton] at hx
      rcases hx with hx | hx
      · exact h.enemies x hx
      · rw [hx, hy]; exact he
    simp only [WaveBreaker.explosionDamage]
    split_ifs <;> first
      | exact ih _ ⟨by simpa using h.player, by simpa using h.enemies⟩ hrest
      | exact ih _ (hkeep _ rfl) hrest

theorem GameInv.explosionLoop (rl : Raylib) (todo : List Explosion) :
    ∀ g : Game, GameInv g → GameInv (explosionLoop rl todo g) := by
  induction todo with
  | nil => intro g h; simpa [WaveBreaker.explosionLoop] using h
  | cons explosion rest ih =>
    intro g h
    simp only [WaveBreaker.explosionLoop]
    split_ifs
    · exact ih _ ⟨h.player, h.enemies⟩
    · have := GameInv.explosionDamage rl explosion g.enemies { g with enemies := [] }
        ⟨h.player, by simp⟩ h.enemies
      exact ih _ ⟨this.player, this.enemies⟩

theorem GameInv.explosionPass {g : Game} (h : GameInv g) (rl : Raylib) :
    GameInv (explosionPass rl g) :=
  GameInv.explosionLoop rl g.explosions _ ⟨h.player, h.enemies⟩

theorem GameInv.waveClearCheck {g : Game} (h : GameInv g) : GameInv (waveClearCheck g) := by
  simp only [WaveBreaker.waveClearCheck]
  split_ifs <;> exact ⟨h.player, h.enemies⟩

theorem spawnLoop_contactDamage (rl : Raylib) (wave : Int) (pos : Vector2) (k : Nat) :
    ∀ (n : Nat) (acc : List Enemy), (∀ e ∈ acc, 1 ≤ e.contactDamage) →
      ∀ e ∈ (spawnLoop rl wave pos k n acc).1, 1 ≤ e.contactDamage := by
  induction k with
  | zero => intro n acc h; simpa [spawnLoop] using h
  | succ k ih =>
    intro n acc h
    simp only [spawnLoop]
    apply ih
    intro e he
    simp only [List.mem_append, List.mem_singleton] at he
    rcases he with he | he
    · exact h e he
    · rw [he]; exact Enemy.new_contactDamage _ _ _ _ _

theorem GameInv.SpawnWave {g : Game} (h : GameInv g) (rl : Raylib) (wave : Int) :
    GameInv (SpawnWave rl g wave) := by
  constructor
  · simp only [WaveBreaker.SpawnWave]
    apply PlayerInv.ResetStatus
    split_ifs
    · exact (h.player.SetMaxHealthMultiplier _).ResetHealth.ResetPosition
    · exact h.player.SetMaxHealthMultiplier _
  · simp only [WaveBreaker.SpawnWave]
    exact spawnLoop_contactDamage _ _ _ _ _ _ (by simp)

theorem GameInv.ResetPermanentUpgrades {g : Game} (h : GameInv g) :
    GameInv (ResetPermanentUpgrades g) :=
  ⟨(h.player.SetMaxHealthMultiplier _).ResetHealth, h.enemies⟩

theorem GameInv.of_fields {g g2 : Game} (h : GameInv g) (hp : g2.player = g.player)
    (he : g2.enemies = g.enemies) : GameInv g2 :=
  ⟨hp ▸ h.player, he ▸ h.enemies⟩

theorem GameInv.startRun {g : Game} (h : GameInv g) (rl : Raylib) : GameInv (startRun rl g) :=
  GameInv.of_fields
    (GameInv.SpawnWave (GameInv.of_fields h.ResetPermanentUpgrades rfl rfl) rl _) rfl rfl

theorem GameInv.backToMenu {g : Game} (h : GameInv g) : GameInv (backToMenu g) :=
  ⟨h.ResetPermanentUpgrades.player, h.ResetPermanentUpgrades.enemies⟩

theorem GameInv.applyChoice {g : Game} (h : GameInv g) (chosenOption : Int) :
    GameInv (applyChoice g chosenOption) := by
  simp only [WaveBreaker.applyChoice]
  split_ifs
  · exact ⟨h.player.SetMaxHealthMultiplier _, h.enemies⟩
  · exact ⟨h.player, h.enemies⟩
  · exact ⟨h.player, h.enemies⟩
  · exact h

theorem GameInv.advanceWave {g : Game} (h : GameInv g) (rl : Raylib) :
    GameInv (advanceWave rl g) := by
  simp only [WaveBreaker.advanceWave]
  split_ifs <;>
    exact GameInv.of_fields (GameInv.SpawnWave (GameInv.of_fields h rfl rfl) rl _) rfl rfl

theorem GameInv.applyUpgrade {g : Game} (h : GameInv g) (rl : Raylib) (chosenOption : Int) :
    GameInv (applyUpgrade rl g chosenOption) :=
  (h.applyChoice chosenOption).advanceWave rl

theorem GameInv.ApplyDailySeed {g : Game} (h : GameInv g) (daySeed : Int) :
    GameInv (ApplyDailySeed g daySeed) :=
  ⟨h.player, h.enemies⟩

theorem GameInv.initial (rl : Raylib) : GameInv (Game.initial rl) :=
  ⟨PlayerInv.new.SetMaxHealthMultiplier 1, by simp [Game.initial]⟩

theorem GameInv.periodicSpawn {g : Game} (h : GameInv g) (rl : Raylib) (delta : ℚ) :
    GameInv (periodicSpawn rl g delta) :=
  GameInv.of_fields h (periodicSpawn_player rl g delta) (periodicSpawn_enemies rl g delta)

theorem GameInv.refreshStats {g : Game} (h : GameInv g) : GameInv (refreshStats g) :=
  ⟨h.player.applyStats _, h.enemies⟩

theorem GameInv.movePlayer {g : Game} (h : GameInv g) (rl : Raylib) (inp : Input) :
    GameInv (movePlayer rl inp g) :=
  ⟨h.player.Update rl _ _, h.enemies⟩

theorem GameInv.pickupPass {g : Game} (h : GameInv g) (rl : Raylib) (stats : PowerStats) :
    GameInv (pickupPass rl g stats).1 :=
  GameInv.pickupLoop rl g.powerUps _ ⟨h.player, h.enemies⟩

theorem GameInv.syncShieldTimer {g : Game} (h : GameInv g) (stats : PowerStats) :
    GameInv (syncShieldTimer g stats) := by
  obtain ⟨⟨a, b, c, d, e, f⟩, he⟩ := h
  simp only [WaveBreaker.syncShieldTimer]
  split_ifs <;> refine ⟨?_, he⟩ <;> constructor <;> assumption

theorem GameInv.afterPickup {r : Game × PowerStats × Bool} (h : GameInv r.1) :
    GameInv (afterPickup r) := by
  unfold WaveBreaker.afterPickup
  apply GameInv.syncShieldTimer
  split_ifs
  · exact ⟨h.player.applyStats _, h.enemies⟩
  · exact h

theorem GameInv.fire {g : Game} (h : GameInv g) (rl : Raylib) (stats : PowerStats)
    (fireInput : Bool) (mouse : Vector2) : GameInv (fire rl g stats fireInput mouse) :=
  GameInv.of_fields h (fire_player rl g stats fireInput mouse) (fire_enemies rl g stats fireInput mouse)

theorem GameInv.explosionExpiryPass {g : Game} (h : GameInv g) (delta : ℚ) :
    GameInv (explosionExpiryPass g delta) :=
  ⟨h.player, h.enemies⟩

theorem GameInv.playingFrame {g : Game} (h : GameInv g) (rl : Raylib) (inp : Input)
    (mouse : Vector2) (fireInput : Bool) : GameInv (playingFrame rl inp g mouse fireInput) := by
  unfold WaveBreaker.playingFrame
  split_ifs
  · exact ⟨h.player, h.enemies⟩
  · exact GameInv.waveClearCheck (GameInv.explosionExpiryPass (GameInv.explosionPass
      (GameInv.enemyPass (GameInv.bulletPass (GameInv.fire (GameInv.afterPickup
        (GameInv.pickupPass (GameInv.movePlayer (GameInv.refreshStats
          (GameInv.expiryPass (GameInv.periodicSpawn h rl _) _)) rl inp) rl _)) rl _ _ _) rl _)
        rl _) rl) _)

theorem GameInv.frameStart {g : Game} (h : GameInv g) (inp : Input) :
    GameInv (frameStart inp g) := by
  simp only [WaveBreaker.frameStart]
  split_ifs <;> exact ⟨h.player, h.enemies⟩

theorem GameInv.splashFrame {g : Game} (h : GameInv g) (inp : Input) (loc : FrameLocals) :
    GameInv (splashFrame inp loc g) := by
  simp only [WaveBreaker.splashFrame]
  split_ifs <;> exact ⟨h.player, h.enemies⟩

theorem GameInv.menuFrame {g g2 : Game} (h : GameInv g) (rl : Raylib) (loc : FrameLocals)
    (hstep : menuFrame rl loc g = some g2) : GameInv g2 := by
  simp only [WaveBreaker.menuFrame] at hstep
  split_ifs at hstep <;> cases hstep <;> first
    | exact h
    | exact h.startRun rl

theorem GameInv.pausedFrame {g : Game} (h : GameInv g) (rl : Raylib) (inp : Input)
    (loc : FrameLocals) : GameInv (WaveBreaker.pausedFrame rl inp loc g) := by
  simp only [WaveBreaker.pausedFrame]
  have h1 : GameInv (if inp.keyEscapePressed then { g with state := GameState.PLAYING } else g) := by
    split_ifs
    · exact ⟨h.player, h.enemies⟩
    · exact h
  generalize (if inp.keyEscapePressed then { g with state := GameState.PLAYING } else g) = g1 at h1
  have h2 : GameInv (if rl.CheckCollisionPointRec loc.uiPointer (button rl (-100) (-100) 200 60) &&
      loc.pressed then { g1 with state := GameState.PLAYING } else g1) := by
    split_ifs
    · exact ⟨h1.player, h1.enemies⟩
    · exact h1
  generalize (if rl.CheckCollisionPointRec loc.uiPointer (button rl (-100) (-100) 200 60) &&
      loc.pressed then { g1 with state := GameState.PLAYING } else g1) = g2 at h2
  have h3 : GameInv (if rl.CheckCollisionPointRec loc.uiPointer (button rl (-100) (-20) 200 60) &&
      loc.pressed then WaveBreaker.startRun rl g2 else g2) := by
    split_ifs
    · exact h2.startRun rl
    · exact h2
  generalize (if rl.CheckCollisionPointRec loc.uiPointer (button rl (-100) (-20) 200 60) &&
      loc.pressed then WaveBreaker.startRun rl g2 else g2) = g3 at h3
  show GameInv (if rl.CheckCollisionPointRec loc.uiPointer (button rl (-100) 60 200 60) &&
      loc.pressed then WaveBreaker.backToMenu g3 else g3)
  split_ifs
  · exact h3.backToMenu
  · exact h3

theorem GameInv.upgradeFrame {g : Game} (h : GameInv g) (rl : Raylib) (loc : FrameLocals) :
    GameInv (WaveBreaker.upgradeFrame rl loc g) := by
  simp only [WaveBreaker.upgradeFrame]
  split_ifs
  · exact h.applyUpgrade rl _
  · exact h

theorem GameInv.gameOverFrame {g : Game} (h : GameInv g) (rl : Raylib) (loc : FrameLocals) :
    GameInv (WaveBreaker.gameOverFrame rl loc g) := by
  simp only [WaveBreaker.gameOverFrame]
  have h1 : GameInv (if rl.CheckCollisionPointRec loc.uiPointer (button rl (-150) (-40) 120 70) &&
      loc.pressed then WaveBreaker.startRun rl g else g) := by
    split_ifs
    · exact h.startRun rl
    · exact h
  generalize (if rl.CheckCollisionPointRec loc.uiPointer (button rl (-150) (-40) 120 70) &&
      loc.pressed then WaveBreaker.startRun rl g else g) = g1 at h1
  show GameInv (if rl.CheckCollisionPointRec loc.uiPointer (button rl 30 (-40) 120 70) &&
      loc.pressed then WaveBreaker.backToMenu g1 else g1)
  split_ifs
  · exact h1.backToMenu
  · exact h1

theorem GameInv.frame {g g2 : Game} (h : GameInv g) (rl : Raylib) (inp : Input)
    (hstep : WaveBreaker.frame rl inp g = some g2) : GameInv g2 := by
  have h0 := h.frameStart inp
  simp only [WaveBreaker.frame] at hstep
  split at hstep
  · cases hstep; exact h0.splashFrame inp _
  · exact h0.menuFrame rl _ hstep
  · cases hstep; exact h0.pausedFrame rl inp _
  · cases hstep; exact h0.playingFrame rl inp _ _
  · cases hstep; exact h0.upgradeFrame rl _
  · cases hstep; exact h0.gameOverFrame rl _

/-- Every reachable session state satisfies the session invariant. -/
theorem reachable_inv (rl : Raylib) {g : Game} (h : Reachable rl g) : GameInv g := by
  induction h with
  | initial => exact GameInv.initial rl
  | step inp g g2 _ hstep ih => exact ih.frame rl inp hstep
  | seed daySeed g _ ih => exact ih.ApplyDailySeed daySeed

/-! ## C1 and C4: health and shield-charge bounds -/

/-- C1: in every reachable session state (the initial state followed by any
number of frames of the main loop, for any inputs, and any applications of the
daily seed) the player's health satisfies `0 ≤ health ≤ maxHealth`. -/
theorem health_within_bounds (rl : Raylib) (g : Game) (h : Reachable rl g) :
    0 ≤ g.player.health ∧ g.player.health ≤ g.player.maxHealth :=
  ⟨(reachable_inv rl h).player.healthNonneg, (reachable_inv rl h).player.healthLe⟩

/-- C1 at the state in which `main` enters its loop. -/
theorem health_within_bounds_witness :
    Reachable sampleRaylib (Game.initial sampleRaylib) ∧
      0 ≤ (Game.initial sampleRaylib).player.health ∧
      (Game.initial sampleRaylib).player.health ≤ (Game.initial sampleRaylib).player.maxHealth :=
  ⟨Reachable.initial, health_within_bounds sampleRaylib _ Reachable.initial⟩

theorem expireEffects_charges (delta : ℚ) (effects : List ActivePowerUp) :
    ∀ p : Player, (expireEffects delta effects p).2.shieldCharges = p.shieldCharges ∨
      (expireEffects delta effects p).2.shieldCharges = 0 := by
  induction effects with
  | nil => intro p; exact Or.inl rfl
  | cons effect rest ih =>
    intro p
    simp only [expireEffects]
    split_ifs
    · rcases ih { p with shieldCharges := 0, shieldTimer := 0 } with h | h
      · exact Or.inr h
      · exact Or.inr h
    · exact ih p
    · exact ih p

/-- C4: in every reachable session state `0 ≤ shieldCharges ≤ 4`; a Shield
pickup sets the charges to `min(current + 2, 4)`; a contact decrements them by
one when they are at least 1 and leaves them alone otherwise; every other
writer (the constructor, `ResetStatus`, the shield timer running out in
`UpdateShield`, the expiry of a SHIELD effect) leaves them alone or sets them
to 0, and the pickup of another power-up leaves them alone. -/
theorem shield_charges_within_bounds (rl : Raylib) (g : Game) (h : Reachable rl g) :
    (0 ≤ g.player.shieldCharges ∧ g.player.shieldCharges ≤ 4) ∧
      (∀ g0 : Game, (ActivatePowerUp g0 PowerUpType.SHIELD).player.shieldCharges =
        min (g0.player.shieldCharges + 2) 4) ∧
      (∀ (g0 : Game) (e : Enemy),
        (1 ≤ g0.player.shieldCharges →
          (contactHit rl g0 e).player.shieldCharges = g0.player.shieldCharges - 1) ∧
        (g0.player.shieldCharges < 1 →
          (contactHit rl g0 e).player.shieldCharges = g0.player.shieldCharges)) ∧
      Player.new.shieldCharges = 0 ∧
      (∀ p : Player, p.ResetStatus.shieldCharges = 0) ∧
      (∀ (p : Player) (delta : ℚ), (p.UpdateShield delta).shieldCharges = p.shieldCharges ∨
        (p.UpdateShield delta).shieldCharges = 0) ∧
      (∀ (g0 : Game) (delta : ℚ),
        (expiryPass g0 delta).player.shieldCharges = g0.player.shieldCharges ∨
          (expiryPass g0 delta).player.shieldCharges = 0) ∧
      (∀ (g0 : Game) (t : PowerUpType), t ≠ PowerUpType.SHIELD →
        (ActivatePowerUp g0 t).player.shieldCharges = g0.player.shieldCharges) := by
  refine ⟨⟨(reachable_inv rl h).player.chargesNonneg, (reachable_inv rl h).player.chargesLe⟩,
    ?_, ?_, rfl, fun _ => rfl, ?_, ?_, ?_⟩
  · intro g0
    simp [ActivatePowerUp]
  · intro g0 e
    rw [contactHit_player]
    constructor
    · intro h1
      rw [if_pos (by omega)]
    · intro h1
      rw [if_neg (by omega)]
  · intro p delta
    simp only [Player.UpdateShield]
    split_ifs
    · exact Or.inr rfl
    · exact Or.inl rfl
    · exact Or.inl rfl
  · intro g0 delta
    exact expireEffects_charges delta g0.activePowerUps g0.player
  · intro g0 t ht
    cases t <;> first
      | exact absurd rfl ht
      | (unfold ActivatePowerUp; split_ifs <;> rfl)

/-- C4 at the state in which `main` enters its loop. -/
theorem shield_charges_within_bounds_witness :
    Reachable sampleRaylib (Game.initial sampleRaylib) ∧
      0 ≤ (Game.initial sampleRaylib).player.shieldCharges ∧
      (Game.initial sampleRaylib).player.shieldCharges ≤ 4 :=
  ⟨Reachable.initial,
    (shield_charges_within_bounds sampleRaylib _ Reachable.initial).1⟩

/-! ## C3 and C5: shielded contacts -/

@[simp]
theorem SpawnRandomPowerUp_enemiesRemaining (rl : Raylib) (g : Game) (pos : Vector2) :
    (SpawnRandomPowerUp rl g pos).enemiesRemaining = g.enemiesRemaining := by
  unfold SpawnRandomPowerUp
  split <;> rfl

@[simp]
theorem SpawnRandomPowerUp_activePowerUps (rl : Raylib) (g : Game) (pos : Vector2) :
    (SpawnRandomPowerUp rl g pos).activePowerUps = g.activePowerUps := by
  unfold SpawnRandomPowerUp
  split <;> rfl

@[simp]
theorem TryDropPowerUp_enemiesRemaining (rl : Raylib) (g : Game) (pos : Vector2) :
    (TryDropPowerUp rl g pos).enemiesRemaining = g.enemiesRemaining := by
  unfold TryDropPowerUp
  simp only
  split_ifs <;> simp [CreatePowerUpInstance]

@[simp]
theorem TryDropPowerUp_activePowerUps (rl : Raylib) (g : Game) (pos : Vector2) :
    (TryDropPowerUp rl g pos).activePowerUps = g.activePowerUps := by
  unfold TryDropPowerUp
  simp only
  split_ifs <;> simp [CreatePowerUpInstance]

theorem contactHit_enemiesRemaining (rl : Raylib) (g : Game) (e : Enemy) :
    (contactHit rl g e).enemiesRemaining = g.enemiesRemaining - 1 := by
  by_cases h : g.player.shieldCharges > 0
  · simp only [contactHit, h, decide_True, if_true, Bool.not_true, Bool.false_eq_true,
      false_and, if_false, TryDropPowerUp_enemiesRemaining]
  · simp only [contactHit, h, decide_False, if_false, Bool.false_eq_true]
    split_ifs <;> simp only [TryDropPowerUp_enemiesRemaining]

/-- The active effects after an enemy contact: when the contact takes the last
charge, every SHIELD effect gets a remaining time of 0; otherwise nothing
changes. -/
theorem contactHit_activePowerUps (rl : Raylib) (g : Game) (e : Enemy) :
    (contactHit rl g e).activePowerUps =
      if g.player.shieldCharges > 0 then
        g.activePowerUps.map fun effect =>
          if effect.type = PowerUpType.SHIELD ∧ g.player.shieldCharges - 1 ≤ 0 then
            { effect with remaining := 0 }
          else effect
      else g.activePowerUps := by
  by_cases h : g.player.shieldCharges > 0
  · simp only [contactHit, h, decide_True, if_true, Bool.not_true, Bool.false_eq_true,
      false_and, if_false, TryDropPowerUp_activePowerUps]
  · simp only [contactHit, h, decide_False, if_false, Bool.false_eq_true]
    split_ifs <;> simp only [TryDropPowerUp_activePowerUps]

theorem contactHit_position (rl : Raylib) (g : Game) (e : Enemy) :
    (contactHit rl g e).player.position = g.player.position ∧
      (contactHit rl g e).player.radius = g.player.radius := by
  rw [contactHit_player]
  split_ifs <;> exact ⟨rfl, rfl⟩

theorem touchesPlayer_congr (rl : Raylib) (delta : ℚ) {p q : Player} (e : Enemy)
    (h1 : q.position = p.position) (h2 : q.radius = p.radius) :
    touchesPlayer rl delta q e = touchesPlayer rl delta p e := by
  simp only [touchesPlayer, h1, h2]

/-- A run of the enemy loop in which every enemy touches the player: all of
them are erased, the first `shieldCharges` contacts are blocked and the others
take their damage. -/
theorem enemyLoop_all_contacts (rl : Raylib) (delta : ℚ) (es : List Enemy) :
    ∀ g : Game, (∀ e ∈ es, touchesPlayer rl delta g.player e = true) →
      0 ≤ g.player.shieldCharges →
      (enemyLoop rl delta es g).enemies = g.enemies ∧
      (enemyLoop rl delta es g).enemiesRemaining = g.enemiesRemaining - es.length ∧
      (enemyLoop rl delta es g).player.shieldCharges =
        max 0 (g.player.shieldCharges - es.length) ∧
      (enemyLoop rl delta es g).player.health =
        healthAfterContacts g.player.health (es.drop g.player.shieldCharges.toNat) := by
  induction es with
  | nil =>
    intro g _ h0
    simp [enemyLoop, healthAfterContacts, h0]
  | cons e rest ih =>
    intro g hall h0
    have he : touchesPlayer rl delta g.player e = true := hall e (List.mem_cons_self _ _)
    have hpos := contactHit_position rl g (e.Update rl delta g.player.position)
    have hrest : ∀ x ∈ rest, touchesPlayer rl delta
        (contactHit rl g (e.Update rl delta g.player.position)).player x = true := by
      intro x hx
      rw [touchesPlayer_congr rl delta x hpos.1 hpos.2]
      exact hall x (List.mem_cons_of_mem _ hx)
    have hstep : enemyLoop rl delta (e :: rest) g =
        enemyLoop rl delta rest (contactHit rl g (e.Update rl delta g.player.position)) := by
      simp only [touchesPlayer] at he
      simp only [enemyLoop, he, if_true]
    have hpl := contactHit_player rl g (e.Update rl delta g.player.position)
    rw [hstep]
    by_cases hc : g.player.shieldCharges > 0
    · rw [if_pos hc] at hpl
      have hch : (contactHit rl g (e.Update rl delta g.player.position)).player.shieldCharges =
          g.player.shieldCharges - 1 := by rw [hpl]
      have hhe : (contactHit rl g (e.Update rl delta g.player.position)).player.health =
          g.player.health := by rw [hpl]
      obtain ⟨i1, i2, i3, i4⟩ := ih _ hrest (by rw [hch]; omega)
      refine ⟨by rw [i1, contactHit_enemies], ?_, ?_, ?_⟩
      · rw [i2, contactHit_enemiesRemaining, List.length_cons]; push_cast; ring
      · rw [i3, hch, List.length_cons]; push_cast
        congr 1; ring
      · rw [i4, hch, hhe]
        have : g.player.shieldCharges.toNat = (g.player.shieldCharges - 1).toNat + 1 := by omega
        rw [this, List.drop_succ_cons]
    · rw [if_neg hc] at hpl
      have hz : g.player.shieldCharges = 0 := by omega
      have hch : (contactHit rl g (e.Update rl delta g.player.position)).player.shieldCharges =
          0 := by rw [hpl]; exact hz
      have hhe : (contactHit rl g (e.Update rl delta g.player.position)).player.health =
          if g.player.health - e.contactDamage < 0 then 0
          else g.player.health - e.contactDamage := by rw [hpl]; rfl
      obtain ⟨i1, i2, i3, i4⟩ := ih _ hrest (by rw [hch])
      refine ⟨by rw [i1, contactHit_enemies], ?_, ?_, ?_⟩
      · rw [i2, contactHit_enemiesRemaining, List.length_cons]; push_cast; ring
      · rw [i3, hch, hz, List.length_cons]; push_cast
        rw [max_eq_left (by omega), max_eq_left (by omega)]
      · rw [i4, hch, hhe, hz]
        simp [healthAfterContacts]

/-- C3: an enemy-vs-player contact that happens while the player holds at
least one shield charge consumes exactly one charge, leaves the health
unchanged, erases the enemy (the loop goes on with the enemies kept so far
unchanged) and decrements `enemiesRemaining` by 1. Hence when every enemy of a
run of the loop touches the player and there are at most `shieldCharges` of
them, all are blocked; and when there is one more than `shieldCharges`, the
last one is not blocked: no charge is left and its damage lands. -/
theorem shield_blocks_contact (rl : Raylib) (delta : ℚ) (g : Game) (e : Enemy)
    (rest : List Enemy) (hc : 1 ≤ g.player.shieldCharges)
    (hcol : touchesPlayer rl delta g.player e = true) :
    enemyLoop rl delta (e :: rest) g =
        enemyLoop rl delta rest (contactHit rl g (e.Update rl delta g.player.position)) ∧
      (contactHit rl g (e.Update rl delta g.player.position)).player.shieldCharges =
        g.player.shieldCharges - 1 ∧
      (contactHit rl g (e.Update rl delta g.player.position)).player.health = g.player.health ∧
      (contactHit rl g (e.Update rl delta g.player.position)).enemies = g.enemies ∧
      (contactHit rl g (e.Update rl delta g.player.position)).enemiesRemaining =
        g.enemiesRemaining - 1 ∧
      (∀ es : List Enemy, (∀ x ∈ es, touchesPlayer rl delta g.player x = true) →
        (es.length : Int) ≤ g.player.shieldCharges →
        (enemyLoop rl delta es g).enemies = g.enemies ∧
          (enemyLoop rl delta es g).enemiesRemaining = g.enemiesRemaining - es.length ∧
          (enemyLoop rl delta es g).player.shieldCharges = g.player.shieldCharges - es.length ∧
          (enemyLoop rl delta es g).player.health = g.player.health) ∧
      (∀ (es : List Enemy) (x : Enemy),
        (∀ y ∈ es ++ [x], touchesPlayer rl delta g.player y = true) →
        (es.length : Int) = g.player.shieldCharges →
        (enemyLoop rl delta (es ++ [x]) g).player.shieldCharges = 0 ∧
          (enemyLoop rl delta (es ++ [x]) g).player.health =
            if g.player.health - x.contactDamage < 0 then 0
            else g.player.health - x.contactDamage) := by
  have hpl := contactHit_player rl g (e.Update rl delta g.player.position)
  rw [if_pos (by omega)] at hpl
  refine ⟨?_, by rw [hpl], by rw [hpl], contactHit_enemies _ _ _,
    contactHit_enemiesRemaining _ _ _, ?_, ?_⟩
  · simp only [touchesPlayer] at hcol
    simp only [enemyLoop, hcol, if_true]
  · intro es hall hlen
    obtain ⟨i1, i2, i3, i4⟩ := enemyLoop_all_contacts rl delta es g hall (by omega)
    refine ⟨i1, i2, ?_, ?_⟩
    · rw [i3, max_eq_right (by omega)]
    · rw [i4, List.drop_of_length_le (by omega)]
      rfl
  · intro es x hall hlen
    obtain ⟨_, _, i3, i4⟩ := enemyLoop_all_contacts rl delta (es ++ [x]) g hall (by omega)
    constructor
    · rw [i3, List.length_append, List.length_singleton]
      push_cast
      rw [max_eq_left (by omega)]
    · rw [i4]
      have : g.player.shieldCharges.toNat = es.length := by omega
      rw [this, List.drop_left]
      rfl

/-- C3 at a wave-1 GRUNT standing on a player who holds two charges. -/
theorem shield_blocks_contact_witness :
    (1 ≤ shieldedGame.player.shieldCharges ∧
      touchesPlayer sampleRaylib 0 shieldedGame.player gruntOnPlayer = true) ∧
      (contactHit sampleRaylib shieldedGame
        (gruntOnPlayer.Update sampleRaylib 0 shieldedGame.player.position)).player.shieldCharges =
        shieldedGame.player.shieldCharges - 1 :=
  ⟨⟨by decide, by
      norm_num [touchesPlayer, sampleRaylib, shieldedGame, gruntOnPlayer, Enemy.Update,
        Player.new, Vector2Subtract, Vector2Scale, Vector2Add, Vector2Zero]⟩,
    (shield_blocks_contact sampleRaylib 0 shieldedGame gruntOnPlayer [] (by decide) (by
      norm_num [touchesPlayer, sampleRaylib, shieldedGame, gruntOnPlayer, Enemy.Update,
        Player.new, Vector2Subtract, Vector2Scale, Vector2Add, Vector2Zero])).2.1⟩

theorem expireEffects_removes (delta : ℚ) (P : ActivePowerUp → Prop) (effects : List ActivePowerUp) :
    ∀ p : Player, (∀ effect ∈ effects, P effect → effect.remaining - delta ≤ 0) →
      (∀ effect : ActivePowerUp, P { effect with remaining := effect.remaining - delta } →
        P effect) →
      ∀ effect ∈ (expireEffects delta effects p).1, ¬ P effect := by
  induction effects with
  | nil => intro p _ _ effect h; simp [expireEffects] at h
  | cons first rest ih =>
    intro p hall hP effect
    have hrest : ∀ x ∈ rest, P x → x.remaining - delta ≤ 0 :=
      fun x hx => hall x (List.mem_cons_of_mem _ hx)
    simp only [expireEffects]
    split_ifs with h1
    · exact ih _ hrest hP effect
    · exact ih _ hrest hP effect
    · intro hmem
      rcases List.mem_cons.mp hmem with heq | hin
      · intro hp
        rw [heq] at hp
        exact h1 (hall first (List.mem_cons_self _ _) (hP first hp))
      · exact ih _ hrest hP effect hin

/-- C5: when a blocked contact takes the last shield charge, every active
SHIELD effect gets a remaining time of 0 (the other effects are untouched) and
the next expiry pass, for every frame time `delta ≥ 0`, leaves no SHIELD effect
in the active-effect list; when a blocked contact leaves a charge, the
active-effect list is unchanged. -/
theorem last_charge_clears_shield_effect (rl : Raylib) (g : Game) (e : Enemy) (delta : ℚ)
    (h1 : g.player.shieldCharges = 1) (hd : 0 ≤ delta) :
    (contactHit rl g e).player.shieldCharges = 0 ∧
      (contactHit rl g e).activePowerUps =
        g.activePowerUps.map (fun effect =>
          if effect.type = PowerUpType.SHIELD then { effect with remaining := 0 } else effect) ∧
      (∀ effect ∈ (contactHit rl g e).activePowerUps,
        effect.type = PowerUpType.SHIELD → effect.remaining = 0) ∧
      (∀ effect ∈ (expiryPass (contactHit rl g e) delta).activePowerUps,
        effect.type ≠ PowerUpType.SHIELD) ∧
      (∀ (g0 : Game) (e0 : Enemy), 2 ≤ g0.player.shieldCharges →
        (contactHit rl g0 e0).activePowerUps = g0.activePowerUps) := by
  have hmap : (contactHit rl g e).activePowerUps =
      g.activePowerUps.map (fun effect =>
        if effect.type = PowerUpType.SHIELD then { effect with remaining := 0 } else effect) := by
    rw [contactHit_activePowerUps, if_pos (by omega)]
    apply List.map_congr_left
    intro effect _
    simp [h1]
  have hzero : ∀ effect ∈ (contactHit rl g e).activePowerUps,
      effect.type = PowerUpType.SHIELD → effect.remaining = 0 := by
    intro effect hmem ht
    rw [hmap, List.mem_map] at hmem
    obtain ⟨x, _, hx⟩ := hmem
    split_ifs at hx with hs
    · rw [← hx]
    · rw [← hx] at ht
      exact absurd ht hs
  refine ⟨?_, hmap, hzero, ?_, ?_⟩
  · rw [contactHit_player, if_pos (by omega)]
    simp [h1]
  · intro effect hmem
    exact expireEffects_removes delta (fun x => x.type = PowerUpType.SHIELD) _ _
      (fun x hx ht => by rw [hzero x hx ht]; linarith) (fun _ hx => hx) effect hmem
  · intro g0 e0 h2
    rw [contactHit_activePowerUps, if_pos (by omega)]
    conv_rhs => rw [← List.map_id g0.activePowerUps]
    apply List.map_congr_left
    intro effect _
    rw [if_neg (by omega)]
    rfl

/-- C5 at a player whose last charge is taken while a SHIELD effect is active. -/
theorem last_charge_clears_shield_effect_witness :
    (lastChargeGame.player.shieldCharges = 1 ∧ (0 : ℚ) ≤ 1 / 60) ∧
      (contactHit sampleRaylib lastChargeGame gruntOnPlayer).activePowerUps =
        lastChargeGame.activePowerUps.map (fun effect =>
          if effect.type = PowerUpType.SHIELD then { effect with remaining := 0 } else effect) :=
  ⟨⟨by decide, by norm_num⟩,
    (last_charge_clears_shield_effect sampleRaylib lastChargeGame gruntOnPlayer (1 / 60)
      (by decide) (by norm_num)).2.1⟩

/-! ## C6: one active effect per type -/

theorem refreshEffect_found (t : PowerUpType) (d : ℚ) (effects : List ActivePowerUp) :
    (refreshEffect t d effects).2 = true ↔ t ∈ effectTypes effects := by
  induction effects with
  | nil => simp [refreshEffect, effectTypes]
  | cons effect rest ih =>
    simp only [refreshEffect, effectTypes, List.map_cons, List.mem_cons]
    simp only [effectTypes] at ih
    split_ifs with h
    · simp [h]
    · rw [ih]
      constructor
      · exact Or.inr
      · rintro (h2 | h2)
        · exact absurd h2.symm h
        · exact h2

theorem refreshEffect_types (t : PowerUpType) (d : ℚ) (effects : List ActivePowerUp) :
    effectTypes (refreshEffect t d effects).1 = effectTypes effects := by
  induction effects with
  | nil => rfl
  | cons effect rest ih =>
    simp only [refreshEffect]
    split_ifs with h
    · rfl
    · simp only [effectTypes, List.map_cons] at ih ⊢
      rw [ih]

theorem refreshEffect_length (t : PowerUpType) (d : ℚ) (effects : List ActivePowerUp) :
    (refreshEffect t d effects).1.length = effects.length := by
  have := congrArg List.length (refreshEffect_types t d effects)
  simpa [effectTypes] using this

/-- With one entry per type, every entry of the refreshed type carries the
new duration after the search loop. -/
theorem refreshEffect_remaining (t : PowerUpType) (d : ℚ) (effects : List ActivePowerUp)
    (hnd : (effectTypes effects).Nodup) :
    ∀ x ∈ (refreshEffect t d effects).1, x.type = t → x.remaining = d := by
  induction effects with
  | nil => intro x hx; simp [refreshEffect] at hx
  | cons effect rest ih =>
    intro x hx ht
    simp only [effectTypes, List.map_cons, List.nodup_cons] at hnd
    simp only [refreshEffect] at hx
    split_ifs at hx with h
    · rcases List.mem_cons.mp hx with hx | hx
      · rw [hx]
      · exfalso
        apply hnd.1
        rw [h, ← ht]
        exact List.mem_map_of_mem _ hx
    · rcases List.mem_cons.mp hx with hx | hx
      · rw [hx] at ht
        exact absurd ht h
      · exact ih hnd.2 x hx ht

/-- The active effects after the pickup of a power-up other than a Health
Pack. -/
theorem ActivatePowerUp_activePowerUps (g : Game) (t : PowerUpType)
    (ht : t ≠ PowerUpType.HEALTH_PACK) :
    (ActivatePowerUp g t).activePowerUps =
      if (refreshEffect t (GetPowerUpDuration t) g.activePowerUps).2 then
        (refreshEffect t (GetPowerUpDuration t) g.activePowerUps).1
      else
        (refreshEffect t (GetPowerUpDuration t) g.activePowerUps).1 ++
          [⟨t, GetPowerUpDuration t⟩] := by
  cases t <;> first
    | exact absurd rfl ht
    | simp [ActivatePowerUp]

theorem effectsInv_ActivatePowerUp {g : Game} (h : EffectsInv g) (t : PowerUpType) :
    EffectsInv (ActivatePowerUp g t) := by
  by_cases ht : t = PowerUpType.HEALTH_PACK
  · subst ht
    unfold ActivatePowerUp
    split_ifs <;> first | exact h | contradiction
  · unfold EffectsInv at h ⊢
    rw [ActivatePowerUp_activePowerUps g t ht]
    split_ifs with hf
    · rw [refreshEffect_types]
      exact h
    · have hnot : t ∉ effectTypes g.activePowerUps := fun hm =>
        hf ((refreshEffect_found t _ _).mpr hm)
      have : effectTypes ((refreshEffect t (GetPowerUpDuration t) g.activePowerUps).1 ++
          [⟨t, GetPowerUpDuration t⟩]) = effectTypes g.activePowerUps ++ [t] := by
        rw [← refreshEffect_types t (GetPowerUpDuration t) g.activePowerUps]
        simp [effectTypes]
      rw [this]
      exact List.Nodup.append h (List.nodup_singleton t) (by simpa using hnot)

theorem expireEffects_sublist (delta : ℚ) (effects : List ActivePowerUp) :
    ∀ p : Player, (effectTypes (expireEffects delta effects p).1).Sublist (effectTypes effects) := by
  induction effects with
  | nil => intro p; simp [expireEffects, effectTypes]
  | cons effect rest ih =>
    intro p
    simp only [expireEffects]
    split_ifs
    · exact (ih _).trans (List.sublist_cons_self _ _)
    · exact (ih _).trans (List.sublist_cons_self _ _)
    · simp only [effectTypes, List.map_cons]
      exact List.Sublist.cons₂ _ (ih p)

theorem effectsInv_expiryPass {g : Game} (h : EffectsInv g) (delta : ℚ) :
    EffectsInv (expiryPass g delta) :=
  List.Nodup.sublist (expireEffects_sublist delta g.activePowerUps g.player) h

theorem effectsInv_of_eq {g g2 : Game} (h : EffectsInv g)
    (ha : g2.activePowerUps = g.activePowerUps) : EffectsInv g2 := by
  unfold EffectsInv at h ⊢
  rw [ha]
  exact h

theorem effectsInv_contactHit {g : Game} (h : EffectsInv g) (rl : Raylib) (e : Enemy) :
    EffectsInv (contactHit rl g e) := by
  unfold EffectsInv at h ⊢
  rw [contactHit_activePowerUps]
  split_ifs
  · have : effectTypes (g.activePowerUps.map fun effect =>
        if effect.type = PowerUpType.SHIELD ∧ g.player.shieldCharges - 1 ≤ 0 then
          { effect with remaining := 0 }
        else effect) = effectTypes g.activePowerUps := by
      simp only [effectTypes, List.map_map]
      apply List.map_congr_left
      intro effect _
      simp only [Function.comp]
      split_ifs <;> rfl
    rw [this]
    exact h
  · exact h

@[simp]
theorem projectileHit_activePowerUps (rl : Raylib) (g : Game) (e : Enemy) (b : Bullet)
    (others : List Bullet) :
    (projectileHit rl g e b others).activePowerUps = g.activePowerUps := by
  simp only [projectileHit]
  split_ifs <;> simp [SpawnExplosion]

theorem effectsInv_enemyLoop (rl : Raylib) (delta : ℚ) (todo : List Enemy) :
    ∀ g : Game, EffectsInv g → EffectsInv (enemyLoop rl delta todo g) := by
  induction todo with
  | nil => intro g h; simpa [enemyLoop] using h
  | cons e rest ih =>
    intro g h
    simp only [enemyLoop]
    split_ifs
    · exact ih _ (effectsInv_contactHit h rl _)
    · split
      · exact ih _ (effectsInv_of_eq h (projectileHit_activePowerUps _ _ _ _ _))
      · exact ih _ (effectsInv_of_eq h rfl)

theorem explosionDamage_activePowerUps (rl : Raylib) (explosion : Explosion)
    (todo : List Enemy) :
    ∀ g : Game, (explosionDamage rl explosion todo g).activePowerUps = g.activePowerUps := by
  induction todo with
  | nil => intro g; rfl
  | cons e rest ih =>
    intro g
    simp only [explosionDamage]
    split_ifs <;> simp [ih]

theorem explosionLoop_activePowerUps (rl : Raylib) (todo : List Explosion) :
    ∀ g : Game, (explosionLoop rl todo g).activePowerUps = g.activePowerUps := by
  induction todo with
  | nil => intro g; rfl
  | cons explosion rest ih =>
    intro g
    simp only [explosionLoop]
    split_ifs
    · rw [ih]
    · rw [ih]
      exact explosionDamage_activePowerUps rl explosion g.enemies { g with enemies := [] }

theorem bulletLoop_activePowerUps (rl : Raylib) (delta : ℚ) (todo : List Bullet) :
    ∀ g : Game, (bulletLoop rl delta todo g).activePowerUps = g.activePowerUps := by
  induction todo with
  | nil => intro g; rfl
  | cons b rest ih =>
    intro g
    simp only [bulletLoop]
    split_ifs <;> exact ih _

@[simp]
theorem periodicSpawn_activePowerUps (rl : Raylib) (g : Game) (delta : ℚ) :
    (periodicSpawn rl g delta).activePowerUps = g.activePowerUps := by
  simp only [periodicSpawn]
  split_ifs <;> simp

@[simp]
theorem fire_activePowerUps (rl : Raylib) (g : Game) (stats : PowerStats) (fireInput : Bool)
    (mouse : Vector2) : (fire rl g stats fireInput mouse).activePowerUps = g.activePowerUps := by
  simp only [fire]
  split_ifs <;> rfl

theorem effectsInv_pickupLoop (rl : Raylib) (todo : List PowerUp) :
    ∀ (r : Game × PowerStats × Bool), EffectsInv r.1 → EffectsInv (pickupLoop rl todo r).1 := by
  induction todo with
  | nil => intro r h; simpa [pickupLoop] using h
  | cons powerUp rest ih =>
    rintro ⟨g, stats, picked⟩ h
    simp only [pickupLoop]
    split_ifs
    · exact ih _ (effectsInv_ActivatePowerUp h _)
    · exact ih _ (effectsInv_of_eq h rfl)

theorem effectsInv_startRun (rl : Raylib) (g : Game) : EffectsInv (startRun rl g) := by
  have : (startRun rl g).activePowerUps = [] := rfl
  simp [EffectsInv, this, effectTypes]

theorem effectsInv_backToMenu {g : Game} (h : EffectsInv g) : EffectsInv (backToMenu g) :=
  effectsInv_of_eq h rfl

theorem effectsInv_applyUpgrade (rl : Raylib) (g : Game) (chosenOption : Int) :
    EffectsInv (applyUpgrade rl g chosenOption) := by
  have : (applyUpgrade rl g chosenOption).activePowerUps = [] := rfl
  simp [EffectsInv, this, effectTypes]

theorem effectsInv_afterPickup {r : Game × PowerStats × Bool} (h : EffectsInv r.1) :
    EffectsInv (afterPickup r) := by
  apply effectsInv_of_eq h
  simp only [afterPickup, syncShieldTimer]
  split_ifs <;> rfl

theorem effectsInv_waveClearCheck {g : Game} (h : EffectsInv g) :
    EffectsInv (waveClearCheck g) := by
  apply effectsInv_of_eq h
  simp only [waveClearCheck]
  split_ifs <;> rfl

theorem effectsInv_explosionExpiryPass {g : Game} (h : EffectsInv g) (delta : ℚ) :
    EffectsInv (explosionExpiryPass g delta) :=
  effectsInv_of_eq h rfl

theorem effectsInv_explosionPass {g : Game} (h : EffectsInv g) (rl : Raylib) :
    EffectsInv (explosionPass rl g) :=
  effectsInv_of_eq h (explosionLoop_activePowerUps rl g.explosions { g with explosions := [] })

theorem effectsInv_enemyPass {g : Game} (h : EffectsInv g) (rl : Raylib) (delta : ℚ) :
    EffectsInv (enemyPass rl g delta) :=
  effectsInv_enemyLoop rl delta g.enemies { g with enemies := [] } (effectsInv_of_eq h rfl)

theorem effectsInv_bulletPass {g : Game} (h : EffectsInv g) (rl : Raylib) (delta : ℚ) :
    EffectsInv (bulletPass rl g delta) :=
  effectsInv_of_eq h (bulletLoop_activePowerUps rl delta g.bullets { g with bullets := [] })

theorem effectsInv_fire {g : Game} (h : EffectsInv g) (rl : Raylib) (stats : PowerStats)
    (fireInput : Bool) (mouse : Vector2) : EffectsInv (fire rl g stats fireInput mouse) :=
  effectsInv_of_eq h (fire_activePowerUps rl g stats fireInput mouse)

theorem effectsInv_pickupPass {g : Game} (h : EffectsInv g) (rl : Raylib) (stats : PowerStats) :
    EffectsInv (pickupPass rl g stats).1 :=
  effectsInv_pickupLoop rl g.powerUps ({ g with powerUps := [] }, stats, false)
    (effectsInv_of_eq h rfl)

theorem effectsInv_movePlayer {g : Game} (h : EffectsInv g) (rl : Raylib) (inp : Input) :
    EffectsInv (movePlayer rl inp g) :=
  effectsInv_of_eq h rfl

theorem effectsInv_refreshStats {g : Game} (h : EffectsInv g) : EffectsInv (refreshStats g) :=
  effectsInv_of_eq h rfl

theorem effectsInv_periodicSpawn {g : Game} (h : EffectsInv g) (rl : Raylib) (delta : ℚ) :
    EffectsInv (periodicSpawn rl g delta) :=
  effectsInv_of_eq h (periodicSpawn_activePowerUps rl g delta)

theorem effectsInv_playingFrame {g : Game} (h : EffectsInv g) (rl : Raylib) (inp : Input)
    (mouse : Vector2) (fireInput : Bool) : EffectsInv (playingFrame rl inp g mouse fireInput) := by
  unfold playingFrame
  split_ifs
  · exact effectsInv_of_eq h rfl
  · apply effectsInv_waveClearCheck
    apply effectsInv_explosionExpiryPass
    apply effectsInv_explosionPass
    apply effectsInv_enemyPass
    apply effectsInv_bulletPass
    apply effectsInv_fire
    apply effectsInv_afterPickup
    apply effectsInv_pickupPass
    apply effectsInv_movePlayer
    apply effectsInv_refreshStats
    apply effectsInv_expiryPass
    apply effectsInv_periodicSpawn
    exact h

theorem effectsInv_frame {g g2 : Game} (h : EffectsInv g) (rl : Raylib) (inp : Input)
    (hstep : frame rl inp g = some g2) : EffectsInv g2 := by
  have h0 : EffectsInv (frameStart inp g) := by
    apply effectsInv_of_eq h
    simp only [frameStart]
    split_ifs <;> rfl
  simp only [frame] at hstep
  split at hstep
  · cases hstep
    apply effectsInv_of_eq h0
    simp only [splashFrame]
    split_ifs <;> rfl
  · simp only [menuFrame] at hstep
    split_ifs at hstep <;> cases hstep <;> first
      | exact h0
      | exact effectsInv_startRun rl _
  · cases hstep
    simp only [pausedFrame]
    split_ifs <;> first
      | exact effectsInv_startRun rl _
      | exact effectsInv_backToMenu (effectsInv_startRun rl _)
      | exact effectsInv_of_eq h0 rfl
  · cases hstep
    exact effectsInv_playingFrame h0 rl inp _ _
  · cases hstep
    simp only [upgradeFrame]
    split_ifs
    · exact effectsInv_applyUpgrade rl _ _
    · exact h0
  · cases hstep
    simp only [gameOverFrame]
    split_ifs <;> first
      | exact effectsInv_startRun rl _
      | exact effectsInv_backToMenu (effectsInv_startRun rl _)
      | exact effectsInv_of_eq h0 rfl

theorem reachable_effectsInv (rl : Raylib) {g : Game} (h : Reachable rl g) : EffectsInv g := by
  induction h with
  | initial => simp [EffectsInv, Game.initial, effectTypes]
  | step inp g g2 _ hstep ih => exact effectsInv_frame ih rl inp hstep
  | seed daySeed g _ ih => exact effectsInv_of_eq ih rfl

/-- C6: for every power-up type `t` other than the Health Pack and every
active-effect list with pairwise distinct types, `ActivatePowerUp(t)` yields a
list whose types are still pairwise distinct, that holds an entry of type `t`,
in which every entry of type `t` has `GetPowerUpDuration(t)` remaining, and
whose length is unchanged if `t` was active and one more otherwise. Hence in
every reachable session state the active effects have pairwise distinct
types. -/
theorem activate_keeps_one_entry_per_type (g : Game) (t : PowerUpType)
    (ht : t ≠ PowerUpType.HEALTH_PACK) (hnd : (effectTypes g.activePowerUps).Nodup) :
    (effectTypes (ActivatePowerUp g t).activePowerUps).Nodup ∧
      (∃ x ∈ (ActivatePowerUp g t).activePowerUps, x.type = t) ∧
      (∀ x ∈ (ActivatePowerUp g t).activePowerUps, x.type = t →
        x.remaining = GetPowerUpDuration t) ∧
      (ActivatePowerUp g t).activePowerUps.length =
        (if t ∈ effectTypes g.activePowerUps then g.activePowerUps.length
         else g.activePowerUps.length + 1) ∧
      (∀ (rl : Raylib) (g0 : Game), Reachable rl g0 → (effectTypes g0.activePowerUps).Nodup) := by
  have hinv : (effectTypes (ActivatePowerUp g t).activePowerUps).Nodup :=
    effectsInv_ActivatePowerUp (g := g) hnd t
  have hact := ActivatePowerUp_activePowerUps g t ht
  have hmemT : t ∈ effectTypes (ActivatePowerUp g t).activePowerUps := by
    rw [hact]
    split_ifs with hf
    · rw [refreshEffect_types]
      exact (refreshEffect_found t _ _).mp hf
    · simp [effectTypes]
  refine ⟨hinv, ?_, ?_, ?_, fun rl g0 h0 => reachable_effectsInv rl h0⟩
  · simp only [effectTypes, List.mem_map] at hmemT
    obtain ⟨x, hx, hxt⟩ := hmemT
    exact ⟨x, hx, hxt⟩
  · intro x hx hxt
    rw [hact] at hx
    split_ifs at hx with hf
    · exact refreshEffect_remaining t _ _ hnd x hx hxt
    · rcases List.mem_append.mp hx with hx | hx
      · exact refreshEffect_remaining t _ _ hnd x hx hxt
      · rw [List.mem_singleton.mp hx]
  · rw [hact]
    by_cases hf : (refreshEffect t (GetPowerUpDuration t) g.activePowerUps).2 = true
    · rw [if_pos hf, if_pos ((refreshEffect_found t _ _).mp hf), refreshEffect_length]
    · rw [if_neg hf, if_neg (fun hm => hf ((refreshEffect_found t _ _).mpr hm)),
        List.length_append, refreshEffect_length]
      rfl

/-- C6 at a Rapid Fire pickup while a Shield effect is active. -/
theorem activate_keeps_one_entry_per_type_witness :
    (PowerUpType.RAPID_FIRE ≠ PowerUpType.HEALTH_PACK ∧
      (effectTypes shieldedGame.activePowerUps).Nodup) ∧
      (effectTypes (ActivatePowerUp shieldedGame PowerUpType.RAPID_FIRE).activePowerUps).Nodup :=
  ⟨⟨by decide, by simp [effectTypes, shieldedGame]⟩,
    (activate_keeps_one_entry_per_type shieldedGame PowerUpType.RAPID_FIRE (by decide)
      (by simp [effectTypes, shieldedGame])).1⟩

/-! ## C7: the enemy count of a wave -/

theorem spawnLoop_length (rl : Raylib) (wave : Int) (pos : Vector2) (k : Nat) :
    ∀ (n : Nat) (acc : List Enemy), (spawnLoop rl wave pos k n acc).1.length = acc.length + k := by
  induction k with
  | zero => intro n acc; rfl
  | succ k ih =>
    intro n acc
    simp only [spawnLoop]
    rw [ih, List.length_append, List.length_singleton]
    omega

theorem waveEnemyCount_eq_spec (w : Int) (m : ℚ) : waveEnemyCount w m = specWaveCount w m := by
  simp only [waveEnemyCount, specWaveCount, clampTo]
  split_ifs <;> omega

@[simp]
theorem SpawnRandomPowerUp_explosions (rl : Raylib) (g : Game) (pos : Vector2) :
    (SpawnRandomPowerUp rl g pos).explosions = g.explosions := by
  unfold SpawnRandomPowerUp
  split <;> rfl

@[simp]
theorem SpawnRandomPowerUp_bullets (rl : Raylib) (g : Game) (pos : Vector2) :
    (SpawnRandomPowerUp rl g pos).bullets = g.bullets := by
  unfold SpawnRandomPowerUp
  split <;> rfl

@[simp]
theorem TryDropPowerUp_explosions (rl : Raylib) (g : Game) (pos : Vector2) :
    (TryDropPowerUp rl g pos).explosions = g.explosions := by
  unfold TryDropPowerUp
  simp only
  split_ifs <;> simp [CreatePowerUpInstance]

@[simp]
theorem TryDropPowerUp_bullets (rl : Raylib) (g : Game) (pos : Vector2) :
    (TryDropPowerUp rl g pos).bullets = g.bullets := by
  unfold TryDropPowerUp
  simp only
  split_ifs <;> simp [CreatePowerUpInstance]

/-- The projectile loop, from any point of the walk: the projectiles kept are
the moved ones still on screen, and the explosions added are one per moved
rocket that left the screen. -/
theorem bulletLoop_spec (rl : Raylib) (delta : ℚ) (todo : List Bullet) :
    ∀ g : Game,
      (bulletLoop rl delta todo g).bullets =
          g.bullets ++ (todo.map fun b => b.Update delta).filter (fun b => !b.IsOffScreen rl) ∧
        (bulletLoop rl delta todo g).explosions =
          g.explosions ++
            ((todo.map fun b => b.Update delta).filter fun b =>
              b.IsOffScreen rl && decide (b.type = ProjectileType.ROCKET)).map
              (fun b => rocketExplosion b.position b) := by
  induction todo with
  | nil => intro g; simp [bulletLoop]
  | cons b rest ih =>
    intro g
    simp only [bulletLoop, List.map_cons]
    by_cases hoff : (b.Update delta).IsOffScreen rl = true
    · by_cases hr : (b.Update delta).type = ProjectileType.ROCKET
      · simp only [hoff, hr, if_true]
        obtain ⟨i1, i2⟩ := ih (SpawnExplosion g (b.Update delta).position
          (if (b.Update delta).explosionRadius > 0 then (b.Update delta).explosionRadius
           else rocketExplosionRadius) (b.Update delta).damage)
        rw [i1, i2]
        simp [SpawnExplosion, List.filter_cons, hoff, hr, rocketExplosion]
      · simp only [hoff, hr, if_true, if_false]
        obtain ⟨i1, i2⟩ := ih g
        rw [i1, i2]
        simp [List.filter_cons, hoff, hr]
    · simp only [hoff]
      obtain ⟨i1, i2⟩ := ih { g with bullets := g.bullets ++ [b.Update delta] }
      simp only [Bool.false_eq_true, if_false]
      rw [i1, i2]
      simp [List.filter_cons, hoff]

theorem findHit_erases (rl : Raylib) (e : Enemy) (bullets : List Bullet) :
    ∀ (b : Bullet) (others : List Bullet), findHit rl e bullets = some (b, others) →
      rl.CheckCollisionCircles b.position b.radius e.position e.radius = true ∧
        ∃ before after : List Bullet, bullets = before ++ b :: after ∧ others = before ++ after ∧
          ∀ x ∈ before,
            rl.CheckCollisionCircles x.position x.radius e.position e.radius = false := by
  induction bullets with
  | nil => intro b others h; simp [findHit] at h
  | cons first rest ih =>
    intro b others h
    simp only [findHit] at h
    split_ifs at h with hc
    · simp only [Option.some.injEq, Prod.mk.injEq] at h
      obtain ⟨h1, h2⟩ := h
      subst h1 h2
      exact ⟨hc, [], rest, rfl, rfl, by simp⟩
    · simp only [Option.map_eq_some', Prod.mk.injEq] at h
      obtain ⟨⟨b2, o2⟩, hfind, hb, ho⟩ := h
      simp only at hb ho
      subst hb ho
      obtain ⟨hcol, before, after, h1, h2, h3⟩ := ih b2 o2 hfind
      refine ⟨hcol, first :: before, after, by rw [h1]; rfl, by rw [h2]; rfl, ?_⟩
      intro x hx
      rcases List.mem_cons.mp hx with hx | hx
      · rw [hx]; simpa using hc
      · exact h3 x hx

/-- The state after a projectile hit: the projectile is erased, a rocket adds
one explosion at the position of the enemy after the hit and a bullet adds
none, and the enemy is kept exactly when the hit leaves it some health. -/
theorem projectileHit_spec (rl : Raylib) (g : Game) (e : Enemy) (b : Bullet)
    (others : List Bullet) :
    (projectileHit rl g e b others).bullets = others ∧
      (projectileHit rl g e b others).explosions =
        g.explosions ++
          (if b.type = ProjectileType.ROCKET then
            [rocketExplosion (enemyAfterHit rl e b).position b]
           else []) ∧
      (projectileHit rl g e b others).enemies =
        (if (enemyAfterHit rl e b).health ≤ 0 then g.enemies
         else g.enemies ++ [enemyAfterHit rl e b]) := by
  simp only [projectileHit, enemyAfterHit, rocketExplosion]
  split_ifs <;> simp [SpawnExplosion]

/-- C8: in the per-frame projectile processing, the off-screen pass keeps the
moved projectiles that are still on screen and adds exactly one explosion, at
its last position, for every rocket it removes and none for a bullet; a
projectile that hits an enemy (the first one in the list that overlaps it) is
erased, and adds exactly one explosion at the position of the enemy after the
hit when it is a rocket, whether or not the enemy survives, and none when it
is a bullet. -/
theorem rockets_explode_once (rl : Raylib) (delta : ℚ) (g : Game) :
    ((bulletPass rl g delta).bullets =
        (g.bullets.map fun b => b.Update delta).filter (fun b => !b.IsOffScreen rl) ∧
      (bulletPass rl g delta).explosions =
        g.explosions ++
          ((g.bullets.map fun b => b.Update delta).filter fun b =>
            b.IsOffScreen rl && decide (b.type = ProjectileType.ROCKET)).map
            (fun b => rocketExplosion b.position b) ∧
      (bulletPass rl g delta).explosions.length =
        g.explosions.length +
          ((g.bullets.map fun b => b.Update delta).filter fun b =>
            b.IsOffScreen rl && decide (b.type = ProjectileType.ROCKET)).length) ∧
      (∀ (e : Enemy) (rest : List Enemy) (b : Bullet) (others : List Bullet),
        touchesPlayer rl delta g.player e = false →
        findHit rl (e.Update rl delta g.player.position) g.bullets = some (b, others) →
        enemyLoop rl delta (e :: rest) g =
            enemyLoop rl delta rest
              (projectileHit rl g (e.Update rl delta g.player.position) b others) ∧
          (∃ before after : List Bullet,
            g.bullets = before ++ b :: after ∧ others = before ++ after)) ∧
      (∀ (e : Enemy) (b : Bullet) (others : List Bullet),
        (projectileHit rl g e b others).bullets = others ∧
          (projectileHit rl g e b others).explosions =
            g.explosions ++
              (if b.type = ProjectileType.ROCKET then
                [rocketExplosion (enemyAfterHit rl e b).position b]
               else []) ∧
          (projectileHit rl g e b others).explosions.length =
            g.explosions.length + (if b.type = ProjectileType.ROCKET then 1 else 0) ∧
          (projectileHit rl g e b others).enemies =
            (if (enemyAfterHit rl e b).health ≤ 0 then g.enemies
             else g.enemies ++ [enemyAfterHit rl e b])) := by
  refine ⟨?_, ?_, ?_⟩
  · obtain ⟨i1, i2⟩ := bulletLoop_spec rl delta g.bullets { g with bullets := [] }
    refine ⟨by simpa [bulletPass] using i1, by simpa [bulletPass] using i2, ?_⟩
    unfold bulletPass
    rw [i2, List.length_append, List.length_map]
  · intro e rest b others htouch hfind
    constructor
    · simp only [touchesPlayer] at htouch
      simp only [enemyLoop, htouch, hfind, Bool.false_eq_true, if_false]
    · obtain ⟨_, before, after, h1, h2, _⟩ := findHit_erases rl _ _ b others hfind
      exact ⟨before, after, h1, h2⟩
  · intro e b others
    obtain ⟨i1, i2, i3⟩ := projectileHit_spec rl g e b others
    refine ⟨i1, i2, ?_, i3⟩
    rw [i2, List.length_append]
    split_ifs <;> rfl

/-! ## C9: an explosion applies its area damage once -/

theorem SpawnRandomPowerUp_withExplosions (rl : Raylib) (g : Game) (pos : Vector2)
    (X : List Explosion) :
    SpawnRandomPowerUp rl { g with explosions := X } pos =
      { SpawnRandomPowerUp rl g pos with explosions := X } := by
  unfold SpawnRandomPowerUp
  simp only
  split_ifs <;> rfl

theorem TryDropPowerUp_withExplosions (rl : Raylib) (g : Game) (pos : Vector2)
    (X : List Explosion) :
    TryDropPowerUp rl { g with explosions := X } pos =
      { TryDropPowerUp rl g pos with explosions := X } := by
  unfold TryDropPowerUp
  simp only
  split_ifs <;> first
    | exact SpawnRandomPowerUp_withExplosions rl { g with randCalls := g.randCalls + 1 } pos X
    | exact SpawnRandomPowerUp_withExplosions rl { g with randCalls := g.randCalls + 1 + 1 } pos X
    | rfl

theorem explosionDamage_withExplosions (rl : Raylib) (explosion : Explosion)
    (todo : List Enemy) :
    ∀ (g : Game) (X : List Explosion),
      explosionDamage rl explosion todo { g with explosions := X } =
        { explosionDamage rl explosion todo g with explosions := X } := by
  induction todo with
  | nil => intro g X; rfl
  | cons e rest ih =>
    intro g X
    simp only [explosionDamage]
    split_ifs
    · rw [TryDropPowerUp_withExplosions]
      exact ih { TryDropPowerUp rl g (enemyAfterBlast rl explosion e).position with
        enemiesRemaining :=
          (TryDropPowerUp rl g (enemyAfterBlast rl explosion e).position).enemiesRemaining - 1 } X
    · exact ih { g with enemies := g.enemies ++ [enemyAfterBlast rl explosion e] } X
    · exact ih { g with enemies := g.enemies ++ [e] } X

theorem explosionDamage_explosions (rl : Raylib) (explosion : Explosion) (todo : List Enemy) :
    ∀ g : Game, (explosionDamage rl explosion todo g).explosions = g.explosions := by
  induction todo with
  | nil => intro g; rfl
  | cons e rest ih =>
    intro g
    simp only [explosionDamage]
    split_ifs <;> simp [ih]

/-- One explosion's area-damage loop visits every enemy once: the enemies kept
are the outcomes of `blastOutcome`, in order. -/
theorem explosionDamage_enemies (rl : Raylib) (explosion : Explosion) (todo : List Enemy) :
    ∀ g : Game, (explosionDamage rl explosion todo g).enemies =
      g.enemies ++ todo.filterMap (blastOutcome rl explosion) := by
  induction todo with
  | nil => intro g; simp [explosionDamage]
  | cons e rest ih =>
    intro g
    simp only [explosionDamage, List.filterMap_cons, blastOutcome]
    split_ifs <;> rw [ih] <;> simp

theorem setApplied_of_applied (ex : Explosion) (h : ex.applied = true) :
    ({ ex with applied := true } : Explosion) = ex := by
  cases ex
  simp only at h
  simp [h]

theorem explosionLoop_applied (rl : Raylib) (ex : Explosion) (rest : List Explosion) (g : Game)
    (h : ex.applied = true) :
    explosionLoop rl (ex :: rest) g =
      explosionLoop rl rest { g with explosions := g.explosions ++ [ex] } := by
  simp only [explosionLoop, h, if_true]

theorem explosionLoop_live (rl : Raylib) (ex : Explosion) (rest : List Explosion) (g : Game)
    (h : ¬ ex.applied = true) :
    explosionLoop rl (ex :: rest) g =
      explosionLoop rl rest
        { explosionDamage rl ex g.enemies { g with enemies := [] } with
          explosions := g.explosions ++ [{ ex with applied := true }] } := by
  simp only [explosionLoop, h, Bool.false_eq_true, if_false, explosionDamage_explosions]

/-- The explosions visited so far do not influence the area-damage loop: they
are carried along, followed by the visited explosions with their flag set. -/
theorem explosionLoop_withExplosions (rl : Raylib) (todo : List Explosion) :
    ∀ (g : Game) (X : List Explosion),
      explosionLoop rl todo { g with explosions := X } =
        { explosionLoop rl todo g with
          explosions := X ++ todo.map fun ex => { ex with applied := true } } := by
  induction todo with
  | nil => intro g X; simp [explosionLoop]
  | cons ex rest ih =>
    intro g X
    by_cases ha : ex.applied = true
    · rw [explosionLoop_applied rl ex rest _ ha, explosionLoop_applied rl ex rest g ha]
      have e1 := ih g (X ++ [ex])
      have e2 := ih g (g.explosions ++ [ex])
      simp only at e1 e2 ⊢
      rw [e1, e2]
      simp [setApplied_of_applied ex ha]
    · rw [explosionLoop_live rl ex rest _ ha, explosionLoop_live rl ex rest g ha]
      have e0 := explosionDamage_withExplosions rl ex g.enemies { g with enemies := [] } X
      have e1 := ih (explosionDamage rl ex g.enemies { g with enemies := [] })
        (X ++ [{ ex with applied := true }])
      have e2 := ih (explosionDamage rl ex g.enemies { g with enemies := [] })
        (g.explosions ++ [{ ex with applied := true }])
      simp only at e0 e1 e2 ⊢
      rw [e0]
      simp only
      rw [e1, e2]
      simp

/-- The area-damage loop gives the same state as the loop over the explosions
not applied yet, except for the list of explosions, in which every visited
explosion has its flag set. -/
theorem explosionLoop_skips_applied (rl : Raylib) (todo : List Explosion) :
    ∀ g : Game,
      explosionLoop rl todo g =
        { explosionLoop rl (todo.filter fun ex => !ex.applied) g with
          explosions := g.explosions ++ todo.map fun ex => { ex with applied := true } } := by
  induction todo with
  | nil => intro g; simp [explosionLoop]
  | cons ex rest ih =>
    intro g
    by_cases ha : ex.applied = true
    · rw [explosionLoop_applied rl ex rest g ha]
      have e1 := explosionLoop_withExplosions rl rest g (g.explosions ++ [ex])
      simp only at e1
      rw [e1, ih g]
      simp [List.filter_cons, ha, setApplied_of_applied ex ha]
    · rw [explosionLoop_live rl ex rest g ha]
      have hf : ((ex :: rest).filter fun ex => !ex.applied) =
          ex :: rest.filter fun ex => !ex.applied := by
        simp [List.filter_cons, ha]
      rw [hf, explosionLoop_live rl ex _ g ha]
      have e1 := explosionLoop_withExplosions rl rest
        (explosionDamage rl ex g.enemies { g with enemies := [] })
        (g.explosions ++ [{ ex with applied := true }])
      have e2 := explosionLoop_withExplosions rl (rest.filter fun ex => !ex.applied)
        (explosionDamage rl ex g.enemies { g with enemies := [] })
        (g.explosions ++ [{ ex with applied := true }])
      simp only at e1 e2
      rw [e1, e2, ih]
      simp

theorem explosionPass_skips_applied (rl : Raylib) (g : Game) :
    explosionPass rl g =
      { explosionPass rl { g with explosions := g.explosions.filter fun ex => !ex.applied } with
        explosions := g.explosions.map fun ex => { ex with applied := true } } := by
  unfold explosionPass
  rw [explosionLoop_skips_applied]
  simp

theorem explosionPass_of_applied (rl : Raylib) (g : Game)
    (h : ∀ ex ∈ g.explosions, ex.applied = true) : explosionPass rl g = g := by
  rw [explosionPass_skips_applied]
  have hf : (g.explosions.filter fun ex => !ex.applied) = [] := by
    rw [List.filter_eq_nil_iff]
    intro ex hex
    simp [h ex hex]
  have hm : (g.explosions.map fun ex => ({ ex with applied := true } : Explosion)) =
      g.explosions := by
    conv_rhs => rw [← List.map_id g.explosions]
    apply List.map_congr_left
    intro ex hex
    exact setApplied_of_applied ex (h ex hex)
  rw [hf, hm]
  simp [explosionPass, explosionLoop]

theorem explosionPass_explosions (rl : Raylib) (g : Game) :
    (explosionPass rl g).explosions =
      g.explosions.map fun ex => { ex with applied := true } := by
  rw [explosionPass_skips_applied]

/-- C9: the area-damage loop of one explosion visits every enemy once: an
enemy outside `explosion.radius + enemy.radius` is kept as it is, an enemy
inside is hit by one `ApplyHit` and kept only if it has health left. After the
pass every explosion has its flag set. An explosion whose flag is set changes
nothing in a later pass: the pass gives the state it would give without the
explosions already applied (up to the list of explosions itself), it is the
identity when all explosions are applied, and so running it twice is running
it once. -/
theorem explosion_damage_applied_once (rl : Raylib) (g : Game) :
    (∀ (ex : Explosion) (enemies : List Enemy) (g0 : Game),
        (explosionDamage rl ex enemies g0).enemies =
          g0.enemies ++ enemies.filterMap (blastOutcome rl ex)) ∧
      (∀ ex : Explosion, g.explosions = [ex] → ex.applied = false →
        (explosionPass rl g).enemies = g.enemies.filterMap (blastOutcome rl ex)) ∧
      (explosionPass rl g).explosions =
        (g.explosions.map fun ex => { ex with applied := true }) ∧
      (∀ ex ∈ (explosionPass rl g).explosions, ex.applied = true) ∧
      explosionPass rl g =
        { explosionPass rl
            { g with explosions := g.explosions.filter fun ex => !ex.applied } with
          explosions := g.explosions.map fun ex => { ex with applied := true } } ∧
      ((∀ ex ∈ g.explosions, ex.applied = true) → explosionPass rl g = g) ∧
      explosionPass rl (explosionPass rl g) = explosionPass rl g := by
  have hall : ∀ ex ∈ (explosionPass rl g).explosions, ex.applied = true := by
    intro ex hex
    rw [explosionPass_explosions, List.mem_map] at hex
    obtain ⟨x, _, hx⟩ := hex
    rw [← hx]
  refine ⟨fun ex enemies g0 => explosionDamage_enemies rl ex enemies g0, ?_,
    explosionPass_explosions rl g, hall, explosionPass_skips_applied rl g,
    explosionPass_of_applied rl g, explosionPass_of_applied rl _ hall⟩
  intro ex hex ha
  have hna : ¬ ex.applied = true := by simp [ha]
  unfold explosionPass
  rw [hex, explosionLoop_live rl ex [] _ hna]
  simp only [explosionLoop]
  rw [explosionDamage_enemies]
  simp

/-! ## Drop rolls -/

theorem truncToInt_intCast (z : Int) : truncToInt (z : ℚ) = z := by
  unfold truncToInt
  split <;> simp

theorem sample_roll (n : Nat) (hi : Int) (h : 0 ≤ hi) :
    GetRandomValue sampleRaylib n 0 hi = 0 := by
  have : ¬ (0 > hi) := by omega
  simp [GetRandomValue, sampleRaylib, this]

theorem fullHealth_bias_threshold :
    truncToInt (specHealthPackBias fullHealthGame.player.health
      fullHealthGame.player.maxHealth * 1000) = 550 := by
  have : specHealthPackBias fullHealthGame.player.health fullHealthGame.player.maxHealth * 1000 =
      ((550 : Int) : ℚ) := by
    norm_num [specHealthPackBias, healthDropBias, fullHealthGame, Player.new]
  rw [this, truncToInt_intCast]

theorem SpawnRandomPowerUp_powerUps (rl : Raylib) (g : Game) (pos : Vector2)
    (hcap : (g.powerUps.length : Int) < maxFieldPowerUps) :
    ∃ p : PowerUp, p.type ≠ PowerUpType.HEALTH_PACK ∧
      (SpawnRandomPowerUp rl g pos).powerUps = g.powerUps ++ [p] := by
  have hcap2 : ¬ ((g.powerUps.length : Int) ≥ maxFieldPowerUps) := not_le.mpr hcap
  simp only [SpawnRandomPowerUp, hcap2, if_false, CreatePowerUpInstance]
  refine ⟨_, ?_, rfl⟩
  simp only
  generalize (GetRandomValue rl g.randCalls 0 _).toNat = i
  have hbag : ∀ (bag : List PowerUpType), (∀ t ∈ bag, t ≠ PowerUpType.HEALTH_PACK) →
      bag.getD i PowerUpType.RAPID_FIRE ≠ PowerUpType.HEALTH_PACK := by
    intro bag hb
    rw [List.getD_eq_getElem?_getD]
    cases hget : bag[i]? with
    | none => simp
    | some t =>
      simp only [Option.getD_some]
      exact hb t (List.getElem?_mem hget)
  apply hbag
  intro t ht
  split_ifs at ht <;> simp at ht <;> intro hh <;> subst hh <;> simp at ht

theorem drop_of_append (l : List PowerUp) (p : PowerUp) :
    ((l ++ [p]).drop l.length).map (fun q => q.type) = [p.type] := by
  simp

/-! ## C12: the Health Pack -/

/-- C12: for every session whose player has `health ≤ maxHealth` (so in
particular when `0 ≤ health ≤ maxHealth`), `ActivatePowerUp(HEALTH_PACK)` sets
the health to `min(maxHealth, health + 30)` and changes nothing else: the
active-effect list, the shield charges, the shield timer and the fire timer
are the same; 50 / 100 becomes 80 / 100 and 90 / 100 becomes 100 / 100. -/
theorem health_pack_heals (g : Game) (h1 : g.player.health ≤ g.player.maxHealth) :
    ActivatePowerUp g PowerUpType.HEALTH_PACK =
        { g with player :=
            { g.player with health := min g.player.maxHealth (g.player.health + 30) } } ∧
      (ActivatePowerUp g PowerUpType.HEALTH_PACK).player.health =
        min g.player.maxHealth (g.player.health + 30) ∧
      (ActivatePowerUp g PowerUpType.HEALTH_PACK).activePowerUps = g.activePowerUps ∧
      (ActivatePowerUp g PowerUpType.HEALTH_PACK).player.shieldCharges = g.player.shieldCharges ∧
      (ActivatePowerUp g PowerUpType.HEALTH_PACK).player.shieldTimer = g.player.shieldTimer ∧
      (ActivatePowerUp g PowerUpType.HEALTH_PACK).fireTimer = g.fireTimer ∧
      (g.player.health = 50 → g.player.maxHealth = 100 →
        (ActivatePowerUp g PowerUpType.HEALTH_PACK).player.health = 80) ∧
      (g.player.health = 90 → g.player.maxHealth = 100 →
        (ActivatePowerUp g PowerUpType.HEALTH_PACK).player.health = 100) := by
  have key : ActivatePowerUp g PowerUpType.HEALTH_PACK =
      { g with player :=
          { g.player with health := min g.player.maxHealth (g.player.health + 30) } } := by
    simp only [ActivatePowerUp, if_true, healthPickupAmount]
    split_ifs with hlt
    · rfl
    · have hmin : min g.player.maxHealth (g.player.health + 30) = g.player.health := by
        rw [min_eq_left (by omega)]
        omega
      rw [hmin]
  refine ⟨key, ?_, ?_, ?_, ?_, ?_, ?_, ?_⟩
  · rw [key]
  · rw [key]
  · rw [key]
  · rw [key]
  · rw [key]
  · intro a b
    rw [key]
    simp only [a, b]
    decide
  · intro a b
    rw [key]
    simp only [a, b]
    decide

/-- C12 at a player at 50 of 100 health. -/
theorem health_pack_heals_witness :
    hurtGame.player.health ≤ hurtGame.player.maxHealth ∧
      (ActivatePowerUp hurtGame PowerUpType.HEALTH_PACK).player.health =
        min hurtGame.player.maxHealth (hurtGame.player.health + 30) :=
  ⟨by decide, (health_pack_heals hurtGame (by decide)).2.1⟩

/-! ## C13: an unshielded contact -/

/-- The values of a GRUNT built for wave 1: health 45, contact damage 12. -/
theorem Enemy.new_grunt_wave1 (rl : Raylib) (n : Nat) (pos : Vector2) :
    (Enemy.new rl n pos EnemyType.GRUNT 1).contactDamage = 12 ∧
      (Enemy.new rl n pos EnemyType.GRUNT 1).health = 45 := by
  have h12 : roundHalfAway (12 : ℚ) = 12 := roundHalfAway_intCast 12
  have h45 : roundHalfAway (45 : ℚ) = 45 := roundHalfAway_intCast 45
  have ha : (12 : ℚ) * (1 + (((1 : Int) - 1 : Int) : ℚ) * (1 / 10)) = 12 := by norm_num
  have hb : (45 : ℚ) * (1 + (((1 : Int) - 1 : Int) : ℚ) * (18 / 100)) = 45 := by norm_num
  simp only [Enemy.new, ha, hb, h12, h45]
  constructor <;> rfl

/-- C13: when the player has no shield charge and an enemy touches the player
in the enemy loop, the health becomes `max(0, health - contactDamage)`, the
enemy is removed from the list and `enemiesRemaining` goes down by 1, while
the charges stay as they were; a GRUNT built for wave 1 has contact damage 12,
and with it a player at health 100 is left at 88. -/
theorem unshielded_contact (rl : Raylib) (delta : ℚ) (g : Game) (e : Enemy)
    (rest : List Enemy) (hc : g.player.shieldCharges ≤ 0)
    (hcol : touchesPlayer rl delta g.player e = true) :
    enemyLoop rl delta (e :: rest) g =
        enemyLoop rl delta rest (contactHit rl g (e.Update rl delta g.player.position)) ∧
      (contactHit rl g (e.Update rl delta g.player.position)).player.health =
        max 0 (g.player.health - e.contactDamage) ∧
      (contactHit rl g (e.Update rl delta g.player.position)).player.shieldCharges =
        g.player.shieldCharges ∧
      (contactHit rl g (e.Update rl delta g.player.position)).enemies = g.enemies ∧
      (contactHit rl g (e.Update rl delta g.player.position)).enemiesRemaining =
        g.enemiesRemaining - 1 ∧
      (∀ (n : Nat) (pos : Vector2), (Enemy.new rl n pos EnemyType.GRUNT 1).contactDamage = 12) ∧
      (g.player.health = 100 → e.contactDamage = 12 →
        (contactHit rl g (e.Update rl delta g.player.position)).player.health = 88) := by
  have hpl := contactHit_player rl g (e.Update rl delta g.player.position)
  rw [if_neg (by omega), Enemy.Update_contactDamage] at hpl
  have hh : (contactHit rl g (e.Update rl delta g.player.position)).player.health =
      max 0 (g.player.health - e.contactDamage) := by
    rw [hpl]
    simp only
    split_ifs with hlt
    · rw [max_eq_left (by omega)]
    · rw [max_eq_right (by omega)]
  refine ⟨?_, hh, by rw [hpl], contactHit_enemies _ _ _, contactHit_enemiesRemaining _ _ _,
    fun n pos => (Enemy.new_grunt_wave1 rl n pos).1, ?_⟩
  · simp only [touchesPlayer] at hcol
    simp only [enemyLoop, hcol, if_true]
  · intro a b
    rw [hh, a, b]
    decide

/-- C13 at a wave-1 GRUNT standing on a player at full health without a
shield: 100 becomes 88. -/
theorem unshielded_contact_witness :
    (fullHealthGame.player.shieldCharges ≤ 0 ∧
      touchesPlayer sampleRaylib 0 fullHealthGame.player gruntOnPlayer = true) ∧
      (contactHit sampleRaylib fullHealthGame
        (gruntOnPlayer.Update sampleRaylib 0 fullHealthGame.player.position)).player.health =
        88 :=
  ⟨⟨by decide, by
      norm_num [touchesPlayer, sampleRaylib, fullHealthGame, gruntOnPlayer, Enemy.Update,
        Player.new, Vector2Subtract, Vector2Scale, Vector2Add, Vector2Zero]⟩,
    (unshielded_contact sampleRaylib 0 fullHealthGame gruntOnPlayer [] (by decide) (by
      norm_num [touchesPlayer, sampleRaylib, fullHealthGame, gruntOnPlayer, Enemy.Update,
        Player.new, Vector2Subtract, Vector2Scale, Vector2Add, Vector2Zero])).2.2.2.2.2.2
      rfl rfl⟩

/-! ## C16: `ApplyHit` -/

/-- C16: `ApplyHit(damage, dir, strength)` sets the health to
`max(0, health - damage)` and the flash timer to 0.12; when `strength > 0` and
`dir` is not the zero vector the position moves along the normalised `dir` by
`strength * (1 - clamp(knockbackResistance, 0, 0.95))`, otherwise it stays;
no other field changes. The combat callers pass the direction from the
projectile or explosion to the enemy, normalised when its length is positive,
with strength 70 for a rocket, 40 for a bullet and 90 for an explosion. -/
theorem applyHit_effect (rl : Raylib) (e : Enemy) (damage : Int) (dir : Vector2)
    (strength : ℚ) :
    (e.ApplyHit rl damage dir strength).health = max 0 (e.health - damage) ∧
      (e.ApplyHit rl damage dir strength).flashTimer = 12 / 100 ∧
      (e.ApplyHit rl damage dir strength).position =
        (if 0 < strength ∧ dir ≠ ⟨0, 0⟩ then
          Vector2Add e.position
            (Vector2Scale (rl.Vector2Normalize dir)
              (strength * (1 - clampRat 0 (95 / 100) e.knockbackResistance)))
        else e.position) ∧
      e.ApplyHit rl damage dir strength =
        { e with health := (e.ApplyHit rl damage dir strength).health
                 flashTimer := (e.ApplyHit rl damage dir strength).flashTimer
                 position := (e.ApplyHit rl damage dir strength).position } ∧
      (∀ b : Bullet, enemyAfterHit rl e b =
        e.ApplyHit rl b.damage
          (if rl.Vector2Length (Vector2Subtract e.position b.position) > 0 then
            rl.Vector2Normalize (Vector2Subtract e.position b.position)
          else Vector2Subtract e.position b.position)
          (if b.type = ProjectileType.ROCKET then 70 else 40)) ∧
      (∀ x : Explosion, enemyAfterBlast rl x e =
        e.ApplyHit rl x.damage
          (if rl.Vector2Length (Vector2Subtract e.position x.position) > 0 then
            rl.Vector2Normalize (Vector2Subtract e.position x.position)
          else Vector2Subtract e.position x.position)
          90) := by
  refine ⟨?_, rfl, ?_, rfl, fun _ => rfl, fun _ => rfl⟩
  · simp only [Enemy.ApplyHit]
    split_ifs with hlt
    · rw [max_eq_left (by omega)]
    · rw [max_eq_right (by omega)]
  · have hres : (if (if e.knockbackResistance < 0 then (0 : ℚ) else e.knockbackResistance) >
          95 / 100 then (95 / 100 : ℚ)
        else (if e.knockbackResistance < 0 then (0 : ℚ) else e.knockbackResistance)) =
        clampRat 0 (95 / 100) e.knockbackResistance := by
      simp only [clampRat]
      by_cases h0 : e.knockbackResistance < 0
      · rw [if_pos h0, max_eq_left h0.le, if_neg (by norm_num), min_eq_right (by norm_num)]
      · rw [if_neg h0, max_eq_right (not_lt.mp h0)]
        by_cases h1 : e.knockbackResistance > 95 / 100
        · rw [if_pos h1, min_eq_left h1.le]
        · rw [if_neg h1, min_eq_right (not_lt.mp h1)]
    have hdir : (dir ≠ (⟨0, 0⟩ : Vector2)) ↔ (dir.x ≠ 0 ∨ dir.y ≠ 0) := by
      cases dir with
      | mk x y =>
        simp only [ne_eq, Vector2.mk.injEq, not_and_or]
    simp only [Enemy.ApplyHit, hres, hdir, gt_iff_lt]

/-! ## C17: the wave scale factors -/

/-- The `Enemy` constructor uses the three scale factors: the health is
`max(1, round(baseHealth * healthScale))`, the contact damage is
`max(1, round(baseDamage * damageScale))` and the speed of a GRUNT is
`90 * speedScale`. -/
theorem Enemy.new_scales (rl : Raylib) (n : Nat) (pos : Vector2) (t : EnemyType) (wave : Int) :
    (Enemy.new rl n pos t wave).health =
        max 1 (roundHalfAway ((baseHealth t : ℚ) * healthScale wave)) ∧
      (Enemy.new rl n pos t wave).contactDamage =
        max 1 (roundHalfAway ((baseContactDamage t : ℚ) * damageScale wave)) ∧
      (Enemy.new rl n pos t wave).speed =
        (match t with
          | .GRUNT => 90 * speedScale wave
          | .RUNNER => 140 * speedScale wave
          | .TANK => 60 * speedScale wave * (85 / 100)) := by
  have key : ∀ e : Enemy,
      (if (if e.health < 1 then { e with health := 1 } else e).contactDamage < 1 then
          { (if e.health < 1 then { e with health := 1 } else e) with contactDamage := 1 }
        else (if e.health < 1 then { e with health := 1 } else e)).health = max 1 e.health ∧
      (if (if e.health < 1 then { e with health := 1 } else e).contactDamage < 1 then
          { (if e.health < 1 then { e with health := 1 } else e) with contactDamage := 1 }
        else (if e.health < 1 then { e with health := 1 } else e)).contactDamage =
        max 1 e.contactDamage ∧
      (if (if e.health < 1 then { e with health := 1 } else e).contactDamage < 1 then
          { (if e.health < 1 then { e with health := 1 } else e) with contactDamage := 1 }
        else (if e.health < 1 then { e with health := 1 } else e)).speed = e.speed := by
    intro e
    by_cases h1 : e.health < 1 <;> by_cases h2 : e.contactDamage < 1 <;>
      simp only [h1, h2, if_true, if_false] <;>
      refine ⟨?_, ?_, ?_⟩ <;>
      first
        | trivial
        | rfl
        | rw [max_eq_left (by omega)]
        | rw [max_eq_right (by omega)]
  cases t <;> exact key _

/-- C17 as stated fails at wave 2: the scale factors are 1.18 for health and
1.1 for contact damage, so the health factor is not below the damage factor. -/
theorem scale_order_counterexample :
    healthScale 2 = 118 / 100 ∧ damageScale 2 = 11 / 10 ∧ ¬ scaleOrderClaim 2 := by
  have a : healthScale 2 = 118 / 100 := by norm_num [healthScale]
  have b : damageScale 2 = 11 / 10 := by norm_num [damageScale]
  refine ⟨a, b, ?_⟩
  rintro ⟨h, _⟩
  rw [a, b] at h
  norm_num at h

/-- C17, amended: the enemy constructor scales health, contact damage and
speed with `wave - 1` at the rates 0.18, 0.10 and 0.05, so for every wave
`w ≥ 2` the health scale factor is larger than the damage scale factor, which
is larger than the speed scale factor. -/
theorem scale_order (w : Int) (hw : 2 ≤ w) :
    speedScale w < damageScale w ∧ damageScale w < healthScale w ∧
      (∀ (rl : Raylib) (n : Nat) (pos : Vector2) (t : EnemyType),
        (Enemy.new rl n pos t w).health =
            max 1 (roundHalfAway ((baseHealth t : ℚ) * healthScale w)) ∧
          (Enemy.new rl n pos t w).contactDamage =
            max 1 (roundHalfAway ((baseContactDamage t : ℚ) * damageScale w)) ∧
          (Enemy.new rl n pos t w).speed =
            (match t with
              | .GRUNT => 90 * speedScale w
              | .RUNNER => 140 * speedScale w
              | .TANK => 60 * speedScale w * (85 / 100))) := by
  have h : (0 : ℚ) < ((w - 1 : Int) : ℚ) := by
    have : (0 : Int) < w - 1 := by omega
    exact_mod_cast this
  refine ⟨?_, ?_, fun rl n pos t => Enemy.new_scales rl n pos t w⟩
  · simp only [speedScale, damageScale]
    nlinarith
  · simp only [healthScale, damageScale]
    nlinarith

/-- C17, amended, at wave 2: 1.05 < 1.1 < 1.18. -/
theorem scale_order_witness :
    (2 : Int) ≤ 2 ∧ speedScale 2 < damageScale 2 ∧ damageScale 2 < healthScale 2 :=
  ⟨le_refl 2, (scale_order 2 (le_refl 2)).1, (scale_order 2 (le_refl 2)).2.1⟩

/-! ## The fold of `ComputePowerStats` -/

theorem foldl_max_largest (a x : ℚ) (xs : List ℚ) :
    xs.foldl max (max a x) = max a (xs.foldl max x) := by
  induction xs generalizing x with
  | nil => rfl
  | cons y ys ih =>
    simp only [List.foldl_cons]
    rw [max_assoc, ih]

theorem foldl_max_eq (a : ℚ) (xs : List ℚ) : xs.foldl max a = max a (largestOr a xs) := by
  cases xs with
  | nil => simp [largestOr]
  | cons x xs =>
    simp only [List.foldl_cons, largestOr]
    exact foldl_max_largest a x xs

theorem foldl_max_ge (a : ℚ) (xs : List ℚ) : a ≤ xs.foldl max a := by
  rw [foldl_max_eq]
  exact le_max_left _ _

theorem largestOr_nonneg (xs : List ℚ) (h : ∀ x ∈ xs, 0 ≤ x) : 0 ≤ largestOr 0 xs := by
  cases xs with
  | nil => exact le_refl 0
  | cons x xs =>
    simp only [largestOr]
    exact le_trans (h x (List.mem_cons_self x xs)) (foldl_max_ge x xs)

/-- The fold of `ComputePowerStats` from any starting stats. -/
theorem powerFold_spec (effects : List ActivePowerUp) : ∀ s : PowerStats,
    effects.foldl
        (fun stats effect =>
          match effect.type with
          | .RAPID_FIRE =>
            { stats with fireRateMultiplier := stats.fireRateMultiplier * (175 / 100) }
          | .SPREAD_SHOT => { stats with spreadLevel := max stats.spreadLevel 1 }
          | .DAMAGE_BOOST => { stats with damageMultiplier := stats.damageMultiplier * (16 / 10) }
          | .SPEED_BOOST => { stats with speedMultiplier := stats.speedMultiplier * (135 / 100) }
          | .SHIELD => { stats with shieldRemaining := max stats.shieldRemaining effect.remaining }
          | .ROCKET_LAUNCHER => { stats with rocketLauncher := true }
          | .HEALTH_PACK => stats)
        s =
      { speedMultiplier :=
          s.speedMultiplier * (135 / 100) ^ (effectTypes effects).count PowerUpType.SPEED_BOOST
        fireRateMultiplier :=
          s.fireRateMultiplier * (175 / 100) ^ (effectTypes effects).count PowerUpType.RAPID_FIRE
        damageMultiplier :=
          s.damageMultiplier * (16 / 10) ^ (effectTypes effects).count PowerUpType.DAMAGE_BOOST
        spreadLevel :=
          if PowerUpType.SPREAD_SHOT ∈ effectTypes effects then max s.spreadLevel 1
          else s.spreadLevel
        shieldRemaining := (shieldTimes effects).foldl max s.shieldRemaining
        rocketLauncher :=
          s.rocketLauncher || decide (PowerUpType.ROCKET_LAUNCHER ∈ effectTypes effects) } := by
  induction effects with
  | nil =>
    intro s
    simp [effectTypes, shieldTimes]
  | cons e rest ih =>
    intro s
    obtain ⟨t, r⟩ := e
    rw [List.foldl_cons, ih]
    cases t <;>
      simp [effectTypes, shieldTimes, List.count_cons, pow_succ, mul_assoc, mul_comm,
        mul_left_comm, max_assoc]


theorem expireEffects_pos (delta : ℚ) (effects : List ActivePowerUp) :
    ∀ p : Player, ∀ e ∈ (expireEffects delta effects p).1, 0 < e.remaining := by
  induction effects with
  | nil => intro p e he; simp [expireEffects] at he
  | cons effect rest ih =>
    intro p e he
    simp only [expireEffects] at he
    by_cases h : effect.remaining - delta ≤ 0
    · rw [if_pos h] at he
      exact ih _ e he
    · rw [if_neg h] at he
      rcases List.mem_cons.mp he with he | he
      · rw [he]
        exact not_le.mp h
      · exact ih _ e he

theorem GetPowerUpDuration_nonneg (t : PowerUpType) : 0 ≤ GetPowerUpDuration t := by
  cases t <;> norm_num [GetPowerUpDuration]

theorem refreshEffect_nonneg (t : PowerUpType) (d : ℚ) (hd : 0 ≤ d)
    (effects : List ActivePowerUp) (h : ∀ e ∈ effects, 0 ≤ e.remaining) :
    ∀ e ∈ (refreshEffect t d effects).1, 0 ≤ e.remaining := by
  induction effects with
  | nil => intro e he; simp [refreshEffect] at he
  | cons effect rest ih =>
    intro e he
    have hrest : ∀ x ∈ rest, 0 ≤ x.remaining := fun x hx => h x (List.mem_cons_of_mem _ hx)
    simp only [refreshEffect] at he
    split_ifs at he with ht
    · rcases List.mem_cons.mp he with he | he
      · rw [he]
        exact hd
      · exact hrest e he
    · rcases List.mem_cons.mp he with he | he
      · rw [he]
        exact h effect (List.mem_cons_self _ _)
      · exact ih hrest e he

theorem ActivatePowerUp_nonneg (g : Game) (t : PowerUpType)
    (h : ∀ e ∈ g.activePowerUps, 0 ≤ e.remaining) :
    ∀ e ∈ (ActivatePowerUp g t).activePowerUps, 0 ≤ e.remaining := by
  by_cases ht : t = PowerUpType.HEALTH_PACK
  · subst ht
    simp only [ActivatePowerUp, if_true]
    split_ifs <;> exact h
  · rw [ActivatePowerUp_activePowerUps g t ht]
    have hr := refreshEffect_nonneg t (GetPowerUpDuration t) (GetPowerUpDuration_nonneg t)
      g.activePowerUps h
    split_ifs
    · exact hr
    · intro e he
      rcases List.mem_append.mp he with he | he
      · exact hr e he
      · rw [List.mem_singleton.mp he]
        exact (GetPowerUpDuration_nonneg t)

/-- The stats of `ComputePowerStats`: those of the specification, with the
shield time floored at 0. -/
theorem computePowerStats_eq (effects : List ActivePowerUp) :
    ComputePowerStats effects =
      { speedMultiplier := (specPowerStats effects).speedMultiplier
        fireRateMultiplier := (specPowerStats effects).fireRateMultiplier
        damageMultiplier := (specPowerStats effects).damageMultiplier
        spreadLevel := (specPowerStats effects).spreadLevel
        shieldRemaining := max 0 (largestOr 0 (shieldTimes effects))
        rocketLauncher := (specPowerStats effects).rocketLauncher } := by
  have h : ComputePowerStats effects = _ := powerFold_spec effects ⟨1, 1, 1, 0, 0, false⟩
  rw [h]
  simp only [specPowerStats, one_mul, Bool.false_or, foldl_max_eq]
  congr 1

/-! ## C19: the effective cooldown -/

/-- C19: for all stacked stats and every permanent fire-rate multiplier the
effective cooldown is `max(0.05, base / max(0.1, fireRateMultiplier *
permanentFireRateMultiplier))` with base 0.65 when the rocket launcher is
active and 0.22 otherwise; it is never below 0.05, and after a shot (fire
input with the fire timer at or below 0) the fire timer equals it. -/
theorem effective_cooldown_spec (rl : Raylib) (g : Game) (stats : PowerStats)
    (mouse : Vector2) :
    effectiveCooldown g stats =
        specCooldown stats.rocketLauncher stats.fireRateMultiplier
          g.permanentFireRateMultiplier ∧
      5 / 100 ≤ effectiveCooldown g stats ∧
      (g.fireTimer ≤ 0 → (fire rl g stats true mouse).fireTimer = effectiveCooldown g stats) ∧
      (∀ fireInput : Bool, ¬ (fireInput = true ∧ g.fireTimer ≤ 0) →
        fire rl g stats fireInput mouse = g) := by
  have hm : combinedFireRateMultiplier g stats =
      max (1 / 10) (stats.fireRateMultiplier * g.permanentFireRateMultiplier) := by
    simp only [combinedFireRateMultiplier]
    split_ifs with h
    · rw [max_eq_left h.le]
    · rw [max_eq_right (not_lt.mp h)]
  have hc : effectiveCooldown g stats =
      specCooldown stats.rocketLauncher stats.fireRateMultiplier
        g.permanentFireRateMultiplier := by
    simp only [effectiveCooldown, specCooldown, hm, baseRocketCooldown, baseFireCooldown]
    split_ifs with h1 h2 h2
    · rw [max_eq_left h2.le]
    · rw [max_eq_right (not_lt.mp h2)]
    · rw [max_eq_left h2.le]
    · rw [max_eq_right (not_lt.mp h2)]
  refine ⟨hc, ?_, ?_, ?_⟩
  · rw [hc]
    exact le_max_left _ _
  · intro ht
    simp only [fire, ht, and_self, if_true]
  · intro fireInput hno
    simp only [fire, if_neg hno]

/-! ## C20: the projectile damage -/

theorem quiet_CreatePowerUpInstance (rl : Raylib) (g : Game) (t : PowerUpType) (pos : Vector2) :
    quietFields (CreatePowerUpInstance rl g t pos) = quietFields g := rfl

theorem quiet_SpawnRandomPowerUp (rl : Raylib) (g : Game) (pos : Vector2) :
    quietFields (SpawnRandomPowerUp rl g pos) = quietFields g := by
  unfold SpawnRandomPowerUp
  split <;> rfl

theorem quiet_TryDropPowerUp (rl : Raylib) (g : Game) (pos : Vector2) :
    quietFields (TryDropPowerUp rl g pos) = quietFields g := by
  unfold TryDropPowerUp
  simp only
  split_ifs <;> first
    | rfl
    | exact (quiet_SpawnRandomPowerUp rl _ pos).trans rfl

theorem quiet_ActivatePowerUp (g : Game) (t : PowerUpType) :
    quietFields (ActivatePowerUp g t) = quietFields g := by
  unfold ActivatePowerUp
  cases t <;> simp only [reduceCtorEq, if_false, if_true] <;> first
    | rfl
    | (split_ifs <;> rfl)

theorem quiet_periodicSpawn (rl : Raylib) (g : Game) (delta : ℚ) :
    quietFields (periodicSpawn rl g delta) = quietFields g := by
  simp only [periodicSpawn]
  split_ifs <;> first
    | rfl
    | exact (quiet_SpawnRandomPowerUp rl _ _).trans rfl

theorem quiet_pickupLoop (rl : Raylib) (todo : List PowerUp) :
    ∀ r : Game × PowerStats × Bool, quietFields (pickupLoop rl todo r).1 = quietFields r.1 := by
  induction todo with
  | nil => intro r; rfl
  | cons powerUp rest ih =>
    rintro ⟨g, stats, picked⟩
    simp only [pickupLoop]
    split_ifs
    · exact (ih _).trans (quiet_ActivatePowerUp g _)
    · exact (ih _).trans rfl

theorem quiet_afterPickup (r : Game × PowerStats × Bool) :
    quietFields (afterPickup r) = quietFields r.1 := by
  simp only [afterPickup, syncShieldTimer]
  split_ifs <;> rfl

theorem quiet_fire (rl : Raylib) (g : Game) (stats : PowerStats) (fireInput : Bool)
    (mouse : Vector2) : quietFields (fire rl g stats fireInput mouse) = quietFields g := by
  simp only [fire]
  split_ifs <;> rfl

theorem quiet_bulletLoop (rl : Raylib) (delta : ℚ) (todo : List Bullet) :
    ∀ g : Game, quietFields (bulletLoop rl delta todo g) = quietFields g := by
  induction todo with
  | nil => intro g; rfl
  | cons b rest ih =>
    intro g
    simp only [bulletLoop]
    split_ifs <;> exact (ih _).trans rfl

theorem quiet_beforeCombat (rl : Raylib) (inp : Input) (g : Game) (mouse : Vector2)
    (fireInput : Bool) : quietFields (beforeCombat rl inp g mouse fireInput) = quietFields g := by
  unfold beforeCombat bulletPass
  refine (quiet_bulletLoop rl _ _ _).trans ?_
  refine Eq.trans (b := quietFields (fire rl _ _ fireInput mouse)) rfl ?_
  refine (quiet_fire rl _ _ _ _).trans ?_
  refine (quiet_afterPickup _).trans ?_
  unfold pickupPass
  refine (quiet_pickupLoop rl _ _).trans ?_
  refine Eq.trans (b := quietFields (periodicSpawn rl g inp.GetFrameTime)) rfl ?_
  exact quiet_periodicSpawn rl g _


theorem playingFrame_eq (rl : Raylib) (inp : Input) (g : Game) (mouse : Vector2)
    (fireInput : Bool) (hesc : inp.keyEscapePressed = false) :
    playingFrame rl inp g mouse fireInput =
      waveClearCheck (combatFrame rl inp g mouse fireInput) := by
  simp only [playingFrame, hesc, Bool.false_eq_true, if_false]
  rfl

theorem combatFrame_eq (rl : Raylib) (inp : Input) (g : Game) (mouse : Vector2)
    (fireInput : Bool) :
    combatFrame rl inp g mouse fireInput =
      explosionExpiryPass
        (explosionPass rl
          (enemyPass rl (beforeCombat rl inp g mouse fireInput) inp.GetFrameTime))
        inp.GetFrameTime := rfl

theorem SameRun.refl (g : Game) : SameRun g g := ⟨rfl, Or.inl ⟨rfl, rfl⟩⟩

theorem SameRun.trans {a b c : Game} (h1 : SameRun a b) (h2 : SameRun b c) : SameRun a c := by
  refine ⟨h2.fields.trans h1.fields, ?_⟩
  rcases h2.mode with ⟨s2, o2⟩ | h2m
  · rcases h1.mode with ⟨s1, o1⟩ | ⟨s1, o1⟩
    · exact Or.inl ⟨s2.trans s1, o2.trans o1⟩
    · exact Or.inr ⟨s2.trans s1, o2.trans o1⟩
  · exact Or.inr h2m

theorem sameRun_of_quiet {g g2 : Game} (h : quietFields g2 = quietFields g) : SameRun g g2 := by
  simp only [quietFields, Prod.mk.injEq] at h
  exact ⟨h.2.2.2.2, Or.inl ⟨h.2.2.1, h.2.2.2.1⟩⟩

theorem sameRun_contactHit (rl : Raylib) (g : Game) (e : Enemy) :
    SameRun g (contactHit rl g e) := by
  simp only [contactHit]
  split_ifs <;> first
    | exact ⟨(sameRun_of_quiet (quiet_TryDropPowerUp rl _ e.position)).fields, Or.inr ⟨rfl, rfl⟩⟩
    | exact ⟨(sameRun_of_quiet (quiet_TryDropPowerUp rl _ e.position)).fields,
        (sameRun_of_quiet (quiet_TryDropPowerUp rl _ e.position)).mode⟩


theorem sameRun_projectileHit (rl : Raylib) (g : Game) (e : Enemy) (b : Bullet)
    (others : List Bullet) : SameRun g (projectileHit rl g e b others) := by
  simp only [projectileHit, SpawnExplosion]
  split_ifs <;> first
    | exact sameRun_of_quiet ((quiet_TryDropPowerUp rl _ _).trans rfl)
    | exact ⟨(sameRun_of_quiet (quiet_TryDropPowerUp rl _ _)).fields,
        (sameRun_of_quiet (quiet_TryDropPowerUp rl _ _)).mode⟩
    | exact ⟨rfl, Or.inl ⟨rfl, rfl⟩⟩

theorem sameRun_enemyLoop (rl : Raylib) (delta : ℚ) (todo : List Enemy) :
    ∀ g : Game, SameRun g (enemyLoop rl delta todo g) := by
  induction todo with
  | nil => intro g; exact SameRun.refl g
  | cons e rest ih =>
    intro g
    simp only [enemyLoop]
    split_ifs
    · exact (sameRun_contactHit rl g _).trans (ih _)
    · split
      · exact (sameRun_projectileHit rl g _ _ _).trans (ih _)
      · refine SameRun.trans ?_ (ih _)
        exact ⟨rfl, Or.inl ⟨rfl, rfl⟩⟩

theorem sameRun_explosionDamage (rl : Raylib) (explosion : Explosion) (todo : List Enemy) :
    ∀ g : Game, SameRun g (explosionDamage rl explosion todo g) := by
  induction todo with
  | nil => intro g; exact SameRun.refl g
  | cons e rest ih =>
    intro g
    simp only [explosionDamage]
    split_ifs
    · refine SameRun.trans ?_ (ih _)
      exact ⟨(sameRun_of_quiet (quiet_TryDropPowerUp rl g _)).fields,
        (sameRun_of_quiet (quiet_TryDropPowerUp rl g _)).mode⟩
    · refine SameRun.trans ?_ (ih _)
      exact ⟨rfl, Or.inl ⟨rfl, rfl⟩⟩
    · refine SameRun.trans ?_ (ih _)
      exact ⟨rfl, Or.inl ⟨rfl, rfl⟩⟩

theorem sameRun_explosionLoop (rl : Raylib) (todo : List Explosion) :
    ∀ g : Game, SameRun g (explosionLoop rl todo g) := by
  induction todo with
  | nil => intro g; exact SameRun.refl g
  | cons explosion rest ih =>
    intro g
    simp only [explosionLoop]
    split_ifs
    · refine SameRun.trans ?_ (ih _)
      exact ⟨rfl, Or.inl ⟨rfl, rfl⟩⟩
    · have h1 := sameRun_explosionDamage rl explosion g.enemies { g with enemies := [] }
      have h2 : SameRun g { g with enemies := [] } := ⟨rfl, Or.inl ⟨rfl, rfl⟩⟩
      refine SameRun.trans ?_ (ih _)
      exact ⟨(h2.trans h1).fields, (h2.trans h1).mode⟩

theorem sameRun_enemyPass (rl : Raylib) (g : Game) (delta : ℚ) :
    SameRun g (enemyPass rl g delta) := by
  have h := sameRun_enemyLoop rl delta g.enemies { g with enemies := [] }
  exact ⟨h.fields, h.mode⟩

theorem sameRun_explosionPass (rl : Raylib) (g : Game) : SameRun g (explosionPass rl g) := by
  have h := sameRun_explosionLoop rl g.explosions { g with explosions := [] }
  exact ⟨h.fields, h.mode⟩

/-- The PLAYING branch up to the wave-clear check keeps the run fields, and
leaves the session state and the game-over flag as they were or sets them to
those of a lost game. -/
theorem sameRun_combatFrame (rl : Raylib) (inp : Input) (g : Game) (mouse : Vector2)
    (fireInput : Bool) : SameRun g (combatFrame rl inp g mouse fireInput) := by
  rw [combatFrame_eq]
  have h1 := sameRun_of_quiet (quiet_beforeCombat rl inp g mouse fireInput)
  have h2 := sameRun_enemyPass rl (beforeCombat rl inp g mouse fireInput) inp.GetFrameTime
  have h3 := sameRun_explosionPass rl
    (enemyPass rl (beforeCombat rl inp g mouse fireInput) inp.GetFrameTime)
  have h4 := (h1.trans h2).trans h3
  exact ⟨h4.fields, h4.mode⟩


/-! ## The enemy invariant -/

theorem Enemy.new_health (rl : Raylib) (n : Nat) (pos : Vector2) (t : EnemyType) (wave : Int) :
    1 ≤ (Enemy.new rl n pos t wave).health := by
  rw [(Enemy.new_scales rl n pos t wave).1]
  exact le_max_left _ _

theorem Enemy.Update_health (rl : Raylib) (e : Enemy) (delta : ℚ) (pos : Vector2) :
    (e.Update rl delta pos).health = e.health := rfl

theorem hordeInv_of_quiet {g g2 : Game} (h : HordeInv g) (hq : quietFields g2 = quietFields g) :
    HordeInv g2 := by
  simp only [quietFields, Prod.mk.injEq] at hq
  exact ⟨by rw [hq.1, hq.2.1]; exact h.count, by rw [hq.1]; exact h.alive⟩

/-- The loop invariant of the enemy loop and of the area-damage loop: the
counter is the number of enemies kept plus the number still to visit, and the
enemies kept have some health left. -/
theorem horde_keep {g : Game} {k : Nat} (e : Enemy)
    (hc : g.enemiesRemaining = (g.enemies.length : Int) + ((k + 1 : Nat) : Int))
    (ha : ∀ x ∈ g.enemies, 1 ≤ x.health) (he : 1 ≤ e.health) :
    ({ g with enemies := g.enemies ++ [e] } : Game).enemiesRemaining =
        (({ g with enemies := g.enemies ++ [e] } : Game).enemies.length : Int) + (k : Int) ∧
      ∀ x ∈ ({ g with enemies := g.enemies ++ [e] } : Game).enemies, 1 ≤ x.health := by
  constructor
  · simp only [List.length_append, List.length_singleton]
    push_cast at hc ⊢
    omega
  · intro x hx
    simp only [List.mem_append, List.mem_singleton] at hx
    rcases hx with hx | hx
    · exact ha x hx
    · rw [hx]; exact he

theorem quiet_enemies {g g2 : Game} (hq : quietFields g2 = quietFields g) :
    g2.enemies = g.enemies ∧ g2.enemiesRemaining = g.enemiesRemaining := by
  simp only [quietFields, Prod.mk.injEq] at hq
  exact ⟨hq.1, hq.2.1⟩

theorem projectileHit_enemiesRemaining (rl : Raylib) (g : Game) (e : Enemy) (b : Bullet)
    (others : List Bullet) :
    (projectileHit rl g e b others).enemiesRemaining =
      (if (enemyAfterHit rl e b).health ≤ 0 then g.enemiesRemaining - 1
       else g.enemiesRemaining) := by
  simp only [projectileHit, SpawnExplosion]
  split_ifs <;> first
    | rfl
    | (simp only [TryDropPowerUp_enemiesRemaining])

theorem hordeInv_enemyLoop (rl : Raylib) (delta : ℚ) (todo : List Enemy) :
    ∀ g : Game, g.enemiesRemaining = (g.enemies.length : Int) + (todo.length : Int) →
      (∀ x ∈ g.enemies, 1 ≤ x.health) → (∀ x ∈ todo, 1 ≤ x.health) →
      HordeInv (enemyLoop rl delta todo g) := by
  induction todo with
  | nil =>
    intro g hc ha _
    exact ⟨by simpa [enemyLoop] using hc, ha⟩
  | cons e rest ih =>
    intro g hc ha htodo
    have he : 1 ≤ e.health := htodo e (List.mem_cons_self _ _)
    have hrest : ∀ x ∈ rest, 1 ≤ x.health := fun x hx => htodo x (List.mem_cons_of_mem _ hx)
    rw [List.length_cons] at hc
    simp only [enemyLoop]
    split_ifs
    · refine ih _ ?_ ?_ hrest
      · rw [contactHit_enemiesRemaining, contactHit_enemies]
        push_cast at hc
        omega
      · rw [contactHit_enemies]
        exact ha
    · split
      · rename_i projectile others _
        have hen := (projectileHit_spec rl g (e.Update rl delta g.player.position) projectile
          others).2.2
        have hrem := projectileHit_enemiesRemaining rl g (e.Update rl delta g.player.position)
          projectile others
        by_cases hdead : (enemyAfterHit rl (e.Update rl delta g.player.position)
            projectile).health ≤ 0
        · rw [if_pos hdead] at hen hrem
          refine ih _ ?_ ?_ hrest
          · rw [hen, hrem]
            push_cast at hc
            omega
          · rw [hen]
            exact ha
        · rw [if_neg hdead] at hen hrem
          refine ih _ ?_ ?_ hrest
          · rw [hen, hrem, List.length_append, List.length_singleton]
            push_cast at hc ⊢
            omega
          · rw [hen]
            intro x hx
            simp only [List.mem_append, List.mem_singleton] at hx
            rcases hx with hx | hx
            · exact ha x hx
            · rw [hx]; omega
      · have hk := horde_keep (e.Update rl delta g.player.position) hc ha he
        exact ih _ hk.1 hk.2 hrest

theorem hordeInv_enemyPass {g : Game} (h : HordeInv g) (rl : Raylib) (delta : ℚ) :
    HordeInv (enemyPass rl g delta) := by
  refine hordeInv_enemyLoop rl delta g.enemies { g with enemies := [] } ?_ ?_ h.alive
  · simp only [List.length_nil, Nat.cast_zero, zero_add]
    exact h.count
  · intro x hx
    cases hx

theorem hordeInv_explosionDamage (rl : Raylib) (explosion : Explosion) (todo : List Enemy) :
    ∀ g : Game, g.enemiesRemaining = (g.enemies.length : Int) + (todo.length : Int) →
      (∀ x ∈ g.enemies, 1 ≤ x.health) → (∀ x ∈ todo, 1 ≤ x.health) →
      HordeInv (explosionDamage rl explosion todo g) := by
  induction todo with
  | nil =>
    intro g hc ha _
    exact ⟨by simpa [explosionDamage] using hc, ha⟩
  | cons e rest ih =>
    intro g hc ha htodo
    have he : 1 ≤ e.health := htodo e (List.mem_cons_self _ _)
    have hrest : ∀ x ∈ rest, 1 ≤ x.health := fun x hx => htodo x (List.mem_cons_of_mem _ hx)
    rw [List.length_cons] at hc
    simp only [explosionDamage]
    split_ifs with hin hdead
    · have hq := quiet_enemies (quiet_TryDropPowerUp rl g (enemyAfterBlast rl explosion e).position)
      refine ih _ ?_ ?_ hrest
      · show (TryDropPowerUp rl g _).enemiesRemaining - 1 =
          ((TryDropPowerUp rl g _).enemies.length : Int) + (rest.length : Int)
        rw [hq.1, hq.2]
        push_cast at hc
        omega
      · show ∀ x ∈ (TryDropPowerUp rl g _).enemies, 1 ≤ x.health
        rw [hq.1]
        exact ha
    · have hk := horde_keep (enemyAfterBlast rl explosion e) hc ha (by omega)
      exact ih _ hk.1 hk.2 hrest
    · have hk := horde_keep e hc ha he
      exact ih _ hk.1 hk.2 hrest

theorem hordeInv_explosionLoop (rl : Raylib) (todo : List Explosion) :
    ∀ g : Game, HordeInv g → HordeInv (explosionLoop rl todo g) := by
  induction todo with
  | nil => intro g h; simpa [explosionLoop] using h
  | cons explosion rest ih =>
    intro g h
    simp only [explosionLoop]
    split_ifs
    · exact ih _ ⟨h.count, h.alive⟩
    · have h1 := hordeInv_explosionDamage rl explosion g.enemies { g with enemies := [] }
        (by simpa using h.count) (by intro x hx; cases hx) h.alive
      exact ih _ ⟨h1.count, h1.alive⟩

theorem hordeInv_explosionPass {g : Game} (h : HordeInv g) (rl : Raylib) :
    HordeInv (explosionPass rl g) :=
  hordeInv_explosionLoop rl g.explosions _ ⟨h.count, h.alive⟩

theorem hordeInv_combatFrame {g : Game} (h : HordeInv g) (rl : Raylib) (inp : Input)
    (mouse : Vector2) (fireInput : Bool) : HordeInv (combatFrame rl inp g mouse fireInput) := by
  rw [combatFrame_eq]
  have h1 := hordeInv_of_quiet h (quiet_beforeCombat rl inp g mouse fireInput)
  have h2 := hordeInv_explosionPass (hordeInv_enemyPass h1 rl inp.GetFrameTime) rl
  exact ⟨h2.count, h2.alive⟩

theorem hordeInv_waveClearCheck {g : Game} (h : HordeInv g) : HordeInv (waveClearCheck g) := by
  have hc := h.count
  simp only [waveClearCheck]
  split_ifs with h1 h2 h2
  · exact ⟨by simp only; omega, h.alive⟩
  · exact ⟨by simp only; omega, h.alive⟩
  · refine ⟨?_, h.alive⟩
    simp only
    omega
  · exact h


theorem spawnLoop_health (rl : Raylib) (wave : Int) (pos : Vector2) (k : Nat) :
    ∀ (n : Nat) (acc : List Enemy), (∀ e ∈ acc, 1 ≤ e.health) →
      ∀ e ∈ (spawnLoop rl wave pos k n acc).1, 1 ≤ e.health := by
  induction k with
  | zero => intro n acc h; simpa [spawnLoop] using h
  | succ k ih =>
    intro n acc h
    simp only [spawnLoop]
    apply ih
    intro e he
    simp only [List.mem_append, List.mem_singleton] at he
    rcases he with he | he
    · exact h e he
    · rw [he]; exact Enemy.new_health _ _ _ _ _

theorem waveEnemyCount_pos (wave : Int) (m : ℚ) : 1 ≤ waveEnemyCount wave m := by
  simp only [waveEnemyCount]
  split_ifs <;> omega

theorem hordeInv_SpawnWave (rl : Raylib) (g : Game) (wave : Int) :
    HordeInv (SpawnWave rl g wave) := by
  constructor
  · simp only [SpawnWave, spawnLoop_length, List.length_nil, zero_add]
    have := waveEnemyCount_pos wave g.enemyCountMultiplier
    omega
  · simp only [SpawnWave]
    exact spawnLoop_health _ _ _ _ _ _ (by simp)

theorem hordeInv_startRun (rl : Raylib) (g : Game) : HordeInv (startRun rl g) :=
  ⟨(hordeInv_SpawnWave rl _ _).count, (hordeInv_SpawnWave rl _ _).alive⟩

theorem hordeInv_backToMenu {g : Game} (h : HordeInv g) : HordeInv (backToMenu g) :=
  ⟨h.count, h.alive⟩

theorem hordeInv_advanceWave (rl : Raylib) (g : Game) : HordeInv (advanceWave rl g) := by
  simp only [advanceWave]
  split_ifs <;>
    exact ⟨(hordeInv_SpawnWave rl _ _).count, (hordeInv_SpawnWave rl _ _).alive⟩

theorem hordeInv_applyUpgrade (rl : Raylib) (g : Game) (chosenOption : Int) :
    HordeInv (applyUpgrade rl g chosenOption) :=
  hordeInv_advanceWave rl _

theorem hordeInv_playingFrame {g : Game} (h : HordeInv g) (rl : Raylib) (inp : Input)
    (mouse : Vector2) (fireInput : Bool) : HordeInv (playingFrame rl inp g mouse fireInput) := by
  by_cases hesc : inp.keyEscapePressed = true
  · simp only [playingFrame, hesc, if_true]
    exact ⟨h.count, h.alive⟩
  · rw [playingFrame_eq rl inp g mouse fireInput (by simpa using hesc)]
    exact hordeInv_waveClearCheck (hordeInv_combatFrame h rl inp mouse fireInput)

theorem hordeInv_frameStart {g : Game} (h : HordeInv g) (inp : Input) :
    HordeInv (frameStart inp g) := by
  simp only [frameStart]
  split_ifs <;> exact ⟨h.count, h.alive⟩

theorem hordeInv_orStart {g : Game} (h : HordeInv g) (rl : Raylib) (c : Bool) :
    HordeInv (if c then startRun rl g else g) := by
  split_ifs
  · exact hordeInv_startRun rl g
  · exact h

theorem hordeInv_orMenu {g : Game} (h : HordeInv g) (c : Bool) :
    HordeInv (if c then backToMenu g else g) := by
  split_ifs
  · exact hordeInv_backToMenu h
  · exact h

theorem hordeInv_orState {g : Game} (h : HordeInv g) (c : Bool) (s : GameState) :
    HordeInv (if c then { g with state := s } else g) := by
  split_ifs
  · exact ⟨h.count, h.alive⟩
  · exact h

theorem hordeInv_frame {g g2 : Game} (h : HordeInv g) (rl : Raylib) (inp : Input)
    (hstep : frame rl inp g = some g2) : HordeInv g2 := by
  have h0 := hordeInv_frameStart h inp
  simp only [frame] at hstep
  split at hstep
  · cases hstep
    simp only [splashFrame]
    split_ifs <;> exact ⟨h0.count, h0.alive⟩
  · simp only [menuFrame] at hstep
    split_ifs at hstep <;> cases hstep <;> first
      | exact h0
      | exact hordeInv_startRun rl _
  · cases hstep
    simp only [pausedFrame]
    exact hordeInv_orMenu (hordeInv_orStart (hordeInv_orState (hordeInv_orState h0 _ _) _ _) rl _) _
  · cases hstep
    exact hordeInv_playingFrame h0 rl inp _ _
  · cases hstep
    simp only [upgradeFrame]
    split_ifs
    · exact hordeInv_applyUpgrade rl _ _
    · exact h0
  · cases hstep
    simp only [gameOverFrame]
    exact hordeInv_orMenu (hordeInv_orStart h0 rl _) _

/-- Every reachable session state satisfies the enemy invariant. -/
theorem reachable_hordeInv (rl : Raylib) {g : Game} (h : Reachable rl g) : HordeInv g := by
  induction h with
  | initial => exact ⟨rfl, by intro e he; cases he⟩
  | step inp g g2 _ hstep ih => exact hordeInv_frame ih rl inp hstep
  | seed daySeed g _ ih => exact ⟨ih.count, ih.alive⟩


/-! ## A reachable wave-1 session -/

theorem frame_enter :
    frame sampleRaylib enterInput (Game.initial sampleRaylib) = some menuGame := by
  simp [frame, frameLocals, frameStart, splashFrame, Game.initial, menuGame, enterInput,
    idleInput, sampleRaylib]

theorem frame_play :
    frame sampleRaylib playInput menuGame = some (startRun sampleRaylib menuGame) := by
  have h0 : frameStart playInput menuGame = menuGame := by
    simp [frameStart, menuGame, Game.initial, playInput, idleInput]
  have hloc : (frameLocals sampleRaylib playInput menuGame).uiPointer = ⟨500, 470⟩ ∧
      (frameLocals sampleRaylib playInput menuGame).pressed = true := by
    simp [frameLocals, playInput, idleInput]
  simp only [frame, h0]
  have hs : menuGame.state = GameState.MENU := rfl
  simp only [hs, menuFrame, hloc.1, hloc.2]
  norm_num [sampleRaylib, button, Int.tdiv]

theorem reachable_startRun : Reachable sampleRaylib (startRun sampleRaylib menuGame) :=
  Reachable.step playInput menuGame _
    (Reachable.step enterInput _ menuGame Reachable.initial frame_enter) frame_play

/-- A run started with the default configuration: wave 1 with 8 enemies. -/
theorem startRun_default (rl : Raylib) (g0 : Game) (h1 : g0.startingWaveOverride = 1)
    (h2 : g0.enemyCountMultiplier = 1) :
    (startRun rl g0).currentWave = 1 ∧ (startRun rl g0).state = GameState.PLAYING ∧
      (startRun rl g0).gameOver = false ∧ (startRun rl g0).enemiesRemaining = 8 ∧
      (startRun rl g0).enemies.length = 8 := by
  have hc : waveEnemyCount 1 1 = 8 := by
    rw [waveEnemyCount_eq_spec]
    simp only [specWaveCount, mul_one, roundHalfAway_intCast]
    decide
  have hr : (startRun rl g0).enemiesRemaining =
      waveEnemyCount g0.startingWaveOverride g0.enemyCountMultiplier := rfl
  have hl : (startRun rl g0).enemies.length =
      (waveEnemyCount g0.startingWaveOverride g0.enemyCountMultiplier).toNat := by
    simp only [startRun, ResetPermanentUpgrades, SpawnWave, spawnLoop_length,
      List.length_nil, zero_add]
  refine ⟨h1, rfl, rfl, ?_, ?_⟩
  · rw [hr, h1, h2, hc]
  · rw [hl, h1, h2, hc]
    rfl

/-! ## C15: enemies in the list have health -/

theorem explosionDamage_enemiesRemaining (rl : Raylib) (explosion : Explosion)
    (todo : List Enemy) :
    ∀ g : Game, (explosionDamage rl explosion todo g).enemiesRemaining =
      g.enemiesRemaining -
        ((todo.length : Int) - ((todo.filterMap (blastOutcome rl explosion)).length : Int)) := by
  induction todo with
  | nil => intro g; simp [explosionDamage]
  | cons e rest ih =>
    intro g
    simp only [explosionDamage, List.filterMap_cons, blastOutcome]
    split_ifs <;> rw [ih] <;> simp only [List.length_cons, TryDropPowerUp_enemiesRemaining] <;>
      push_cast <;> omega

/-- C15: every enemy is constructed with health at least 1, and in every
reachable session state (so at the end of every frame) every enemy in the list
has health at least 1 and `enemiesRemaining` is the length of the list; the
same holds when a PLAYING frame started in such a state reaches the end of its
combat resolution. An enemy that a projectile hit leaves without health is not
put back in the list and `enemiesRemaining` goes down by 1, otherwise it is
kept with its new health and the counter stays; the area-damage pass of an
explosion keeps exactly the enemies that `blastOutcome` keeps (those out of
the blast, and those the blast leaves some health) and takes the number of
removed enemies off `enemiesRemaining`. -/
theorem enemies_have_health (rl : Raylib) (g : Game) (h : Reachable rl g) :
    (∀ e ∈ g.enemies, 1 ≤ e.health) ∧
      g.enemiesRemaining = (g.enemies.length : Int) ∧
      (∀ (n : Nat) (pos : Vector2) (t : EnemyType) (wave : Int),
        1 ≤ (Enemy.new rl n pos t wave).health) ∧
      (∀ (inp : Input) (mouse : Vector2) (fireInput : Bool),
        (∀ e ∈ (combatFrame rl inp g mouse fireInput).enemies, 1 ≤ e.health) ∧
          (combatFrame rl inp g mouse fireInput).enemiesRemaining =
            ((combatFrame rl inp g mouse fireInput).enemies.length : Int)) ∧
      (∀ (g0 : Game) (e : Enemy) (b : Bullet) (others : List Bullet),
        ((enemyAfterHit rl e b).health ≤ 0 →
          (projectileHit rl g0 e b others).enemies = g0.enemies ∧
            (projectileHit rl g0 e b others).enemiesRemaining = g0.enemiesRemaining - 1) ∧
        (0 < (enemyAfterHit rl e b).health →
          (projectileHit rl g0 e b others).enemies = g0.enemies ++ [enemyAfterHit rl e b] ∧
            (projectileHit rl g0 e b others).enemiesRemaining = g0.enemiesRemaining)) ∧
      (∀ (g0 : Game) (x : Explosion) (todo : List Enemy),
        (explosionDamage rl x todo g0).enemies =
            g0.enemies ++ todo.filterMap (blastOutcome rl x) ∧
          (explosionDamage rl x todo g0).enemiesRemaining =
            g0.enemiesRemaining -
              ((todo.length : Int) - ((todo.filterMap (blastOutcome rl x)).length : Int)) ∧
          (∀ e : Enemy, blastOutcome rl x e = none ↔
            (inBlast rl x e = true ∧ (enemyAfterBlast rl x e).health ≤ 0))) := by
  have hinv := reachable_hordeInv rl h
  refine ⟨hinv.alive, hinv.count, fun n pos t wave => Enemy.new_health rl n pos t wave, ?_, ?_, ?_⟩
  · intro inp mouse fireInput
    exact ⟨(hordeInv_combatFrame hinv rl inp mouse fireInput).alive,
      (hordeInv_combatFrame hinv rl inp mouse fireInput).count⟩
  · intro g0 e b others
    have hen := (projectileHit_spec rl g0 e b others).2.2
    have hrem := projectileHit_enemiesRemaining rl g0 e b others
    constructor
    · intro hd
      rw [if_pos hd] at hen hrem
      exact ⟨hen, hrem⟩
    · intro hd
      rw [if_neg (by omega)] at hen hrem
      exact ⟨hen, hrem⟩
  · intro g0 x todo
    refine ⟨explosionDamage_enemies rl x todo g0, explosionDamage_enemiesRemaining rl x todo g0, ?_⟩
    intro e
    simp only [blastOutcome]
    split_ifs <;> simp_all

/-- C15 at the wave-1 session reached by skipping the splash screen and
pressing Play: its 8 enemies all have health at least 1. -/
theorem enemies_have_health_witness :
    Reachable sampleRaylib (startRun sampleRaylib menuGame) ∧
      (startRun sampleRaylib menuGame).enemies.length = 8 ∧
      (∀ e ∈ (startRun sampleRaylib menuGame).enemies, 1 ≤ e.health) ∧
      (startRun sampleRaylib menuGame).enemiesRemaining =
        ((startRun sampleRaylib menuGame).enemies.length : Int) :=
  ⟨reachable_startRun, (startRun_default sampleRaylib menuGame rfl rfl).2.2.2.2,
    (enemies_have_health sampleRaylib _ reachable_startRun).1,
    (enemies_have_health sampleRaylib _ reachable_startRun).2.1⟩

/-! ## C11: a cleared wave opens the upgrade screen -/

theorem frameStart_quiet (inp : Input) (g : Game) :
    quietFields (frameStart inp g) = quietFields g := by
  simp only [frameStart]
  split_ifs <;> rfl

theorem quiet_explosionLoop_of_no_enemies (rl : Raylib) (todo : List Explosion) :
    ∀ g : Game, g.enemies = [] → quietFields (explosionLoop rl todo g) = quietFields g := by
  induction todo with
  | nil => intro g _; rfl
  | cons explosion rest ih =>
    intro g hg
    simp only [explosionLoop]
    split_ifs
    · exact Eq.trans (ih { g with explosions := g.explosions ++ [explosion] } hg) rfl
    · rw [hg]
      simp only [explosionDamage]
      refine Eq.trans
        (ih { ({ g with enemies := [] } : Game) with
              explosions := g.explosions ++ [{ explosion with applied := true }] } rfl) ?_
      simp only [quietFields, runFields, hg]

theorem quiet_combat_of_no_enemies (rl : Raylib) (delta : ℚ) (b : Game) (he : b.enemies = []) :
    quietFields (explosionPass rl (enemyPass rl b delta)) = quietFields b := by
  have e1 : enemyPass rl b delta = { b with enemies := [] } := by
    unfold enemyPass
    rw [he]
    rfl
  have e2 : quietFields (explosionPass rl { b with enemies := [] }) =
      quietFields ({ b with enemies := [] } : Game) :=
    Eq.trans
      (quiet_explosionLoop_of_no_enemies rl b.explosions
        { ({ b with enemies := [] } : Game) with explosions := [] } rfl) rfl
  have e3 : quietFields ({ b with enemies := [] } : Game) = quietFields b := by
    simp only [quietFields, runFields, he]
  rw [e1]
  exact e2.trans e3

/-- A PLAYING frame that starts without enemies reaches the wave-clear check
with the enemies, the counter, the session state and the game-over flag it
started with. -/
theorem quiet_atWaveClearCheck_of_no_enemies (rl : Raylib) (inp : Input) (g : Game)
    (hg : g.enemies = []) : quietFields (atWaveClearCheck rl inp g) = quietFields g := by
  have h0 := frameStart_quiet inp g
  have h1 := quiet_beforeCombat rl inp (frameStart inp g) (frameLocals rl inp g).mouse
    (frameLocals rl inp g).fireInput
  have he : (beforeCombat rl inp (frameStart inp g) (frameLocals rl inp g).mouse
      (frameLocals rl inp g).fireInput).enemies = [] := by
    rw [(quiet_enemies h1).1, (quiet_enemies h0).1, hg]
  have h2 := quiet_combat_of_no_enemies rl inp.GetFrameTime _ he
  unfold atWaveClearCheck
  rw [combatFrame_eq]
  exact Eq.trans rfl (h2.trans (h1.trans h0))

/-- C11: a PLAYING frame without the pause key ends with the wave-clear check.
When at that point `enemiesRemaining` has reached 0 and `gameOver` is false,
the frame ends in UPGRADE with `pendingWave = currentWave + 1`, the current
wave being the one the frame started with; while `enemiesRemaining > 0`, or
when the player has died, it does not end in UPGRADE, and neither does a frame
with the pause key. In a reachable session the counter has reached 0 at the
check exactly when no enemy is left in the list. A run
started with the default configuration is in wave 1 with 8 enemies and
`enemiesRemaining = 8`, and clearing that wave gives `pendingWave = 2`. -/
theorem wave_clear_enters_upgrade (rl : Raylib) (inp : Input) (g : Game)
    (hs : g.state = GameState.PLAYING) (hesc : inp.keyEscapePressed = false) :
    frame rl inp g = some (waveClearCheck (atWaveClearCheck rl inp g)) ∧
      (atWaveClearCheck rl inp g).currentWave = g.currentWave ∧
      ((atWaveClearCheck rl inp g).enemiesRemaining ≤ 0 →
        (atWaveClearCheck rl inp g).gameOver = false →
        (waveClearCheck (atWaveClearCheck rl inp g)).state = GameState.UPGRADE ∧
          (waveClearCheck (atWaveClearCheck rl inp g)).pendingWave = g.currentWave + 1 ∧
          (waveClearCheck (atWaveClearCheck rl inp g)).currentWave = g.currentWave ∧
          (g.currentWave = 1 → (waveClearCheck (atWaveClearCheck rl inp g)).pendingWave = 2)) ∧
      (0 < (atWaveClearCheck rl inp g).enemiesRemaining →
        (waveClearCheck (atWaveClearCheck rl inp g)).state ≠ GameState.UPGRADE) ∧
      ((atWaveClearCheck rl inp g).gameOver = true →
        (waveClearCheck (atWaveClearCheck rl inp g)).state ≠ GameState.UPGRADE) ∧
      (Reachable rl g →
        ((atWaveClearCheck rl inp g).enemiesRemaining ≤ 0 ↔
          (atWaveClearCheck rl inp g).enemies = [])) ∧
      (∀ inp2 : Input, inp2.keyEscapePressed = true →
        ∃ r : Game, frame rl inp2 g = some r ∧ r.state = GameState.PAUSED) ∧
      (∀ g0 : Game, g0.startingWaveOverride = 1 → g0.enemyCountMultiplier = 1 →
        (startRun rl g0).currentWave = 1 ∧ (startRun rl g0).state = GameState.PLAYING ∧
          (startRun rl g0).gameOver = false ∧ (startRun rl g0).enemiesRemaining = 8 ∧
          (startRun rl g0).enemies.length = 8) := by
  have hq := quiet_enemies (frameStart_quiet inp g)
  have hfs : (frameStart inp g).state = GameState.PLAYING := by
    have := frameStart_quiet inp g
    simp only [quietFields, Prod.mk.injEq] at this
    rw [this.2.2.1, hs]
  have hrun : SameRun g (atWaveClearCheck rl inp g) :=
    (sameRun_of_quiet (frameStart_quiet inp g)).trans (sameRun_combatFrame rl inp _ _ _)
  have hcw : (atWaveClearCheck rl inp g).currentWave = g.currentWave := by
    have := hrun.fields
    simp only [runFields, Prod.mk.injEq] at this
    exact this.1.1
  have hst : (atWaveClearCheck rl inp g).state = GameState.PLAYING ∨
      (atWaveClearCheck rl inp g).state = GameState.GAME_OVER := by
    rcases hrun.mode with ⟨a, _⟩ | ⟨a, _⟩
    · exact Or.inl (a.trans hs)
    · exact Or.inr a
  refine ⟨?_, hcw, ?_, ?_, ?_, ?_, ?_, ?_⟩
  · simp only [frame, hfs]
    rw [playingFrame_eq rl inp _ _ _ hesc]
    rfl
  · intro h0 hg
    have hw : waveClearCheck (atWaveClearCheck rl inp g) =
        { atWaveClearCheck rl inp g with
          enemiesRemaining := 0
          pendingWave := (atWaveClearCheck rl inp g).currentWave + 1
          state := GameState.UPGRADE } := by
      simp only [waveClearCheck]
      split_ifs with a b b
      · rfl
      · exact absurd ⟨le_refl 0, by simp [hg]⟩ b
      · rfl
      · exact absurd ⟨h0, by simp [hg]⟩ b
    rw [hw]
    refine ⟨rfl, by simp only [hcw], hcw, ?_⟩
    intro h1
    simp only [hcw, h1]
    rfl
  · intro hpos
    have hw : waveClearCheck (atWaveClearCheck rl inp g) = atWaveClearCheck rl inp g := by
      have h1 : ¬ (atWaveClearCheck rl inp g).enemiesRemaining < 0 := by omega
      have h2 : ¬ ((atWaveClearCheck rl inp g).enemiesRemaining ≤ 0 ∧
          (!(atWaveClearCheck rl inp g).gameOver) = true) := by
        rintro ⟨a, _⟩
        omega
      simp only [waveClearCheck, if_neg h1, if_neg h2]
    rw [hw]
    rcases hst with a | a <;> rw [a] <;> decide
  · intro hg
    have hw : (waveClearCheck (atWaveClearCheck rl inp g)).state =
        (atWaveClearCheck rl inp g).state := by
      simp only [waveClearCheck]
      split_ifs with a b b <;> first
        | rfl
        | (exfalso; simp [hg] at b)
    rw [hw]
    rcases hst with a | a <;> rw [a] <;> decide
  · intro hr
    have hinv : HordeInv (atWaveClearCheck rl inp g) :=
      hordeInv_combatFrame (hordeInv_frameStart (reachable_hordeInv rl hr) inp) rl inp _ _
    rw [hinv.count]
    constructor
    · intro h0
      exact List.length_eq_zero.mp (by omega)
    · intro h0
      rw [h0]
      exact le_refl _
  · intro inp2 h2
    have hfs2 : (frameStart inp2 g).state = GameState.PLAYING := by
      have := frameStart_quiet inp2 g
      simp only [quietFields, Prod.mk.injEq] at this
      rw [this.2.2.1, hs]
    refine ⟨{ frameStart inp2 g with state := GameState.PAUSED }, ?_, rfl⟩
    simp only [frame, hfs2, playingFrame, h2, if_true]
  · intro g0 h1 h2
    exact startRun_default rl g0 h1 h2

/-- C11 at a wave-1 session without enemies and an idle input: the frame ends
in UPGRADE with `pendingWave = 2`. -/
theorem wave_clear_enters_upgrade_witness :
    (fullHealthGame.state = GameState.PLAYING ∧ idleInput.keyEscapePressed = false) ∧
      frame sampleRaylib idleInput fullHealthGame =
        some (waveClearCheck (atWaveClearCheck sampleRaylib idleInput fullHealthGame)) ∧
      (waveClearCheck (atWaveClearCheck sampleRaylib idleInput fullHealthGame)).state =
        GameState.UPGRADE ∧
      (waveClearCheck (atWaveClearCheck sampleRaylib idleInput fullHealthGame)).pendingWave = 2 :=
  have hq := quiet_atWaveClearCheck_of_no_enemies sampleRaylib idleInput fullHealthGame rfl
  have h0 : (atWaveClearCheck sampleRaylib idleInput fullHealthGame).enemiesRemaining ≤ 0 := by
    rw [(quiet_enemies hq).2]
    decide
  have h1 : (atWaveClearCheck sampleRaylib idleInput fullHealthGame).gameOver = false := by
    simp only [quietFields, Prod.mk.injEq] at hq
    rw [hq.2.2.2.1]
    rfl
  have h := wave_clear_enters_upgrade sampleRaylib idleInput fullHealthGame rfl rfl
  ⟨⟨rfl, rfl⟩, h.1, (h.2.2.1 h0 h1).1, (h.2.2.1 h0 h1).2.2.2 rfl⟩

/-! ## C14: the permanent upgrades -/

theorem advanceWave_multipliers (rl : Raylib) (g : Game) :
    (advanceWave rl g).permanentHealthMultiplier = g.permanentHealthMultiplier ∧
      (advanceWave rl g).permanentFireRateMultiplier = g.permanentFireRateMultiplier ∧
      (advanceWave rl g).permanentDamageMultiplier = g.permanentDamageMultiplier := by
  simp only [advanceWave]
  split_ifs <;> exact ⟨rfl, rfl, rfl⟩

theorem applyUpgrade_multipliers (rl : Raylib) (g : Game) (chosenOption : Int) :
    (applyUpgrade rl g chosenOption).permanentHealthMultiplier =
        (if chosenOption = 0 then g.permanentHealthMultiplier * (115 / 100)
         else g.permanentHealthMultiplier) ∧
      (applyUpgrade rl g chosenOption).permanentFireRateMultiplier =
        (if chosenOption = 1 then g.permanentFireRateMultiplier * (115 / 100)
         else g.permanentFireRateMultiplier) ∧
      (applyUpgrade rl g chosenOption).permanentDamageMultiplier =
        (if chosenOption = 2 then g.permanentDamageMultiplier * (115 / 100)
         else g.permanentDamageMultiplier) := by
  have hp : (1 : ℚ) + permanentUpgradePercent = 115 / 100 := by
    norm_num [permanentUpgradePercent]
  obtain ⟨a, b, c⟩ := advanceWave_multipliers rl (applyChoice g chosenOption)
  unfold applyUpgrade
  rw [a, b, c]
  simp only [applyChoice, hp]
  by_cases h0 : chosenOption = 0
  · subst h0
    simp
  · by_cases h1 : chosenOption = 1
    · subst h1
      simp
    · by_cases h2 : chosenOption = 2
      · subst h2
        simp
      · simp [h0, h1, h2]

theorem iterate_upgrade (rl : Raylib) (c : Int) (n : Nat) :
    ∀ g : Game,
      ((fun s => applyUpgrade rl s c)^[n] g).permanentHealthMultiplier =
          g.permanentHealthMultiplier * (if c = 0 then (115 / 100) ^ n else 1) ∧
        ((fun s => applyUpgrade rl s c)^[n] g).permanentFireRateMultiplier =
          g.permanentFireRateMultiplier * (if c = 1 then (115 / 100) ^ n else 1) ∧
        ((fun s => applyUpgrade rl s c)^[n] g).permanentDamageMultiplier =
          g.permanentDamageMultiplier * (if c = 2 then (115 / 100) ^ n else 1) := by
  induction n with
  | zero =>
    intro g
    simp
  | succ n ih =>
    intro g
    obtain ⟨a, b, d⟩ := applyUpgrade_multipliers rl g c
    obtain ⟨a2, b2, d2⟩ := ih (applyUpgrade rl g c)
    rw [Function.iterate_succ_apply, a2, b2, d2, a, b, d]
    refine ⟨?_, ?_, ?_⟩ <;> split_ifs <;> ring

theorem chosenUpgrade_range (rl : Raylib) (loc : FrameLocals) :
    chosenUpgrade rl loc = -1 ∨ chosenUpgrade rl loc = 0 ∨ chosenUpgrade rl loc = 1 ∨
      chosenUpgrade rl loc = 2 := by
  simp only [chosenUpgrade]
  split_ifs <;> simp

/-- C14: a selection on the UPGRADE screen (option 0 health, 1 fire rate, 2
damage) multiplies exactly the chosen permanent multiplier by 1.15 and leaves
the other two as they were; a frame of the UPGRADE screen applies the option
the pointer pressed, one of 0, 1, 2, or does nothing; the PLAYING frames in
between leave the three multipliers alone. A fresh run starts with all three
at 1, so after `n` selections of one upgrade its multiplier is `1.15 ^ n` and
the others are 1; selecting Damage twice gives 1.3225. -/
theorem upgrade_multiplies_chosen (rl : Raylib) (g : Game) :
    ((applyUpgrade rl g 0).permanentHealthMultiplier = g.permanentHealthMultiplier * (115 / 100) ∧
        (applyUpgrade rl g 0).permanentFireRateMultiplier = g.permanentFireRateMultiplier ∧
        (applyUpgrade rl g 0).permanentDamageMultiplier = g.permanentDamageMultiplier) ∧
      ((applyUpgrade rl g 1).permanentHealthMultiplier = g.permanentHealthMultiplier ∧
        (applyUpgrade rl g 1).permanentFireRateMultiplier =
          g.permanentFireRateMultiplier * (115 / 100) ∧
        (applyUpgrade rl g 1).permanentDamageMultiplier = g.permanentDamageMultiplier) ∧
      ((applyUpgrade rl g 2).permanentHealthMultiplier = g.permanentHealthMultiplier ∧
        (applyUpgrade rl g 2).permanentFireRateMultiplier = g.permanentFireRateMultiplier ∧
        (applyUpgrade rl g 2).permanentDamageMultiplier =
          g.permanentDamageMultiplier * (115 / 100)) ∧
      (∀ loc : FrameLocals,
        (chosenUpgrade rl loc = -1 ∨ chosenUpgrade rl loc = 0 ∨ chosenUpgrade rl loc = 1 ∨
          chosenUpgrade rl loc = 2) ∧
        upgradeFrame rl loc g =
          (if chosenUpgrade rl loc = -1 then g else applyUpgrade rl g (chosenUpgrade rl loc))) ∧
      (∀ (inp : Input) (mouse : Vector2) (fireInput : Bool),
        (playingFrame rl inp g mouse fireInput).permanentHealthMultiplier =
            g.permanentHealthMultiplier ∧
          (playingFrame rl inp g mouse fireInput).permanentFireRateMultiplier =
            g.permanentFireRateMultiplier ∧
          (playingFrame rl inp g mouse fireInput).permanentDamageMultiplier =
            g.permanentDamageMultiplier) ∧
      ((startRun rl g).permanentHealthMultiplier = 1 ∧
        (startRun rl g).permanentFireRateMultiplier = 1 ∧
        (startRun rl g).permanentDamageMultiplier = 1) ∧
      (∀ n : Nat,
        ((fun s => applyUpgrade rl s 0)^[n] (startRun rl g)).permanentHealthMultiplier =
            (115 / 100) ^ n ∧
          ((fun s => applyUpgrade rl s 1)^[n] (startRun rl g)).permanentFireRateMultiplier =
            (115 / 100) ^ n ∧
          ((fun s => applyUpgrade rl s 2)^[n] (startRun rl g)).permanentDamageMultiplier =
            (115 / 100) ^ n ∧
          ((fun s => applyUpgrade rl s 2)^[n] (startRun rl g)).permanentHealthMultiplier = 1 ∧
          ((fun s => applyUpgrade rl s 2)^[n] (startRun rl g)).permanentFireRateMultiplier = 1) ∧
      (applyUpgrade rl (applyUpgrade rl (startRun rl g) 2) 2).permanentDamageMultiplier =
        13225 / 10000 := by
  have hs : (startRun rl g).permanentHealthMultiplier = 1 ∧
      (startRun rl g).permanentFireRateMultiplier = 1 ∧
      (startRun rl g).permanentDamageMultiplier = 1 := ⟨rfl, rfl, rfl⟩
  refine ⟨?_, ?_, ?_, ?_, ?_, hs, ?_, ?_⟩
  · simpa using applyUpgrade_multipliers rl g 0
  · simpa using applyUpgrade_multipliers rl g 1
  · simpa using applyUpgrade_multipliers rl g 2
  · intro loc
    refine ⟨chosenUpgrade_range rl loc, ?_⟩
    simp only [upgradeFrame]
    by_cases hc : chosenUpgrade rl loc = -1
    · rw [if_neg (by simpa using hc), if_pos hc]
    · rw [if_pos hc, if_neg hc]
  · intro inp mouse fireInput
    by_cases hesc : inp.keyEscapePressed = true
    · simp [playingFrame, hesc]
    · rw [playingFrame_eq rl inp g mouse fireInput (by simpa using hesc)]
      have hf := (sameRun_combatFrame rl inp g mouse fireInput).fields
      simp only [runFields, Prod.mk.injEq] at hf
      obtain ⟨_, ⟨a, b, c⟩, _⟩ := hf
      simp only [waveClearCheck]
      split_ifs <;> exact ⟨a, b, c⟩
  · intro n
    obtain ⟨a0, _, _⟩ := iterate_upgrade rl 0 n (startRun rl g)
    obtain ⟨_, b1, _⟩ := iterate_upgrade rl 1 n (startRun rl g)
    obtain ⟨a2, b2, c2⟩ := iterate_upgrade rl 2 n (startRun rl g)
    rw [a0, b1, a2, b2, c2, hs.1, hs.2.1, hs.2.2]
    simp
  · rw [(applyUpgrade_multipliers rl _ 2).2.2, (applyUpgrade_multipliers rl _ 2).2.2, hs.2.2]
    norm_num

/-! ## C28: the daily seed -/

theorem tmod_range (a b : Int) (ha : 0 ≤ a) (hb : 0 < b) :
    0 ≤ Int.tmod a b ∧ Int.tmod a b ≤ b - 1 := by
  rw [Int.tmod_eq_emod ha hb.le]
  have h1 := Int.emod_nonneg a hb.ne'
  have h2 := Int.emod_lt_of_pos a hb
  omega

/-- C28: for every day seed `≥ 0`, `ApplyDailySeed` sets `enemyCountMultiplier`
in `[0.9, 1.3]`, `enemyDropChance` in `[0.18, 0.34]`, `powerUpSpawnIntervalMin`
in `[6.0, 7.5]`, `powerUpSpawnIntervalMax` in `[10.0, 12.0]` with
`powerUpSpawnIntervalMax ≥ powerUpSpawnIntervalMin + 1`, and
`startingWaveOverride` in `{1, 2, 3}`. -/
theorem dailySeed_ranges (g : Game) (daySeed : Int) (h : 0 ≤ daySeed) :
    (9 / 10 ≤ (ApplyDailySeed g daySeed).enemyCountMultiplier ∧
        (ApplyDailySeed g daySeed).enemyCountMultiplier ≤ 13 / 10) ∧
      (18 / 100 ≤ (ApplyDailySeed g daySeed).enemyDropChance ∧
        (ApplyDailySeed g daySeed).enemyDropChance ≤ 34 / 100) ∧
      (6 ≤ (ApplyDailySeed g daySeed).powerUpSpawnIntervalMin ∧
        (ApplyDailySeed g daySeed).powerUpSpawnIntervalMin ≤ 15 / 2) ∧
      (10 ≤ (ApplyDailySeed g daySeed).powerUpSpawnIntervalMax ∧
        (ApplyDailySeed g daySeed).powerUpSpawnIntervalMax ≤ 12) ∧
      (ApplyDailySeed g daySeed).powerUpSpawnIntervalMin + 1 ≤
        (ApplyDailySeed g daySeed).powerUpSpawnIntervalMax ∧
      ((ApplyDailySeed g daySeed).startingWaveOverride = 1 ∨
        (ApplyDailySeed g daySeed).startingWaveOverride = 2 ∨
        (ApplyDailySeed g daySeed).startingWaveOverride = 3) := by
  obtain ⟨a0, a1⟩ := tmod_range daySeed 9 h (by norm_num)
  obtain ⟨b0, b1⟩ := tmod_range (Int.tdiv daySeed 7) 9 (Int.tdiv_nonneg h (by norm_num))
    (by norm_num)
  obtain ⟨c0, c1⟩ := tmod_range (Int.tdiv daySeed 97) 4 (Int.tdiv_nonneg h (by norm_num))
    (by norm_num)
  obtain ⟨d0, d1⟩ := tmod_range (Int.tdiv daySeed 37) 5 (Int.tdiv_nonneg h (by norm_num))
    (by norm_num)
  obtain ⟨e0, e1⟩ := tmod_range daySeed 3 h (by norm_num)
  have a0q : (0 : ℚ) ≤ ((Int.tmod daySeed 9 : Int) : ℚ) := by exact_mod_cast a0
  have a1q : ((Int.tmod daySeed 9 : Int) : ℚ) ≤ 8 := by exact_mod_cast a1
  have b0q : (0 : ℚ) ≤ ((Int.tmod (Int.tdiv daySeed 7) 9 : Int) : ℚ) := by exact_mod_cast b0
  have b1q : ((Int.tmod (Int.tdiv daySeed 7) 9 : Int) : ℚ) ≤ 8 := by exact_mod_cast b1
  have c0q : (0 : ℚ) ≤ ((Int.tmod (Int.tdiv daySeed 97) 4 : Int) : ℚ) := by exact_mod_cast c0
  have c1q : ((Int.tmod (Int.tdiv daySeed 97) 4 : Int) : ℚ) ≤ 3 := by exact_mod_cast c1
  have d0q : (0 : ℚ) ≤ ((Int.tmod (Int.tdiv daySeed 37) 5 : Int) : ℚ) := by exact_mod_cast d0
  have d1q : ((Int.tmod (Int.tdiv daySeed 37) 5 : Int) : ℚ) ≤ 4 := by exact_mod_cast d1
  have hno : ¬ ((10 : ℚ) + ((Int.tmod (Int.tdiv daySeed 37) 5 : Int) : ℚ) * (1 / 2) <
      6 + ((Int.tmod (Int.tdiv daySeed 97) 4 : Int) : ℚ) * (1 / 2) + 1) := by
    intro hlt
    linarith
  simp only [ApplyDailySeed, if_neg hno]
  refine ⟨⟨by linarith, by linarith⟩, ⟨by linarith, by linarith⟩, ⟨by linarith, by linarith⟩,
    ⟨by linarith, by linarith⟩, by linarith, by omega⟩

/-- C28 at the day seed 20251030. -/
theorem dailySeed_ranges_witness :
    (0 : Int) ≤ 20251030 ∧
      ((ApplyDailySeed fullHealthGame 20251030).startingWaveOverride = 1 ∨
        (ApplyDailySeed fullHealthGame 20251030).startingWaveOverride = 2 ∨
        (ApplyDailySeed fullHealthGame 20251030).startingWaveOverride = 3) :=
  ⟨by decide, (dailySeed_ranges fullHealthGame 20251030 (by decide)).2.2.2.2.2⟩

/-! ## C21: the enemy-type picker -/

theorem GetRandomValue_range (rl : Raylib) (n : Nat) (lo hi : Int) (h : lo ≤ hi) :
    lo ≤ GetRandomValue rl n lo hi ∧ GetRandomValue rl n lo hi ≤ hi := by
  have habs : |hi - lo| = hi - lo := abs_of_nonneg (by omega)
  simp only [GetRandomValue, gt_iff_lt, if_neg (not_lt.mpr h), habs]
  have hpos : (0 : Int) < hi - lo + 1 := by omega
  have h1 := Int.emod_nonneg (rl.rand n : Int) hpos.ne'
  have h2 := Int.emod_lt_of_pos (rl.rand n : Int) hpos
  omega

theorem Enemy.new_type (rl : Raylib) (n : Nat) (pos : Vector2) (t : EnemyType) (wave : Int) :
    (Enemy.new rl n pos t wave).type = t := by
  cases t <;> simp only [Enemy.new] <;> split_ifs <;> rfl

theorem pickType_eq (rl : Raylib) (n : Nat) (waveNum : Int) :
    pickType rl n waveNum =
      (typeBag waveNum).getD (typeIndex rl n waveNum).toNat EnemyType.GRUNT := by
  simp only [pickType, typeIndex, typeBag]
  split_ifs <;> rfl

theorem typeBag_length (waveNum : Int) : 3 ≤ (typeBag waveNum).length := by
  simp only [typeBag]
  split_ifs <;> simp

theorem typeIndex_range (rl : Raylib) (n : Nat) (waveNum : Int) :
    0 ≤ typeIndex rl n waveNum ∧ (typeIndex rl n waveNum).toNat < (typeBag waveNum).length := by
  have hl := typeBag_length waveNum
  have h := GetRandomValue_range rl n 0 (((typeBag waveNum).length : Int) - 1) (by omega)
  simp only [typeIndex]
  omega

theorem pickType_mem (rl : Raylib) (n : Nat) (waveNum : Int) :
    pickType rl n waveNum ∈ typeBag waveNum := by
  rw [pickType_eq, List.getD_eq_getElem _ _ (typeIndex_range rl n waveNum).2]
  exact List.getElem_mem _

theorem spawnLoop_types (rl : Raylib) (wave : Int) (pos : Vector2) (k : Nat) :
    ∀ (n : Nat) (acc : List Enemy), (∀ e ∈ acc, e.type ∈ typeBag wave) →
      ∀ e ∈ (spawnLoop rl wave pos k n acc).1, e.type ∈ typeBag wave := by
  induction k with
  | zero => intro n acc h; simpa [spawnLoop] using h
  | succ k ih =>
    intro n acc h
    simp only [spawnLoop]
    apply ih
    intro e he
    simp only [List.mem_append, List.mem_singleton] at he
    rcases he with he | he
    · exact h e he
    · rw [he]
      rw [Enemy.new_type]
      exact pickType_mem rl _ wave

/-- C21: for every wave number and every random draw, the enemy-type picker
draws an index within the bounds of a non-empty bag and returns the entry at
that index. The bag holds three GRUNT entries, two more RUNNER entries from
wave 2 on and one more TANK entry from wave 4 on (weights 3 : 2 : 1), so the
picker returns GRUNT when `wave < 2`, GRUNT or RUNNER when `2 ≤ wave < 4`, a
RUNNER only from wave 2 on and a TANK only from wave 4 on, and every entry of
the bag is returned for the draw that hits its index. The enemies of
`SpawnWave` have types from the bag of their wave: no RUNNER before wave 2 and
no TANK before wave 4. -/
theorem pickType_spec (rl : Raylib) (n : Nat) (waveNum : Int) :
    typeBag waveNum ≠ [] ∧
      (0 ≤ typeIndex rl n waveNum ∧
        (typeIndex rl n waveNum).toNat < (typeBag waveNum).length) ∧
      (typeBag waveNum)[(typeIndex rl n waveNum).toNat]? = some (pickType rl n waveNum) ∧
      (waveNum < 2 → typeBag waveNum = [EnemyType.GRUNT, EnemyType.GRUNT, EnemyType.GRUNT]) ∧
      (2 ≤ waveNum → waveNum < 4 →
        typeBag waveNum = [EnemyType.GRUNT, EnemyType.GRUNT, EnemyType.GRUNT,
          EnemyType.RUNNER, EnemyType.RUNNER]) ∧
      (4 ≤ waveNum →
        typeBag waveNum = [EnemyType.GRUNT, EnemyType.GRUNT, EnemyType.GRUNT,
          EnemyType.RUNNER, EnemyType.RUNNER, EnemyType.TANK]) ∧
      (waveNum < 2 → pickType rl n waveNum = EnemyType.GRUNT) ∧
      (2 ≤ waveNum → waveNum < 4 →
        pickType rl n waveNum = EnemyType.GRUNT ∨ pickType rl n waveNum = EnemyType.RUNNER) ∧
      (pickType rl n waveNum = EnemyType.RUNNER → 2 ≤ waveNum) ∧
      (pickType rl n waveNum = EnemyType.TANK → 4 ≤ waveNum) ∧
      (∀ i : Nat, i < (typeBag waveNum).length → rl.rand n = i →
        (typeBag waveNum)[i]? = some (pickType rl n waveNum)) ∧
      (∀ (g : Game), ∀ e ∈ (SpawnWave rl g waveNum).enemies,
        (e.type = EnemyType.RUNNER → 2 ≤ waveNum) ∧ (e.type = EnemyType.TANK → 4 ≤ waveNum)) := by
  have hmem := pickType_mem rl n waveNum
  have hr := typeIndex_range rl n waveNum
  have hget : (typeBag waveNum)[(typeIndex rl n waveNum).toNat]? = some (pickType rl n waveNum) := by
    rw [pickType_eq, List.getD_eq_getElem _ _ hr.2, List.getElem?_eq_getElem hr.2]
  have b1 : waveNum < 2 → typeBag waveNum =
      [EnemyType.GRUNT, EnemyType.GRUNT, EnemyType.GRUNT] := by
    intro h
    simp only [typeBag, ge_iff_le, if_neg (show ¬ 2 ≤ waveNum by omega),
      if_neg (show ¬ 4 ≤ waveNum by omega)]
    rfl
  have b2 : 2 ≤ waveNum → waveNum < 4 → typeBag waveNum =
      [EnemyType.GRUNT, EnemyType.GRUNT, EnemyType.GRUNT, EnemyType.RUNNER,
        EnemyType.RUNNER] := by
    intro h h'
    simp only [typeBag, ge_iff_le, if_pos h, if_neg (show ¬ 4 ≤ waveNum by omega)]
    rfl
  have b3 : 4 ≤ waveNum → typeBag waveNum =
      [EnemyType.GRUNT, EnemyType.GRUNT, EnemyType.GRUNT, EnemyType.RUNNER,
        EnemyType.RUNNER, EnemyType.TANK] := by
    intro h
    simp only [typeBag, ge_iff_le, if_pos (show 2 ≤ waveNum by omega), if_pos h]
    rfl
  have runner : ∀ t ∈ typeBag waveNum, t = EnemyType.RUNNER → 2 ≤ waveNum := by
    intro t ht hx
    by_contra hlt
    rw [b1 (by omega), hx] at ht
    simp at ht
  have tank : ∀ t ∈ typeBag waveNum, t = EnemyType.TANK → 4 ≤ waveNum := by
    intro t ht hx
    by_contra hlt
    by_cases h2 : 2 ≤ waveNum
    · rw [b2 h2 (by omega), hx] at ht
      simp at ht
    · rw [b1 (by omega), hx] at ht
      simp at ht
  refine ⟨?_, hr, hget, b1, b2, b3, ?_, ?_, runner _ hmem, tank _ hmem, ?_, ?_⟩
  · intro h
    have := typeBag_length waveNum
    rw [h] at this
    simp at this
  · intro h
    rw [b1 h] at hmem
    simpa using hmem
  · intro h h'
    rw [b2 h h'] at hmem
    simp only [List.mem_cons, List.mem_singleton, List.not_mem_nil, or_false] at hmem
    rcases hmem with a | a | a | a | a
    · exact Or.inl a
    · exact Or.inl a
    · exact Or.inl a
    · exact Or.inr a
    · exact Or.inr a
  · intro i hi hrand
    have hidx : typeIndex rl n waveNum = (i : Int) := by
      simp only [typeIndex, GetRandomValue, hrand]
      have hl := typeBag_length waveNum
      rw [if_neg (by omega), if_neg (by omega), abs_of_nonneg (by omega)]
      rw [Int.emod_eq_of_lt (by omega) (by omega)]
      omega
    rw [← hget, hidx]
    rfl
  · intro g e he
    have ht : e.type ∈ typeBag waveNum := by
      simp only [SpawnWave] at he
      exact spawnLoop_types rl waveNum _ _ _ _ (by simp) e he
    exact ⟨runner _ ht, tank _ ht⟩

/-! ## C30: `SetMaxHealthMultiplier` is idempotent -/

theorem setMaxHealth_health (p : Player) (m : ℚ) :
    (p.SetMaxHealthMultiplier m).health =
      (if (if roundHalfAway ((if p.maxHealth > 0 then (p.health : ℚ) / (p.maxHealth : ℚ) else 1) *
              (rescaledMaxHealth p.baseMaxHealth m : ℚ)) < 0 then 0
            else roundHalfAway ((if p.maxHealth > 0 then (p.health : ℚ) / (p.maxHealth : ℚ)
              else 1) * (rescaledMaxHealth p.baseMaxHealth m : ℚ))) >
          rescaledMaxHealth p.baseMaxHealth m then rescaledMaxHealth p.baseMaxHealth m
       else (if roundHalfAway ((if p.maxHealth > 0 then (p.health : ℚ) / (p.maxHealth : ℚ)
              else 1) * (rescaledMaxHealth p.baseMaxHealth m : ℚ)) < 0 then 0
            else roundHalfAway ((if p.maxHealth > 0 then (p.health : ℚ) / (p.maxHealth : ℚ)
              else 1) * (rescaledMaxHealth p.baseMaxHealth m : ℚ)))) := by
  rw [← setMaxHealth_maxHealth p m]
  rfl

theorem setMaxHealth_health_le (p : Player) (m : ℚ) :
    (p.SetMaxHealthMultiplier m).health ≤ rescaledMaxHealth p.baseMaxHealth m ∧
      (0 ≤ rescaledMaxHealth p.baseMaxHealth m → 0 ≤ (p.SetMaxHealthMultiplier m).health) ∧
      (rescaledMaxHealth p.baseMaxHealth m ≤ 0 →
        (p.SetMaxHealthMultiplier m).health = rescaledMaxHealth p.baseMaxHealth m) := by
  rw [setMaxHealth_health]
  refine ⟨?_, ?_, ?_⟩ <;> split_ifs <;> omega

theorem setMaxHealth_base (p : Player) (m : ℚ) :
    (p.SetMaxHealthMultiplier m).baseMaxHealth = p.baseMaxHealth := rfl

theorem Player.with_same (q : Player) (a b : Int) (ha : a = q.maxHealth) (hb : b = q.health) :
    ({ q with maxHealth := a, health := b } : Player) = q := by
  subst ha hb
  rfl

/-- A player whose maximum health is already the rescaled one and whose health
is within `[0, maxHealth]` is left as it is. -/
theorem setMaxHealth_fixed (q : Player) (m : ℚ)
    (hM : q.maxHealth = rescaledMaxHealth q.baseMaxHealth m) (hpos : 0 < q.maxHealth)
    (h0 : 0 ≤ q.health) (h1 : q.health ≤ q.maxHealth) : q.SetMaxHealthMultiplier m = q := by
  have hmax := setMaxHealth_maxHealth q m
  have hh := setMaxHealth_health q m
  have hq : ((q.health : ℚ) / (q.maxHealth : ℚ)) * (q.maxHealth : ℚ) = ((q.health : Int) : ℚ) := by
    have : (q.maxHealth : ℚ) ≠ 0 := by
      have : (0 : ℚ) < (q.maxHealth : ℚ) := by exact_mod_cast hpos
      exact this.ne'
    field_simp
  rw [← hM] at hmax hh
  rw [if_pos hpos, hq, roundHalfAway_intCast, if_neg (by omega), if_neg (by omega)] at hh
  have e : q.SetMaxHealthMultiplier m =
      { q with maxHealth := (q.SetMaxHealthMultiplier m).maxHealth
               health := (q.SetMaxHealthMultiplier m).health } := rfl
  rw [e]
  exact Player.with_same q _ _ hmax hh

theorem setMaxHealth_twice (p : Player) (m : ℚ) :
    (p.SetMaxHealthMultiplier m).SetMaxHealthMultiplier m = p.SetMaxHealthMultiplier m := by
  have hmax := setMaxHealth_maxHealth p m
  obtain ⟨hle, hnn, hneg⟩ := setMaxHealth_health_le p m
  by_cases hpos : 0 < rescaledMaxHealth p.baseMaxHealth m
  · exact setMaxHealth_fixed _ m (by rw [hmax]; rfl) (by rw [hmax]; exact hpos) (hnn hpos.le)
      (by rw [hmax]; exact hle)
  · have hM0 : rescaledMaxHealth p.baseMaxHealth m ≤ 0 := not_lt.mp hpos
    have hmax2 := setMaxHealth_maxHealth (p.SetMaxHealthMultiplier m) m
    have hh2 := (setMaxHealth_health_le (p.SetMaxHealthMultiplier m) m).2.2
    rw [setMaxHealth_base] at hmax2 hh2
    have e : (p.SetMaxHealthMultiplier m).SetMaxHealthMultiplier m =
        { p.SetMaxHealthMultiplier m with
          maxHealth := ((p.SetMaxHealthMultiplier m).SetMaxHealthMultiplier m).maxHealth
          health := ((p.SetMaxHealthMultiplier m).SetMaxHealthMultiplier m).health } := rfl
    rw [e]
    exact Player.with_same _ _ _ (hmax2.trans hmax.symm) ((hh2 hM0).trans (hneg hM0).symm)


/-! ## The max-health fields through a PLAYING frame -/

theorem health_SpawnRandomPowerUp (rl : Raylib) (g : Game) (pos : Vector2) :
    healthFields (SpawnRandomPowerUp rl g pos) = healthFields g := by
  unfold SpawnRandomPowerUp
  split <;> rfl

theorem health_TryDropPowerUp (rl : Raylib) (g : Game) (pos : Vector2) :
    healthFields (TryDropPowerUp rl g pos) = healthFields g := by
  unfold TryDropPowerUp
  simp only
  split_ifs <;> first
    | rfl
    | exact (health_SpawnRandomPowerUp rl _ pos).trans rfl

theorem health_ActivatePowerUp (g : Game) (t : PowerUpType) :
    healthFields (ActivatePowerUp g t) = healthFields g := by
  unfold ActivatePowerUp
  cases t <;> simp only [reduceCtorEq, if_false, if_true] <;> first
    | rfl
    | (split_ifs <;> rfl)

theorem health_periodicSpawn (rl : Raylib) (g : Game) (delta : ℚ) :
    healthFields (periodicSpawn rl g delta) = healthFields g := by
  simp only [periodicSpawn]
  split_ifs <;> first
    | rfl
    | exact (health_SpawnRandomPowerUp rl _ _).trans rfl

theorem expireEffects_maxHealth (delta : ℚ) (effects : List ActivePowerUp) :
    ∀ p : Player, (expireEffects delta effects p).2.baseMaxHealth = p.baseMaxHealth ∧
      (expireEffects delta effects p).2.maxHealth = p.maxHealth := by
  induction effects with
  | nil => intro p; exact ⟨rfl, rfl⟩
  | cons effect rest ih =>
    intro p
    simp only [expireEffects]
    split_ifs <;> exact ih _

theorem health_expiryPass (g : Game) (delta : ℚ) :
    healthFields (expiryPass g delta) = healthFields g := by
  obtain ⟨a, b⟩ := expireEffects_maxHealth delta g.activePowerUps g.player
  simp only [healthFields, expiryPass, a, b]

theorem applyStats_maxHealth (p : Player) (stats : PowerStats) :
    (applyStats p stats).baseMaxHealth = p.baseMaxHealth ∧
      (applyStats p stats).maxHealth = p.maxHealth := by
  simp only [applyStats]
  split_ifs <;> exact ⟨rfl, rfl⟩

theorem health_refreshStats (g : Game) : healthFields (refreshStats g) = healthFields g := by
  obtain ⟨a, b⟩ := applyStats_maxHealth g.player (ComputePowerStats g.activePowerUps)
  simp only [healthFields, refreshStats, a, b]

theorem Player.UpdateShield_maxHealth (p : Player) (delta : ℚ) :
    (p.UpdateShield delta).baseMaxHealth = p.baseMaxHealth ∧
      (p.UpdateShield delta).maxHealth = p.maxHealth := by
  simp only [Player.UpdateShield]
  split_ifs <;> exact ⟨rfl, rfl⟩

theorem Player.Update_maxHealth (rl : Raylib) (p : Player) (delta : ℚ) (dir : Vector2) :
    (p.Update rl delta dir).baseMaxHealth = p.baseMaxHealth ∧
      (p.Update rl delta dir).maxHealth = p.maxHealth := by
  unfold Player.Update
  exact Player.UpdateShield_maxHealth _ delta

theorem health_movePlayer (rl : Raylib) (inp : Input) (g : Game) :
    healthFields (movePlayer rl inp g) = healthFields g := by
  have h := Player.Update_maxHealth rl g.player inp.GetFrameTime
  unfold movePlayer
  simp only [healthFields, h]

theorem health_pickupLoop (rl : Raylib) (todo : List PowerUp) :
    ∀ r : Game × PowerStats × Bool, healthFields (pickupLoop rl todo r).1 = healthFields r.1 := by
  induction todo with
  | nil => intro r; rfl
  | cons powerUp rest ih =>
    rintro ⟨g, stats, picked⟩
    simp only [pickupLoop]
    split_ifs
    · exact (ih _).trans (health_ActivatePowerUp g _)
    · exact (ih _).trans rfl

theorem health_afterPickup (r : Game × PowerStats × Bool) :
    healthFields (afterPickup r) = healthFields r.1 := by
  have h := applyStats_maxHealth r.1.player r.2.1
  simp only [afterPickup, syncShieldTimer]
  split_ifs <;> first
    | rfl
    | simp only [healthFields, h]

theorem health_fire (rl : Raylib) (g : Game) (stats : PowerStats) (fireInput : Bool)
    (mouse : Vector2) : healthFields (fire rl g stats fireInput mouse) = healthFields g := by
  simp only [fire]
  split_ifs <;> rfl

theorem health_bulletLoop (rl : Raylib) (delta : ℚ) (todo : List Bullet) :
    ∀ g : Game, healthFields (bulletLoop rl delta todo g) = healthFields g := by
  induction todo with
  | nil => intro g; rfl
  | cons b rest ih =>
    intro g
    simp only [bulletLoop]
    split_ifs <;> exact (ih _).trans rfl

theorem health_contactHit (rl : Raylib) (g : Game) (e : Enemy) :
    healthFields (contactHit rl g e) = healthFields g := by
  simp only [contactHit]
  split_ifs <;> exact (health_TryDropPowerUp rl _ e.position).trans rfl

theorem health_projectileHit (rl : Raylib) (g : Game) (e : Enemy) (b : Bullet)
    (others : List Bullet) : healthFields (projectileHit rl g e b others) = healthFields g := by
  simp only [projectileHit, SpawnExplosion]
  split_ifs <;> first
    | rfl
    | exact (health_TryDropPowerUp rl _ _).trans rfl

theorem health_enemyLoop (rl : Raylib) (delta : ℚ) (todo : List Enemy) :
    ∀ g : Game, healthFields (enemyLoop rl delta todo g) = healthFields g := by
  induction todo with
  | nil => intro g; rfl
  | cons e rest ih =>
    intro g
    simp only [enemyLoop]
    split_ifs
    · exact (ih _).trans (health_contactHit rl g _)
    · split
      · exact (ih _).trans (health_projectileHit rl g _ _ _)
      · exact (ih _).trans rfl

theorem health_explosionDamage (rl : Raylib) (explosion : Explosion) (todo : List Enemy) :
    ∀ g : Game, healthFields (explosionDamage rl explosion todo g) = healthFields g := by
  induction todo with
  | nil => intro g; rfl
  | cons e rest ih =>
    intro g
    simp only [explosionDamage]
    split_ifs
    · exact (ih _).trans (health_TryDropPowerUp rl g _)
    · exact (ih _).trans rfl
    · exact (ih _).trans rfl

theorem health_explosionLoop (rl : Raylib) (todo : List Explosion) :
    ∀ g : Game, healthFields (explosionLoop rl todo g) = healthFields g := by
  induction todo with
  | nil => intro g; rfl
  | cons explosion rest ih =>
    intro g
    simp only [explosionLoop]
    split_ifs
    · exact (ih _).trans rfl
    · exact (ih _).trans ((health_explosionDamage rl explosion g.enemies _).trans rfl)

theorem health_waveClearCheck (g : Game) : healthFields (waveClearCheck g) = healthFields g := by
  simp only [waveClearCheck]
  split_ifs <;> rfl

theorem health_combatFrame (rl : Raylib) (inp : Input) (g : Game) (mouse : Vector2)
    (fireInput : Bool) : healthFields (combatFrame rl inp g mouse fireInput) = healthFields g := by
  rw [combatFrame_eq]
  unfold explosionExpiryPass explosionPass enemyPass beforeCombat bulletPass pickupPass
  refine Eq.trans (b := healthFields (explosionLoop rl _ _)) rfl ?_
  refine (health_explosionLoop rl _ _).trans ?_
  refine Eq.trans (b := healthFields (enemyLoop rl _ _ _)) rfl ?_
  refine (health_enemyLoop rl _ _ _).trans ?_
  refine Eq.trans (b := healthFields (bulletLoop rl _ _ _)) rfl ?_
  refine (health_bulletLoop rl _ _ _).trans ?_
  refine Eq.trans (b := healthFields (fire rl _ _ fireInput mouse)) rfl ?_
  refine (health_fire rl _ _ _ _).trans ?_
  refine (health_afterPickup _).trans ?_
  refine (health_pickupLoop rl _ _).trans ?_
  refine Eq.trans (b := healthFields (movePlayer rl inp _)) rfl ?_
  refine (health_movePlayer rl inp _).trans ?_
  refine (health_refreshStats _).trans ?_
  refine (health_expiryPass _ _).trans ?_
  exact health_periodicSpawn rl g _

theorem health_playingFrame (rl : Raylib) (inp : Input) (g : Game) (mouse : Vector2)
    (fireInput : Bool) : healthFields (playingFrame rl inp g mouse fireInput) = healthFields g := by
  by_cases hesc : inp.keyEscapePressed = true
  · simp only [playingFrame, hesc, if_true]
    rfl
  · rw [playingFrame_eq rl inp g mouse fireInput (by simpa using hesc)]
    exact (health_waveClearCheck _).trans (health_combatFrame rl inp g mouse fireInput)


/-! ## The pickup cap -/

theorem addsAtMostOne_cap {g g2 : Game} (h : AddsAtMostOne g g2)
    (hc : (g.powerUps.length : Int) ≤ maxFieldPowerUps) :
    (g2.powerUps.length : Int) ≤ maxFieldPowerUps := by
  rcases h with h | ⟨hlt, p, hp⟩
  · rw [h]; exact hc
  · rw [hp, List.length_append, List.length_singleton]
    push_cast
    omega

theorem addsAtMostOne_SpawnRandomPowerUp (rl : Raylib) (g : Game) (pos : Vector2) :
    AddsAtMostOne g (SpawnRandomPowerUp rl g pos) := by
  by_cases hcap : (g.powerUps.length : Int) ≥ maxFieldPowerUps
  · left
    simp only [SpawnRandomPowerUp, hcap, if_true]
  · right
    refine ⟨not_le.mp hcap, ?_⟩
    simp only [SpawnRandomPowerUp, hcap, if_false, CreatePowerUpInstance]
    exact ⟨_, rfl⟩

theorem addsAtMostOne_TryDropPowerUp (rl : Raylib) (g : Game) (pos : Vector2) :
    AddsAtMostOne g (TryDropPowerUp rl g pos) := by
  by_cases hcap : (g.powerUps.length : Int) ≥ maxFieldPowerUps
  · left
    simp only [TryDropPowerUp, hcap, if_true]
  · simp only [TryDropPowerUp, hcap, if_false]
    split_ifs <;> first
      | exact addsAtMostOne_SpawnRandomPowerUp rl _ pos
      | exact Or.inr ⟨not_le.mp hcap, _, rfl⟩
      | exact Or.inl rfl

theorem addsAtMostOne_periodicSpawn (rl : Raylib) (g : Game) (delta : ℚ) :
    AddsAtMostOne g (periodicSpawn rl g delta) := by
  simp only [periodicSpawn]
  split_ifs <;> first
    | exact Or.inl rfl
    | exact addsAtMostOne_SpawnRandomPowerUp rl _ _


theorem powerUps_ActivatePowerUp (g : Game) (t : PowerUpType) :
    (ActivatePowerUp g t).powerUps = g.powerUps := by
  unfold ActivatePowerUp
  cases t <;> simp only [reduceCtorEq, if_false, if_true]
  all_goals first
    | rfl
    | (split_ifs <;> rfl)

theorem cap_pickupLoop (rl : Raylib) (todo : List PowerUp) :
    ∀ r : Game × PowerStats × Bool,
      (r.1.powerUps.length : Int) + (todo.length : Int) ≤ maxFieldPowerUps →
      ((pickupLoop rl todo r).1.powerUps.length : Int) ≤ maxFieldPowerUps := by
  induction todo with
  | nil =>
    intro r h
    simpa [pickupLoop] using h
  | cons powerUp rest ih =>
    rintro ⟨g, stats, picked⟩ h
    simp only [List.length_cons] at h
    push_cast at h
    simp only [pickupLoop]
    split_ifs
    · refine ih _ ?_
      have hp := powerUps_ActivatePowerUp g powerUp.type
      show ((ActivatePowerUp g powerUp.type).powerUps.length : Int) + _ ≤ _
      rw [hp]
      omega
    · refine ih _ ?_
      show ((g.powerUps ++ [powerUp]).length : Int) + _ ≤ _
      rw [List.length_append, List.length_singleton]
      push_cast
      omega

theorem powerUps_afterPickup (r : Game × PowerStats × Bool) :
    (afterPickup r).powerUps = r.1.powerUps := by
  simp only [afterPickup, syncShieldTimer]
  split_ifs <;> rfl

theorem powerUps_fire (rl : Raylib) (g : Game) (stats : PowerStats) (fireInput : Bool)
    (mouse : Vector2) : (fire rl g stats fireInput mouse).powerUps = g.powerUps := by
  simp only [fire]
  split_ifs <;> rfl

theorem powerUps_bulletLoop (rl : Raylib) (delta : ℚ) (todo : List Bullet) :
    ∀ g : Game, (bulletLoop rl delta todo g).powerUps = g.powerUps := by
  induction todo with
  | nil => intro g; rfl
  | cons b rest ih =>
    intro g
    simp only [bulletLoop]
    split_ifs <;> exact (ih _).trans rfl

theorem cap_contactHit (rl : Raylib) (g : Game) (e : Enemy)
    (h : (g.powerUps.length : Int) ≤ maxFieldPowerUps) :
    ((contactHit rl g e).powerUps.length : Int) ≤ maxFieldPowerUps := by
  simp only [contactHit]
  split_ifs <;> exact addsAtMostOne_cap (addsAtMostOne_TryDropPowerUp rl _ e.position) h

theorem cap_projectileHit (rl : Raylib) (g : Game) (e : Enemy) (b : Bullet)
    (others : List Bullet) (h : (g.powerUps.length : Int) ≤ maxFieldPowerUps) :
    ((projectileHit rl g e b others).powerUps.length : Int) ≤ maxFieldPowerUps := by
  simp only [projectileHit, SpawnExplosion]
  split_ifs <;> first
    | exact h
    | exact addsAtMostOne_cap (addsAtMostOne_TryDropPowerUp rl _ _) h

theorem cap_enemyLoop (rl : Raylib) (delta : ℚ) (todo : List Enemy) :
    ∀ g : Game, (g.powerUps.length : Int) ≤ maxFieldPowerUps →
      ((enemyLoop rl delta todo g).powerUps.length : Int) ≤ maxFieldPowerUps := by
  induction todo with
  | nil => intro g h; exact h
  | cons e rest ih =>
    intro g h
    simp only [enemyLoop]
    split_ifs
    · exact ih _ (cap_contactHit rl g _ h)
    · split
      · exact ih _ (cap_projectileHit rl g _ _ _ h)
      · exact ih _ h

theorem cap_explosionDamage (rl : Raylib) (explosion : Explosion) (todo : List Enemy) :
    ∀ g : Game, (g.powerUps.length : Int) ≤ maxFieldPowerUps →
      ((explosionDamage rl explosion todo g).powerUps.length : Int) ≤ maxFieldPowerUps := by
  induction todo with
  | nil => intro g h; exact h
  | cons e rest ih =>
    intro g h
    simp only [explosionDamage]
    split_ifs
    · exact ih _ (addsAtMostOne_cap (addsAtMostOne_TryDropPowerUp rl g _) h)
    · exact ih _ h
    · exact ih _ h

theorem cap_explosionLoop (rl : Raylib) (todo : List Explosion) :
    ∀ g : Game, (g.powerUps.length : Int) ≤ maxFieldPowerUps →
      ((explosionLoop rl todo g).powerUps.length : Int) ≤ maxFieldPowerUps := by
  induction todo with
  | nil => intro g h; exact h
  | cons explosion rest ih =>
    intro g h
    simp only [explosionLoop]
    split_ifs
    · exact ih _ h
    · exact ih _ (cap_explosionDamage rl explosion g.enemies { g with enemies := [] } h)

theorem cap_pickupPass (rl : Raylib) (g : Game) (stats : PowerStats)
    (h : (g.powerUps.length : Int) ≤ maxFieldPowerUps) :
    (((pickupPass rl g stats).1).powerUps.length : Int) ≤ maxFieldPowerUps := by
  unfold pickupPass
  refine cap_pickupLoop rl g.powerUps _ ?_
  simpa using h

theorem cap_afterPickup (r : Game × PowerStats × Bool)
    (h : (r.1.powerUps.length : Int) ≤ maxFieldPowerUps) :
    ((afterPickup r).powerUps.length : Int) ≤ maxFieldPowerUps := by
  rw [powerUps_afterPickup]
  exact h

theorem cap_fire (rl : Raylib) (g : Game) (stats : PowerStats) (fireInput : Bool)
    (mouse : Vector2) (h : (g.powerUps.length : Int) ≤ maxFieldPowerUps) :
    ((fire rl g stats fireInput mouse).powerUps.length : Int) ≤ maxFieldPowerUps := by
  rw [powerUps_fire]
  exact h

theorem cap_bulletPass (rl : Raylib) (g : Game) (delta : ℚ)
    (h : (g.powerUps.length : Int) ≤ maxFieldPowerUps) :
    ((bulletPass rl g delta).powerUps.length : Int) ≤ maxFieldPowerUps := by
  unfold bulletPass
  rw [powerUps_bulletLoop]
  exact h

theorem cap_enemyPass (rl : Raylib) (g : Game) (delta : ℚ)
    (h : (g.powerUps.length : Int) ≤ maxFieldPowerUps) :
    ((enemyPass rl g delta).powerUps.length : Int) ≤ maxFieldPowerUps :=
  cap_enemyLoop rl delta g.enemies { g with enemies := [] } h

theorem cap_explosionPass (rl : Raylib) (g : Game)
    (h : (g.powerUps.length : Int) ≤ maxFieldPowerUps) :
    ((explosionPass rl g).powerUps.length : Int) ≤ maxFieldPowerUps :=
  cap_explosionLoop rl g.explosions { g with explosions := [] } h

theorem cap_periodicSpawn (rl : Raylib) (g : Game) (delta : ℚ)
    (h : (g.powerUps.length : Int) ≤ maxFieldPowerUps) :
    ((periodicSpawn rl g delta).powerUps.length : Int) ≤ maxFieldPowerUps :=
  addsAtMostOne_cap (addsAtMostOne_periodicSpawn rl g delta) h

theorem cap_early (rl : Raylib) (inp : Input) (g : Game)
    (h : (g.powerUps.length : Int) ≤ maxFieldPowerUps) :
    ((movePlayer rl inp (refreshStats (expiryPass g inp.GetFrameTime))).powerUps.length : Int) ≤
      maxFieldPowerUps := h

theorem cap_combatFrame (rl : Raylib) (inp : Input) (g : Game) (mouse : Vector2)
    (fireInput : Bool) (h : (g.powerUps.length : Int) ≤ maxFieldPowerUps) :
    ((combatFrame rl inp g mouse fireInput).powerUps.length : Int) ≤ maxFieldPowerUps := by
  unfold combatFrame
  exact cap_explosionPass rl _ (cap_enemyPass rl _ _ (cap_bulletPass rl _ _ (cap_fire rl _ _ _ _
    (cap_afterPickup _ (cap_pickupPass rl _ _ (cap_early rl inp _
      (cap_periodicSpawn rl g _ h)))))))

theorem cap_playingFrame (rl : Raylib) (inp : Input) (g : Game) (mouse : Vector2)
    (fireInput : Bool) (h : (g.powerUps.length : Int) ≤ maxFieldPowerUps) :
    ((playingFrame rl inp g mouse fireInput).powerUps.length : Int) ≤ maxFieldPowerUps := by
  by_cases hesc : inp.keyEscapePressed = true
  · simp only [playingFrame, hesc, if_true]
    exact h
  · rw [playingFrame_eq rl inp g mouse fireInput (by simpa using hesc)]
    have hc := cap_combatFrame rl inp g mouse fireInput h
    simp only [waveClearCheck]
    split_ifs <;> exact hc

/-! ## The pickup and max-health invariant -/

theorem stockInv_playingFrame {g : Game} (h : StockInv g) (rl : Raylib) (inp : Input)
    (mouse : Vector2) (fireInput : Bool) : StockInv (playingFrame rl inp g mouse fireInput) := by
  refine ⟨cap_playingFrame rl inp g mouse fireInput h.pickups, ?_⟩
  have hf := health_playingFrame rl inp g mouse fireInput
  simp only [healthFields, Prod.mk.injEq] at hf
  rw [hf.1, hf.2.1, hf.2.2]
  exact h.sync

theorem stockInv_SpawnWave (rl : Raylib) (g : Game) (wave : Int) :
    StockInv (SpawnWave rl g wave) := by
  constructor
  · simp only [SpawnWave, List.length_nil, maxFieldPowerUps]
    decide
  · simp only [SpawnWave]
    split_ifs <;> exact setMaxHealth_maxHealth g.player g.permanentHealthMultiplier

theorem stockInv_startRun (rl : Raylib) (g : Game) : StockInv (startRun rl g) := by
  have h := stockInv_SpawnWave rl
    { ResetPermanentUpgrades g with pendingWave := 0, currentWave := g.startingWaveOverride }
    g.startingWaveOverride
  exact ⟨h.pickups, h.sync⟩

theorem stockInv_backToMenu {g : Game} (h : StockInv g) : StockInv (backToMenu g) :=
  ⟨h.pickups, setMaxHealth_maxHealth g.player 1⟩

theorem stockInv_applyUpgrade (rl : Raylib) (g : Game) (chosenOption : Int) :
    StockInv (applyUpgrade rl g chosenOption) := by
  have key : ∀ (g0 : Game) (w : Int),
      StockInv { SpawnWave rl { g0 with fireTimer := 0, currentWave := w, pendingWave := 0 } w with
                 state := GameState.PLAYING } := by
    intro g0 w
    have h := stockInv_SpawnWave rl { g0 with fireTimer := 0, currentWave := w, pendingWave := 0 } w
    exact ⟨h.pickups, h.sync⟩
  simp only [applyUpgrade, advanceWave]
  split_ifs
  · exact key (applyChoice g chosenOption) ((applyChoice g chosenOption).currentWave + 1)
  · exact key (applyChoice g chosenOption) (applyChoice g chosenOption).pendingWave

theorem stockInv_frameStart {g : Game} (h : StockInv g) (inp : Input) :
    StockInv (frameStart inp g) := by
  simp only [frameStart]
  split_ifs <;> exact ⟨h.pickups, h.sync⟩

theorem stockInv_orStart {g : Game} (h : StockInv g) (rl : Raylib) (c : Bool) :
    StockInv (if c then startRun rl g else g) := by
  split_ifs
  · exact stockInv_startRun rl g
  · exact h

theorem stockInv_orMenu {g : Game} (h : StockInv g) (c : Bool) :
    StockInv (if c then backToMenu g else g) := by
  split_ifs
  · exact stockInv_backToMenu h
  · exact h

theorem stockInv_orState {g : Game} (h : StockInv g) (c : Bool) (s : GameState) :
    StockInv (if c then { g with state := s } else g) := by
  split_ifs
  · exact ⟨h.pickups, h.sync⟩
  · exact h

theorem stockInv_frame {g g2 : Game} (h : StockInv g) (rl : Raylib) (inp : Input)
    (hstep : frame rl inp g = some g2) : StockInv g2 := by
  have h0 := stockInv_frameStart h inp
  simp only [frame] at hstep
  split at hstep
  · cases hstep
    simp only [splashFrame]
    split_ifs <;> exact ⟨h0.pickups, h0.sync⟩
  · simp only [menuFrame] at hstep
    split_ifs at hstep <;> cases hstep <;> first
      | exact h0
      | exact stockInv_startRun rl _
  · cases hstep
    simp only [pausedFrame]
    exact stockInv_orMenu (stockInv_orStart (stockInv_orState (stockInv_orState h0 _ _) _ _) rl _) _
  · cases hstep
    exact stockInv_playingFrame h0 rl inp _ _
  · cases hstep
    simp only [upgradeFrame]
    split_ifs
    · exact stockInv_applyUpgrade rl _ _
    · exact h0
  · cases hstep
    simp only [gameOverFrame]
    exact stockInv_orMenu (stockInv_orStart h0 rl _) _

/-- Every reachable session state satisfies the pickup and max-health
invariant. -/
theorem reachable_stockInv (rl : Raylib) {g : Game} (h : Reachable rl g) : StockInv g := by
  induction h with
  | initial =>
    refine ⟨by simp [Game.initial, maxFieldPowerUps], ?_⟩
    exact setMaxHealth_maxHealth Player.new 1
  | step inp g g2 _ hstep ih => exact stockInv_frame ih rl inp hstep
  | seed daySeed g _ ih => exact ⟨ih.pickups, ih.sync⟩


/-! ## C22: the pickup cap -/

theorem addsAtMostOne_spec {g g2 : Game} (h : AddsAtMostOne g g2) :
    (3 ≤ g.powerUps.length → g2.powerUps = g.powerUps) ∧
      (g2.powerUps = g.powerUps ∨ ∃ p : PowerUp, g2.powerUps = g.powerUps ++ [p]) := by
  rcases h with h | ⟨hlt, p, hp⟩
  · exact ⟨fun _ => h, Or.inl h⟩
  · refine ⟨?_, Or.inr ⟨p, hp⟩⟩
    intro h3
    simp only [maxFieldPowerUps] at hlt
    omega

/-- C22: in every reachable session state the field holds at most 3 pickups
(`maxFieldPowerUps`). `SpawnRandomPowerUp`, `TryDropPowerUp` and the periodic
spawner leave the list as it is when it already holds 3, and each call leaves
it as it is or appends exactly one pickup. -/
theorem pickups_capped (rl : Raylib) (g : Game) (h : Reachable rl g) :
    g.powerUps.length ≤ 3 ∧ maxFieldPowerUps = 3 ∧
      (∀ (g0 : Game) (pos : Vector2),
        (3 ≤ g0.powerUps.length → (SpawnRandomPowerUp rl g0 pos).powerUps = g0.powerUps) ∧
          ((SpawnRandomPowerUp rl g0 pos).powerUps = g0.powerUps ∨
            ∃ p : PowerUp, (SpawnRandomPowerUp rl g0 pos).powerUps = g0.powerUps ++ [p])) ∧
      (∀ (g0 : Game) (pos : Vector2),
        (3 ≤ g0.powerUps.length → (TryDropPowerUp rl g0 pos).powerUps = g0.powerUps) ∧
          ((TryDropPowerUp rl g0 pos).powerUps = g0.powerUps ∨
            ∃ p : PowerUp, (TryDropPowerUp rl g0 pos).powerUps = g0.powerUps ++ [p])) ∧
      (∀ (g0 : Game) (delta : ℚ),
        (3 ≤ g0.powerUps.length → (periodicSpawn rl g0 delta).powerUps = g0.powerUps) ∧
          ((periodicSpawn rl g0 delta).powerUps = g0.powerUps ∨
            ∃ p : PowerUp, (periodicSpawn rl g0 delta).powerUps = g0.powerUps ++ [p])) := by
  have hc := (reachable_stockInv rl h).pickups
  simp only [maxFieldPowerUps] at hc
  exact ⟨by omega, rfl,
    fun g0 pos => addsAtMostOne_spec (addsAtMostOne_SpawnRandomPowerUp rl g0 pos),
    fun g0 pos => addsAtMostOne_spec (addsAtMostOne_TryDropPowerUp rl g0 pos),
    fun g0 delta => addsAtMostOne_spec (addsAtMostOne_periodicSpawn rl g0 delta)⟩

/-- C22 at the wave-1 session reached by skipping the splash screen and
pressing Play. -/
theorem pickups_capped_witness :
    Reachable sampleRaylib (startRun sampleRaylib menuGame) ∧
      (startRun sampleRaylib menuGame).powerUps.length ≤ 3 :=
  ⟨reachable_startRun, (pickups_capped sampleRaylib _ reachable_startRun).1⟩

/-! ## C30: the rescale at a wave start changes nothing -/

theorem SpawnWave_player_fixed (rl : Raylib) (g : Game) (wave : Int)
    (h : g.player.SetMaxHealthMultiplier g.permanentHealthMultiplier = g.player) :
    (SpawnWave rl g wave).player =
      (if wave = 1 then g.player.ResetHealth.ResetPosition else g.player).ResetStatus := by
  simp only [SpawnWave, h]

theorem advanceWave_player (rl : Raylib) (g : Game) :
    ∃ g0 : Game, g0.player = g.player ∧
      g0.permanentHealthMultiplier = g.permanentHealthMultiplier ∧
      (advanceWave rl g).player = (SpawnWave rl g0 (advanceWave rl g).currentWave).player := by
  simp only [advanceWave]
  split_ifs <;> exact ⟨_, rfl, rfl, rfl⟩

theorem reachable_setMax_fixed (rl : Raylib) {g : Game} (h : Reachable rl g) :
    g.player.SetMaxHealthMultiplier g.permanentHealthMultiplier = g.player := by
  have hp := (reachable_inv rl h).player
  exact setMaxHealth_fixed g.player _ (reachable_stockInv rl h).sync
    (by have := hp.maxGe; omega) hp.healthNonneg hp.healthLe

/-- C30: `SetMaxHealthMultiplier` is idempotent: for every player and every
multiplier `m`, calling `SetMaxHealthMultiplier(m)` twice gives the same
player (so the same `maxHealth` and `health`) as calling it once. The call
that `SpawnWave` makes after a Health upgrade repeats the call of the upgrade
and changes nothing; in every reachable session state the player's maximum
health is already the one of the permanent health multiplier, so the call at
a wave start leaves the player as it is: the player after an upgrade is the
player of the upgrade, and the player of a new run the rescaled and healed
one, reset by `ResetHealth` and `ResetPosition` for wave 1 and by
`ResetStatus`. -/
theorem setMaxHealthMultiplier_idempotent (p : Player) (m : ℚ) :
    (p.SetMaxHealthMultiplier m).SetMaxHealthMultiplier m = p.SetMaxHealthMultiplier m ∧
      ((p.SetMaxHealthMultiplier m).SetMaxHealthMultiplier m).maxHealth =
        (p.SetMaxHealthMultiplier m).maxHealth ∧
      ((p.SetMaxHealthMultiplier m).SetMaxHealthMultiplier m).health =
        (p.SetMaxHealthMultiplier m).health ∧
      (∀ g : Game,
        (applyChoice g 0).player.SetMaxHealthMultiplier (applyChoice g 0).permanentHealthMultiplier =
          (applyChoice g 0).player) ∧
      (∀ (rl : Raylib) (g : Game), Reachable rl g →
        g.player.SetMaxHealthMultiplier g.permanentHealthMultiplier = g.player ∧
          (∀ wave : Int, (SpawnWave rl g wave).player =
            (if wave = 1 then g.player.ResetHealth.ResetPosition else g.player).ResetStatus) ∧
          (∀ c : Int, (applyUpgrade rl g c).player =
            (if (advanceWave rl (applyChoice g c)).currentWave = 1 then
              (applyChoice g c).player.ResetHealth.ResetPosition
             else (applyChoice g c).player).ResetStatus)) := by
  have h2 := setMaxHealth_twice p m
  have hc0 : ∀ g : Game,
      (applyChoice g 0).player.SetMaxHealthMultiplier (applyChoice g 0).permanentHealthMultiplier =
        (applyChoice g 0).player := by
    intro g
    simp only [applyChoice, if_true]
    exact setMaxHealth_twice _ _
  refine ⟨h2, by rw [h2], by rw [h2], hc0, ?_⟩
  intro rl g hr
  have hfix := reachable_setMax_fixed rl hr
  refine ⟨hfix, ?_, ?_⟩
  · intro wave
    exact SpawnWave_player_fixed rl g wave hfix
  · intro c
    have hcfix : (applyChoice g c).player.SetMaxHealthMultiplier
        (applyChoice g c).permanentHealthMultiplier = (applyChoice g c).player := by
      by_cases h0 : c = 0
      · subst h0
        exact hc0 g
      · simp only [applyChoice, if_neg h0]
        split_ifs <;> exact hfix
    obtain ⟨g0, e1, e2, e3⟩ := advanceWave_player rl (applyChoice g c)
    unfold applyUpgrade
    rw [e3, SpawnWave_player_fixed rl g0 _ (by rw [e1, e2]; exact hcfix), e1]

/-! ## C25: the upgrade screen -/

theorem frameStart_keeps (inp : Input) (g : Game) :
    (frameStart inp g).player = g.player ∧ (frameStart inp g).bullets = g.bullets ∧
      (frameStart inp g).powerUps = g.powerUps ∧
      (frameStart inp g).activePowerUps = g.activePowerUps ∧
      (frameStart inp g).explosions = g.explosions := by
  simp only [frameStart]
  split_ifs <;> exact ⟨rfl, rfl, rfl, rfl, rfl⟩

theorem advanceWave_eq (rl : Raylib) (g : Game) (h : g.pendingWave = g.currentWave + 1) :
    advanceWave rl g =
      { SpawnWave rl
          { g with fireTimer := 0, currentWave := g.currentWave + 1, pendingWave := 0 }
          (g.currentWave + 1) with
        state := GameState.PLAYING } := by
  simp only [advanceWave, h]
  rw [if_neg (by omega)]

theorem applyChoice_waves (g : Game) (c : Int) :
    (applyChoice g c).currentWave = g.currentWave ∧
      (applyChoice g c).pendingWave = g.pendingWave := by
  simp only [applyChoice]
  split_ifs <;> exact ⟨rfl, rfl⟩

/-- C25: on the upgrade screen entered with `pendingWave = currentWave + 1`,
the frame that selects option `c` (0, 1 or 2) applies the chosen permanent
multiplier (times 1.15, the others unchanged), makes the queued wave the
current one (`currentWave + 1`), resets `pendingWave` to 0, spawns that wave
with `SpawnWave` and moves to PLAYING; a frame without a selection leaves the
session as it is, so the state stays UPGRADE and the wave counters, the
multipliers and the entities are unchanged. -/
theorem upgrade_advances_wave (rl : Raylib) (g : Game)
    (hp : g.pendingWave = g.currentWave + 1) :
    (∀ loc : FrameLocals, chosenUpgrade rl loc ≠ -1 →
      upgradeFrame rl loc g =
          { SpawnWave rl
              { applyChoice g (chosenUpgrade rl loc) with
                fireTimer := 0, currentWave := g.currentWave + 1, pendingWave := 0 }
              (g.currentWave + 1) with
            state := GameState.PLAYING } ∧
        (upgradeFrame rl loc g).state = GameState.PLAYING ∧
        (upgradeFrame rl loc g).currentWave = g.currentWave + 1 ∧
        (upgradeFrame rl loc g).pendingWave = 0 ∧
        (upgradeFrame rl loc g).enemiesRemaining =
          waveEnemyCount (g.currentWave + 1) g.enemyCountMultiplier ∧
        ((upgradeFrame rl loc g).enemies.length : Int) =
          waveEnemyCount (g.currentWave + 1) g.enemyCountMultiplier ∧
        (upgradeFrame rl loc g).permanentHealthMultiplier =
          (if chosenUpgrade rl loc = 0 then g.permanentHealthMultiplier * (115 / 100)
           else g.permanentHealthMultiplier) ∧
        (upgradeFrame rl loc g).permanentFireRateMultiplier =
          (if chosenUpgrade rl loc = 1 then g.permanentFireRateMultiplier * (115 / 100)
           else g.permanentFireRateMultiplier) ∧
        (upgradeFrame rl loc g).permanentDamageMultiplier =
          (if chosenUpgrade rl loc = 2 then g.permanentDamageMultiplier * (115 / 100)
           else g.permanentDamageMultiplier)) ∧
      (∀ loc : FrameLocals, chosenUpgrade rl loc = -1 → upgradeFrame rl loc g = g) ∧
      (∀ inp : Input, g.state = GameState.UPGRADE →
        frame rl inp g = some (upgradeFrame rl (frameLocals rl inp g) (frameStart inp g)) ∧
          (chosenUpgrade rl (frameLocals rl inp g) = -1 →
            ∃ r : Game, frame rl inp g = some r ∧ r.state = GameState.UPGRADE ∧
              r.currentWave = g.currentWave ∧ r.pendingWave = g.pendingWave ∧
              r.permanentHealthMultiplier = g.permanentHealthMultiplier ∧
              r.permanentFireRateMultiplier = g.permanentFireRateMultiplier ∧
              r.permanentDamageMultiplier = g.permanentDamageMultiplier ∧
              r.player = g.player ∧ r.enemies = g.enemies ∧ r.bullets = g.bullets ∧
              r.powerUps = g.powerUps ∧ r.activePowerUps = g.activePowerUps ∧
              r.explosions = g.explosions ∧ r.enemiesRemaining = g.enemiesRemaining)) := by
  refine ⟨?_, ?_, ?_⟩
  · intro loc hc
    have hw := applyChoice_waves g (chosenUpgrade rl loc)
    have he : upgradeFrame rl loc g =
        { SpawnWave rl
            { applyChoice g (chosenUpgrade rl loc) with
              fireTimer := 0, currentWave := g.currentWave + 1, pendingWave := 0 }
            (g.currentWave + 1) with
          state := GameState.PLAYING } := by
      simp only [upgradeFrame, if_pos hc, applyUpgrade]
      rw [advanceWave_eq rl _ (by rw [hw.1, hw.2]; exact hp), hw.1]
    have hm := applyUpgrade_multipliers rl g (chosenUpgrade rl loc)
    have hu : upgradeFrame rl loc g = applyUpgrade rl g (chosenUpgrade rl loc) := by
      simp only [upgradeFrame, if_pos hc]
    have hmult : ∀ c : Int, (applyChoice g c).enemyCountMultiplier = g.enemyCountMultiplier := by
      intro c
      simp only [applyChoice]
      split_ifs <;> rfl
    refine ⟨he, by rw [he], by rw [he]; rfl, by rw [he]; rfl, ?_, ?_, ?_, ?_, ?_⟩
    · rw [he]
      simp only [SpawnWave, hmult]
    · rw [he]
      simp only [SpawnWave, spawnLoop_length, List.length_nil, zero_add, hmult]
      have := waveEnemyCount_pos (g.currentWave + 1) g.enemyCountMultiplier
      omega
    · rw [hu]; exact hm.1
    · rw [hu]; exact hm.2.1
    · rw [hu]; exact hm.2.2
  · intro loc hc
    simp only [upgradeFrame, hc, ne_eq, not_true_eq_false, if_false]
  · intro inp hs
    have hq := frameStart_quiet inp g
    simp only [quietFields, runFields, Prod.mk.injEq] at hq
    have hst : (frameStart inp g).state = GameState.UPGRADE := by rw [hq.2.2.1, hs]
    have hf : frame rl inp g =
        some (upgradeFrame rl (frameLocals rl inp g) (frameStart inp g)) := by
      simp only [frame, hst]
    refine ⟨hf, ?_⟩
    intro hc
    have hk := frameStart_keeps inp g
    refine ⟨frameStart inp g, ?_, hst, hq.2.2.2.2.1.1, hq.2.2.2.2.1.2, hq.2.2.2.2.2.1.1,
      hq.2.2.2.2.2.1.2.1, hq.2.2.2.2.2.1.2.2, hk.1, hq.1, hk.2.1, hk.2.2.1, hk.2.2.2.1,
      hk.2.2.2.2, hq.2.1⟩
    rw [hf]
    simp only [upgradeFrame, hc, ne_eq, not_true_eq_false, if_false]

/-- C25 at a session that cleared wave 1 and selects the Damage upgrade. -/
theorem upgrade_advances_wave_witness :
    upgradeGame.pendingWave = upgradeGame.currentWave + 1 ∧
      (upgradeFrame sampleRaylib damageChoice upgradeGame).state = GameState.PLAYING ∧
      (upgradeFrame sampleRaylib damageChoice upgradeGame).currentWave = 2 ∧
      (upgradeFrame sampleRaylib damageChoice upgradeGame).pendingWave = 0 :=
  have hc : chosenUpgrade sampleRaylib damageChoice ≠ -1 := by
    norm_num [chosenUpgrade, upgradeOption, sampleRaylib, damageChoice]
  have h := (upgrade_advances_wave sampleRaylib upgradeGame rfl).1 damageChoice hc
  ⟨rfl, h.2.1, h.2.2.1, h.2.2.2.1⟩

/-! ## C26: a new run -/

theorem rescaledMaxHealth_one (b : Int) : rescaledMaxHealth b 1 = b := by
  simp only [rescaledMaxHealth, max_self, mul_one, roundHalfAway_intCast]

theorem startRun_player_health (rl : Raylib) (g : Game) :
    (startRun rl g).player.baseMaxHealth = g.player.baseMaxHealth ∧
      (startRun rl g).player.maxHealth = g.player.baseMaxHealth ∧
      (startRun rl g).player.health = g.player.baseMaxHealth := by
  have hM := setMaxHealth_maxHealth g.player 1
  rw [rescaledMaxHealth_one] at hM
  have hM2 := setMaxHealth_maxHealth (g.player.SetMaxHealthMultiplier 1).ResetHealth 1
  rw [rescaledMaxHealth_one] at hM2
  have hb : ((g.player.SetMaxHealthMultiplier 1).ResetHealth).baseMaxHealth =
      g.player.baseMaxHealth := rfl
  rw [hb] at hM2
  have hh : (((g.player.SetMaxHealthMultiplier 1).ResetHealth).SetMaxHealthMultiplier 1).health =
      g.player.baseMaxHealth := by
    by_cases hpos : 0 < g.player.baseMaxHealth
    · have hfix := setMaxHealth_fixed (g.player.SetMaxHealthMultiplier 1).ResetHealth 1
        (by rw [rescaledMaxHealth_one]; exact hM) (by
          show 0 < (g.player.SetMaxHealthMultiplier 1).maxHealth
          rw [hM]; exact hpos) (by
          show 0 ≤ (g.player.SetMaxHealthMultiplier 1).maxHealth
          rw [hM]; exact hpos.le) (le_refl _)
      rw [hfix]
      exact hM
    · have h3 := (setMaxHealth_health_le (g.player.SetMaxHealthMultiplier 1).ResetHealth 1).2.2
      rw [hb, rescaledMaxHealth_one] at h3
      exact h3 (not_lt.mp hpos)
  simp only [startRun, ResetPermanentUpgrades, SpawnWave]
  split_ifs
  · exact ⟨rfl, hM2, hM2⟩
  · exact ⟨rfl, hM2, hh⟩

/-- C26: after Play (MENU), Restart (PAUSED) or Replay (GAME_OVER), for every
prior session and every configured starting wave: the three permanent
multipliers are 1, `player.maxHealth = baseMaxHealth` and
`player.health = maxHealth`, the shield charges are 0, `pendingWave = 0`,
`gameOver` is false, `currentWave` is the configured starting wave, that wave
has been spawned (`SpawnWave` with that number: its enemy count in the list
and in `enemiesRemaining`) and the state is PLAYING. The three buttons run
this same sequence when the other button of their screen is not hit. -/
theorem new_run_resets (rl : Raylib) (g : Game) :
    ((startRun rl g).permanentHealthMultiplier = 1 ∧
        (startRun rl g).permanentFireRateMultiplier = 1 ∧
        (startRun rl g).permanentDamageMultiplier = 1) ∧
      ((startRun rl g).player.maxHealth = (startRun rl g).player.baseMaxHealth ∧
        (startRun rl g).player.health = (startRun rl g).player.maxHealth ∧
        (startRun rl g).player.shieldCharges = 0) ∧
      ((startRun rl g).pendingWave = 0 ∧ (startRun rl g).gameOver = false ∧
        (startRun rl g).currentWave = g.startingWaveOverride ∧
        (startRun rl g).state = GameState.PLAYING) ∧
      (startRun rl g =
          { SpawnWave rl
              { ResetPermanentUpgrades g with
                pendingWave := 0, currentWave := g.startingWaveOverride }
              g.startingWaveOverride with
            gameOver := false, state := GameState.PLAYING } ∧
        (startRun rl g).enemiesRemaining =
          waveEnemyCount g.startingWaveOverride g.enemyCountMultiplier ∧
        ((startRun rl g).enemies.length : Int) =
          waveEnemyCount g.startingWaveOverride g.enemyCountMultiplier) ∧
      (∀ loc : FrameLocals,
        (rl.CheckCollisionPointRec loc.uiPointer (button rl (-100) (-60) 200 60) &&
          loc.pressed) = true →
        (rl.CheckCollisionPointRec loc.uiPointer (button rl (-100) 20 200 60) &&
          loc.pressed) = false →
        menuFrame rl loc g = some (startRun rl g)) ∧
      (∀ (inp : Input) (loc : FrameLocals),
        (rl.CheckCollisionPointRec loc.uiPointer (button rl (-100) (-20) 200 60) &&
          loc.pressed) = true →
        (rl.CheckCollisionPointRec loc.uiPointer (button rl (-100) 60 200 60) &&
          loc.pressed) = false →
        pausedFrame rl inp loc g = startRun rl g) ∧
      (∀ loc : FrameLocals,
        (rl.CheckCollisionPointRec loc.uiPointer (button rl (-150) (-40) 120 70) &&
          loc.pressed) = true →
        (rl.CheckCollisionPointRec loc.uiPointer (button rl 30 (-40) 120 70) &&
          loc.pressed) = false →
        gameOverFrame rl loc g = startRun rl g) := by
  obtain ⟨hb, hm, hh⟩ := startRun_player_health rl g
  refine ⟨⟨rfl, rfl, rfl⟩, ⟨by rw [hm, hb], by rw [hh, hm], ?_⟩, ⟨rfl, rfl, rfl, rfl⟩,
    ⟨rfl, rfl, ?_⟩, ?_, ?_, ?_⟩
  · simp only [startRun, SpawnWave, Player.ResetStatus]
  · have hl : (startRun rl g).enemies.length =
        (waveEnemyCount g.startingWaveOverride g.enemyCountMultiplier).toNat := by
      simp only [startRun, ResetPermanentUpgrades, SpawnWave, spawnLoop_length,
        List.length_nil, zero_add]
    rw [hl]
    have := waveEnemyCount_pos g.startingWaveOverride g.enemyCountMultiplier
    omega
  · intro loc h1 h2
    simp only [menuFrame, h1, h2, if_true, Bool.false_eq_true, if_false]
  · intro inp loc h1 h2
    simp only [pausedFrame, h1, h2, if_true, Bool.false_eq_true, if_false]
    split_ifs <;> rfl
  · intro loc h1 h2
    simp only [gameOverFrame, h1, h2, if_true, Bool.false_eq_true, if_false]

/-! ## C29: the enemy counter -/

/-- C29: in every reachable session state `enemiesRemaining` is the number of
enemies in the list, so it is never negative and is 0 exactly when the list
is empty; the same holds when a PLAYING frame reaches its wave-clear check,
which (the player being alive) opens the upgrade screen exactly when the list
is empty. `SpawnWave` sets the counter to the number of enemies it creates,
and every removal takes exactly 1 off it: a contact with the player, a
projectile hit that leaves no health, and each enemy an explosion removes. -/
theorem counter_matches_list (rl : Raylib) (g : Game) (h : Reachable rl g) :
    g.enemiesRemaining = (g.enemies.length : Int) ∧ 0 ≤ g.enemiesRemaining ∧
      (g.enemiesRemaining ≤ 0 ↔ g.enemies = []) ∧
      (∀ inp : Input,
        (atWaveClearCheck rl inp g).enemiesRemaining =
            ((atWaveClearCheck rl inp g).enemies.length : Int) ∧
          (g.state = GameState.PLAYING → (atWaveClearCheck rl inp g).gameOver = false →
            ((waveClearCheck (atWaveClearCheck rl inp g)).state = GameState.UPGRADE ↔
              (atWaveClearCheck rl inp g).enemies = []))) ∧
      (∀ (g0 : Game) (w : Int),
        (SpawnWave rl g0 w).enemiesRemaining = ((SpawnWave rl g0 w).enemies.length : Int)) ∧
      (∀ (g0 : Game) (e : Enemy),
        (contactHit rl g0 e).enemies = g0.enemies ∧
          (contactHit rl g0 e).enemiesRemaining = g0.enemiesRemaining - 1) ∧
      (∀ (g0 : Game) (e : Enemy) (b : Bullet) (others : List Bullet),
        ((enemyAfterHit rl e b).health ≤ 0 →
          (projectileHit rl g0 e b others).enemies = g0.enemies ∧
            (projectileHit rl g0 e b others).enemiesRemaining = g0.enemiesRemaining - 1) ∧
        (0 < (enemyAfterHit rl e b).health →
          (projectileHit rl g0 e b others).enemies = g0.enemies ++ [enemyAfterHit rl e b] ∧
            (projectileHit rl g0 e b others).enemiesRemaining = g0.enemiesRemaining)) ∧
      (∀ (g0 : Game) (x : Explosion) (todo : List Enemy),
        ((explosionDamage rl x todo g0).enemies.length : Int) =
            (g0.enemies.length : Int) + ((todo.filterMap (blastOutcome rl x)).length : Int) ∧
          (explosionDamage rl x todo g0).enemiesRemaining =
            g0.enemiesRemaining -
              ((todo.length : Int) - ((todo.filterMap (blastOutcome rl x)).length : Int))) := by
  have hinv := reachable_hordeInv rl h
  have hzero : ∀ l : List Enemy, ((l.length : Int) ≤ 0 ↔ l = []) := by
    intro l
    constructor
    · intro h0
      exact List.length_eq_zero.mp (by omega)
    · intro h0
      rw [h0]
      exact le_refl _
  refine ⟨hinv.count, by rw [hinv.count]; omega, by rw [hinv.count]; exact hzero _, ?_, ?_,
    fun g0 e => ⟨contactHit_enemies rl g0 e, contactHit_enemiesRemaining rl g0 e⟩, ?_, ?_⟩
  · intro inp
    have hc : HordeInv (atWaveClearCheck rl inp g) :=
      hordeInv_combatFrame (hordeInv_frameStart hinv inp) rl inp _ _
    refine ⟨hc.count, ?_⟩
    intro hs hg
    have hrun : SameRun g (atWaveClearCheck rl inp g) :=
      (sameRun_of_quiet (frameStart_quiet inp g)).trans (sameRun_combatFrame rl inp _ _ _)
    have hst : (atWaveClearCheck rl inp g).state ≠ GameState.UPGRADE := by
      rcases hrun.mode with ⟨a, _⟩ | ⟨a, _⟩
      · rw [a, hs]; decide
      · rw [a]; decide
    rw [← hzero, ← hc.count]
    simp only [waveClearCheck]
    constructor
    · intro hu
      by_contra hpos
      have h1 : ¬ (atWaveClearCheck rl inp g).enemiesRemaining < 0 := by omega
      have h2 : ¬ ((atWaveClearCheck rl inp g).enemiesRemaining ≤ 0 ∧
          (!(atWaveClearCheck rl inp g).gameOver) = true) := fun a => hpos a.1
      simp only [if_neg h1, if_neg h2] at hu
      exact hst hu
    · intro h0
      split_ifs with a b b <;> first
        | rfl
        | exact absurd ⟨le_refl 0, by simp [hg]⟩ b
        | exact absurd ⟨h0, by simp [hg]⟩ b
  · intro g0 w
    simp only [SpawnWave, spawnLoop_length, List.length_nil, zero_add]
    have := waveEnemyCount_pos w g0.enemyCountMultiplier
    omega
  · intro g0 e b others
    have hen := (projectileHit_spec rl g0 e b others).2.2
    have hrem := projectileHit_enemiesRemaining rl g0 e b others
    constructor
    · intro hd
      rw [if_pos hd] at hen hrem
      exact ⟨hen, hrem⟩
    · intro hd
      rw [if_neg (by omega)] at hen hrem
      exact ⟨hen, hrem⟩
  · intro g0 x todo
    refine ⟨?_, explosionDamage_enemiesRemaining rl x todo g0⟩
    rw [explosionDamage_enemies, List.length_append]
    push_cast
    rfl

/-- C29 at the wave-1 session reached by skipping the splash screen and
pressing Play: 8 enemies, `enemiesRemaining = 8`. -/
theorem counter_matches_list_witness :
    Reachable sampleRaylib (startRun sampleRaylib menuGame) ∧
      (startRun sampleRaylib menuGame).enemiesRemaining =
        ((startRun sampleRaylib menuGame).enemies.length : Int) ∧
      (startRun sampleRaylib menuGame).enemiesRemaining = 8 :=
  ⟨reachable_startRun, (counter_matches_list sampleRaylib _ reachable_startRun).1,
    (startRun_default sampleRaylib menuGame rfl rfl).2.2.2.1⟩

/-! ## The position of a new enemy -/

theorem Enemy.new_position (rl : Raylib) (n : Nat) (pos : Vector2) (t : EnemyType)
    (wave : Int) : (Enemy.new rl n pos t wave).position = pos := by
  cases t <;> simp only [Enemy.new] <;> split_ifs <;> rfl

/-! ## C23: the state transitions of a frame -/

theorem frameStart_state (inp : Input) (g : Game) : (frameStart inp g).state = g.state := by
  have h := frameStart_quiet inp g
  simp only [quietFields, Prod.mk.injEq] at h
  exact h.2.2.1

theorem startRun_state (rl : Raylib) (g : Game) : (startRun rl g).state = GameState.PLAYING :=
  rfl

theorem backToMenu_state (g : Game) : (backToMenu g).state = GameState.MENU := rfl

theorem playingFrame_state (rl : Raylib) (inp : Input) (g : Game) (mouse : Vector2)
    (fireInput : Bool) (hs : g.state = GameState.PLAYING) :
    (playingFrame rl inp g mouse fireInput).state = GameState.PLAYING ∨
      (playingFrame rl inp g mouse fireInput).state = GameState.PAUSED ∨
      (playingFrame rl inp g mouse fireInput).state = GameState.UPGRADE ∨
      (playingFrame rl inp g mouse fireInput).state = GameState.GAME_OVER := by
  by_cases hesc : inp.keyEscapePressed = true
  · right; left
    simp only [playingFrame, hesc, if_true]
  · rw [playingFrame_eq rl inp g mouse fireInput (by simpa using hesc)]
    have hm := (sameRun_combatFrame rl inp g mouse fireInput).mode
    simp only [waveClearCheck]
    split_ifs <;> first
      | exact Or.inr (Or.inr (Or.inl rfl))
      | (rcases hm with ⟨a, _⟩ | ⟨a, _⟩
         · exact Or.inl (a.trans hs)
         · exact Or.inr (Or.inr (Or.inr a)))

theorem pausedFrame_state (rl : Raylib) (inp : Input) (loc : FrameLocals) (g : Game)
    (hs : g.state = GameState.PAUSED) :
    (pausedFrame rl inp loc g).state = GameState.PAUSED ∨
      (pausedFrame rl inp loc g).state = GameState.PLAYING ∨
      (pausedFrame rl inp loc g).state = GameState.MENU := by
  simp only [pausedFrame]
  split_ifs <;> first
    | exact Or.inl hs
    | exact Or.inr (Or.inl rfl)
    | exact Or.inr (Or.inr rfl)

theorem gameOverFrame_state (rl : Raylib) (loc : FrameLocals) (g : Game)
    (hs : g.state = GameState.GAME_OVER) :
    (gameOverFrame rl loc g).state = GameState.GAME_OVER ∨
      (gameOverFrame rl loc g).state = GameState.PLAYING ∨
      (gameOverFrame rl loc g).state = GameState.MENU := by
  simp only [gameOverFrame]
  split_ifs <;> first
    | exact Or.inl hs
    | exact Or.inr (Or.inl rfl)
    | exact Or.inr (Or.inr rfl)

theorem frame_pause :
    frame sampleRaylib pauseInput (startRun sampleRaylib menuGame) = some pausedGame := by
  have h0 : frameStart pauseInput (startRun sampleRaylib menuGame) =
      startRun sampleRaylib menuGame := by
    have hf : (startRun sampleRaylib menuGame).fireTimer = 0 := rfl
    simp only [frameStart, hf, gt_iff_lt, lt_self_iff_false, if_false]
    rfl
  simp only [frame, h0, startRun_state]
  simp only [playingFrame, pauseInput, if_true, pausedGame]

theorem reachable_pausedGame : Reachable sampleRaylib pausedGame :=
  Reachable.step pauseInput _ pausedGame reachable_startRun frame_pause

theorem frame_pauseMenu :
    frame sampleRaylib pauseMenuInput pausedGame = some (backToMenu pausedGame) := by
  have h0 : frameStart pauseMenuInput pausedGame = pausedGame := by
    have hf : pausedGame.fireTimer = 0 := rfl
    simp only [frameStart, hf, gt_iff_lt, lt_self_iff_false, if_false]
    rfl
  have hloc : (frameLocals sampleRaylib pauseMenuInput pausedGame).uiPointer = ⟨500, 580⟩ ∧
      (frameLocals sampleRaylib pauseMenuInput pausedGame).pressed = true := by
    simp [frameLocals, pauseMenuInput, idleInput]
  have hs : pausedGame.state = GameState.PAUSED := rfl
  have hesc : pauseMenuInput.keyEscapePressed = false := rfl
  simp only [frame, h0, hs, pausedFrame, hloc.1, hloc.2, hesc]
  norm_num [sampleRaylib, button, Int.tdiv]

/-- C23 as stated fails at the paused wave-1 session reached by skipping the
splash screen, pressing Play and pressing the pause key: a frame that presses
the MENU button of the pause screen moves the session from PAUSED to MENU,
which is none of the listed transitions. -/
theorem paused_to_menu_counterexample :
    Reachable sampleRaylib pausedGame ∧ pausedGame.state = GameState.PAUSED ∧
      frame sampleRaylib pauseMenuInput pausedGame = some (backToMenu pausedGame) ∧
      (backToMenu pausedGame).state = GameState.MENU ∧
      (backToMenu pausedGame).state ≠ pausedGame.state ∧
      claimedTransition pausedGame.state (backToMenu pausedGame).state = false :=
  ⟨reachable_pausedGame, rfl, frame_pauseMenu, rfl, by decide, rfl⟩

/-- C23, amended: every change of session state made by one frame of the main
loop is one of the transitions SPLASH -> MENU, MENU -> PLAYING, PLAYING ->
PAUSED, PAUSED -> PLAYING, PAUSED -> MENU, PLAYING -> UPGRADE, UPGRADE ->
PLAYING, PLAYING -> GAME_OVER, GAME_OVER -> MENU, GAME_OVER -> PLAYING, for
every input; the daily seed changes no state. The REPLAY button of the
game-over screen (when its MENU button is not hit) moves GAME_OVER to
PLAYING, and the MENU button of the pause screen moves PAUSED to MENU. -/
theorem frame_transitions (rl : Raylib) (inp : Input) (g g2 : Game)
    (hstep : frame rl inp g = some g2) :
    (g2.state = g.state ∨ frameTransition g.state g2.state = true) ∧
      (∀ a b : GameState, frameTransition a b = true ↔
        ((a = GameState.SPLASH ∧ b = GameState.MENU) ∨
          (a = GameState.MENU ∧ b = GameState.PLAYING) ∨
          (a = GameState.PLAYING ∧ b = GameState.PAUSED) ∨
          (a = GameState.PAUSED ∧ b = GameState.PLAYING) ∨
          (a = GameState.PAUSED ∧ b = GameState.MENU) ∨
          (a = GameState.PLAYING ∧ b = GameState.UPGRADE) ∨
          (a = GameState.UPGRADE ∧ b = GameState.PLAYING) ∨
          (a = GameState.PLAYING ∧ b = GameState.GAME_OVER) ∨
          (a = GameState.GAME_OVER ∧ b = GameState.MENU) ∨
          (a = GameState.GAME_OVER ∧ b = GameState.PLAYING))) ∧
      (∀ daySeed : Int, (ApplyDailySeed g daySeed).state = g.state) ∧
      (∀ (g0 : Game) (loc : FrameLocals),
        (rl.CheckCollisionPointRec loc.uiPointer (button rl (-150) (-40) 120 70) &&
          loc.pressed) = true →
        (rl.CheckCollisionPointRec loc.uiPointer (button rl 30 (-40) 120 70) &&
          loc.pressed) = false →
        (gameOverFrame rl loc g0).state = GameState.PLAYING) ∧
      (∀ (g0 : Game) (inp0 : Input) (loc : FrameLocals),
        (rl.CheckCollisionPointRec loc.uiPointer (button rl (-100) 60 200 60) &&
          loc.pressed) = true →
        (pausedFrame rl inp0 loc g0).state = GameState.MENU) := by
  refine ⟨?_, ?_, fun _ => rfl, ?_, ?_⟩
  · have hfs := frameStart_state inp g
    simp only [frame] at hstep
    split at hstep
    · rename_i hs
      have hs0 := hs
      rw [hfs] at hs
      cases hstep
      rw [hs]
      simp only [splashFrame]
      split_ifs
      · exact Or.inr rfl
      · exact Or.inl hs0
    · rename_i hs
      have hs0 := hs
      rw [hfs] at hs
      rw [hs]
      simp only [menuFrame] at hstep
      split_ifs at hstep <;> cases hstep <;> first
        | exact Or.inr rfl
        | exact Or.inl hs0
    · rename_i hs
      have hs0 := hs
      rw [hfs] at hs
      cases hstep
      rw [hs]
      rcases pausedFrame_state rl inp (frameLocals rl inp g) _ hs0 with a | a | a <;> rw [a]
      · exact Or.inl rfl
      · exact Or.inr rfl
      · exact Or.inr rfl
    · rename_i hs
      have hs0 := hs
      rw [hfs] at hs
      cases hstep
      rw [hs]
      rcases playingFrame_state rl inp _ (frameLocals rl inp g).mouse
        (frameLocals rl inp g).fireInput hs0 with a | a | a | a <;> rw [a]
      · exact Or.inl rfl
      · exact Or.inr rfl
      · exact Or.inr rfl
      · exact Or.inr rfl
    · rename_i hs
      have hs0 := hs
      rw [hfs] at hs
      cases hstep
      rw [hs]
      simp only [upgradeFrame]
      split_ifs
      · exact Or.inr rfl
      · exact Or.inl hs0
    · rename_i hs
      have hs0 := hs
      rw [hfs] at hs
      cases hstep
      rw [hs]
      rcases gameOverFrame_state rl (frameLocals rl inp g) _ hs0 with a | a | a <;> rw [a]
      · exact Or.inl rfl
      · exact Or.inr rfl
      · exact Or.inr rfl
  · intro a b
    cases a <;> cases b <;> simp [frameTransition, claimedTransition]
  · intro g0 loc h1 h2
    simp only [gameOverFrame, h1, h2, if_true, Bool.false_eq_true, if_false]
    rfl
  · intro g0 inp0 loc h1
    simp only [pausedFrame, h1, if_true]
    rfl

/-- C23, amended, at the frame that pauses the wave-1 session: PLAYING to
PAUSED. -/
theorem frame_transitions_witness :
    frame sampleRaylib pauseInput (startRun sampleRaylib menuGame) = some pausedGame ∧
      (pausedGame.state = (startRun sampleRaylib menuGame).state ∨
        frameTransition (startRun sampleRaylib menuGame).state pausedGame.state = true) :=
  ⟨frame_pause, (frame_transitions sampleRaylib pauseInput _ pausedGame frame_pause).1⟩

/-! ## C24: game over -/

theorem mode_of_quiet {g g2 : Game} (h : quietFields g2 = quietFields g) :
    modeFields g2 = modeFields g := by
  simp only [quietFields, Prod.mk.injEq] at h
  simp only [modeFields, h.2.2.1, h.2.2.2.1]

theorem TryDropPowerUp_state (rl : Raylib) (g : Game) (pos : Vector2) :
    (TryDropPowerUp rl g pos).state = g.state := by
  have h := quiet_TryDropPowerUp rl g pos
  simp only [quietFields, Prod.mk.injEq] at h
  exact h.2.2.1

theorem TryDropPowerUp_gameOver (rl : Raylib) (g : Game) (pos : Vector2) :
    (TryDropPowerUp rl g pos).gameOver = g.gameOver := by
  have h := quiet_TryDropPowerUp rl g pos
  simp only [quietFields, Prod.mk.injEq] at h
  exact h.2.2.2.1

/-- The mode after an enemy contact: a blocked contact leaves it, an unblocked
one sets game over exactly when it leaves the health at 0. -/
theorem contactHit_mode (rl : Raylib) (g : Game) (e : Enemy) :
    modeFields (contactHit rl g e) =
      if g.player.shieldCharges ≤ 0 ∧ (contactHit rl g e).player.health = 0 then
        (GameState.GAME_OVER, true)
      else modeFields g := by
  have hp := contactHit_player rl g e
  by_cases hc : g.player.shieldCharges > 0
  · rw [if_neg (by rintro ⟨a, _⟩; omega)]
    simp only [modeFields, contactHit, hc, decide_True, if_true, Bool.not_true,
      Bool.false_eq_true, false_and, if_false, TryDropPowerUp_state, TryDropPowerUp_gameOver]
  · rw [if_neg hc] at hp
    have hh : (contactHit rl g e).player.health =
        if g.player.health - e.contactDamage < 0 then 0
        else g.player.health - e.contactDamage := by rw [hp]
    have hcond : ((contactHit rl g e).player.health = 0) ↔
        g.player.health - e.contactDamage ≤ 0 := by
      rw [hh]
      split_ifs <;> omega
    by_cases hd : g.player.health - e.contactDamage ≤ 0
    · rw [if_pos ⟨by omega, hcond.mpr hd⟩]
      simp only [modeFields, contactHit, hc, decide_False, if_false, Bool.false_eq_true,
        Bool.not_false, true_and, TryDropPowerUp_player]
      rw [if_pos (by split_ifs <;> omega)]
    · rw [if_neg (by rintro ⟨_, a⟩; exact hd (hcond.mp a))]
      simp only [modeFields, contactHit, hc, decide_False, if_false, Bool.false_eq_true,
        Bool.not_false, true_and, TryDropPowerUp_player]
      rw [if_neg (by split_ifs <;> omega)]
      simp only [TryDropPowerUp_state, TryDropPowerUp_gameOver]

theorem projectileHit_mode (rl : Raylib) (g : Game) (e : Enemy) (b : Bullet)
    (others : List Bullet) : modeFields (projectileHit rl g e b others) = modeFields g := by
  simp only [modeFields, projectileHit, SpawnExplosion]
  split_ifs <;> simp only [TryDropPowerUp_state, TryDropPowerUp_gameOver]

theorem explosionDamage_mode (rl : Raylib) (explosion : Explosion) (todo : List Enemy) :
    ∀ g : Game, modeFields (explosionDamage rl explosion todo g) = modeFields g := by
  induction todo with
  | nil => intro g; rfl
  | cons e rest ih =>
    intro g
    simp only [explosionDamage]
    split_ifs
    · rw [ih]
      simp only [modeFields, TryDropPowerUp_state, TryDropPowerUp_gameOver]
    · exact (ih _).trans rfl
    · exact (ih _).trans rfl

theorem explosionLoop_mode (rl : Raylib) (todo : List Explosion) :
    ∀ g : Game, modeFields (explosionLoop rl todo g) = modeFields g := by
  induction todo with
  | nil => intro g; rfl
  | cons explosion rest ih =>
    intro g
    simp only [explosionLoop]
    split_ifs
    · exact (ih _).trans rfl
    · exact (ih _).trans ((explosionDamage_mode rl explosion g.enemies _).trans rfl)

/-- The mode after the enemy loop: game over exactly when the loop has a
deadly contact. -/
theorem enemyLoop_mode (rl : Raylib) (delta : ℚ) (todo : List Enemy) :
    ∀ g : Game, modeFields (enemyLoop rl delta todo g) =
      if deadlyContact rl delta todo g then (GameState.GAME_OVER, true) else modeFields g := by
  induction todo with
  | nil =>
    intro g
    simp [enemyLoop, deadlyContact]
  | cons e rest ih =>
    intro g
    simp only [enemyLoop, deadlyContact]
    by_cases hcol : rl.CheckCollisionCircles g.player.position g.player.radius
        (e.Update rl delta g.player.position).position
        (e.Update rl delta g.player.position).radius = true
    · simp only [hcol, if_true]
      rw [ih, contactHit_mode]
      by_cases hd : g.player.shieldCharges ≤ 0 ∧
          (contactHit rl g (e.Update rl delta g.player.position)).player.health = 0
      · have hA : (decide (g.player.shieldCharges ≤ 0) &&
            decide ((contactHit rl g (e.Update rl delta g.player.position)).player.health = 0)) =
            true := by
          simpa using hd
        rw [if_pos hd, hA, Bool.true_or, if_pos rfl, ite_self]
      · have hA : (decide (g.player.shieldCharges ≤ 0) &&
            decide ((contactHit rl g (e.Update rl delta g.player.position)).player.health = 0)) =
            false := by
          simpa using hd
        rw [if_neg hd, hA, Bool.false_or]
    · simp only [hcol, Bool.false_eq_true, if_false]
      cases hf : findHit rl (e.Update rl delta g.player.position) g.bullets with
      | none =>
        simp only []
        rw [ih]
        rfl
      | some p =>
        obtain ⟨projectile, others⟩ := p
        simp only []
        rw [ih, projectileHit_mode]


theorem ambush_before :
    (beforeCombat sampleRaylib stillInput (frameStart stillInput ambushGame)
        (frameLocals sampleRaylib stillInput ambushGame).mouse
        (frameLocals sampleRaylib stillInput ambushGame).fireInput).player =
      ambushGame.player := by
  norm_num [beforeCombat, frameStart, frameLocals, ambushGame, weakGame, stillInput, idleInput,
    Game.initial, periodicSpawn, expiryPass, expireEffects, refreshStats, applyStats,
    ComputePowerStats, movePlayer, UpdateJoystick, pickupPass, pickupLoop, afterPickup,
    syncShieldTimer, fire, bulletPass, bulletLoop, Player.new, Player.Update,
    Player.UpdateShield, Player.SetMaxHealthMultiplier, sampleRaylib, Vector2Add, Vector2Scale,
    maxFieldPowerUps]


theorem atWaveClearCheck_mode (rl : Raylib) (inp : Input) (g : Game) :
    modeFields (atWaveClearCheck rl inp g) =
      if frameDeadlyContact rl inp g then (GameState.GAME_OVER, true) else modeFields g := by
  unfold atWaveClearCheck
  rw [combatFrame_eq]
  refine Eq.trans (b := modeFields (explosionPass rl (enemyPass rl (beforeCombat rl inp
    (frameStart inp g) (frameLocals rl inp g).mouse (frameLocals rl inp g).fireInput)
    inp.GetFrameTime))) rfl ?_
  unfold explosionPass
  refine (explosionLoop_mode rl _ _).trans ?_
  refine Eq.trans (b := modeFields (enemyPass rl (beforeCombat rl inp
    (frameStart inp g) (frameLocals rl inp g).mouse (frameLocals rl inp g).fireInput)
    inp.GetFrameTime)) rfl ?_
  unfold enemyPass
  rw [enemyLoop_mode]
  have hb : modeFields { beforeCombat rl inp (frameStart inp g) (frameLocals rl inp g).mouse
      (frameLocals rl inp g).fireInput with enemies := [] } = modeFields g :=
    Eq.trans (b := modeFields (beforeCombat rl inp (frameStart inp g) (frameLocals rl inp g).mouse
      (frameLocals rl inp g).fireInput)) rfl
      ((mode_of_quiet (quiet_beforeCombat rl inp _ _ _)).trans
        (mode_of_quiet (frameStart_quiet inp g)))
  rw [hb]
  rfl

/-- The mode after a PLAYING frame without the pause key, started with the
game-over flag down. -/
theorem playing_mode (rl : Raylib) (inp : Input) (g : Game)
    (hs : g.state = GameState.PLAYING) (hg : g.gameOver = false) :
    modeFields (waveClearCheck (atWaveClearCheck rl inp g)) =
      if frameDeadlyContact rl inp g then (GameState.GAME_OVER, true)
      else if (atWaveClearCheck rl inp g).enemiesRemaining ≤ 0 then (GameState.UPGRADE, false)
      else (GameState.PLAYING, false) := by
  have hm := atWaveClearCheck_mode rl inp g
  simp only [modeFields, hs, hg] at hm
  by_cases hd : frameDeadlyContact rl inp g = true
  · simp only [hd, if_true, Prod.mk.injEq] at hm
    simp only [hd, if_true, modeFields, waveClearCheck]
    split_ifs <;> simp_all
  · simp only [hd, Bool.false_eq_true, if_false, Prod.mk.injEq] at hm
    simp only [hd, Bool.false_eq_true, if_false, modeFields, waveClearCheck]
    obtain ⟨hm1, hm2⟩ := hm
    by_cases h0 : (atWaveClearCheck rl inp g).enemiesRemaining < 0
    · have h1 : (atWaveClearCheck rl inp g).enemiesRemaining ≤ 0 := le_of_lt h0
      simp [h0, h1, hm2]
    · by_cases h1 : (atWaveClearCheck rl inp g).enemiesRemaining ≤ 0
      · simp [h0, h1, hm2]
      · simp [h0, h1, hm1, hm2]

theorem flagInv_of_mode {g g2 : Game} (h : FlagInv g) (hm : modeFields g2 = modeFields g) :
    FlagInv g2 := by
  simp only [modeFields, Prod.mk.injEq] at hm
  intro hs
  rw [hm.1] at hs
  rw [hm.2]
  exact h hs

theorem flagInv_startRun (rl : Raylib) (g : Game) : FlagInv (startRun rl g) := fun _ => rfl

theorem flagInv_backToMenu (g : Game) : FlagInv (backToMenu g) := by
  intro h
  simp [backToMenu] at h

theorem advanceWave_gameOver (rl : Raylib) (g : Game) :
    (advanceWave rl g).gameOver = g.gameOver := by
  simp only [advanceWave]
  split_ifs <;> rfl

theorem applyChoice_gameOver (g : Game) (chosenOption : Int) :
    (applyChoice g chosenOption).gameOver = g.gameOver := by
  simp only [applyChoice]
  split_ifs <;> rfl

theorem flagInv_playingFrame {g : Game} (h : FlagInv g) (hs : g.state = GameState.PLAYING)
    (rl : Raylib) (inp : Input) (mouse : Vector2) (fireInput : Bool) :
    FlagInv (playingFrame rl inp g mouse fireInput) := by
  have hg := h (Or.inl hs)
  by_cases hesc : inp.keyEscapePressed = true
  · simp only [playingFrame, hesc, if_true]
    exact fun _ => hg
  · rw [playingFrame_eq rl inp g mouse fireInput (by simpa using hesc)]
    have hm := sameRun_combatFrame rl inp g mouse fireInput
    intro hst
    rcases hm.mode with ⟨a, b⟩ | ⟨a, b⟩
    · simp only [waveClearCheck]
      split_ifs <;> exact b.trans hg
    · exfalso
      simp only [waveClearCheck] at hst
      split_ifs at hst <;> simp_all

theorem flagInv_frame {g g2 : Game} (h : FlagInv g) (rl : Raylib) (inp : Input)
    (hstep : frame rl inp g = some g2) : FlagInv g2 := by
  have h0 : FlagInv (frameStart inp g) := flagInv_of_mode h (mode_of_quiet (frameStart_quiet inp g))
  simp only [frame] at hstep
  split at hstep
  · cases hstep
    simp only [splashFrame]
    intro hs
    split_ifs at hs <;> simp_all
  · simp only [menuFrame] at hstep
    split_ifs at hstep <;> cases hstep <;> first
      | exact h0
      | exact flagInv_startRun rl _
  · cases hstep
    rename_i hst
    have hg := h0 (Or.inr (Or.inl hst))
    simp only [pausedFrame]
    split_ifs <;> first
      | exact flagInv_backToMenu _
      | exact flagInv_startRun rl _
      | exact h0
      | exact fun _ => hg
  · cases hstep
    rename_i hst
    exact flagInv_playingFrame h0 hst rl inp _ _
  · cases hstep
    rename_i hst
    have hg := h0 (Or.inr (Or.inr hst))
    simp only [upgradeFrame]
    split_ifs
    · intro _
      rw [applyUpgrade, advanceWave_gameOver, applyChoice_gameOver]
      exact hg
    · exact h0
  · cases hstep
    simp only [gameOverFrame]
    split_ifs <;> first
      | exact flagInv_backToMenu _
      | exact flagInv_startRun rl _
      | exact h0

/-- In every reachable session the game-over flag is down in the states
PLAYING, PAUSED and UPGRADE. -/
theorem reachable_flagInv (rl : Raylib) {g : Game} (h : Reachable rl g) : FlagInv g := by
  induction h with
  | initial =>
    intro hs
    simp [Game.initial] at hs
  | step inp g g2 _ hstep ih => exact flagInv_frame ih rl inp hstep
  | seed daySeed g _ ih => exact flagInv_of_mode ih rfl

theorem ambush_deadly : frameDeadlyContact sampleRaylib stillInput ambushGame = true := by
  have hq := quiet_enemies ((quiet_beforeCombat sampleRaylib stillInput
    (frameStart stillInput ambushGame) (frameLocals sampleRaylib stillInput ambushGame).mouse
    (frameLocals sampleRaylib stillInput ambushGame).fireInput).trans
    (frameStart_quiet stillInput ambushGame))
  have he : ambushGame.enemies = [gruntOnPlayer] := rfl
  have hu : gruntOnPlayer.Update sampleRaylib 0 ⟨500, 500⟩ = gruntOnPlayer := by
    norm_num [Enemy.Update, gruntOnPlayer, sampleRaylib, Vector2Subtract, Vector2Add,
      Vector2Scale, Vector2Zero]
  have ht : stillInput.GetFrameTime = 0 := rfl
  unfold frameDeadlyContact
  rw [hq.1, he, ht]
  simp only [deadlyContact, contactHit_player, ambush_before]
  have hp : ambushGame.player.position = ⟨500, 500⟩ := rfl
  rw [hp, hu]
  norm_num [ambushGame, weakGame, Player.new, gruntOnPlayer, sampleRaylib]

theorem enemyPass_single (rl : Raylib) (b : Game) (e : Enemy) (delta : ℚ)
    (hen : b.enemies = [e])
    (hcol : rl.CheckCollisionCircles b.player.position b.player.radius
      (e.Update rl delta b.player.position).position
      (e.Update rl delta b.player.position).radius = true) :
    enemyPass rl b delta =
      contactHit rl { b with enemies := [] } (e.Update rl delta b.player.position) := by
  unfold enemyPass
  rw [hen]
  simp only [enemyLoop, hcol, if_true]

theorem ambush_remaining :
    (atWaveClearCheck sampleRaylib stillInput ambushGame).enemiesRemaining = 0 := by
  have hq := quiet_enemies ((quiet_beforeCombat sampleRaylib stillInput
    (frameStart stillInput ambushGame) (frameLocals sampleRaylib stillInput ambushGame).mouse
    (frameLocals sampleRaylib stillInput ambushGame).fireInput).trans
    (frameStart_quiet stillInput ambushGame))
  have he : ambushGame.enemies = [gruntOnPlayer] := rfl
  have hu : gruntOnPlayer.Update sampleRaylib 0 ⟨500, 500⟩ = gruntOnPlayer := by
    norm_num [Enemy.Update, gruntOnPlayer, sampleRaylib, Vector2Subtract, Vector2Add,
      Vector2Scale, Vector2Zero]
  have ht : stillInput.GetFrameTime = 0 := rfl
  have hp : ambushGame.player.position = ⟨500, 500⟩ := rfl
  have hpass := enemyPass_single sampleRaylib _ gruntOnPlayer 0 (hq.1.trans he) (by
    rw [ambush_before, hp, hu]
    norm_num [ambushGame, weakGame, Player.new, gruntOnPlayer, sampleRaylib])
  unfold atWaveClearCheck
  rw [combatFrame_eq, ht, hpass]
  have hx := quiet_enemies (quiet_explosionLoop_of_no_enemies sampleRaylib
    (contactHit sampleRaylib { beforeCombat sampleRaylib stillInput
      (frameStart stillInput ambushGame) (frameLocals sampleRaylib stillInput ambushGame).mouse
      (frameLocals sampleRaylib stillInput ambushGame).fireInput with enemies := [] }
      (gruntOnPlayer.Update sampleRaylib 0 (beforeCombat sampleRaylib stillInput
      (frameStart stillInput ambushGame) (frameLocals sampleRaylib stillInput ambushGame).mouse
      (frameLocals sampleRaylib stillInput ambushGame).fireInput).player.position)).explosions
    { contactHit sampleRaylib { beforeCombat sampleRaylib stillInput
      (frameStart stillInput ambushGame) (frameLocals sampleRaylib stillInput ambushGame).mouse
      (frameLocals sampleRaylib stillInput ambushGame).fireInput with enemies := [] }
      (gruntOnPlayer.Update sampleRaylib 0 (beforeCombat sampleRaylib stillInput
      (frameStart stillInput ambushGame) (frameLocals sampleRaylib stillInput ambushGame).mouse
      (frameLocals sampleRaylib stillInput ambushGame).fireInput).player.position) with
      explosions := [] } (contactHit_enemies _ _ _))
  refine Eq.trans (b := (explosionLoop sampleRaylib _ _).enemiesRemaining) rfl ?_
  rw [hx.2]
  refine Eq.trans (b := (contactHit sampleRaylib _ _).enemiesRemaining) rfl ?_
  rw [contactHit_enemiesRemaining]
  refine Eq.trans (b := (beforeCombat sampleRaylib stillInput
      (frameStart stillInput ambushGame) (frameLocals sampleRaylib stillInput ambushGame).mouse
      (frameLocals sampleRaylib stillInput ambushGame).fireInput).enemiesRemaining - 1) rfl ?_
  rw [hq.2]
  rfl

/-- C24: a PLAYING frame (without the pause key) that starts with the
game-over flag down sets `gameOver`, and likewise ends in GAME_OVER, exactly
when some enemy contact of the frame was not blocked by a shield charge and
left the health at 0; such a frame does not end in UPGRADE, also when the
counter of enemies is at 0 at the wave-clear check, and a frame without such a
contact ends in PLAYING or UPGRADE with the flag down. Contact by contact: a
blocked contact leaves the state and the flag as they are, an unblocked one
sets game over exactly when the health it leaves is 0. In every reachable
PLAYING session the flag is down. -/
theorem game_over_iff_deadly_contact (rl : Raylib) (inp : Input) (g : Game)
    (hs : g.state = GameState.PLAYING) (hg : g.gameOver = false)
    (hesc : inp.keyEscapePressed = false) :
    frame rl inp g = some (waveClearCheck (atWaveClearCheck rl inp g)) ∧
      ((waveClearCheck (atWaveClearCheck rl inp g)).gameOver = true ↔
        frameDeadlyContact rl inp g = true) ∧
      ((waveClearCheck (atWaveClearCheck rl inp g)).state = GameState.GAME_OVER ↔
        frameDeadlyContact rl inp g = true) ∧
      (frameDeadlyContact rl inp g = true →
        (waveClearCheck (atWaveClearCheck rl inp g)).state ≠ GameState.UPGRADE) ∧
      (frameDeadlyContact rl inp g = false →
        (waveClearCheck (atWaveClearCheck rl inp g)).state =
          (if (atWaveClearCheck rl inp g).enemiesRemaining ≤ 0 then GameState.UPGRADE
           else GameState.PLAYING)) ∧
      (∀ (g0 : Game) (e : Enemy), 0 < g0.player.shieldCharges →
        (contactHit rl g0 e).state = g0.state ∧ (contactHit rl g0 e).gameOver = g0.gameOver) ∧
      (∀ (g0 : Game) (e : Enemy), g0.player.shieldCharges ≤ 0 →
        ((contactHit rl g0 e).player.health = 0 →
          (contactHit rl g0 e).state = GameState.GAME_OVER ∧
            (contactHit rl g0 e).gameOver = true) ∧
        ((contactHit rl g0 e).player.health ≠ 0 →
          (contactHit rl g0 e).state = g0.state ∧
            (contactHit rl g0 e).gameOver = g0.gameOver)) ∧
      (∀ g0 : Game, Reachable rl g0 → g0.state = GameState.PLAYING → g0.gameOver = false) := by
  have hm := playing_mode rl inp g hs hg
  simp only [modeFields] at hm
  have hfs : (frameStart inp g).state = GameState.PLAYING := by
    have := frameStart_quiet inp g
    simp only [quietFields, Prod.mk.injEq] at this
    rw [this.2.2.1, hs]
  refine ⟨?_, ?_, ?_, ?_, ?_, ?_, ?_, ?_⟩
  · simp only [frame, hfs]
    rw [playingFrame_eq rl inp _ _ _ hesc]
    rfl
  · by_cases hd : frameDeadlyContact rl inp g = true
    · simp only [hd, if_true, Prod.mk.injEq] at hm
      simp only [hm.2, hd]
    · simp only [hd, Bool.false_eq_true, if_false] at hm
      have h2 : (waveClearCheck (atWaveClearCheck rl inp g)).gameOver = false := by
        split_ifs at hm <;> simp only [Prod.mk.injEq] at hm <;> exact hm.2
      simp only [h2, hd]
  · by_cases hd : frameDeadlyContact rl inp g = true
    · simp only [hd, if_true, Prod.mk.injEq] at hm
      simp only [hm.1, hd]
    · simp only [hd, Bool.false_eq_true, if_false] at hm
      have h2 : (waveClearCheck (atWaveClearCheck rl inp g)).state ≠ GameState.GAME_OVER := by
        split_ifs at hm <;> simp only [Prod.mk.injEq] at hm <;> rw [hm.1] <;> decide
      exact ⟨fun a => absurd a h2, fun a => absurd a hd⟩
  · intro hd
    simp only [hd, if_true, Prod.mk.injEq] at hm
    rw [hm.1]
    decide
  · intro hd
    simp only [hd, Bool.false_eq_true, if_false] at hm
    split_ifs at hm ⊢ <;> simp only [Prod.mk.injEq] at hm <;> exact hm.1
  · intro g0 e hc
    have h := contactHit_mode rl g0 e
    rw [if_neg (by rintro ⟨a, _⟩; omega)] at h
    simp only [modeFields, Prod.mk.injEq] at h
    exact h
  · intro g0 e hc
    have h := contactHit_mode rl g0 e
    refine ⟨fun h0 => ?_, fun h0 => ?_⟩
    · rw [if_pos ⟨hc, h0⟩] at h
      simp only [modeFields, Prod.mk.injEq] at h
      exact h
    · rw [if_neg (by rintro ⟨_, a⟩; exact h0 a)] at h
      simp only [modeFields, Prod.mk.injEq] at h
      exact h
  · intro g0 hr hs0
    exact reachable_flagInv rl hr (Or.inl hs0)

/-- C24 at a wave-1 session whose player, at 10 health without a shield, is
touched by the last enemy (contact damage 12): the frame ends in GAME_OVER with
the flag set, not in UPGRADE, although the counter of enemies is at 0. -/
theorem game_over_iff_deadly_contact_witness :
    (ambushGame.state = GameState.PLAYING ∧ ambushGame.gameOver = false ∧
        stillInput.keyEscapePressed = false) ∧
      frame sampleRaylib stillInput ambushGame =
        some (waveClearCheck (atWaveClearCheck sampleRaylib stillInput ambushGame)) ∧
      (atWaveClearCheck sampleRaylib stillInput ambushGame).enemiesRemaining = 0 ∧
      (waveClearCheck (atWaveClearCheck sampleRaylib stillInput ambushGame)).gameOver = true ∧
      (waveClearCheck (atWaveClearCheck sampleRaylib stillInput ambushGame)).state =
        GameState.GAME_OVER :=
  have h := game_over_iff_deadly_contact sampleRaylib stillInput ambushGame rfl rfl rfl
  ⟨⟨rfl, rfl, rfl⟩, h.1, ambush_remaining, h.2.1.2 ambush_deadly, h.2.2.1.2 ambush_deadly⟩

/-! ## Binary32 rounding -/

theorem abs_mul_le_mul {x y a b : ℚ} (hx : |x| ≤ a) (hy : |y| ≤ b) : |x * y| ≤ a * b := by
  rw [abs_mul]
  exact mul_le_mul hx hy (abs_nonneg _) (le_trans (abs_nonneg _) hx)

theorem roundHalfEven_err (x : ℚ) : |((roundHalfEven x : Int) : ℚ) - x| ≤ 1 / 2 := by
  have h1 := Int.floor_le x
  have h2 := Int.lt_floor_add_one x
  unfold roundHalfEven
  split_ifs with a b c
  · rw [abs_le]; constructor <;> linarith
  · push_cast
    rw [abs_le]; constructor <;> linarith
  · rw [abs_le]; constructor <;> linarith
  · push_cast
    rw [abs_le]; constructor <;> linarith

theorem roundHalfEven_eq (x : ℚ) (m : Int) (h : |x - m| < 1 / 2) : roundHalfEven x = m := by
  rw [abs_lt] at h
  have h3 := roundHalfEven_err x
  rw [abs_le] at h3
  have h4 : ((roundHalfEven x - m : Int) : ℚ) < 1 := by push_cast; linarith
  have h5 : (-1 : ℚ) < ((roundHalfEven x - m : Int) : ℚ) := by push_cast; linarith
  have h6 : roundHalfEven x - m < 1 := by exact_mod_cast h4
  have h7 : -1 < roundHalfEven x - m := by exact_mod_cast h5
  omega

theorem roundHalfEven_eq_even (x : ℚ) (m : Int) (h : |x - m| ≤ 1 / 2) (he : m % 2 = 0) :
    roundHalfEven x = m := by
  rcases lt_or_eq_of_le h with h1 | h1
  · exact roundHalfEven_eq x m h1
  · rcases abs_eq (by norm_num : (0 : ℚ) ≤ 1 / 2) |>.mp h1 with h2 | h2
    · have hx : x = (m : ℚ) + 1 / 2 := by linarith
      have hf : ⌊x⌋ = m := by
        rw [Int.floor_eq_iff]
        constructor <;> linarith
      unfold roundHalfEven
      rw [hf, hx]
      norm_num
      exact Int.dvd_of_emod_eq_zero he
    · have hx : x = ((m - 1 : Int) : ℚ) + 1 / 2 := by push_cast; linarith
      have hf : ⌊x⌋ = m - 1 := by
        rw [Int.floor_eq_iff]
        constructor <;> push_cast <;> linarith
      unfold roundHalfEven
      rw [hf, hx]
      have hodd : ¬ (m - 1) % 2 = 0 := by omega
      rw [if_neg (by norm_num), if_neg (by norm_num), if_neg hodd]
      ring

theorem f32_zero : f32 0 = 0 := by
  simp [f32, roundHalfEven]

theorem f32_sub_eq (q : ℚ) :
    f32 q - q =
      (((roundHalfEven (q / 2 ^ (max (Int.log 2 |q|) (-126) - 23)) : Int) : ℚ) -
        q / 2 ^ (max (Int.log 2 |q|) (-126) - 23)) *
        2 ^ (max (Int.log 2 |q|) (-126) - 23) := by
  have hp : (0 : ℚ) < 2 ^ (max (Int.log 2 |q|) (-126) - 23) := zpow_pos (by norm_num) _
  unfold f32
  field_simp

/-- The error of one binary32 rounding: at most `2^-24` of the value, plus
`2^-150` for the subnormal range. -/
theorem f32_err (q : ℚ) : |f32 q - q| ≤ |q| / 16777216 + 1 / 2 ^ 150 := by
  by_cases hq : q = 0
  · subst hq
    rw [f32_zero]
    norm_num
  have hpos : 0 < |q| := abs_pos.mpr hq
  have hp : (0 : ℚ) < 2 ^ (max (Int.log 2 |q|) (-126) - 23) := zpow_pos (by norm_num) _
  rw [f32_sub_eq, abs_mul, abs_of_pos hp]
  have h1 := roundHalfEven_err (q / 2 ^ (max (Int.log 2 |q|) (-126) - 23))
  have h2 : |((roundHalfEven (q / 2 ^ (max (Int.log 2 |q|) (-126) - 23)) : Int) : ℚ) -
      q / 2 ^ (max (Int.log 2 |q|) (-126) - 23)| * 2 ^ (max (Int.log 2 |q|) (-126) - 23) ≤
      1 / 2 * 2 ^ (max (Int.log 2 |q|) (-126) - 23) :=
    mul_le_mul_of_nonneg_right h1 hp.le
  refine h2.trans ?_
  by_cases hL : -126 ≤ Int.log 2 |q|
  · rw [max_eq_left hL]
    have h3 : (2 : ℚ) ^ (Int.log 2 |q|) ≤ |q| := Int.zpow_log_le_self (by norm_num) hpos
    have h4 : (2 : ℚ) ^ (Int.log 2 |q| - 23) = 2 ^ (Int.log 2 |q|) / 8388608 := by
      rw [zpow_sub₀ (by norm_num)]
      norm_num
    rw [h4]
    have h5 : (0 : ℚ) ≤ 1 / 2 ^ 150 := by positivity
    linarith
  · rw [max_eq_right (by omega)]
    have h4 : (2 : ℚ) ^ ((-126 : Int) - 23) = 1 / 2 ^ 149 := by
      rw [show ((-126 : Int) - 23) = -(149 : Int) by norm_num, zpow_neg]
      norm_num
    rw [h4]
    have h5 : (0 : ℚ) ≤ |q| / 16777216 := by positivity
    have h6 : (1 : ℚ) / 2 * (1 / 2 ^ 149) = 1 / 2 ^ 150 := by norm_num
    linarith

/-- The binary32 value of `q`, from its place between two powers of 2: with
`2^23 ≤ |q| * 2^k < 2^24` (or `k = 149`, the subnormal range), it is `m / 2^k`
for the integer `m` nearest to `q * 2^k`. -/
theorem f32_eval (q : ℚ) (m : Int) (k : Nat) (hk : k ≤ 149)
    (hlo : k = 149 ∨ (8388608 : ℚ) ≤ |q| * 2 ^ k) (hhi : |q| * 2 ^ k < 16777216)
    (hm : |q * 2 ^ k - m| < 1 / 2 ∨ (|q * 2 ^ k - m| ≤ 1 / 2 ∧ m % 2 = 0)) :
    f32 q = (m : ℚ) / 2 ^ k := by
  have hr : roundHalfEven (q * 2 ^ k) = m := by
    rcases hm with hm | ⟨hm, he⟩
    · exact roundHalfEven_eq _ m hm
    · exact roundHalfEven_eq_even _ m hm he
  have hm : |q * 2 ^ k - m| ≤ 1 / 2 := by
    rcases hm with hm | ⟨hm, _⟩
    · exact hm.le
    · exact hm
  have h2k : (0 : ℚ) < 2 ^ k := by positivity
  by_cases hq : q = 0
  · subst hq
    rw [f32_zero]
    have hm0 : m = 0 := by
      have h := hm
      rw [zero_mul, zero_sub, abs_neg] at h
      have h1 : |(m : ℚ)| < 1 := by linarith
      have h2 : |m| < 1 := by exact_mod_cast h1
      exact Int.abs_lt_one_iff.mp h2
    rw [hm0]
    simp
  have hpos : 0 < |q| := abs_pos.mpr hq
  have hE : max (Int.log 2 |q|) (-126) - 23 = -(k : Int) := by
    have hup : Int.log 2 |q| < 24 - (k : Int) := by
      rw [← Int.lt_zpow_iff_log_lt (by norm_num) hpos]
      rw [zpow_sub₀ (by norm_num), zpow_natCast]
      simp only [Nat.cast_ofNat]
      rw [lt_div_iff₀ h2k]
      norm_num
      exact hhi
    rcases hlo with hlo | hlo
    · subst hlo
      have : Int.log 2 |q| ≤ -126 := by push_cast at hup; omega
      rw [max_eq_right this]
      norm_num
    · have hdown : 23 - (k : Int) ≤ Int.log 2 |q| := by
        rw [← Int.zpow_le_iff_le_log (by norm_num) hpos]
        rw [zpow_sub₀ (by norm_num), zpow_natCast]
        simp only [Nat.cast_ofNat]
        rw [div_le_iff₀ h2k]
        norm_num
        exact hlo
      have : -126 ≤ Int.log 2 |q| := by omega
      rw [max_eq_left this]
      omega
  unfold f32
  rw [hE, zpow_neg, zpow_natCast, div_inv_eq_mul, hr]
  field_simp

/-- The evaluation of `f32` at a positive value that is not half-way between
two binary32 values. -/
theorem f32_pos_eval (q : ℚ) (m : Int) (k : Nat) (hk : k ≤ 149)
    (hlo : (8388608 : ℚ) ≤ q * 2 ^ k) (hhi : q * 2 ^ k < 16777216)
    (hm : |q * 2 ^ k - m| < 1 / 2) : f32 q = (m : ℚ) / 2 ^ k := by
  have h2k : (0 : ℚ) < 2 ^ k := by positivity
  have hq : 0 < q := by
    by_contra hneg
    have : q * 2 ^ k ≤ 0 := mul_nonpos_of_nonpos_of_nonneg (not_lt.mp hneg) h2k.le
    linarith
  exact f32_eval q m k hk (Or.inr (by rw [abs_of_pos hq]; exact hlo))
    (by rw [abs_of_pos hq]; exact hhi) (Or.inl hm)

theorem roundHalfEven_intCast (n : Int) : roundHalfEven (n : ℚ) = n :=
  roundHalfEven_eq _ n (by simp)

/-- Integers below `2^24` in size are binary32 values. -/
theorem f32_intCast (n : Int) (hn : |n| < 16777216) : f32 (n : ℚ) = n := by
  by_cases h0 : n = 0
  · subst h0
    simpa using f32_zero
  have hq : (n : ℚ) ≠ 0 := by exact_mod_cast h0
  have hpos : 0 < |(n : ℚ)| := abs_pos.mpr hq
  have h1 : (1 : ℚ) ≤ |(n : ℚ)| := by
    have : 1 ≤ |n| := Int.one_le_abs h0
    exact_mod_cast this
  have hlo : 0 ≤ Int.log 2 |(n : ℚ)| := by
    rw [← Int.zpow_le_iff_le_log (by norm_num) hpos]
    simpa using h1
  have hhi : Int.log 2 |(n : ℚ)| < 24 := by
    rw [← Int.lt_zpow_iff_log_lt (by norm_num) hpos]
    have : |(n : ℚ)| < 16777216 := by exact_mod_cast hn
    norm_num
    exact this
  obtain ⟨j, hj⟩ : ∃ j : Nat, max (Int.log 2 |(n : ℚ)|) (-126) - 23 = -(j : Int) := by
    refine ⟨(23 - Int.log 2 |(n : ℚ)|).toNat, ?_⟩
    rw [max_eq_left (by omega)]
    omega
  unfold f32
  rw [hj, zpow_neg, zpow_natCast, div_inv_eq_mul]
  have : (n : ℚ) * 2 ^ j = ((n * 2 ^ j : Int) : ℚ) := by push_cast; rfl
  rw [this, roundHalfEven_intCast]
  have h2k : (0 : ℚ) < 2 ^ j := by positivity
  push_cast
  field_simp

/-! ## Binary32 square root -/

theorem sqrt_round_bounds (N m : Nat) (hm : m = (Nat.sqrt N + 1) / 2) :
    (2 * m - 1) * (2 * m - 1) ≤ N ∧ N < (2 * m + 1) * (2 * m + 1) := by
  have h1 := Nat.sqrt_le N
  have h2 : N < (Nat.sqrt N + 1) * (Nat.sqrt N + 1) := Nat.lt_succ_sqrt N
  have h3 : 2 * m - 1 ≤ Nat.sqrt N := by omega
  have h4 : Nat.sqrt N + 1 ≤ 2 * m + 1 := by omega
  constructor
  · exact (Nat.mul_le_mul h3 h3).trans h1
  · exact lt_of_lt_of_le h2 (Nat.mul_le_mul h4 h4)

/-- The accuracy of the binary32 square root: positive, and its square is the
argument up to the factors `(1 ± 2^-24)^2`. -/
theorem sqrtf_accuracy (x : ℚ) (hx : 0 < x) :
    0 < Binary32.sqrtf x ∧
      Binary32.sqrtf x * Binary32.sqrtf x * ((1 - 1 / 16777216) * (1 - 1 / 16777216)) ≤ x ∧
      x ≤ Binary32.sqrtf x * Binary32.sqrtf x * ((1 + 1 / 16777216) * (1 + 1 / 16777216)) := by
  have hP : (0 : ℚ) < 2 ^ (Int.log 2 x / 2 - 23) := zpow_pos (by norm_num) _
  have hP2 : (2 : ℚ) ^ (2 * (Int.log 2 x / 2 - 23)) =
      2 ^ (Int.log 2 x / 2 - 23) * 2 ^ (Int.log 2 x / 2 - 23) := by
    rw [two_mul, zpow_add₀ (by norm_num)]
  have hL : (2 : ℚ) ^ (Int.log 2 x) ≤ x := Int.zpow_log_le_self (by norm_num) hx
  have hes : (2 : ℚ) ^ (2 * (Int.log 2 x / 2 - 23)) * 2 ^ (46 : Int) ≤ 2 ^ (Int.log 2 x) := by
    rw [← zpow_add₀ (by norm_num)]
    exact zpow_le_zpow_right₀ (by norm_num) (by omega)
  generalize hPdef : (2 : ℚ) ^ (Int.log 2 x / 2 - 23) = P at hP hP2 hes
  rw [hP2] at hes
  have hX : (70368744177664 : ℚ) ≤ x / (P * P) := by
    rw [le_div_iff₀ (mul_pos hP hP)]
    have : (2 : ℚ) ^ (46 : Int) = 70368744177664 := by norm_num
    rw [this] at hes
    linarith
  have hdef : Binary32.sqrtf x =
      (((Nat.sqrt ⌊4 * (x / (P * P))⌋₊ + 1) / 2 : Nat) : ℚ) * P := by
    unfold Binary32.sqrtf
    rw [if_neg (not_le.mpr hx), hP2, hPdef]
  have h4X : (0 : ℚ) ≤ 4 * (x / (P * P)) := by linarith
  have hN1 : ((⌊4 * (x / (P * P))⌋₊ : Nat) : ℚ) ≤ 4 * (x / (P * P)) := Nat.floor_le h4X
  have hN2 : 4 * (x / (P * P)) < ((⌊4 * (x / (P * P))⌋₊ : Nat) : ℚ) + 1 :=
    Nat.lt_floor_add_one _
  generalize hNdef : ⌊4 * (x / (P * P))⌋₊ = N at hN1 hN2 hdef
  obtain ⟨hb1, hb2⟩ := sqrt_round_bounds N ((Nat.sqrt N + 1) / 2) rfl
  have hNbig : 281474976710656 ≤ N := by
    have : (281474976710656 : ℚ) < (N : ℚ) + 1 := by linarith
    have : (281474976710656 : Nat) < N + 1 := by exact_mod_cast this
    omega
  have hs : 16777216 ≤ Nat.sqrt N := by
    rw [Nat.le_sqrt]
    exact le_trans (by norm_num) hNbig
  have hm : 8388608 ≤ (Nat.sqrt N + 1) / 2 := by omega
  generalize hmdef : (Nat.sqrt N + 1) / 2 = m at hb1 hb2 hm hdef
  have hmq : (8388608 : ℚ) ≤ (m : ℚ) := by exact_mod_cast hm
  have hb1q : (2 * (m : ℚ) - 1) * (2 * (m : ℚ) - 1) ≤ (N : ℚ) := by
    have h1 : 1 ≤ 2 * m := by omega
    have : (((2 * m - 1) * (2 * m - 1) : Nat) : ℚ) ≤ (N : ℚ) := by exact_mod_cast hb1
    rw [Nat.cast_mul, Nat.cast_sub h1] at this
    push_cast at this
    exact this
  have hb2q : (N : ℚ) + 1 ≤ (2 * (m : ℚ) + 1) * (2 * (m : ℚ) + 1) := by
    have : N + 1 ≤ (2 * m + 1) * (2 * m + 1) := hb2
    exact_mod_cast this
  have hlow : ((m : ℚ) - 1 / 2) * ((m : ℚ) - 1 / 2) ≤ x / (P * P) := by nlinarith
  have hupp : x / (P * P) ≤ ((m : ℚ) + 1 / 2) * ((m : ℚ) + 1 / 2) := by nlinarith
  have hxeq : x = x / (P * P) * (P * P) := by
    field_simp
  have hPP : (0 : ℚ) < P * P := mul_pos hP hP
  have hA : (m : ℚ) * (1 - 1 / 16777216) ≤ (m : ℚ) - 1 / 2 := by linarith
  have hA0 : (0 : ℚ) ≤ (m : ℚ) * (1 - 1 / 16777216) := by
    apply mul_nonneg <;> linarith
  have hB : (m : ℚ) + 1 / 2 ≤ (m : ℚ) * (1 + 1 / 16777216) := by linarith
  have hB0 : (0 : ℚ) ≤ (m : ℚ) + 1 / 2 := by linarith
  have hlow2 : (m : ℚ) * (1 - 1 / 16777216) * ((m : ℚ) * (1 - 1 / 16777216)) ≤ x / (P * P) :=
    (mul_le_mul hA hA hA0 (by linarith)).trans hlow
  have hupp2 : x / (P * P) ≤ (m : ℚ) * (1 + 1 / 16777216) * ((m : ℚ) * (1 + 1 / 16777216)) :=
    hupp.trans (mul_le_mul hB hB hB0 (by linarith))
  rw [hdef]
  refine ⟨mul_pos (by linarith) hP, ?_, ?_⟩
  · calc (m : ℚ) * P * ((m : ℚ) * P) * ((1 - 1 / 16777216) * (1 - 1 / 16777216))
        = (m : ℚ) * (1 - 1 / 16777216) * ((m : ℚ) * (1 - 1 / 16777216)) * (P * P) := by ring
      _ ≤ x / (P * P) * (P * P) := mul_le_mul_of_nonneg_right hlow2 hPP.le
      _ = x := hxeq.symm
  · calc x = x / (P * P) * (P * P) := hxeq
      _ ≤ (m : ℚ) * (1 + 1 / 16777216) * ((m : ℚ) * (1 + 1 / 16777216)) * (P * P) :=
        mul_le_mul_of_nonneg_right hupp2 hPP.le
      _ = (m : ℚ) * P * ((m : ℚ) * P) * ((1 + 1 / 16777216) * (1 + 1 / 16777216)) := by ring

/-- The binary32 square root of `x`, from its place between two powers of 4:
with `2^46 ≤ x * 4^k < 2^48` it is `m / 2^k` for the integer `m` nearest to the
square root of `x * 4^k`. -/
theorem sqrtf_eval (x : ℚ) (m k : Nat) (hm : 1 ≤ m)
    (hlo : (70368744177664 : ℚ) ≤ x * 4 ^ k) (hhi : x * 4 ^ k < 281474976710656)
    (h1 : ((2 * m - 1 : Nat) : ℚ) * ((2 * m - 1 : Nat) : ℚ) ≤ 4 * (x * 4 ^ k))
    (h2 : 4 * (x * 4 ^ k) < ((2 * m + 1 : Nat) : ℚ) * ((2 * m + 1 : Nat) : ℚ)) :
    Binary32.sqrtf x = (m : ℚ) / 2 ^ k := by
  have h4k : (0 : ℚ) < 4 ^ k := by positivity
  have h2k : (0 : ℚ) < 2 ^ k := by positivity
  have h42 : (4 : ℚ) ^ k = 2 ^ k * 2 ^ k := by
    rw [← mul_pow]
    norm_num
  have hx : 0 < x := by
    by_contra hneg
    have : x * 4 ^ k ≤ 0 := mul_nonpos_of_nonpos_of_nonneg (not_lt.mp hneg) h4k.le
    linarith
  have hup : Int.log 2 x < 48 - 2 * (k : Int) := by
    rw [← Int.lt_zpow_iff_log_lt (by norm_num) hx]
    rw [zpow_sub₀ (by norm_num)]
    simp only [Nat.cast_ofNat]
    rw [lt_div_iff₀ (zpow_pos (by norm_num) _)]
    have : (2 : ℚ) ^ (2 * (k : Int)) = 4 ^ k := by
      rw [zpow_mul]
      norm_num
    rw [this]
    norm_num
    exact hhi
  have hdown : 46 - 2 * (k : Int) ≤ Int.log 2 x := by
    rw [← Int.zpow_le_iff_le_log (by norm_num) hx]
    rw [zpow_sub₀ (by norm_num)]
    simp only [Nat.cast_ofNat]
    rw [div_le_iff₀ (zpow_pos (by norm_num) _)]
    have : (2 : ℚ) ^ (2 * (k : Int)) = 4 ^ k := by
      rw [zpow_mul]
      norm_num
    rw [this]
    norm_num
    exact hlo
  have he : Int.log 2 x / 2 - 23 = -(k : Int) := by omega
  have hX : x / 2 ^ (2 * (Int.log 2 x / 2 - 23)) = x * 4 ^ k := by
    rw [he, mul_neg, zpow_neg, div_inv_eq_mul, zpow_mul]
    norm_num
  unfold Binary32.sqrtf
  rw [if_neg (not_le.mpr hx), hX, he, zpow_neg, zpow_natCast, ← div_eq_mul_inv]
  have h4X : (0 : ℚ) ≤ 4 * (x * 4 ^ k) := by positivity
  have hN1 : ((⌊4 * (x * 4 ^ k)⌋₊ : Nat) : ℚ) ≤ 4 * (x * 4 ^ k) := Nat.floor_le h4X
  have hN2 : 4 * (x * 4 ^ k) < ((⌊4 * (x * 4 ^ k)⌋₊ : Nat) : ℚ) + 1 := Nat.lt_floor_add_one _
  generalize ⌊4 * (x * 4 ^ k)⌋₊ = N at hN1 hN2
  have ha : (2 * m - 1) * (2 * m - 1) ≤ N := by
    have : (((2 * m - 1) * (2 * m - 1) : Nat) : ℚ) < (N : ℚ) + 1 := by
      push_cast
      linarith
    have : (2 * m - 1) * (2 * m - 1) < N + 1 := by exact_mod_cast this
    omega
  have hb : N < (2 * m + 1) * (2 * m + 1) := by
    have : (N : ℚ) < (((2 * m + 1) * (2 * m + 1) : Nat) : ℚ) := by
      push_cast
      push_cast at h2
      linarith
    exact_mod_cast this
  have hs1 : 2 * m - 1 ≤ Nat.sqrt N := Nat.le_sqrt.mpr ha
  have hs2 : Nat.sqrt N < 2 * m + 1 := Nat.sqrt_lt.mpr hb
  have : (Nat.sqrt N + 1) / 2 = m := by omega
  rw [this]

/-! ## C27: error analysis of the push -/

/-- A rounded offset keeps its size up to the rounding error. -/
theorem f32_sq_bounds (T : ℚ) (hT : |T| ≤ 8192) :
    |f32 T - T| ≤ 1 / 2000 ∧ |f32 T| ≤ 8193 ∧
      f32 T * f32 T ≤ T * T * (1 + 1 / 5000000) + 1 / 2 ^ 130 ∧
      T * T * (1 - 1 / 5000000) - 1 / 2 ^ 130 ≤ f32 T * f32 T := by
  have he := f32_err T
  have h0 := abs_nonneg T
  have he2 : |f32 T - T| ≤ 1 / 2000 := by
    refine he.trans ?_
    have : |T| / 16777216 ≤ 8192 / 16777216 := by linarith
    norm_num at this ⊢
    linarith
  have hsplit : f32 T * f32 T - T * T = (f32 T - T) * (f32 T - T) + 2 * T * (f32 T - T) := by
    ring
  have h1 : |(f32 T - T) * (f32 T - T)| ≤
      (|T| / 16777216 + 1 / 2 ^ 150) * (|T| / 16777216 + 1 / 2 ^ 150) := abs_mul_le_mul he he
  have h2 : |2 * T * (f32 T - T)| ≤ 2 * |T| * (|T| / 16777216 + 1 / 2 ^ 150) := by
    have : |2 * T| ≤ 2 * |T| := by rw [abs_mul]; norm_num
    exact abs_mul_le_mul this he
  have hTT : T * T = |T| * |T| := (abs_mul_abs_self T).symm
  have h3 : |f32 T * f32 T - T * T| ≤ T * T * (1 / 5000000) + 1 / 2 ^ 130 := by
    rw [hsplit]
    refine (abs_add _ _).trans ?_
    rw [hTT]
    have hsq : 0 ≤ |T| * |T| := mul_nonneg h0 h0
    nlinarith
  rw [abs_le] at h3 he2
  refine ⟨abs_le.mpr he2, ?_, by linarith, by linarith⟩
  rw [abs_le] at hT ⊢
  constructor <;> linarith

/-- The rounded sum of the two rounded squares is the exact sum up to a
relative error of `2 * 10^-7`. -/
theorem sumSq_bounds (tx ty : ℚ) (hS : 6398 ≤ tx * tx + ty * ty) :
    (tx * tx + ty * ty) * (1 - 1 / 5000000) ≤ f32 (f32 (tx * tx) + f32 (ty * ty)) ∧
      f32 (f32 (tx * tx) + f32 (ty * ty)) ≤ (tx * tx + ty * ty) * (1 + 1 / 5000000) := by
  have ha := f32_err (tx * tx)
  have hb := f32_err (ty * ty)
  rw [abs_of_nonneg (mul_self_nonneg tx)] at ha
  rw [abs_of_nonneg (mul_self_nonneg ty)] at hb
  rw [abs_le] at ha hb
  have hx := mul_self_nonneg tx
  have hy := mul_self_nonneg ty
  have hη : (1 : ℚ) / 2 ^ 150 ≤ 1 / 10 ^ 40 := by norm_num
  have hη0 : (0 : ℚ) < 1 / 2 ^ 150 := by positivity
  have hpos : 0 ≤ f32 (tx * tx) + f32 (ty * ty) := by linarith
  have hD := f32_err (f32 (tx * tx) + f32 (ty * ty))
  rw [abs_of_nonneg hpos, abs_le] at hD
  constructor <;> linarith

/-- The computed distance of a spawn point: positive, and its square is the sum
of the squares of the computed offsets up to a relative error of `10^-6`. -/
theorem sqrtSumSq_bounds (tx ty : ℚ) (hS : 6398 ≤ tx * tx + ty * ty) :
    0 < Binary32.sqrtf (f32 (f32 (tx * tx) + f32 (ty * ty))) ∧
      (tx * tx + ty * ty) * (1 - 1 / 1000000) ≤
        Binary32.sqrtf (f32 (f32 (tx * tx) + f32 (ty * ty))) *
          Binary32.sqrtf (f32 (f32 (tx * tx) + f32 (ty * ty))) ∧
      Binary32.sqrtf (f32 (f32 (tx * tx) + f32 (ty * ty))) *
          Binary32.sqrtf (f32 (f32 (tx * tx) + f32 (ty * ty))) ≤
        (tx * tx + ty * ty) * (1 + 1 / 1000000) := by
  obtain ⟨h1, h2⟩ := sumSq_bounds tx ty hS
  have hpos : 0 < f32 (f32 (tx * tx) + f32 (ty * ty)) := by linarith
  obtain ⟨hd, ha, hb⟩ := sqrtf_accuracy _ hpos
  generalize Binary32.sqrtf (f32 (f32 (tx * tx) + f32 (ty * ty))) = d at hd ha hb
  generalize f32 (f32 (tx * tx) + f32 (ty * ty)) = D at h1 h2 ha hb hpos
  have hdd : 0 ≤ d * d := mul_self_nonneg d
  refine ⟨hd, ?_, ?_⟩
  · norm_num at ha hb h1 h2 ⊢
    linarith
  · norm_num at ha hb h1 h2 ⊢
    linarith

theorem offsets_far (Tx Ty : ℚ) (hTx : |Tx| ≤ 8192) (hTy : |Ty| ≤ 8192)
    (hfar : 80 ≤ |Tx| ∨ 80 ≤ |Ty|) :
    6398 ≤ f32 Tx * f32 Tx + f32 Ty * f32 Ty := by
  obtain ⟨_, _, _, hx⟩ := f32_sq_bounds Tx hTx
  obtain ⟨_, _, _, hy⟩ := f32_sq_bounds Ty hTy
  have hxx : Tx * Tx = |Tx| * |Tx| := (abs_mul_abs_self Tx).symm
  have hyy : Ty * Ty = |Ty| * |Ty| := (abs_mul_abs_self Ty).symm
  have hx0 := mul_self_nonneg Tx
  have hy0 := mul_self_nonneg Ty
  have hη : (1 : ℚ) / 2 ^ 130 ≤ 1 / 10 ^ 30 := by norm_num
  rcases hfar with h | h
  · have : 6400 ≤ Tx * Tx := by rw [hxx]; nlinarith [abs_nonneg Tx]
    have h2 := mul_self_nonneg (f32 Ty)
    nlinarith
  · have : 6400 ≤ Ty * Ty := by rw [hyy]; nlinarith [abs_nonneg Ty]
    have h2 := mul_self_nonneg (f32 Tx)
    nlinarith

/-- One coordinate of the pushed point: its offset from the player is `180 / d`
times the computed offset `t`, up to `10^-3`. -/
theorem pushed_coord (T t d s : ℚ) (ht : |t - T| ≤ 1 / 2000) (hs : |s| ≤ 4096)
    (hd1 : 79 ≤ d) (hd2 : d < 180) (hq : |t / d| ≤ 1001 / 1000) :
    |(s + T - f32 (s - f32 (f32 (t / d) * f32 (180 - d)))) - 180 * (t / d)| ≤ 1 / 1000 := by
  have hd0 : d ≠ 0 := by intro h; rw [h] at hd1; norm_num at hd1
  have hη : (1 : ℚ) / 2 ^ 150 ≤ 1 / 10 ^ 40 := by norm_num
  have hη0 : (0 : ℚ) < 1 / 2 ^ 150 := by positivity
  have hqd : t / d * d = t := div_mul_cancel₀ t hd0
  generalize t / d = q at hq hqd
  -- the direction
  have h3 := f32_err q
  have h3b : |f32 q - q| ≤ 1 / 10000000 := by
    refine h3.trans ?_
    have : |q| / 16777216 ≤ 1001 / 1000 / 16777216 := by
      apply div_le_div_of_nonneg_right hq (by norm_num)
    norm_num at this ⊢
    linarith
  have hdir : |f32 q| ≤ 1002 / 1000 := by
    have := abs_add (f32 q - q) q
    rw [sub_add_cancel] at this
    linarith
  generalize f32 q = dir at h3b hdir
  -- the length of the push
  have hk0 : |180 - d| ≤ 101 := by
    rw [abs_le]; constructor <;> linarith
  have h4 := f32_err (180 - d)
  have h4b : |f32 (180 - d) - (180 - d)| ≤ 1 / 100000 := by
    refine h4.trans ?_
    have : |180 - d| / 16777216 ≤ 101 / 16777216 := by
      apply div_le_div_of_nonneg_right hk0 (by norm_num)
    norm_num at this ⊢
    linarith
  have hK : |f32 (180 - d)| ≤ 102 := by
    have := abs_add (f32 (180 - d) - (180 - d)) (180 - d)
    rw [sub_add_cancel] at this
    linarith
  generalize f32 (180 - d) = K at h4b hK
  -- the product
  have hdK : |dir * K| ≤ 1002 / 1000 * 102 := abs_mul_le_mul hdir hK
  have h2 := f32_err (dir * K)
  have h2b : |f32 (dir * K) - dir * K| ≤ 1 / 100000 := by
    refine h2.trans ?_
    have : |dir * K| / 16777216 ≤ 1002 / 1000 * 102 / 16777216 := by
      apply div_le_div_of_nonneg_right hdK (by norm_num)
    norm_num at this ⊢
    linarith
  have hax : |f32 (dir * K)| ≤ 103 := by
    have := abs_add (f32 (dir * K) - dir * K) (dir * K)
    rw [sub_add_cancel] at this
    norm_num at hdK
    linarith
  generalize f32 (dir * K) = ax at h2b hax
  -- the subtraction
  have hsa : |s - ax| ≤ 4199 := by
    have := abs_sub s ax
    linarith
  have h1 := f32_err (s - ax)
  have h1b : |f32 (s - ax) - (s - ax)| ≤ 3 / 10000 := by
    refine h1.trans ?_
    have : |s - ax| / 16777216 ≤ 4199 / 16777216 := by
      apply div_le_div_of_nonneg_right hsa (by norm_num)
    norm_num at this ⊢
    linarith
  generalize f32 (s - ax) = r at h1b
  have hid : s + T - r - 180 * q =
      -(r - (s - ax)) + (ax - dir * K) + (dir - q) * K + q * (K - (180 - d)) - (t - T) := by
    rw [← hqd]
    ring
  rw [hid]
  have e1 : |(dir - q) * K| ≤ 1 / 10000000 * 102 := abs_mul_le_mul h3b hK
  have e2 : |q * (K - (180 - d))| ≤ 1001 / 1000 * (1 / 100000) := abs_mul_le_mul hq h4b
  rw [abs_le] at h1b h2b e1 e2 ht ⊢
  constructor <;> linarith

/-- A point whose offset is `180 * q + E` with `q` a unit vector up to
`10^-6` and `E` an error of at most `10^-3` per coordinate lies between 179.99
and 180.01 from the origin. -/
theorem near_circle (qx qy Ex Ey : ℚ) (hqx : |qx| ≤ 1001 / 1000) (hqy : |qy| ≤ 1001 / 1000)
    (hEx : |Ex| ≤ 1 / 1000) (hEy : |Ey| ≤ 1 / 1000)
    (hQ1 : (qx * qx + qy * qy) * (1 - 1 / 1000000) ≤ 1)
    (hQ2 : 1 ≤ (qx * qx + qy * qy) * (1 + 1 / 1000000)) :
    17999 / 100 * (17999 / 100) ≤
        (180 * qx + Ex) * (180 * qx + Ex) + (180 * qy + Ey) * (180 * qy + Ey) ∧
      (180 * qx + Ex) * (180 * qx + Ex) + (180 * qy + Ey) * (180 * qy + Ey) ≤
        18001 / 100 * (18001 / 100) := by
  have h1 : |qx * Ex| ≤ 1001 / 1000 * (1 / 1000) := abs_mul_le_mul hqx hEx
  have h2 : |qy * Ey| ≤ 1001 / 1000 * (1 / 1000) := abs_mul_le_mul hqy hEy
  have h3 : |Ex * Ex| ≤ 1 / 1000 * (1 / 1000) := abs_mul_le_mul hEx hEx
  have h4 : |Ey * Ey| ≤ 1 / 1000 * (1 / 1000) := abs_mul_le_mul hEy hEy
  rw [abs_le] at h1 h2 h3 h4
  have hx : (180 * qx + Ex) * (180 * qx + Ex) = 32400 * (qx * qx) + 360 * (qx * Ex) + Ex * Ex := by
    ring
  have hy : (180 * qy + Ey) * (180 * qy + Ey) = 32400 * (qy * qy) + 360 * (qy * Ey) + Ey * Ey := by
    ring
  rw [hx, hy]
  have h5 := mul_self_nonneg Ex
  have h6 := mul_self_nonneg Ey
  constructor <;> linarith

theorem pushOut_far (p s : Vector2) (h : 180 ≤ Binary32.distance p s) :
    Binary32.pushOutOfSafeRadius p s = s := by
  simp only [Binary32.pushOutOfSafeRadius, if_neg (not_lt.mpr h)]

theorem pushOut_near (p s : Vector2) (h : Binary32.distance p s < 180)
    (h0 : Binary32.distance p s ≠ 0) :
    Binary32.pushOutOfSafeRadius p s =
      ⟨f32 (s.x - f32 (f32 (f32 (p.x - s.x) / Binary32.distance p s) *
          f32 (180 - Binary32.distance p s))),
       f32 (s.y - f32 (f32 (f32 (p.y - s.y) / Binary32.distance p s) *
          f32 (180 - Binary32.distance p s)))⟩ := by
  simp only [Binary32.pushOutOfSafeRadius, if_pos h, if_neg h0, Binary32.toPlayer]

theorem abs_div_le_of_sq (t d c : ℚ) (hd : 0 < d) (hc : 0 ≤ c) (h : t * t ≤ c * c * (d * d)) :
    |t / d| ≤ c := by
  apply abs_le_of_sq_le_sq _ hc
  rw [div_pow, div_le_iff₀ (by positivity)]
  calc t ^ 2 = t * t := by ring
    _ ≤ c * c * (d * d) := h
    _ = c ^ 2 * d ^ 2 := by ring

/-- The arithmetic of the push: `d` stands for the computed distance and `tx`,
`ty` for the computed offsets. -/
theorem push_core (px py sx sy tx ty d : ℚ) (hsx : |sx| ≤ 4096) (hsy : |sy| ≤ 4096)
    (hex : |tx - (px - sx)| ≤ 1 / 2000) (hey : |ty - (py - sy)| ≤ 1 / 2000)
    (hd79 : 79 ≤ d) (hlt : d < 180)
    (hdl : (tx * tx + ty * ty) * (1 - 1 / 1000000) ≤ d * d)
    (hdu : d * d ≤ (tx * tx + ty * ty) * (1 + 1 / 1000000)) :
    17999 / 100 * (17999 / 100) ≤
        (px - f32 (sx - f32 (f32 (tx / d) * f32 (180 - d)))) *
            (px - f32 (sx - f32 (f32 (tx / d) * f32 (180 - d)))) +
          (py - f32 (sy - f32 (f32 (ty / d) * f32 (180 - d)))) *
            (py - f32 (sy - f32 (f32 (ty / d) * f32 (180 - d)))) ∧
      (px - f32 (sx - f32 (f32 (tx / d) * f32 (180 - d)))) *
            (px - f32 (sx - f32 (f32 (tx / d) * f32 (180 - d)))) +
          (py - f32 (sy - f32 (f32 (ty / d) * f32 (180 - d)))) *
            (py - f32 (sy - f32 (f32 (ty / d) * f32 (180 - d)))) ≤
        18001 / 100 * (18001 / 100) ∧
      |(px - f32 (sx - f32 (f32 (tx / d) * f32 (180 - d)))) - 180 / d * (px - sx)| ≤ 1 / 400 ∧
      |(py - f32 (sy - f32 (f32 (ty / d) * f32 (180 - d)))) - 180 / d * (py - sy)| ≤ 1 / 400 := by
  have hd0 : 0 < d := by linarith
  have hxx := mul_self_nonneg tx
  have hyy := mul_self_nonneg ty
  have hqx : |tx / d| ≤ 1001 / 1000 := by
    apply abs_div_le_of_sq _ _ _ hd0 (by norm_num)
    norm_num at hdl ⊢
    linarith
  have hqy : |ty / d| ≤ 1001 / 1000 := by
    apply abs_div_le_of_sq _ _ _ hd0 (by norm_num)
    norm_num at hdl ⊢
    linarith
  have hcx := pushed_coord (px - sx) tx d sx hex hsx hd79 hlt hqx
  have hcy := pushed_coord (py - sy) ty d sy hey hsy hd79 hlt hqy
  have hpx : sx + (px - sx) = px := by ring
  have hpy : sy + (py - sy) = py := by ring
  rw [hpx] at hcx
  rw [hpy] at hcy
  generalize f32 (sx - f32 (f32 (tx / d) * f32 (180 - d))) = rx at hcx
  generalize f32 (sy - f32 (f32 (ty / d) * f32 (180 - d))) = ry at hcy
  have hQ : (tx / d) * (tx / d) + (ty / d) * (ty / d) = (tx * tx + ty * ty) / (d * d) := by
    field_simp
  have hddpos : 0 < d * d := mul_pos hd0 hd0
  have hQ1 : ((tx / d) * (tx / d) + (ty / d) * (ty / d)) * (1 - 1 / 1000000) ≤ 1 := by
    rw [hQ, div_mul_eq_mul_div, div_le_one hddpos]
    exact hdl
  have hQ2 : 1 ≤ ((tx / d) * (tx / d) + (ty / d) * (ty / d)) * (1 + 1 / 1000000) := by
    rw [hQ, div_mul_eq_mul_div, one_le_div hddpos]
    exact hdu
  have hnc := near_circle _ _ _ _ hqx hqy hcx hcy hQ1 hQ2
  have e1 : 180 * (tx / d) + (px - rx - 180 * (tx / d)) = px - rx := by ring
  have e2 : 180 * (ty / d) + (py - ry - 180 * (ty / d)) = py - ry := by ring
  rw [e1, e2] at hnc
  have hdir : ∀ (T t v : ℚ), |t - T| ≤ 1 / 2000 → |v - 180 * (t / d)| ≤ 1 / 1000 →
      |v - 180 / d * T| ≤ 1 / 400 := by
    intro T t v h1 h2
    have hsplit : v - 180 / d * T = (v - 180 * (t / d)) + 180 / d * (t - T) := by
      field_simp
      ring
    rw [hsplit]
    refine (abs_add _ _).trans ?_
    have h3 : |180 / d| ≤ 180 / 79 := by
      rw [abs_of_pos (div_pos (by norm_num) hd0)]
      exact div_le_div_of_nonneg_left (by norm_num) (by norm_num) hd79
    have h4 := abs_mul_le_mul h3 h1
    norm_num at h4 ⊢
    linarith
  exact ⟨hnc.1, hnc.2, hdir _ _ _ hex hcx, hdir _ _ _ hey hcy⟩

/-- The computed distance against the true one: `d` stands for the computed
distance and `tx`, `ty` for the computed offsets `f32 Tx`, `f32 Ty`. -/
theorem dist_core (Tx Ty d : ℚ) (hTx : |Tx| ≤ 8192) (hTy : |Ty| ≤ 8192) (hd0 : 0 < d)
    (hdl : (f32 Tx * f32 Tx + f32 Ty * f32 Ty) * (1 - 1 / 1000000) ≤ d * d)
    (hdu : d * d ≤ (f32 Tx * f32 Tx + f32 Ty * f32 Ty) * (1 + 1 / 1000000))
    (hS : 6398 ≤ f32 Tx * f32 Tx + f32 Ty * f32 Ty) :
    79 ≤ d ∧ (180 ≤ d → 17999 / 100 * (17999 / 100) ≤ Tx * Tx + Ty * Ty) ∧
      (d < 180 → Tx * Tx + Ty * Ty < 18001 / 100 * (18001 / 100)) := by
  obtain ⟨_, _, hxu, hxl⟩ := f32_sq_bounds Tx hTx
  obtain ⟨_, _, hyu, hyl⟩ := f32_sq_bounds Ty hTy
  have hη : (1 : ℚ) / 2 ^ 130 ≤ 1 / 10 ^ 30 := by norm_num
  generalize f32 Tx * f32 Tx = a at hxu hxl hdl hdu hS
  generalize f32 Ty * f32 Ty = b at hyu hyl hdl hdu hS
  generalize Tx * Tx = A at hxu hxl
  generalize Ty * Ty = B at hyu hyl
  refine ⟨?_, ?_, ?_⟩
  · by_contra hlt
    have hlt2 : d < 79 := not_le.mp hlt
    have : d * d < 79 * 79 := by nlinarith
    norm_num at hdl
    linarith
  · intro h180
    have : 180 * 180 ≤ d * d := by nlinarith
    norm_num at hdu hxu hyu this ⊢
    linarith
  · intro hlt
    have : d * d < 180 * 180 := by nlinarith
    norm_num at hdl hxl hyl this ⊢
    linarith

/-- The safe-radius push in binary32, for a spawn point that is at least 80
from the player along one axis (coordinates up to 4096 in size). -/
theorem pushOut_analysis (p s : Vector2) (hsx : |s.x| ≤ 4096) (hsy : |s.y| ≤ 4096)
    (hTx : |p.x - s.x| ≤ 8192) (hTy : |p.y - s.y| ≤ 8192)
    (hfar : 80 ≤ |p.x - s.x| ∨ 80 ≤ |p.y - s.y|) :
    79 ≤ Binary32.distance p s ∧
      (180 ≤ Binary32.distance p s →
        Binary32.pushOutOfSafeRadius p s = s ∧
          17999 / 100 * (17999 / 100) ≤ distSq p s) ∧
      (Binary32.distance p s < 180 →
        17999 / 100 * (17999 / 100) ≤ distSq p (Binary32.pushOutOfSafeRadius p s) ∧
          distSq p (Binary32.pushOutOfSafeRadius p s) ≤ 18001 / 100 * (18001 / 100) ∧
          |(p.x - (Binary32.pushOutOfSafeRadius p s).x) -
              180 / Binary32.distance p s * (p.x - s.x)| ≤ 1 / 400 ∧
          |(p.y - (Binary32.pushOutOfSafeRadius p s).y) -
              180 / Binary32.distance p s * (p.y - s.y)| ≤ 1 / 400 ∧
          distSq p s < 18001 / 100 * (18001 / 100)) := by
  obtain ⟨hex, _, _, _⟩ := f32_sq_bounds (p.x - s.x) hTx
  obtain ⟨hey, _, _, _⟩ := f32_sq_bounds (p.y - s.y) hTy
  have hS := offsets_far (p.x - s.x) (p.y - s.y) hTx hTy hfar
  obtain ⟨hd0, hdl, hdu⟩ := sqrtSumSq_bounds _ _ hS
  have hdef : Binary32.sqrtf (f32 (f32 (f32 (p.x - s.x) * f32 (p.x - s.x)) +
        f32 (f32 (p.y - s.y) * f32 (p.y - s.y)))) = Binary32.distance p s := rfl
  rw [hdef] at hd0 hdl hdu
  obtain ⟨hd79, hfar2, hnear2⟩ := dist_core _ _ _ hTx hTy hd0 hdl hdu hS
  refine ⟨hd79, fun h180 => ⟨pushOut_far p s h180, hfar2 h180⟩, ?_⟩
  intro hlt
  have hne : Binary32.distance p s ≠ 0 := ne_of_gt hd0
  rw [pushOut_near p s hlt hne]
  obtain ⟨c1, c2, c3, c4⟩ := push_core p.x p.y s.x s.y _ _ _ hsx hsy hex hey hd79 hlt hdl hdu
  exact ⟨c1, c2, c3, c4, hnear2 hlt⟩

/-! ## C2: the max-health rescale in binary32 -/

theorem roundHalfEven_nonneg (x : ℚ) (hx : 0 ≤ x) : 0 ≤ roundHalfEven x := by
  have h : 0 ≤ ⌊x⌋ := Int.floor_nonneg.mpr hx
  unfold roundHalfEven
  split_ifs <;> omega

theorem f32_nonneg (q : ℚ) (hq : 0 ≤ q) : 0 ≤ f32 q := by
  unfold f32
  have hp : (0 : ℚ) < 2 ^ (max (Int.log 2 |q|) (-126) - 23) := zpow_pos (by norm_num) _
  have := roundHalfEven_nonneg (q / 2 ^ (max (Int.log 2 |q|) (-126) - 23)) (div_nonneg hq hp.le)
  have h2 : (0 : ℚ) ≤ (roundHalfEven (q / 2 ^ (max (Int.log 2 |q|) (-126) - 23)) : ℚ) := by
    exact_mod_cast this
  exact mul_nonneg h2 hp.le

theorem f32_one : f32 1 = 1 := by
  have := f32_intCast 1 (by norm_num)
  simpa using this

theorem roundHalfAway_of_nonneg (q : ℚ) (hq : 0 ≤ q) : roundHalfAway q = ⌊q + 1 / 2⌋ := by
  simp only [roundHalfAway, hq, if_true]

/-- Nearby non-negative values round to integers at most 1 apart. -/
theorem roundHalfAway_near (a b : ℚ) (ha : 0 ≤ a) (hb : 0 ≤ b) (h : |a - b| ≤ 1) :
    |roundHalfAway a - roundHalfAway b| ≤ 1 := by
  rw [roundHalfAway_of_nonneg a ha, roundHalfAway_of_nonneg b hb]
  rw [abs_le] at h
  have h1 : ⌊a + 1 / 2⌋ ≤ ⌊b + 1 / 2 + 1⌋ := Int.floor_le_floor (by linarith)
  have h2 : ⌊b + 1 / 2⌋ ≤ ⌊a + 1 / 2 + 1⌋ := Int.floor_le_floor (by linarith)
  rw [Int.floor_add_one] at h1 h2
  rw [abs_le]
  constructor <;> omega

theorem roundHalfAway_le_of_le (a : ℚ) (n : Int) (h : a ≤ n) :
    roundHalfAway a ≤ n := by
  have := roundHalfAway_mono h
  rwa [roundHalfAway_intCast] at this

theorem roundHalfAway_nonneg (a : ℚ) (ha : 0 ≤ a) : 0 ≤ roundHalfAway a := by
  rw [roundHalfAway_of_nonneg a ha]
  exact Int.floor_nonneg.mpr (by linarith)

theorem castInt_some (z : Int) (h1 : 0 ≤ z) (h2 : z ≤ 4000002) :
    Binary32.castInt z = some z := by
  unfold Binary32.castInt
  rw [if_pos ⟨by omega, by omega⟩]

/-- The new maximum in binary32: in the range of `int`, and within 1 of the
exact one. -/
theorem newMax_bounds (B : Int) (m : ℚ) (hB : 0 < B) (hBm : (B : ℚ) * max m 1 ≤ 4000000) :
    0 ≤ roundHalfAway (f32 (f32 (B : ℚ) * max m 1)) ∧
      roundHalfAway (f32 (f32 (B : ℚ) * max m 1)) ≤ 4000001 ∧
      |roundHalfAway (f32 (f32 (B : ℚ) * max m 1)) - roundHalfAway ((B : ℚ) * max m 1)| ≤ 1 ∧
      B ≤ 4000000 := by
  have hBq : (0 : ℚ) < (B : ℚ) := by exact_mod_cast hB
  have hm1 : (1 : ℚ) ≤ max m 1 := le_max_right _ _
  have hBle : (B : ℚ) ≤ 4000000 := by nlinarith
  have hBi : B ≤ 4000000 := by exact_mod_cast hBle
  have hfB : f32 (B : ℚ) = B := f32_intCast B (by rw [abs_lt]; omega)
  rw [hfB]
  have hx0 : (0 : ℚ) ≤ (B : ℚ) * max m 1 := by positivity
  have he := f32_err ((B : ℚ) * max m 1)
  rw [abs_of_nonneg hx0] at he
  have hη : (1 : ℚ) / 2 ^ 150 ≤ 1 / 10 ^ 40 := by norm_num
  have he2 : |f32 ((B : ℚ) * max m 1) - (B : ℚ) * max m 1| ≤ 1 / 2 := by
    refine he.trans ?_
    have : (B : ℚ) * max m 1 / 16777216 ≤ 4000000 / 16777216 :=
      div_le_div_of_nonneg_right hBm (by norm_num)
    norm_num at this ⊢
    linarith
  have hf0 := f32_nonneg _ hx0
  refine ⟨roundHalfAway_nonneg _ hf0, ?_, roundHalfAway_near _ _ hf0 hx0 (by linarith), hBi⟩
  apply roundHalfAway_le_of_le
  rw [abs_le] at he2
  push_cast
  linarith

/-- The new health in binary32, before the clamps: in the range of `int`,
within 1 of the exact one, and exact at full health and at health 0. -/
theorem newHealth_bounds (h M1 M2 : Int) (hM1 : 0 < M1) (hM1b : M1 ≤ 4000000) (hh0 : 0 ≤ h)
    (hh1 : h ≤ M1) (hM2 : 0 < M2) (hM2b : M2 ≤ 4000001) :
    0 ≤ roundHalfAway (f32 (f32 (f32 (h : ℚ) / f32 (M1 : ℚ)) * f32 (M2 : ℚ))) ∧
      roundHalfAway (f32 (f32 (f32 (h : ℚ) / f32 (M1 : ℚ)) * f32 (M2 : ℚ))) ≤ 4000002 ∧
      |roundHalfAway (f32 (f32 (f32 (h : ℚ) / f32 (M1 : ℚ)) * f32 (M2 : ℚ))) -
          roundHalfAway ((h : ℚ) / (M1 : ℚ) * (M2 : ℚ))| ≤ 1 ∧
      (h = M1 → roundHalfAway (f32 (f32 (f32 (h : ℚ) / f32 (M1 : ℚ)) * f32 (M2 : ℚ))) = M2) ∧
      (h = 0 → roundHalfAway (f32 (f32 (f32 (h : ℚ) / f32 (M1 : ℚ)) * f32 (M2 : ℚ))) = 0) := by
  have e1 : f32 (h : ℚ) = h := f32_intCast h (by rw [abs_lt]; omega)
  have e2 : f32 (M1 : ℚ) = M1 := f32_intCast M1 (by rw [abs_lt]; omega)
  have e3 : f32 (M2 : ℚ) = M2 := f32_intCast M2 (by rw [abs_lt]; omega)
  rw [e1, e2, e3]
  have hM1q : (0 : ℚ) < (M1 : ℚ) := by exact_mod_cast hM1
  have hM2q : (0 : ℚ) < (M2 : ℚ) := by exact_mod_cast hM2
  have hM2bq : (M2 : ℚ) ≤ 4000001 := by exact_mod_cast hM2b
  have hhq : (0 : ℚ) ≤ (h : ℚ) := by exact_mod_cast hh0
  have hr0 : (0 : ℚ) ≤ (h : ℚ) / (M1 : ℚ) := div_nonneg hhq hM1q.le
  have hr1 : (h : ℚ) / (M1 : ℚ) ≤ 1 := by
    rw [div_le_one hM1q]
    exact_mod_cast hh1
  have hη : (1 : ℚ) / 2 ^ 150 ≤ 1 / 10 ^ 40 := by norm_num
  have hfull : h = M1 → roundHalfAway (f32 (f32 ((h : ℚ) / (M1 : ℚ)) * (M2 : ℚ))) = M2 := by
    intro hEq
    rw [hEq, div_self hM1q.ne', f32_one, one_mul, e3, roundHalfAway_intCast]
  have hzero : h = 0 → roundHalfAway (f32 (f32 ((h : ℚ) / (M1 : ℚ)) * (M2 : ℚ))) = 0 := by
    intro hEq
    rw [hEq, Int.cast_zero, zero_div, f32_zero, zero_mul, f32_zero]
    exact roundHalfAway_intCast 0
  refine ⟨?_, ?_, ?_, hfull, hzero⟩
  · exact roundHalfAway_nonneg _ (f32_nonneg _ (mul_nonneg (f32_nonneg _ hr0) hM2q.le))
  all_goals
    clear hfull hzero
    have hre := f32_err ((h : ℚ) / (M1 : ℚ))
    rw [abs_of_nonneg hr0] at hre
    have hre2 : |f32 ((h : ℚ) / (M1 : ℚ)) - (h : ℚ) / (M1 : ℚ)| ≤ 1 / 16000000 := by
      refine hre.trans ?_
      have : (h : ℚ) / (M1 : ℚ) / 16777216 ≤ 1 / 16777216 :=
        div_le_div_of_nonneg_right hr1 (by norm_num)
      norm_num at this ⊢
      linarith
    have hrh0 := f32_nonneg _ hr0
    generalize f32 ((h : ℚ) / (M1 : ℚ)) = rh at hre2 hrh0
    have hy0 : 0 ≤ rh * (M2 : ℚ) := mul_nonneg hrh0 hM2q.le
    have hrh1 : rh ≤ 1 + 1 / 16000000 := by
      rw [abs_le] at hre2
      linarith
    have hy1 : rh * (M2 : ℚ) ≤ 4000001 + 1 / 2 := by nlinarith
    have hye := f32_err (rh * (M2 : ℚ))
    rw [abs_of_nonneg hy0] at hye
    have hye2 : |f32 (rh * (M2 : ℚ)) - rh * (M2 : ℚ)| ≤ 1 / 4 := by
      refine hye.trans ?_
      have : rh * (M2 : ℚ) / 16777216 ≤ (4000001 + 1 / 2) / 16777216 :=
        div_le_div_of_nonneg_right hy1 (by norm_num)
      norm_num at this ⊢
      linarith
    have hz0 := f32_nonneg _ hy0
  · apply roundHalfAway_le_of_le
    rw [abs_le] at hye2
    push_cast
    linarith
  · apply roundHalfAway_near _ _ hz0 (mul_nonneg hr0 hM2q.le)
    have hsplit : f32 (rh * (M2 : ℚ)) - (h : ℚ) / (M1 : ℚ) * (M2 : ℚ) =
        (f32 (rh * (M2 : ℚ)) - rh * (M2 : ℚ)) + (rh - (h : ℚ) / (M1 : ℚ)) * (M2 : ℚ) := by ring
    rw [hsplit]
    refine (abs_add _ _).trans ?_
    have h5 : |(rh - (h : ℚ) / (M1 : ℚ)) * (M2 : ℚ)| ≤ 1 / 16000000 * 4000001 :=
      abs_mul_le_mul hre2 (by rw [abs_of_pos hM2q]; exact hM2bq)
    norm_num at h5 ⊢
    linarith

theorem clampMultiplier_eq (m : ℚ) : (if m < 1 then 1 else m) = max m 1 := by
  split_ifs with h
  · rw [max_eq_right h.le]
  · rw [max_eq_left (not_lt.mp h)]

/-- The rescale in binary32, unfolded: the result is defined and is given by
`Binary32.rescaledMaxHealth` and `Binary32.rescaledHealth`. -/
theorem setMaxHealth32_eq (p : Player) (m : ℚ) (hB : 0 < p.baseMaxHealth)
    (hBm : (p.baseMaxHealth : ℚ) * max m 1 ≤ 4000000) (hM : 0 < p.maxHealth)
    (hMb : p.maxHealth ≤ 4000000) (h0 : 0 ≤ p.health) (h1 : p.health ≤ p.maxHealth) :
    Binary32.SetMaxHealthMultiplier p m =
      some { p with
        maxHealth := Binary32.rescaledMaxHealth p.baseMaxHealth m
        health := Binary32.rescaledHealth p.health p.maxHealth
          (Binary32.rescaledMaxHealth p.baseMaxHealth m) } := by
  obtain ⟨a0, a1, _, hBi⟩ := newMax_bounds p.baseMaxHealth m hB hBm
  have hM2 : Binary32.rescaledMaxHealth p.baseMaxHealth m =
      max p.baseMaxHealth (roundHalfAway (f32 (f32 (p.baseMaxHealth : ℚ) * max m 1))) := rfl
  have hM2pos : 0 < Binary32.rescaledMaxHealth p.baseMaxHealth m := by rw [hM2]; omega
  have hM2le : Binary32.rescaledMaxHealth p.baseMaxHealth m ≤ 4000001 := by rw [hM2]; omega
  obtain ⟨b0, b1, _, _, _⟩ := newHealth_bounds p.health p.maxHealth
    (Binary32.rescaledMaxHealth p.baseMaxHealth m) hM hMb h0 h1 hM2pos hM2le
  have hnew : (if (if roundHalfAway (f32 (f32 (p.baseMaxHealth : ℚ) * max m 1)) <
        p.baseMaxHealth then p.baseMaxHealth
        else roundHalfAway (f32 (f32 (p.baseMaxHealth : ℚ) * max m 1))) ≤ 0
      then p.baseMaxHealth
      else (if roundHalfAway (f32 (f32 (p.baseMaxHealth : ℚ) * max m 1)) <
        p.baseMaxHealth then p.baseMaxHealth
        else roundHalfAway (f32 (f32 (p.baseMaxHealth : ℚ) * max m 1)))) =
      Binary32.rescaledMaxHealth p.baseMaxHealth m := by
    rw [hM2]
    split_ifs <;> omega
  have c1 := castInt_some _ a0 (by omega : roundHalfAway
    (f32 (f32 (p.baseMaxHealth : ℚ) * max m 1)) ≤ 4000002)
  have c2 := castInt_some _ b0 b1
  unfold Binary32.SetMaxHealthMultiplier
  simp only [clampMultiplier_eq]
  rw [c1]
  simp only [hnew, gt_iff_lt, hM, if_true]
  rw [c2]
  simp only []
  congr 1
  have : (if (if roundHalfAway (f32 (f32 (f32 (p.health : ℚ) / f32 (p.maxHealth : ℚ)) *
        f32 (Binary32.rescaledMaxHealth p.baseMaxHealth m : ℚ))) < 0 then 0
      else roundHalfAway (f32 (f32 (f32 (p.health : ℚ) / f32 (p.maxHealth : ℚ)) *
        f32 (Binary32.rescaledMaxHealth p.baseMaxHealth m : ℚ)))) >
        Binary32.rescaledMaxHealth p.baseMaxHealth m
      then Binary32.rescaledMaxHealth p.baseMaxHealth m
      else (if roundHalfAway (f32 (f32 (f32 (p.health : ℚ) / f32 (p.maxHealth : ℚ)) *
        f32 (Binary32.rescaledMaxHealth p.baseMaxHealth m : ℚ))) < 0 then 0
      else roundHalfAway (f32 (f32 (f32 (p.health : ℚ) / f32 (p.maxHealth : ℚ)) *
        f32 (Binary32.rescaledMaxHealth p.baseMaxHealth m : ℚ))))) =
      Binary32.rescaledHealth p.health p.maxHealth
        (Binary32.rescaledMaxHealth p.baseMaxHealth m) := by
    simp only [Binary32.rescaledHealth, clampTo]
    split_ifs <;> omega
  rw [this]

/-- C2, amended: for every player with base maximum `B > 0`, maximum
`0 < M1 ≤ 4000000` and `0 ≤ health ≤ M1`, and every multiplier `m` with
`B * max(m, 1) ≤ 4000000`, `SetMaxHealthMultiplier` is defined (no cast leaves
the range of `int`), sets `maxHealth` to
`M2 = max(B, round(fl(B * max(m, 1))))` and `health` to
`round(fl(fl(health / M1) * M2))` clamped to `[0, M2]`, where `fl` rounds to
binary32. `M2` is within 1 of `max(B, round(B * max(m, 1)))` and the new health
within 1 of `round(health / M1 * M2)` clamped to `[0, M2]`; full health stays
full (`health = M1` gives `M2`) and health 0 stays 0. -/
theorem rescale_binary32 (p : Player) (m : ℚ) (hB : 0 < p.baseMaxHealth)
    (hBm : (p.baseMaxHealth : ℚ) * max m 1 ≤ 4000000) (hM : 0 < p.maxHealth)
    (hMb : p.maxHealth ≤ 4000000) (h0 : 0 ≤ p.health) (h1 : p.health ≤ p.maxHealth) :
    Binary32.SetMaxHealthMultiplier p m =
        some { p with
          maxHealth := Binary32.rescaledMaxHealth p.baseMaxHealth m
          health := Binary32.rescaledHealth p.health p.maxHealth
            (Binary32.rescaledMaxHealth p.baseMaxHealth m) } ∧
      |Binary32.rescaledMaxHealth p.baseMaxHealth m - rescaledMaxHealth p.baseMaxHealth m| ≤ 1 ∧
      |Binary32.rescaledHealth p.health p.maxHealth
            (Binary32.rescaledMaxHealth p.baseMaxHealth m) -
          rescaledHealth p.health p.maxHealth
            (Binary32.rescaledMaxHealth p.baseMaxHealth m)| ≤ 1 ∧
      0 ≤ Binary32.rescaledHealth p.health p.maxHealth
            (Binary32.rescaledMaxHealth p.baseMaxHealth m) ∧
      Binary32.rescaledHealth p.health p.maxHealth
            (Binary32.rescaledMaxHealth p.baseMaxHealth m) ≤
          Binary32.rescaledMaxHealth p.baseMaxHealth m ∧
      (p.health = p.maxHealth →
        Binary32.rescaledHealth p.health p.maxHealth
            (Binary32.rescaledMaxHealth p.baseMaxHealth m) =
          Binary32.rescaledMaxHealth p.baseMaxHealth m) ∧
      (p.health = 0 →
        Binary32.rescaledHealth p.health p.maxHealth
            (Binary32.rescaledMaxHealth p.baseMaxHealth m) = 0) := by
  obtain ⟨a0, a1, a2, hBi⟩ := newMax_bounds p.baseMaxHealth m hB hBm
  have hM2 : Binary32.rescaledMaxHealth p.baseMaxHealth m =
      max p.baseMaxHealth (roundHalfAway (f32 (f32 (p.baseMaxHealth : ℚ) * max m 1))) := rfl
  have hM2pos : 0 < Binary32.rescaledMaxHealth p.baseMaxHealth m := by rw [hM2]; omega
  have hM2le : Binary32.rescaledMaxHealth p.baseMaxHealth m ≤ 4000001 := by rw [hM2]; omega
  obtain ⟨b0, b1, b2, b3, b4⟩ := newHealth_bounds p.health p.maxHealth
    (Binary32.rescaledMaxHealth p.baseMaxHealth m) hM hMb h0 h1 hM2pos hM2le
  refine ⟨setMaxHealth32_eq p m hB hBm hM hMb h0 h1, ?_, ?_, ?_, ?_, ?_, ?_⟩
  · rw [hM2]
    simp only [rescaledMaxHealth]
    rw [abs_le] at a2 ⊢
    constructor <;> omega
  · simp only [Binary32.rescaledHealth, rescaledHealth, clampTo]
    rw [abs_le] at b2 ⊢
    constructor <;> omega
  · simp only [Binary32.rescaledHealth, clampTo]
    omega
  · simp only [Binary32.rescaledHealth, clampTo]
    omega
  · intro hEq
    simp only [Binary32.rescaledHealth, clampTo, b3 hEq]
    omega
  · intro hEq
    simp only [Binary32.rescaledHealth, clampTo, b4 hEq]
    omega

/-! ## C2: concrete rescales -/

theorem roundHalfAway_eval (q : ℚ) (z : Int) (h0 : 0 ≤ q) (h1 : (z : ℚ) ≤ q + 1 / 2)
    (h2 : q + 1 / 2 < (z : ℚ) + 1) : roundHalfAway q = z := by
  rw [roundHalfAway_of_nonneg q h0, Int.floor_eq_iff]
  exact ⟨h1, h2⟩

theorem f32_small (n : Nat) (hn : n < 16777216) : f32 (n : ℚ) = n := by
  have := f32_intCast (n : Int) (by rw [abs_lt]; omega)
  simpa using this

theorem f32_upgradePercent : f32 ((15 : ℚ) / 100) = (5033165 / 33554432) :=
  (f32_pos_eval _ 10066330 26 (by norm_num) (by norm_num) (by norm_num)
    (by norm_num [abs_lt])).trans (by norm_num)

theorem f32_upgradeFactor : f32 (1 + (5033165 / 33554432)) = (9646899 / 8388608) :=
  (f32_pos_eval _ 9646899 23 (by norm_num) (by norm_num) (by norm_num)
    (by norm_num [abs_lt])).trans (by norm_num)

/-- The binary32 multiplier after 33 and after 34 Health upgrades. -/
theorem upgradedMultiplier_values :
    Binary32.upgradedMultiplier 33 = 13198921 / 131072 ∧
      Binary32.upgradedMultiplier 34 = 15178759 / 131072 := by
  have hc : f32 (1 + f32 permanentUpgradePercent) = 9646899 / 8388608 := by
    have : permanentUpgradePercent = (15 : ℚ) / 100 := rfl
    rw [this, f32_upgradePercent, f32_upgradeFactor]
  have hstep : ∀ k : Nat, Binary32.upgradedMultiplier (k + 1) =
      f32 (Binary32.upgradedMultiplier k * (9646899 / 8388608)) := by
    intro k
    rw [← hc]
    rfl
  have s1 : f32 (1 * (9646899 / 8388608)) = (9646899 / 8388608) :=
    (f32_pos_eval _ 9646899 23 (by norm_num) (by norm_num) (by norm_num)
      (by norm_num [abs_lt])).trans (by norm_num)
  have m1 : Binary32.upgradedMultiplier 1 = (9646899 / 8388608) := by
    rw [hstep, show Binary32.upgradedMultiplier 0 = 1 from rfl, s1]
  have s2 : f32 ((9646899 / 8388608) * (9646899 / 8388608)) = (5546967 / 4194304) :=
    (f32_pos_eval _ 11093934 23 (by norm_num) (by norm_num) (by norm_num)
      (by norm_num [abs_lt])).trans (by norm_num)
  have m2 : Binary32.upgradedMultiplier 2 = (5546967 / 4194304) := by
    rw [hstep, m1, s2]
  have s3 : f32 ((5546967 / 4194304) * (9646899 / 8388608)) = (1594753 / 1048576) :=
    (f32_pos_eval _ 12758024 23 (by norm_num) (by norm_num) (by norm_num)
      (by norm_num [abs_lt])).trans (by norm_num)
  have m3 : Binary32.upgradedMultiplier 3 = (1594753 / 1048576) := by
    rw [hstep, m2, s3]
  have s4 : f32 ((1594753 / 1048576) * (9646899 / 8388608)) = (14671727 / 8388608) :=
    (f32_pos_eval _ 14671727 23 (by norm_num) (by norm_num) (by norm_num)
      (by norm_num [abs_lt])).trans (by norm_num)
  have m4 : Binary32.upgradedMultiplier 4 = (14671727 / 8388608) := by
    rw [hstep, m3, s4]
  have s5 : f32 ((14671727 / 8388608) * (9646899 / 8388608)) = (8436243 / 4194304) :=
    (f32_pos_eval _ 8436243 22 (by norm_num) (by norm_num) (by norm_num)
      (by norm_num [abs_lt])).trans (by norm_num)
  have m5 : Binary32.upgradedMultiplier 5 = (8436243 / 4194304) := by
    rw [hstep, m4, s5]
  have s6 : f32 ((8436243 / 4194304) * (9646899 / 8388608)) = (9701679 / 4194304) :=
    (f32_pos_eval _ 9701679 22 (by norm_num) (by norm_num) (by norm_num)
      (by norm_num [abs_lt])).trans (by norm_num)
  have m6 : Binary32.upgradedMultiplier 6 = (9701679 / 4194304) := by
    rw [hstep, m5, s6]
  have s7 : f32 ((9701679 / 4194304) * (9646899 / 8388608)) = (11156931 / 4194304) :=
    (f32_pos_eval _ 11156931 22 (by norm_num) (by norm_num) (by norm_num)
      (by norm_num [abs_lt])).trans (by norm_num)
  have m7 : Binary32.upgradedMultiplier 7 = (11156931 / 4194304) := by
    rw [hstep, m6, s7]
  have s8 : f32 ((11156931 / 4194304) * (9646899 / 8388608)) = (6415235 / 2097152) :=
    (f32_pos_eval _ 12830470 22 (by norm_num) (by norm_num) (by norm_num)
      (by norm_num [abs_lt])).trans (by norm_num)
  have m8 : Binary32.upgradedMultiplier 8 = (6415235 / 2097152) := by
    rw [hstep, m7, s8]
  have s9 : f32 ((6415235 / 2097152) * (9646899 / 8388608)) = (461095 / 131072) :=
    (f32_pos_eval _ 14755040 22 (by norm_num) (by norm_num) (by norm_num)
      (by norm_num [abs_lt])).trans (by norm_num)
  have m9 : Binary32.upgradedMultiplier 9 = (461095 / 131072) := by
    rw [hstep, m8, s9]
  have s10 : f32 ((461095 / 131072) * (9646899 / 8388608)) = (2121037 / 524288) :=
    (f32_pos_eval _ 8484148 21 (by norm_num) (by norm_num) (by norm_num)
      (by norm_num [abs_lt])).trans (by norm_num)
  have m10 : Binary32.upgradedMultiplier 10 = (2121037 / 524288) := by
    rw [hstep, m9, s10]
  have s11 : f32 ((2121037 / 524288) * (9646899 / 8388608)) = (4878385 / 1048576) :=
    (f32_pos_eval _ 9756770 21 (by norm_num) (by norm_num) (by norm_num)
      (by norm_num [abs_lt])).trans (by norm_num)
  have m11 : Binary32.upgradedMultiplier 11 = (4878385 / 1048576) := by
    rw [hstep, m10, s11]
  have s12 : f32 ((4878385 / 1048576) * (9646899 / 8388608)) = (11220285 / 2097152) :=
    (f32_pos_eval _ 11220285 21 (by norm_num) (by norm_num) (by norm_num)
      (by norm_num [abs_lt])).trans (by norm_num)
  have m12 : Binary32.upgradedMultiplier 12 = (11220285 / 2097152) := by
    rw [hstep, m11, s12]
  have s13 : f32 ((11220285 / 2097152) * (9646899 / 8388608)) = (12903327 / 2097152) :=
    (f32_pos_eval _ 12903327 21 (by norm_num) (by norm_num) (by norm_num)
      (by norm_num [abs_lt])).trans (by norm_num)
  have m13 : Binary32.upgradedMultiplier 13 = (12903327 / 2097152) := by
    rw [hstep, m12, s13]
  have s14 : f32 ((12903327 / 2097152) * (9646899 / 8388608)) = (7419413 / 1048576) :=
    (f32_pos_eval _ 14838826 21 (by norm_num) (by norm_num) (by norm_num)
      (by norm_num [abs_lt])).trans (by norm_num)
  have m14 : Binary32.upgradedMultiplier 14 = (7419413 / 1048576) := by
    rw [hstep, m13, s14]
  have s15 : f32 ((7419413 / 1048576) * (9646899 / 8388608)) = (8532325 / 1048576) :=
    (f32_pos_eval _ 8532325 20 (by norm_num) (by norm_num) (by norm_num)
      (by norm_num [abs_lt])).trans (by norm_num)
  have m15 : Binary32.upgradedMultiplier 15 = (8532325 / 1048576) := by
    rw [hstep, m14, s15]
  have s16 : f32 ((8532325 / 1048576) * (9646899 / 8388608)) = (4906087 / 524288) :=
    (f32_pos_eval _ 9812174 20 (by norm_num) (by norm_num) (by norm_num)
      (by norm_num [abs_lt])).trans (by norm_num)
  have m16 : Binary32.upgradedMultiplier 16 = (4906087 / 524288) := by
    rw [hstep, m15, s16]
  have s17 : f32 ((4906087 / 524288) * (9646899 / 8388608)) = (352625 / 32768) :=
    (f32_pos_eval _ 11284000 20 (by norm_num) (by norm_num) (by norm_num)
      (by norm_num [abs_lt])).trans (by norm_num)
  have m17 : Binary32.upgradedMultiplier 17 = (352625 / 32768) := by
    rw [hstep, m16, s17]
  have s18 : f32 ((352625 / 32768) * (9646899 / 8388608)) = (1622075 / 131072) :=
    (f32_pos_eval _ 12976600 20 (by norm_num) (by norm_num) (by norm_num)
      (by norm_num [abs_lt])).trans (by norm_num)
  have m18 : Binary32.upgradedMultiplier 18 = (1622075 / 131072) := by
    rw [hstep, m17, s18]
  have s19 : f32 ((1622075 / 131072) * (9646899 / 8388608)) = (7461545 / 524288) :=
    (f32_pos_eval _ 14923090 20 (by norm_num) (by norm_num) (by norm_num)
      (by norm_num [abs_lt])).trans (by norm_num)
  have m19 : Binary32.upgradedMultiplier 19 = (7461545 / 524288) := by
    rw [hstep, m18, s19]
  have s20 : f32 ((7461545 / 524288) * (9646899 / 8388608)) = (8580777 / 524288) :=
    (f32_pos_eval _ 8580777 19 (by norm_num) (by norm_num) (by norm_num)
      (by norm_num [abs_lt])).trans (by norm_num)
  have m20 : Binary32.upgradedMultiplier 20 = (8580777 / 524288) := by
    rw [hstep, m19, s20]
  have s21 : f32 ((8580777 / 524288) * (9646899 / 8388608)) = (9867893 / 524288) :=
    (f32_pos_eval _ 9867893 19 (by norm_num) (by norm_num) (by norm_num)
      (by norm_num [abs_lt])).trans (by norm_num)
  have m21 : Binary32.upgradedMultiplier 21 = (9867893 / 524288) := by
    rw [hstep, m20, s21]
  have s22 : f32 ((9867893 / 524288) * (9646899 / 8388608)) = (11348077 / 524288) :=
    (f32_pos_eval _ 11348077 19 (by norm_num) (by norm_num) (by norm_num)
      (by norm_num [abs_lt])).trans (by norm_num)
  have m22 : Binary32.upgradedMultiplier 22 = (11348077 / 524288) := by
    rw [hstep, m21, s22]
  have s23 : f32 ((11348077 / 524288) * (9646899 / 8388608)) = (815643 / 32768) :=
    (f32_pos_eval _ 13050288 19 (by norm_num) (by norm_num) (by norm_num)
      (by norm_num [abs_lt])).trans (by norm_num)
  have m23 : Binary32.upgradedMultiplier 23 = (815643 / 32768) := by
    rw [hstep, m22, s23]
  have s24 : f32 ((815643 / 32768) * (9646899 / 8388608)) = (15007831 / 524288) :=
    (f32_pos_eval _ 15007831 19 (by norm_num) (by norm_num) (by norm_num)
      (by norm_num [abs_lt])).trans (by norm_num)
  have m24 : Binary32.upgradedMultiplier 24 = (15007831 / 524288) := by
    rw [hstep, m23, s24]
  have s25 : f32 ((15007831 / 524288) * (9646899 / 8388608)) = (8629503 / 262144) :=
    (f32_pos_eval _ 8629503 18 (by norm_num) (by norm_num) (by norm_num)
      (by norm_num [abs_lt])).trans (by norm_num)
  have m25 : Binary32.upgradedMultiplier 25 = (8629503 / 262144) := by
    rw [hstep, m24, s25]
  have s26 : f32 ((8629503 / 262144) * (9646899 / 8388608)) = (1240491 / 32768) :=
    (f32_pos_eval _ 9923928 18 (by norm_num) (by norm_num) (by norm_num)
      (by norm_num [abs_lt])).trans (by norm_num)
  have m26 : Binary32.upgradedMultiplier 26 = (1240491 / 32768) := by
    rw [hstep, m25, s26]
  have s27 : f32 ((1240491 / 32768) * (9646899 / 8388608)) = (11412517 / 262144) :=
    (f32_pos_eval _ 11412517 18 (by norm_num) (by norm_num) (by norm_num)
      (by norm_num [abs_lt])).trans (by norm_num)
  have m27 : Binary32.upgradedMultiplier 27 = (11412517 / 262144) := by
    rw [hstep, m26, s27]
  have s28 : f32 ((11412517 / 262144) * (9646899 / 8388608)) = (6562197 / 131072) :=
    (f32_pos_eval _ 13124394 18 (by norm_num) (by norm_num) (by norm_num)
      (by norm_num [abs_lt])).trans (by norm_num)
  have m28 : Binary32.upgradedMultiplier 28 = (6562197 / 131072) := by
    rw [hstep, m27, s28]
  have s29 : f32 ((6562197 / 131072) * (9646899 / 8388608)) = (15093053 / 262144) :=
    (f32_pos_eval _ 15093053 18 (by norm_num) (by norm_num) (by norm_num)
      (by norm_num [abs_lt])).trans (by norm_num)
  have m29 : Binary32.upgradedMultiplier 29 = (15093053 / 262144) := by
    rw [hstep, m28, s29]
  have s30 : f32 ((15093053 / 262144) * (9646899 / 8388608)) = (8678505 / 131072) :=
    (f32_pos_eval _ 8678505 17 (by norm_num) (by norm_num) (by norm_num)
      (by norm_num [abs_lt])).trans (by norm_num)
  have m30 : Binary32.upgradedMultiplier 30 = (8678505 / 131072) := by
    rw [hstep, m29, s30]
  have s31 : f32 ((8678505 / 131072) * (9646899 / 8388608)) = (9980281 / 131072) :=
    (f32_pos_eval _ 9980281 17 (by norm_num) (by norm_num) (by norm_num)
      (by norm_num [abs_lt])).trans (by norm_num)
  have m31 : Binary32.upgradedMultiplier 31 = (9980281 / 131072) := by
    rw [hstep, m30, s31]
  have s32 : f32 ((9980281 / 131072) * (9646899 / 8388608)) = (11477323 / 131072) :=
    (f32_pos_eval _ 11477323 17 (by norm_num) (by norm_num) (by norm_num)
      (by norm_num [abs_lt])).trans (by norm_num)
  have m32 : Binary32.upgradedMultiplier 32 = (11477323 / 131072) := by
    rw [hstep, m31, s32]
  have s33 : f32 ((11477323 / 131072) * (9646899 / 8388608)) = (13198921 / 131072) :=
    (f32_pos_eval _ 13198921 17 (by norm_num) (by norm_num) (by norm_num)
      (by norm_num [abs_lt])).trans (by norm_num)
  have m33 : Binary32.upgradedMultiplier 33 = (13198921 / 131072) := by
    rw [hstep, m32, s33]
  have s34 : f32 ((13198921 / 131072) * (9646899 / 8388608)) = (15178759 / 131072) :=
    (f32_pos_eval _ 15178759 17 (by norm_num) (by norm_num) (by norm_num)
      (by norm_num [abs_lt])).trans (by norm_num)
  have m34 : Binary32.upgradedMultiplier 34 = (15178759 / 131072) := by
    rw [hstep, m33, s34]
  exact ⟨m33, m34⟩

/-- The rescale of 21 / 40 health to the maximum 100: binary32 gives 52, the
exact formula 53. -/
theorem rescale_21_40 :
    Binary32.rescaledHealth 21 40 100 = 52 ∧ rescaledHealth 21 40 100 = 53 := by
  have r2 : f32 ((21 : ℚ) / 40) = (4404019 / 8388608) :=
    (f32_pos_eval _ 8808038 24 (by norm_num) (by norm_num) (by norm_num)
      (by norm_num [abs_lt])).trans (by norm_num)
  have y2 : f32 ((4404019 / 8388608) * 100) = (13762559 / 262144) :=
    (f32_pos_eval _ 13762559 18 (by norm_num) (by norm_num) (by norm_num)
      (by norm_num [abs_lt])).trans (by norm_num)
  have i21 : f32 ((21 : Nat) : ℚ) = (21 : Nat) := f32_small 21 (by norm_num)
  have i40 : f32 ((40 : Nat) : ℚ) = (40 : Nat) := f32_small 40 (by norm_num)
  have i100 : f32 ((100 : Nat) : ℚ) = (100 : Nat) := f32_small 100 (by norm_num)
  norm_num at i21 i40 i100
  constructor
  · have hr : roundHalfAway (13762559 / 262144) = 52 :=
      roundHalfAway_eval _ 52 (by norm_num) (by norm_num) (by norm_num)
    simp only [Binary32.rescaledHealth, Int.cast_ofNat, i21, i40, i100, r2, y2, hr, clampTo]
    decide
  · have hr : roundHalfAway ((21 : ℚ) / 40 * 100) = 53 :=
      roundHalfAway_eval _ 53 (by norm_num) (by norm_num) (by norm_num)
    simp only [rescaledHealth, Int.cast_ofNat, hr, clampTo]
    decide

/-- The 34th Health upgrade at 5045 of 10070 health: binary32 gives 5802, the
exact formula 5801. -/
theorem rescale_34th :
    Binary32.rescaledMaxHealth 100 (Binary32.upgradedMultiplier 33) = 10070 ∧
      Binary32.rescaledMaxHealth 100 (Binary32.upgradedMultiplier 34) = 11580 ∧
      Binary32.rescaledHealth 5045 10070 11580 = 5802 ∧
      rescaledHealth 5045 10070 11580 = 5801 := by
  have a33 : f32 (100 * (13198921 / 131072)) = (10311657 / 1024) :=
    (f32_pos_eval _ 10311657 10 (by norm_num) (by norm_num) (by norm_num)
      (by norm_num [abs_lt])).trans (by norm_num)
  have a34 : f32 (100 * (15178759 / 131072)) = (11858405 / 1024) :=
    (f32_pos_eval _ 11858405 10 (by norm_num) (by norm_num) (by norm_num)
      (by norm_num [abs_lt])).trans (by norm_num)
  have r1 : f32 ((5045 : ℚ) / 10070) = (8405269 / 16777216) :=
    (f32_pos_eval _ 8405269 24 (by norm_num) (by norm_num) (by norm_num)
      (by norm_num [abs_lt])).trans (by norm_num)
  have y1 : f32 ((8405269 / 16777216) * 11580) = (11603 / 2) :=
    (f32_pos_eval _ 11881472 11 (by norm_num) (by norm_num) (by norm_num)
      (by norm_num [abs_lt])).trans (by norm_num)
  have i100 : f32 ((100 : Nat) : ℚ) = (100 : Nat) := f32_small 100 (by norm_num)
  have i5045 : f32 ((5045 : Nat) : ℚ) = (5045 : Nat) := f32_small 5045 (by norm_num)
  have i10070 : f32 ((10070 : Nat) : ℚ) = (10070 : Nat) := f32_small 10070 (by norm_num)
  have i11580 : f32 ((11580 : Nat) : ℚ) = (11580 : Nat) := f32_small 11580 (by norm_num)
  norm_num at i100 i5045 i10070 i11580
  have h33 : max (13198921 / 131072 : ℚ) 1 = 13198921 / 131072 := max_eq_left (by norm_num)
  have h34 : max (15178759 / 131072 : ℚ) 1 = 15178759 / 131072 := max_eq_left (by norm_num)
  refine ⟨?_, ?_, ?_, ?_⟩
  · have hr : roundHalfAway (10311657 / 1024) = 10070 :=
      roundHalfAway_eval _ 10070 (by norm_num) (by norm_num) (by norm_num)
    simp only [Binary32.rescaledMaxHealth, upgradedMultiplier_values.1, Int.cast_ofNat, i100,
      h33, a33, hr]
    decide
  · have hr : roundHalfAway (11858405 / 1024) = 11580 :=
      roundHalfAway_eval _ 11580 (by norm_num) (by norm_num) (by norm_num)
    simp only [Binary32.rescaledMaxHealth, upgradedMultiplier_values.2, Int.cast_ofNat, i100,
      h34, a34, hr]
    decide
  · have hr : roundHalfAway (11603 / 2) = 5802 :=
      roundHalfAway_eval _ 5802 (by norm_num) (by norm_num) (by norm_num)
    simp only [Binary32.rescaledHealth, Int.cast_ofNat, i5045, i10070, i11580, r1, y1, hr,
      clampTo]
    decide
  · have hr : roundHalfAway ((5045 : ℚ) / 10070 * 11580) = 5801 :=
      roundHalfAway_eval _ 5801 (by norm_num) (by norm_num) (by norm_num)
    simp only [rescaledHealth, Int.cast_ofNat, hr, clampTo]
    decide

theorem rescaledMax_one : Binary32.rescaledMaxHealth 100 1 = 100 ∧ rescaledMaxHealth 100 1 = 100 := by
  have i100 : f32 ((100 : Nat) : ℚ) = (100 : Nat) := f32_small 100 (by norm_num)
  norm_num at i100
  constructor
  · have hr : roundHalfAway (100 : ℚ) = 100 := roundHalfAway_intCast 100
    simp only [Binary32.rescaledMaxHealth, Int.cast_ofNat, i100, max_self, mul_one, hr]
  · exact rescaledMaxHealth_one 100

theorem rescaledMax_34 : rescaledMaxHealth 100 (Binary32.upgradedMultiplier 34) = 11580 := by
  have h34 : max (15178759 / 131072 : ℚ) 1 = 15178759 / 131072 := max_eq_left (by norm_num)
  have hr : roundHalfAway (((100 : Int) : ℚ) * (15178759 / 131072)) = 11580 :=
    roundHalfAway_eval _ 11580 (by norm_num) (by norm_num) (by norm_num)
  simp only [rescaledMaxHealth, upgradedMultiplier_values.2, h34, hr]
  decide

/-- C2 as stated fails in binary32. For the player at 21 of 40 health and the
multiplier 1 the code sets the maximum 100 and the health 52, where
`round(21 / 40 * 100) = 53`. For the base maximum 100 of the program, at the
34th Health upgrade (maximum 10070 to 11580) the code takes the health 5045 to
5802, where `round(5045 / 10070 * 11580) = 5801`. -/
theorem rescale_counterexample :
    (Binary32.SetMaxHealthMultiplier lowMaxPlayer 1 =
        some { lowMaxPlayer with maxHealth := 100, health := 52 } ∧
      rescaledMaxHealth lowMaxPlayer.baseMaxHealth 1 = 100 ∧
      rescaledHealth lowMaxPlayer.health lowMaxPlayer.maxHealth 100 = 53 ∧
      ¬ rescaleClaim lowMaxPlayer 1) ∧
    (Binary32.rescaledMaxHealth 100 (Binary32.upgradedMultiplier 33) = upgradedPlayer.maxHealth ∧
      Binary32.SetMaxHealthMultiplier upgradedPlayer (Binary32.upgradedMultiplier 34) =
        some { upgradedPlayer with maxHealth := 11580, health := 5802 } ∧
      rescaledMaxHealth upgradedPlayer.baseMaxHealth (Binary32.upgradedMultiplier 34) = 11580 ∧
      rescaledHealth upgradedPlayer.health upgradedPlayer.maxHealth 11580 = 5801 ∧
      ¬ rescaleClaim upgradedPlayer (Binary32.upgradedMultiplier 34)) := by
  have hA : Binary32.SetMaxHealthMultiplier lowMaxPlayer 1 =
      some { lowMaxPlayer with maxHealth := 100, health := 52 } := by
    rw [setMaxHealth32_eq lowMaxPlayer 1 (by decide) (by norm_num [lowMaxPlayer, Player.new])
      (by decide) (by decide) (by decide) (by decide)]
    have e1 : Binary32.rescaledMaxHealth lowMaxPlayer.baseMaxHealth 1 = 100 := rescaledMax_one.1
    have e2 : Binary32.rescaledHealth lowMaxPlayer.health lowMaxPlayer.maxHealth 100 = 52 :=
      rescale_21_40.1
    rw [e1, e2]
  have hB : Binary32.SetMaxHealthMultiplier upgradedPlayer (Binary32.upgradedMultiplier 34) =
      some { upgradedPlayer with maxHealth := 11580, health := 5802 } := by
    have h34 : max (15178759 / 131072 : ℚ) 1 = 15178759 / 131072 := max_eq_left (by norm_num)
    rw [setMaxHealth32_eq upgradedPlayer _ (by decide)
      (by rw [upgradedMultiplier_values.2, h34]; norm_num [upgradedPlayer, Player.new])
      (by decide) (by decide) (by decide) (by decide)]
    have e1 : Binary32.rescaledMaxHealth upgradedPlayer.baseMaxHealth
        (Binary32.upgradedMultiplier 34) = 11580 := rescale_34th.2.1
    have e2 : Binary32.rescaledHealth upgradedPlayer.health upgradedPlayer.maxHealth 11580 =
        5802 := rescale_34th.2.2.1
    rw [e1, e2]
  refine ⟨⟨hA, rescaledMax_one.2, rescale_21_40.2, ?_⟩,
    ⟨rescale_34th.1, hB, rescaledMax_34, rescale_34th.2.2.2, ?_⟩⟩
  · intro h
    obtain ⟨p2, h1, h2, h3⟩ := h (by decide) (by decide) (by decide)
    rw [hA] at h1
    cases h1
    have : rescaledHealth lowMaxPlayer.health lowMaxPlayer.maxHealth 100 = 53 := rescale_21_40.2
    rw [this] at h3
    exact absurd h3 (by decide)
  · intro h
    obtain ⟨p2, h1, h2, h3⟩ := h (by decide) (by decide) (by decide)
    rw [hB] at h1
    cases h1
    have : rescaledHealth upgradedPlayer.health upgradedPlayer.maxHealth 11580 = 5801 :=
      rescale_34th.2.2.2
    rw [this] at h3
    exact absurd h3 (by decide)

/-- C2, amended, at a player at 50 of 100 health and the multiplier 1.15. -/
theorem rescale_binary32_witness :
    (0 < ({ Player.new with health := 50 } : Player).baseMaxHealth ∧
        ((({ Player.new with health := 50 } : Player).baseMaxHealth : ℚ) * max (115 / 100) 1 ≤
          4000000) ∧
        0 < ({ Player.new with health := 50 } : Player).maxHealth ∧
        ({ Player.new with health := 50 } : Player).maxHealth ≤ 4000000 ∧
        0 ≤ ({ Player.new with health := 50 } : Player).health ∧
        ({ Player.new with health := 50 } : Player).health ≤
          ({ Player.new with health := 50 } : Player).maxHealth) ∧
      |Binary32.rescaledHealth 50 100 (Binary32.rescaledMaxHealth 100 (115 / 100)) -
          rescaledHealth 50 100 (Binary32.rescaledMaxHealth 100 (115 / 100))| ≤ 1 :=
  have hb : ((({ Player.new with health := 50 } : Player).baseMaxHealth : ℚ) *
      max (115 / 100) 1 ≤ 4000000) := by
    rw [max_eq_left (by norm_num)]
    norm_num [Player.new]
  ⟨⟨by decide, hb, by decide, by decide, by decide, by decide⟩,
    (rescale_binary32 { Player.new with health := 50 } (115 / 100) (by decide) hb (by decide)
      (by decide) (by decide) (by decide)).2.2.1⟩

/-! ## C27: the safe radius of a spawn -/

theorem corner_push :
    Binary32.pushOutOfSafeRadius ⟨20, 20⟩ ⟨-60, 0⟩ = ⟨-5066773 / 32768, -12402773 / 524288⟩ := by
  have e1 : f32 ((20 : ℚ) - (-60)) = 80 :=
    (f32_eval _ 10485760 17 (by norm_num) (Or.inr (by norm_num [abs_of_pos, abs_of_neg, abs_neg])) (by norm_num [abs_of_pos, abs_of_neg, abs_neg])
      (Or.inl (by norm_num [abs_lt]))).trans (by norm_num)
  have e2 : f32 ((20 : ℚ) - 0) = 20 :=
    (f32_eval _ 10485760 19 (by norm_num) (Or.inr (by norm_num [abs_of_pos, abs_of_neg, abs_neg])) (by norm_num [abs_of_pos, abs_of_neg, abs_neg])
      (Or.inl (by norm_num [abs_lt]))).trans (by norm_num)
  have e3 : f32 ((80 : ℚ) * 80) = 6400 :=
    (f32_eval _ 13107200 11 (by norm_num) (Or.inr (by norm_num [abs_of_pos, abs_of_neg, abs_neg])) (by norm_num [abs_of_pos, abs_of_neg, abs_neg])
      (Or.inl (by norm_num [abs_lt]))).trans (by norm_num)
  have e4 : f32 ((20 : ℚ) * 20) = 400 :=
    (f32_eval _ 13107200 15 (by norm_num) (Or.inr (by norm_num [abs_of_pos, abs_of_neg, abs_neg])) (by norm_num [abs_of_pos, abs_of_neg, abs_neg])
      (Or.inl (by norm_num [abs_lt]))).trans (by norm_num)
  have e5 : f32 ((6400 : ℚ) + 400) = 6800 :=
    (f32_eval _ 13926400 11 (by norm_num) (Or.inr (by norm_num [abs_of_pos, abs_of_neg, abs_neg])) (by norm_num [abs_of_pos, abs_of_neg, abs_neg])
      (Or.inl (by norm_num [abs_lt]))).trans (by norm_num)
  have e6 : Binary32.sqrtf 6800 = (5404237 / 65536) :=
    (sqrtf_eval _ 10808474 17 (by norm_num) (by norm_num) (by norm_num) (by norm_num)
      (by norm_num)).trans (by norm_num)
  have e7 : f32 (80 / (5404237 / 65536)) = (8138145 / 8388608) :=
    (f32_eval _ 16276290 24 (by norm_num) (Or.inr (by norm_num [abs_of_pos, abs_of_neg, abs_neg])) (by norm_num [abs_of_pos, abs_of_neg, abs_neg])
      (Or.inl (by norm_num [abs_lt]))).trans (by norm_num)
  have e8 : f32 (20 / (5404237 / 65536)) = (8138145 / 33554432) :=
    (f32_eval _ 16276290 26 (by norm_num) (Or.inr (by norm_num [abs_of_pos, abs_of_neg, abs_neg])) (by norm_num [abs_of_pos, abs_of_neg, abs_neg])
      (Or.inl (by norm_num [abs_lt]))).trans (by norm_num)
  have e9 : f32 (180 - (5404237 / 65536)) = (6392243 / 65536) :=
    (f32_eval _ 12784486 17 (by norm_num) (Or.inr (by norm_num [abs_of_pos, abs_of_neg, abs_neg])) (by norm_num [abs_of_pos, abs_of_neg, abs_neg])
      (Or.inl (by norm_num [abs_lt]))).trans (by norm_num)
  have e10 : f32 ((8138145 / 8388608) * (6392243 / 65536)) = (12402773 / 131072) :=
    (f32_eval _ 12402773 17 (by norm_num) (Or.inr (by norm_num [abs_of_pos, abs_of_neg, abs_neg])) (by norm_num [abs_of_pos, abs_of_neg, abs_neg])
      (Or.inl (by norm_num [abs_lt]))).trans (by norm_num)
  have e11 : f32 ((8138145 / 33554432) * (6392243 / 65536)) = (12402773 / 524288) :=
    (f32_eval _ 12402773 19 (by norm_num) (Or.inr (by norm_num [abs_of_pos, abs_of_neg, abs_neg])) (by norm_num [abs_of_pos, abs_of_neg, abs_neg])
      (Or.inl (by norm_num [abs_lt]))).trans (by norm_num)
  have e12 : f32 ((-60 : ℚ) - (12402773 / 131072)) = (-5066773 / 32768) :=
    (f32_eval _ (-10133546) 16 (by norm_num) (Or.inr (by norm_num [abs_of_pos, abs_of_neg, abs_neg])) (by norm_num [abs_of_pos, abs_of_neg, abs_neg])
      (Or.inr ⟨by norm_num [abs_le], by decide⟩)).trans (by norm_num)
  have e13 : f32 ((0 : ℚ) - (12402773 / 524288)) = (-12402773 / 524288) :=
    (f32_eval _ (-12402773) 19 (by norm_num) (Or.inr (by norm_num [abs_of_pos, abs_of_neg, abs_neg])) (by norm_num [abs_of_pos, abs_of_neg, abs_neg])
      (Or.inl (by norm_num [abs_lt]))).trans (by norm_num)
  have hdist : Binary32.distance ⟨20, 20⟩ ⟨-60, 0⟩ = 5404237 / 65536 := by
    simp only [Binary32.distance, Binary32.toPlayer, e1, e2, e3, e4, e5, e6]
  rw [pushOut_near _ _ (by rw [hdist]; norm_num) (by rw [hdist]; norm_num), hdist]
  simp only [e1, e2, e7, e8, e9, e10, e11, e12, e13]

theorem spawnLoop32_positions (rl : Raylib) (wave : Int) (pos : Vector2) (k : Nat) :
    ∀ (n : Nat) (acc : List Enemy),
      (∀ e ∈ acc, ∃ m : Nat,
        e.position = Binary32.pushOutOfSafeRadius pos (Binary32.edgeSpawn rl m)) →
      ∀ e ∈ (Binary32.spawnLoop rl wave pos k n acc).1,
        ∃ m : Nat, e.position = Binary32.pushOutOfSafeRadius pos (Binary32.edgeSpawn rl m) := by
  induction k with
  | zero => intro n acc h; simpa [Binary32.spawnLoop] using h
  | succ k ih =>
    intro n acc h
    simp only [Binary32.spawnLoop]
    apply ih
    intro e he
    simp only [List.mem_append, List.mem_singleton] at he
    rcases he with he | he
    · exact h e he
    · rw [he, Enemy.new_position]
      exact ⟨n, rfl⟩

/-- In a window of at most 4000 x 4000 the edge points are exact in binary32:
`Binary32.edgeSpawn` is `edgeSpawn`. -/
theorem edgeSpawn32_eq (rl : Raylib) (n : Nat)
    (hW : 0 ≤ rl.GetScreenWidth ∧ rl.GetScreenWidth ≤ 4000)
    (hH : 0 ≤ rl.GetScreenHeight ∧ rl.GetScreenHeight ≤ 4000) :
    Binary32.edgeSpawn rl n = edgeSpawn rl n := by
  have hy := GetRandomValue_range rl (n + 1) 0 rl.GetScreenHeight hH.1
  have hx := GetRandomValue_range rl (n + 1) 0 rl.GetScreenWidth hW.1
  have e1 : f32 (GetRandomValue rl (n + 1) 0 rl.GetScreenHeight : ℚ) =
      (GetRandomValue rl (n + 1) 0 rl.GetScreenHeight : ℚ) :=
    f32_intCast _ (by rw [abs_lt]; omega)
  have e2 : f32 (GetRandomValue rl (n + 1) 0 rl.GetScreenWidth : ℚ) =
      (GetRandomValue rl (n + 1) 0 rl.GetScreenWidth : ℚ) :=
    f32_intCast _ (by rw [abs_lt]; omega)
  have e3 : f32 (f32 (rl.GetScreenWidth : ℚ) + 60) = (rl.GetScreenWidth : ℚ) + 60 := by
    rw [f32_intCast _ (by rw [abs_lt]; omega)]
    have := f32_intCast (rl.GetScreenWidth + 60) (by rw [abs_lt]; omega)
    push_cast at this
    exact this
  have e4 : f32 (f32 (rl.GetScreenHeight : ℚ) + 60) = (rl.GetScreenHeight : ℚ) + 60 := by
    rw [f32_intCast _ (by rw [abs_lt]; omega)]
    have := f32_intCast (rl.GetScreenHeight + 60) (by rw [abs_lt]; omega)
    push_cast at this
    exact this
  simp only [Binary32.edgeSpawn, edgeSpawn, e1, e2, e3, e4]

/-- An edge point seen from a player inside the playfield: coordinates of size
at most 4096, and at least 80 from the player along one axis. -/
theorem edge_facts (rl : Raylib) (n : Nat) (p : Vector2)
    (hW : rl.GetScreenWidth ≤ 4000) (hH : rl.GetScreenHeight ≤ 4000)
    (hx : 20 ≤ p.x ∧ p.x ≤ (rl.GetScreenWidth : ℚ) - 20)
    (hy : 20 ≤ p.y ∧ p.y ≤ (rl.GetScreenHeight : ℚ) - 20) :
    |(Binary32.edgeSpawn rl n).x| ≤ 4096 ∧ |(Binary32.edgeSpawn rl n).y| ≤ 4096 ∧
      |p.x - (Binary32.edgeSpawn rl n).x| ≤ 8192 ∧ |p.y - (Binary32.edgeSpawn rl n).y| ≤ 8192 ∧
      (80 ≤ |p.x - (Binary32.edgeSpawn rl n).x| ∨ 80 ≤ |p.y - (Binary32.edgeSpawn rl n).y|) := by
  have hWq : (rl.GetScreenWidth : ℚ) ≤ 4000 := by exact_mod_cast hW
  have hHq : (rl.GetScreenHeight : ℚ) ≤ 4000 := by exact_mod_cast hH
  have hW0 : 0 ≤ rl.GetScreenWidth := by
    have : (0 : ℚ) ≤ (rl.GetScreenWidth : ℚ) := by linarith [hx.1, hx.2]
    exact_mod_cast this
  have hH0 : 0 ≤ rl.GetScreenHeight := by
    have : (0 : ℚ) ≤ (rl.GetScreenHeight : ℚ) := by linarith [hy.1, hy.2]
    exact_mod_cast this
  rw [edgeSpawn32_eq rl n ⟨hW0, hW⟩ ⟨hH0, hH⟩]
  have hgy := GetRandomValue_range rl (n + 1) 0 rl.GetScreenHeight hH0
  have hgx := GetRandomValue_range rl (n + 1) 0 rl.GetScreenWidth hW0
  have hgy1 : (0 : ℚ) ≤ (GetRandomValue rl (n + 1) 0 rl.GetScreenHeight : ℚ) := by
    exact_mod_cast hgy.1
  have hgy2 : (GetRandomValue rl (n + 1) 0 rl.GetScreenHeight : ℚ) ≤ rl.GetScreenHeight := by
    exact_mod_cast hgy.2
  have hgx1 : (0 : ℚ) ≤ (GetRandomValue rl (n + 1) 0 rl.GetScreenWidth : ℚ) := by
    exact_mod_cast hgx.1
  have hgx2 : (GetRandomValue rl (n + 1) 0 rl.GetScreenWidth : ℚ) ≤ rl.GetScreenWidth := by
    exact_mod_cast hgx.2
  obtain ⟨hx1, hx2⟩ := hx
  obtain ⟨hy1, hy2⟩ := hy
  simp only [edgeSpawn]
  split_ifs <;> simp only []
  · exact ⟨abs_le.mpr ⟨by linarith, by linarith⟩, abs_le.mpr ⟨by linarith, by linarith⟩,
      abs_le.mpr ⟨by linarith, by linarith⟩, abs_le.mpr ⟨by linarith, by linarith⟩,
      Or.inl (le_abs.mpr (Or.inl (by linarith)))⟩
  · exact ⟨abs_le.mpr ⟨by linarith, by linarith⟩, abs_le.mpr ⟨by linarith, by linarith⟩,
      abs_le.mpr ⟨by linarith, by linarith⟩, abs_le.mpr ⟨by linarith, by linarith⟩,
      Or.inl (le_abs.mpr (Or.inr (by linarith)))⟩
  · exact ⟨abs_le.mpr ⟨by linarith, by linarith⟩, abs_le.mpr ⟨by linarith, by linarith⟩,
      abs_le.mpr ⟨by linarith, by linarith⟩, abs_le.mpr ⟨by linarith, by linarith⟩,
      Or.inr (le_abs.mpr (Or.inl (by linarith)))⟩
  · exact ⟨abs_le.mpr ⟨by linarith, by linarith⟩, abs_le.mpr ⟨by linarith, by linarith⟩,
      abs_le.mpr ⟨by linarith, by linarith⟩, abs_le.mpr ⟨by linarith, by linarith⟩,
      Or.inr (le_abs.mpr (Or.inr (by linarith)))⟩

theorem pushOut_zero (p s : Vector2) (h : Binary32.distance p s = 0) :
    Binary32.pushOutOfSafeRadius p s = ⟨f32 (s.x - 180), f32 s.y⟩ := by
  have e1 : f32 180 = 180 := by
    have := f32_intCast 180 (by norm_num)
    norm_num at this
    exact this
  simp only [Binary32.pushOutOfSafeRadius, h, if_pos (by norm_num : (0 : ℚ) < 180), if_true, e1,
    one_mul, zero_mul, f32_zero, sub_zero]

theorem corner_edge (n : Nat) : Binary32.edgeSpawn sampleRaylib n = ⟨-60, 0⟩ := by
  have h1 : GetRandomValue sampleRaylib n 0 3 = 0 := sample_roll n 3 (by decide)
  have h2 : GetRandomValue sampleRaylib (n + 1) 0 sampleRaylib.GetScreenHeight = 0 :=
    sample_roll (n + 1) _ (by decide)
  simp only [Binary32.edgeSpawn, h1, h2, if_true, Int.cast_zero, f32_zero]

/-- C27 as stated fails in the corner of the playfield: with the player at
(20, 20) and the edge point (-60, 0), at distance 82.46, the spawn loop places
the enemy at (-154.62564..., -23.65641...), whose squared distance from the
player is 32399.9967..., below `180 * 180`. -/
theorem safe_radius_counterexample :
    (Binary32.spawnLoop sampleRaylib 1 ⟨20, 20⟩ 1 0 []).1.map (fun e => e.position) =
        [⟨-5066773 / 32768, -12402773 / 524288⟩] ∧
      distSq ⟨20, 20⟩ ⟨-5066773 / 32768, -12402773 / 524288⟩ < 180 * 180 ∧
      ¬ safeRadiusClaim sampleRaylib 1 ⟨20, 20⟩ 1 0 := by
  have hl : (Binary32.spawnLoop sampleRaylib 1 ⟨20, 20⟩ 1 0 []).1 =
      [Enemy.new sampleRaylib 3 ⟨-5066773 / 32768, -12402773 / 524288⟩
        (pickType sampleRaylib 2 1) 1] := by
    simp only [Binary32.spawnLoop, corner_edge, corner_push, List.nil_append]
  have hd : distSq ⟨20, 20⟩ ⟨-5066773 / 32768, -12402773 / 524288⟩ < 180 * 180 := by
    norm_num [distSq]
  refine ⟨?_, hd, ?_⟩
  · rw [hl]
    simp only [List.map_cons, List.map_nil, Enemy.new_position]
  · intro h
    have := h _ (by rw [hl]; exact List.mem_singleton.mpr rfl)
    rw [Enemy.new_position] at this
    exact absurd hd (not_lt.mpr this)

/-! ## C10: the drop roll in binary32 -/

theorem truncToInt_eval (q : ℚ) (z : Int) (h0 : 0 ≤ q) (h1 : (z : ℚ) ≤ q)
    (h2 : q < (z : ℚ) + 1) : truncToInt q = z := by
  simp only [truncToInt, h0, if_true]
  rw [Int.floor_eq_iff]
  exact ⟨h1, h2⟩

theorem f32_035 : f32 ((35 : ℚ) / 100) = (11744051 / 33554432) :=
  (f32_pos_eval _ 11744051 25 (by norm_num) (by norm_num) (by norm_num)
    (by norm_num [abs_lt])).trans (by norm_num)

theorem f32_055 : f32 ((55 : ℚ) / 100) = (9227469 / 16777216) :=
  (f32_pos_eval _ 9227469 24 (by norm_num) (by norm_num) (by norm_num)
    (by norm_num [abs_lt])).trans (by norm_num)

theorem f32_095 : f32 ((95 : ℚ) / 100) = (15938355 / 16777216) :=
  (f32_pos_eval _ 15938355 24 (by norm_num) (by norm_num) (by norm_num)
    (by norm_num [abs_lt])).trans (by norm_num)

theorem f32_022 : f32 ((22 : ℚ) / 100) = (7381975 / 33554432) :=
  (f32_pos_eval _ 14763950 26 (by norm_num) (by norm_num) (by norm_num)
    (by norm_num [abs_lt])).trans (by norm_num)

theorem f32_gate : f32 ((7381975 / 33554432) * 1000) = 220 :=
  (f32_pos_eval _ 14417920 16 (by norm_num) (by norm_num) (by norm_num)
    (by norm_num [abs_lt])).trans (by norm_num)

/-- The drop gate of the default drop chance 0.22 in binary32: 220. -/
theorem gate_threshold : truncToInt (f32 (f32 (22 / 100) * 1000)) = 220 := by
  rw [f32_022, f32_gate]
  exact truncToInt_intCast 220

/-- The health-roll threshold at 46 of 100 health: 738 in binary32, where
`floor(1000 * 0.739) = 739`. -/
theorem threshold_46 :
    Binary32.healthThreshold 46 100 = 738 ∧
      truncToInt (specHealthPackBias 46 100 * 1000) = 739 := by
  have r46 : f32 ((46 : ℚ) / 100) = (15435039 / 33554432) :=
    (f32_pos_eval _ 15435039 25 (by norm_num) (by norm_num) (by norm_num)
      (by norm_num [abs_lt])).trans (by norm_num)
  have m46 : f32 (1 - (15435039 / 33554432)) = (566231 / 1048576) :=
    (f32_eval _ 9059696 24 (by norm_num) (Or.inr (by norm_num [abs_of_pos, abs_of_neg, abs_neg]))
      (by norm_num [abs_of_pos, abs_of_neg, abs_neg])
      (Or.inr ⟨by norm_num [abs_le], by decide⟩)).trans (by norm_num)
  have p46 : f32 ((566231 / 1048576) * (11744051 / 33554432)) = (6341787 / 33554432) :=
    (f32_pos_eval _ 12683574 26 (by norm_num) (by norm_num) (by norm_num)
      (by norm_num [abs_lt])).trans (by norm_num)
  have s46 : f32 ((9227469 / 16777216) + (6341787 / 33554432)) = (6199181 / 8388608) :=
    (f32_eval _ 12398362 24 (by norm_num) (Or.inr (by norm_num [abs_of_pos, abs_of_neg, abs_neg]))
      (by norm_num [abs_of_pos, abs_of_neg, abs_neg])
      (Or.inr ⟨by norm_num [abs_le], by decide⟩)).trans (by norm_num)
  have y46 : f32 ((6199181 / 8388608) * 1000) = (12107775 / 16384) :=
    (f32_pos_eval _ 12107775 14 (by norm_num) (by norm_num) (by norm_num)
      (by norm_num [abs_lt])).trans (by norm_num)
  have i46 : f32 ((46 : Nat) : ℚ) = (46 : Nat) := f32_small 46 (by norm_num)
  have i100 : f32 ((100 : Nat) : ℚ) = (100 : Nat) := f32_small 100 (by norm_num)
  norm_num at i46 i100
  have hb : healthDropBias = (55 : ℚ) / 100 := rfl
  constructor
  · have hle : ¬ ((6199181 : ℚ) / 8388608 > 15938355 / 16777216) := by norm_num
    have hpos : ¬ ((6199181 : ℚ) / 8388608 < 0) := by norm_num
    have ht : truncToInt (12107775 / 16384) = 738 :=
      truncToInt_eval _ 738 (by norm_num) (by norm_num) (by norm_num)
    simp only [Binary32.healthThreshold, Int.cast_ofNat, i46, i100, hb, f32_035, f32_055,
      f32_095, r46, m46, p46, s46, hle, hpos, if_false, y46, ht]
  · have : specHealthPackBias 46 100 * 1000 = ((739 : Int) : ℚ) := by
      norm_num [specHealthPackBias, healthDropBias]
    rw [this, truncToInt_intCast]

/-- The health-roll threshold at 50 of 100 health: 725, in binary32 and
exactly. -/
theorem threshold_50 :
    Binary32.healthThreshold 50 100 = 725 ∧
      truncToInt (specHealthPackBias 50 100 * 1000) = 725 := by
  have r50 : f32 ((50 : ℚ) / 100) = (1 / 2) :=
    (f32_pos_eval _ 8388608 24 (by norm_num) (by norm_num) (by norm_num)
      (by norm_num [abs_lt])).trans (by norm_num)
  have m50 : f32 (1 - (1 / 2)) = (1 / 2) :=
    (f32_pos_eval _ 8388608 24 (by norm_num) (by norm_num) (by norm_num)
      (by norm_num [abs_lt])).trans (by norm_num)
  have p50 : f32 ((1 / 2) * (11744051 / 33554432)) = (11744051 / 67108864) :=
    (f32_pos_eval _ 11744051 26 (by norm_num) (by norm_num) (by norm_num)
      (by norm_num [abs_lt])).trans (by norm_num)
  have s50 : f32 ((9227469 / 16777216) + (11744051 / 67108864)) = (6081741 / 8388608) :=
    (f32_pos_eval _ 12163482 24 (by norm_num) (by norm_num) (by norm_num)
      (by norm_num [abs_lt])).trans (by norm_num)
  have y50 : f32 ((6081741 / 8388608) * 1000) = 725 :=
    (f32_pos_eval _ 11878400 14 (by norm_num) (by norm_num) (by norm_num)
      (by norm_num [abs_lt])).trans (by norm_num)
  have i50 : f32 ((50 : Nat) : ℚ) = (50 : Nat) := f32_small 50 (by norm_num)
  have i100 : f32 ((100 : Nat) : ℚ) = (100 : Nat) := f32_small 100 (by norm_num)
  norm_num at i50 i100
  have hb : healthDropBias = (55 : ℚ) / 100 := rfl
  constructor
  · have hle : ¬ ((6081741 : ℚ) / 8388608 > 15938355 / 16777216) := by norm_num
    have hpos : ¬ ((6081741 : ℚ) / 8388608 < 0) := by norm_num
    have ht : truncToInt (725 : ℚ) = 725 := truncToInt_intCast 725
    simp only [Binary32.healthThreshold, Int.cast_ofNat, i50, i100, hb, f32_035, f32_055,
      f32_095, r50, m50, p50, s50, hle, hpos, if_false, y50, ht]
  · have : specHealthPackBias 50 100 * 1000 = ((725 : Int) : ℚ) := by
      norm_num [specHealthPackBias, healthDropBias]
    rw [this, truncToInt_intCast]

theorem f32_close (q c d : ℚ) (hq : |q| ≤ c) (hd : c / 16777216 + 1 / 2 ^ 150 ≤ d) :
    |f32 q - q| ≤ d := by
  refine (f32_err q).trans (le_trans ?_ hd)
  have : |q| / 16777216 ≤ c / 16777216 := div_le_div_of_nonneg_right hq (by norm_num)
  linarith

theorem abs_min_sub_min_le (a b a2 b2 d : ℚ) (ha : |a - a2| ≤ d) (hb : |b - b2| ≤ d) :
    |min a b - min a2 b2| ≤ d := by
  rw [abs_le] at ha hb ⊢
  constructor
  · rcases min_cases a b with ⟨h1, _⟩ | ⟨h1, _⟩ <;> rcases min_cases a2 b2 with ⟨h2, _⟩ | ⟨h2, _⟩ <;>
      rw [h1] <;> linarith [min_le_left a2 b2, min_le_right a2 b2]
  · rcases min_cases a b with ⟨h1, _⟩ | ⟨h1, _⟩ <;> rcases min_cases a2 b2 with ⟨h2, _⟩ | ⟨h2, _⟩ <;>
      rw [h2] <;> linarith [min_le_left a b, min_le_right a b]

/-- The binary32 value `1000 * adjustedChance` of `TryDropPowerUp` is the exact
`1000 * min(0.95, 0.55 + 0.35 * missingRatio)` up to `10^-3`. -/
theorem adjusted_near (h M : Int) (h0 : 0 ≤ h) (hlt : h < M) (hM : M ≤ 4000000) :
    ∃ y : ℚ, Binary32.healthThreshold h M = truncToInt y ∧
      |y - specHealthPackBias h M * 1000| ≤ 1 / 1000 ∧ 549 ≤ y ∧ y ≤ 950 + 1 / 1000 := by
  have e1 : f32 (h : ℚ) = h := f32_intCast h (by rw [abs_lt]; omega)
  have e2 : f32 (M : ℚ) = M := f32_intCast M (by rw [abs_lt]; omega)
  have hMq : (0 : ℚ) < (M : ℚ) := by exact_mod_cast (by omega : 0 < M)
  have hhq : (0 : ℚ) ≤ (h : ℚ) := by exact_mod_cast h0
  have hr0 : (0 : ℚ) ≤ (h : ℚ) / (M : ℚ) := div_nonneg hhq hMq.le
  have hr1 : (h : ℚ) / (M : ℚ) ≤ 1 := by
    rw [div_le_one hMq]
    exact_mod_cast hlt.le
  have hb : healthDropBias = (55 : ℚ) / 100 := rfl
  have hspec : specHealthPackBias h M =
      min (55 / 100 + 35 / 100 * (1 - (h : ℚ) / (M : ℚ))) (95 / 100) := by
    rw [specHealthPackBias, hb, min_comm]
  have hT : Binary32.healthThreshold h M =
      truncToInt (f32 ((if (if f32 (9227469 / 16777216 +
          f32 (f32 (1 - f32 ((h : ℚ) / (M : ℚ))) * (11744051 / 33554432))) >
            15938355 / 16777216 then (15938355 / 16777216 : ℚ)
          else f32 (9227469 / 16777216 +
            f32 (f32 (1 - f32 ((h : ℚ) / (M : ℚ))) * (11744051 / 33554432)))) < 0 then 0
        else (if f32 (9227469 / 16777216 +
          f32 (f32 (1 - f32 ((h : ℚ) / (M : ℚ))) * (11744051 / 33554432))) >
            15938355 / 16777216 then (15938355 / 16777216 : ℚ)
          else f32 (9227469 / 16777216 +
            f32 (f32 (1 - f32 ((h : ℚ) / (M : ℚ))) * (11744051 / 33554432))))) * 1000)) := by
    simp only [Binary32.healthThreshold, e1, e2, hb, f32_035, f32_055, f32_095]
  refine ⟨_, hT, ?_⟩
  rw [hspec]
  -- the ratio
  have a1 : |f32 ((h : ℚ) / (M : ℚ)) - (h : ℚ) / (M : ℚ)| ≤ 1 / 16000000 :=
    f32_close _ 1 _ (by rw [abs_of_nonneg hr0]; exact hr1) (by norm_num)
  -- the missing ratio
  have a2 : |f32 (1 - f32 ((h : ℚ) / (M : ℚ))) - (1 - f32 ((h : ℚ) / (M : ℚ)))| ≤
      1 / 16000000 := by
    apply f32_close _ (1 + 1 / 16000000) _ _ (by norm_num)
    rw [abs_le] at a1 ⊢
    constructor <;> linarith
  have a3 : |f32 (1 - f32 ((h : ℚ) / (M : ℚ))) - (1 - (h : ℚ) / (M : ℚ))| ≤ 2 / 16000000 := by
    rw [abs_le] at a1 a2 ⊢
    constructor <;> linarith
  generalize f32 (1 - f32 ((h : ℚ) / (M : ℚ))) = miss at a3 ⊢
  generalize (h : ℚ) / (M : ℚ) = r at hr0 hr1 a3 ⊢
  have hmiss : |miss| ≤ 1 + 2 / 16000000 := by
    rw [abs_le] at a3 ⊢
    constructor <;> linarith
  -- the product
  have hc : |(11744051 : ℚ) / 33554432| ≤ 36 / 100 := by
    rw [abs_of_pos (by norm_num)]
    norm_num
  have a4 : |f32 (miss * (11744051 / 33554432)) - miss * (11744051 / 33554432)| ≤
      1 / 16000000 := by
    apply f32_close _ ((1 + 2 / 16000000) * (36 / 100)) _ (abs_mul_le_mul hmiss hc)
      (by norm_num)
  have a5 : |f32 (miss * (11744051 / 33554432)) - 35 / 100 * (1 - r)| ≤ 2 / 16000000 := by
    have hsplit : f32 (miss * (11744051 / 33554432)) - 35 / 100 * (1 - r) =
        (f32 (miss * (11744051 / 33554432)) - miss * (11744051 / 33554432)) +
          miss * (11744051 / 33554432 - 35 / 100) + 35 / 100 * (miss - (1 - r)) := by ring
    rw [hsplit]
    have h6 : |miss * (11744051 / 33554432 - 35 / 100)| ≤
        (1 + 2 / 16000000) * (1 / 100000000) :=
      abs_mul_le_mul hmiss (by rw [abs_le]; constructor <;> norm_num)
    rw [abs_le] at a4 h6 a3 ⊢
    constructor <;> linarith
  generalize f32 (miss * (11744051 / 33554432)) = prod at a5 ⊢
  -- the sum
  have hsum : |(9227469 : ℚ) / 16777216 + prod| ≤ 1 := by
    rw [abs_le] at a5 ⊢
    constructor <;> linarith
  have a6 : |f32 (9227469 / 16777216 + prod) - (9227469 / 16777216 + prod)| ≤
      1 / 16000000 := f32_close _ 1 _ hsum (by norm_num)
  have a7 : |f32 (9227469 / 16777216 + prod) - (55 / 100 + 35 / 100 * (1 - r))| ≤
      4 / 16000000 := by
    rw [abs_le] at a5 a6 ⊢
    constructor <;> linarith
  generalize f32 (9227469 / 16777216 + prod) = sm at a7 ⊢
  -- the clamp
  have a8 : |min sm (15938355 / 16777216) - min (55 / 100 + 35 / 100 * (1 - r)) (95 / 100)| ≤
      4 / 16000000 :=
    abs_min_sub_min_le _ _ _ _ _ a7 (by rw [abs_le]; constructor <;> norm_num)
  have hclamp : (if sm > 15938355 / 16777216 then (15938355 / 16777216 : ℚ) else sm) =
      min sm (15938355 / 16777216) := by
    split_ifs with hgt
    · rw [min_eq_right hgt.le]
    · rw [min_eq_left (not_lt.mp hgt)]
  have hA0 : (55 : ℚ) / 100 ≤ min (55 / 100 + 35 / 100 * (1 - r)) (95 / 100) := by
    rw [le_min_iff]
    constructor
    · nlinarith
    · norm_num
  have hA1 : min (55 / 100 + 35 / 100 * (1 - r)) (95 / 100) ≤ 95 / 100 := min_le_right _ _
  rw [hclamp]
  generalize min (55 / 100 + 35 / 100 * (1 - r)) (95 / 100) = A at a8 hA0 hA1 ⊢
  generalize min sm (15938355 / 16777216) = adj at a8 ⊢
  have hadj0 : ¬ adj < 0 := by
    rw [abs_le] at a8
    intro hneg
    linarith
  rw [if_neg hadj0]
  have hadj : |adj * 1000| ≤ 951 := by
    rw [abs_le] at a8 ⊢
    constructor <;> linarith
  have a9 : |f32 (adj * 1000) - adj * 1000| ≤ 1 / 10000 := f32_close _ 951 _ hadj (by norm_num)
  rw [abs_le] at a8 a9 ⊢
  refine ⟨⟨by linarith, by linarith⟩, by linarith, by linarith⟩

/-- The health-roll threshold in binary32 is within 1 of
`floor(1000 * min(0.95, 0.55 + 0.35 * missingRatio))`, and between 549 and
950. -/
theorem healthThreshold_near (h M : Int) (h0 : 0 ≤ h) (hlt : h < M) (hM : M ≤ 4000000) :
    |Binary32.healthThreshold h M - truncToInt (specHealthPackBias h M * 1000)| ≤ 1 ∧
      549 ≤ Binary32.healthThreshold h M ∧ Binary32.healthThreshold h M ≤ 950 := by
  obtain ⟨y, hy, hnear, hy0, hy1⟩ := adjusted_near h M h0 hlt hM
  rw [hy]
  have hy00 : (0 : ℚ) ≤ y := by linarith
  rw [abs_le] at hnear
  have hs0 : (0 : ℚ) ≤ specHealthPackBias h M * 1000 := by linarith
  have t1 : truncToInt y = ⌊y⌋ := by simp only [truncToInt, hy00, if_true]
  have t2 : truncToInt (specHealthPackBias h M * 1000) = ⌊specHealthPackBias h M * 1000⌋ := by
    simp only [truncToInt, hs0, if_true]
  rw [t1, t2]
  have f1 := Int.floor_le y
  have f2 := Int.lt_floor_add_one y
  have f3 := Int.floor_le (specHealthPackBias h M * 1000)
  have f4 := Int.lt_floor_add_one (specHealthPackBias h M * 1000)
  have g1 : ((⌊y⌋ : Int) : ℚ) < ((⌊specHealthPackBias h M * 1000⌋ + 2 : Int) : ℚ) := by
    push_cast; linarith
  have g2 : ((⌊specHealthPackBias h M * 1000⌋ : Int) : ℚ) < ((⌊y⌋ + 2 : Int) : ℚ) := by
    push_cast; linarith
  have g3 : ((549 : Int) : ℚ) < ((⌊y⌋ + 1 : Int) : ℚ) := by push_cast; linarith
  have g4 : ((⌊y⌋ : Int) : ℚ) < ((951 : Int) : ℚ) := by push_cast; linarith
  have g1i : ⌊y⌋ < ⌊specHealthPackBias h M * 1000⌋ + 2 := by exact_mod_cast g1
  have g2i : ⌊specHealthPackBias h M * 1000⌋ < ⌊y⌋ + 2 := by exact_mod_cast g2
  have g3i : (549 : Int) < ⌊y⌋ + 1 := by exact_mod_cast g3
  have g4i : ⌊y⌋ < (951 : Int) := by exact_mod_cast g4
  rw [abs_le]
  exact ⟨⟨by omega, by omega⟩, by omega, by omega⟩

theorem fullHealth_gate32 :
    truncToInt (f32 (f32 fullHealthGame.enemyDropChance * 1000)) = 220 := by
  have : fullHealthGame.enemyDropChance = (22 : ℚ) / 100 := by
    norm_num [fullHealthGame, Game.initial]
  rw [this]
  exact gate_threshold

theorem hurt_gate32 : truncToInt (f32 (f32 hurtGame.enemyDropChance * 1000)) = 220 := by
  have : hurtGame.enemyDropChance = (22 : ℚ) / 100 := by
    norm_num [hurtGame, Game.initial]
  rw [this]
  exact gate_threshold

theorem fullHealth_dropped32 :
    Binary32.droppedTypes sampleRaylib fullHealthGame ⟨500, 500⟩ = [PowerUpType.RAPID_FIRE] := by
  have h1 : (Binary32.TryDropPowerUp sampleRaylib fullHealthGame ⟨500, 500⟩) =
      SpawnRandomPowerUp sampleRaylib
        { fullHealthGame with randCalls := fullHealthGame.randCalls + 1 } ⟨500, 500⟩ := by
    unfold Binary32.TryDropPowerUp
    have hcap : ¬ ((fullHealthGame.powerUps.length : Int) ≥ maxFieldPowerUps) := by decide
    have hfull : ¬ (fullHealthGame.player.health < fullHealthGame.player.maxHealth) := by decide
    simp only [hcap, if_false, sample_roll _ 999 (by decide), fullHealth_gate32, hfull]
    rfl
  unfold Binary32.droppedTypes
  rw [h1]
  simp [SpawnRandomPowerUp, CreatePowerUpInstance, fullHealthGame, Game.initial, maxFieldPowerUps,
    sample_roll _ 3 (by decide)]

/-- C10 as stated fails at full health: the drop gate passes (roll 0 below
220), the next roll is below the bias 0.55, and the pickup dropped is a Rapid
Fire, not a health pack. -/
theorem full_health_drop_counterexample :
    Binary32.droppedTypes sampleRaylib fullHealthGame ⟨500, 500⟩ = [PowerUpType.RAPID_FIRE] ∧
      ¬ Binary32.healthPackDropClaim sampleRaylib fullHealthGame ⟨500, 500⟩ := by
  refine ⟨fullHealth_dropped32, ?_⟩
  intro h
  have hcap : (fullHealthGame.powerUps.length : Int) < maxFieldPowerUps := by decide
  have hgate : GetRandomValue sampleRaylib fullHealthGame.randCalls 0 999 <
      truncToInt (f32 (f32 fullHealthGame.enemyDropChance * 1000)) := by
    rw [sample_roll _ 999 (by decide), fullHealth_gate32]
    decide
  have hroll : GetRandomValue sampleRaylib (fullHealthGame.randCalls + 1) 0 999 <
      truncToInt (specHealthPackBias fullHealthGame.player.health
        fullHealthGame.player.maxHealth * 1000) := by
    rw [sample_roll _ 999 (by decide), fullHealth_bias_threshold]
    decide
  have := (h hcap hgate).mpr hroll
  rw [fullHealth_dropped32] at this
  exact absurd this (by decide)

/-- C10, amended: when the field has room and the drop gate passes (the first
roll, in 0..999, is below `int(enemyDropChance * 1000)` in binary32, 220 for
0.22), exactly one pickup is dropped. If the player is below full health, it is
a health pack iff the second roll, in 0..999, is below the threshold
`int(adjustedChance * 1000)` that the code computes in binary32; this threshold
is between 549 and 950 and within 1 of
`floor(1000 * min(0.95, 0.55 + 0.35 * missingRatio))`: 725 at 50 of 100 health,
and 738 at 46 of 100 health where the exact value is 739. If the player is at
full health (missing ratio 0), no second roll is compared with a bias: the
pickup is never a health pack. When the gate does not pass, nothing is
dropped. -/
theorem health_pack_drop_rule32 (rl : Raylib) (g : Game) (pos : Vector2)
    (hcap : (g.powerUps.length : Int) < maxFieldPowerUps)
    (hgate : GetRandomValue rl g.randCalls 0 999 <
      truncToInt (f32 (f32 g.enemyDropChance * 1000)))
    (h0 : 0 ≤ g.player.health) (hM : g.player.maxHealth ≤ 4000000) :
    (Binary32.droppedTypes rl g pos).length = 1 ∧
      (g.player.health < g.player.maxHealth →
        (Binary32.droppedTypes rl g pos = [PowerUpType.HEALTH_PACK] ↔
          GetRandomValue rl (g.randCalls + 1) 0 999 <
            Binary32.healthThreshold g.player.health g.player.maxHealth) ∧
          |Binary32.healthThreshold g.player.health g.player.maxHealth -
              truncToInt (specHealthPackBias g.player.health g.player.maxHealth * 1000)| ≤ 1 ∧
          549 ≤ Binary32.healthThreshold g.player.health g.player.maxHealth ∧
          Binary32.healthThreshold g.player.health g.player.maxHealth ≤ 950) ∧
      (g.player.maxHealth ≤ g.player.health →
        Binary32.droppedTypes rl g pos ≠ [PowerUpType.HEALTH_PACK] ∧
          (Binary32.TryDropPowerUp rl g pos).randCalls = g.randCalls + 2) ∧
      (∀ g0 : Game, (g0.powerUps.length : Int) < maxFieldPowerUps →
        ¬ GetRandomValue rl g0.randCalls 0 999 <
            truncToInt (f32 (f32 g0.enemyDropChance * 1000)) →
        Binary32.droppedTypes rl g0 pos = []) ∧
      (truncToInt (f32 (f32 (22 / 100) * 1000)) = 220 ∧
        Binary32.healthThreshold 50 100 = 725 ∧
        Binary32.healthThreshold 46 100 = 738 ∧
        truncToInt (specHealthPackBias 46 100 * 1000) = 739) := by
  have hcap2 : ¬ ((g.powerUps.length : Int) ≥ maxFieldPowerUps) := not_le.mpr hcap
  have hfull : g.player.maxHealth ≤ g.player.health →
      Binary32.TryDropPowerUp rl g pos =
        SpawnRandomPowerUp rl { g with randCalls := g.randCalls + 1 } pos := by
    intro hle
    have : ¬ g.player.health < g.player.maxHealth := not_lt.mpr hle
    simp only [Binary32.TryDropPowerUp, hcap2, hgate, this, if_true, if_false]
  have hhurt : g.player.health < g.player.maxHealth →
      Binary32.TryDropPowerUp rl g pos =
        if GetRandomValue rl (g.randCalls + 1) 0 999 <
            Binary32.healthThreshold g.player.health g.player.maxHealth then
          CreatePowerUpInstance rl { g with randCalls := g.randCalls + 1 + 1 }
            PowerUpType.HEALTH_PACK pos
        else SpawnRandomPowerUp rl { g with randCalls := g.randCalls + 1 + 1 } pos := by
    intro hlt
    simp only [Binary32.TryDropPowerUp, hcap2, hgate, hlt, if_true, if_false]
  have hsrp : ∀ n : Nat, ∃ p : PowerUp, p.type ≠ PowerUpType.HEALTH_PACK ∧
      (SpawnRandomPowerUp rl { g with randCalls := n } pos).powerUps = g.powerUps ++ [p] :=
    fun n => SpawnRandomPowerUp_powerUps rl { g with randCalls := n } pos hcap
  refine ⟨?_, ?_, ?_, ?_, ⟨gate_threshold, threshold_50.1, threshold_46.1, threshold_46.2⟩⟩
  · by_cases hlt : g.player.health < g.player.maxHealth
    · unfold Binary32.droppedTypes
      rw [hhurt hlt]
      split_ifs
      · simp [CreatePowerUpInstance]
      · obtain ⟨p, _, hp⟩ := hsrp (g.randCalls + 1 + 1)
        rw [hp]
        simp
    · unfold Binary32.droppedTypes
      rw [hfull (not_lt.mp hlt)]
      obtain ⟨p, _, hp⟩ := hsrp (g.randCalls + 1)
      rw [hp]
      simp
  · intro hlt
    refine ⟨?_, healthThreshold_near _ _ h0 hlt hM⟩
    unfold Binary32.droppedTypes
    rw [hhurt hlt]
    split_ifs with hroll
    · simp [CreatePowerUpInstance, hroll]
    · obtain ⟨p, hne, hp⟩ := hsrp (g.randCalls + 1 + 1)
      rw [hp, drop_of_append]
      simp [hroll, hne]
  · intro hle
    constructor
    · unfold Binary32.droppedTypes
      rw [hfull hle]
      obtain ⟨p, hne, hp⟩ := hsrp (g.randCalls + 1)
      rw [hp, drop_of_append]
      simp [hne]
    · rw [hfull hle]
      simp only [SpawnRandomPowerUp, hcap2, if_false, CreatePowerUpInstance]
  · intro g0 hc0 hg0
    have hc2 : ¬ ((g0.powerUps.length : Int) ≥ maxFieldPowerUps) := not_le.mpr hc0
    simp [Binary32.droppedTypes, Binary32.TryDropPowerUp, hc2, hg0]

/-- C10, amended, at a player at 50 of 100 health with every roll equal to 0:
the gate passes, the second roll 0 is below the threshold 725, and a health pack
is dropped. -/
theorem health_pack_drop_rule32_witness :
    ((hurtGame.powerUps.length : Int) < maxFieldPowerUps ∧
      GetRandomValue sampleRaylib hurtGame.randCalls 0 999 <
        truncToInt (f32 (f32 hurtGame.enemyDropChance * 1000)) ∧
      0 ≤ hurtGame.player.health ∧ hurtGame.player.maxHealth ≤ 4000000) ∧
      Binary32.droppedTypes sampleRaylib hurtGame ⟨500, 500⟩ = [PowerUpType.HEALTH_PACK] :=
  have hgate : GetRandomValue sampleRaylib hurtGame.randCalls 0 999 <
      truncToInt (f32 (f32 hurtGame.enemyDropChance * 1000)) := by
    rw [sample_roll _ 999 (by decide), hurt_gate32]
    decide
  have hroll : GetRandomValue sampleRaylib (hurtGame.randCalls + 1) 0 999 <
      Binary32.healthThreshold hurtGame.player.health hurtGame.player.maxHealth := by
    rw [sample_roll _ 999 (by decide)]
    have : Binary32.healthThreshold hurtGame.player.health hurtGame.player.maxHealth = 725 :=
      threshold_50.1
    rw [this]
    decide
  ⟨⟨by decide, hgate, by decide, by decide⟩,
    ((health_pack_drop_rule32 sampleRaylib hurtGame ⟨500, 500⟩ (by decide) hgate (by decide)
      (by decide)).2.1 (by decide)).1.mpr hroll⟩

/-! ## C18: the stacked power-up stats (lists of the frame) -/

/-- On a list without a negative SHIELD time the stats are those of the
specification. -/
theorem computePowerStats_of_nonneg (l : List ActivePowerUp)
    (h : ∀ effect ∈ l, effect.type = PowerUpType.SHIELD → 0 ≤ effect.remaining) :
    ComputePowerStats l = specPowerStats l := by
  rw [computePowerStats_eq l]
  have hnn : 0 ≤ largestOr 0 (shieldTimes l) := by
    apply largestOr_nonneg
    intro x hx
    simp only [shieldTimes, List.mem_map, List.mem_filter, decide_eq_true_eq] at hx
    obtain ⟨e, ⟨he, ht⟩, rfl⟩ := hx
    exact h e he ht
  rw [max_eq_right hnn]
  rfl

/-- The pickup loop keeps the remaining times non-negative, and the stats it
returns are the ones passed in (no pickup was taken: the list is unchanged) or
those of the specification for the final list. -/
theorem pickupLoop_stats (rl : Raylib) (todo : List PowerUp) :
    ∀ (g : Game) (stats : PowerStats) (picked : Bool),
      (∀ effect ∈ g.activePowerUps, 0 ≤ effect.remaining) →
      (∀ effect ∈ (pickupLoop rl todo (g, stats, picked)).1.activePowerUps,
          0 ≤ effect.remaining) ∧
        (((pickupLoop rl todo (g, stats, picked)).2.1 = stats ∧
            (pickupLoop rl todo (g, stats, picked)).1.activePowerUps = g.activePowerUps) ∨
          (pickupLoop rl todo (g, stats, picked)).2.1 =
            specPowerStats (pickupLoop rl todo (g, stats, picked)).1.activePowerUps) := by
  induction todo with
  | nil =>
    intro g stats picked h
    exact ⟨h, Or.inl ⟨rfl, rfl⟩⟩
  | cons powerUp rest ih =>
    intro g stats picked h
    simp only [pickupLoop]
    split_ifs
    · have hn := ActivatePowerUp_nonneg g powerUp.type h
      obtain ⟨a, b⟩ := ih (ActivatePowerUp g powerUp.type)
        (ComputePowerStats (ActivatePowerUp g powerUp.type).activePowerUps) true hn
      refine ⟨a, Or.inr ?_⟩
      rcases b with ⟨b1, b2⟩ | b
      · rw [b1, b2]
        exact computePowerStats_of_nonneg _ fun e he _ => hn e he
      · exact b
    · exact ih { g with powerUps := g.powerUps ++ [powerUp] } stats picked h

/-- C18: for every active-effect list without a negative SHIELD time
`ComputePowerStats` returns fireRateMultiplier = 1.75^(number of RAPID_FIRE
entries), damageMultiplier = 1.6^(number of DAMAGE_BOOST entries),
speedMultiplier = 1.35^(number of SPEED_BOOST entries), spreadLevel = 1 iff a
SPREAD_SHOT entry exists (else 0), rocketLauncher = true iff a ROCKET_LAUNCHER
entry exists, and shieldRemaining = the largest remaining time over the SHIELD
entries (0 if there is none); on a list with at most one entry per type each
multiplier is 1 or its single factor. The lists of the program have no negative
time: the first call of a PLAYING frame gets the list the expiry pass leaves
(every time positive), the calls of the pickup loop get lists in which a pickup
was activated (no time negative), and the stats the pickup loop returns, started
on a list without a negative time, are those of the specification for the list
it ends with. -/
theorem computePowerStats_stacks (effects : List ActivePowerUp)
    (h : ∀ effect ∈ effects, effect.type = PowerUpType.SHIELD → 0 ≤ effect.remaining) :
    ComputePowerStats effects = specPowerStats effects ∧
      (ComputePowerStats effects).fireRateMultiplier =
        (175 / 100) ^ (effectTypes effects).count PowerUpType.RAPID_FIRE ∧
      (ComputePowerStats effects).damageMultiplier =
        (16 / 10) ^ (effectTypes effects).count PowerUpType.DAMAGE_BOOST ∧
      (ComputePowerStats effects).speedMultiplier =
        (135 / 100) ^ (effectTypes effects).count PowerUpType.SPEED_BOOST ∧
      (ComputePowerStats effects).spreadLevel =
        (if PowerUpType.SPREAD_SHOT ∈ effectTypes effects then 1 else 0) ∧
      ((ComputePowerStats effects).rocketLauncher = true ↔
        PowerUpType.ROCKET_LAUNCHER ∈ effectTypes effects) ∧
      (ComputePowerStats effects).shieldRemaining = largestOr 0 (shieldTimes effects) ∧
      (shieldTimes effects = [] → (ComputePowerStats effects).shieldRemaining = 0) ∧
      ((effectTypes effects).Nodup →
        ((ComputePowerStats effects).fireRateMultiplier = 1 ∨
            (ComputePowerStats effects).fireRateMultiplier = 175 / 100) ∧
          ((ComputePowerStats effects).damageMultiplier = 1 ∨
            (ComputePowerStats effects).damageMultiplier = 16 / 10) ∧
          ((ComputePowerStats effects).speedMultiplier = 1 ∨
            (ComputePowerStats effects).speedMultiplier = 135 / 100)) ∧
      (∀ (g : Game) (delta : ℚ),
        (∀ effect ∈ (expiryPass g delta).activePowerUps, 0 < effect.remaining) ∧
          ComputePowerStats (expiryPass g delta).activePowerUps =
            specPowerStats (expiryPass g delta).activePowerUps) ∧
      (∀ (g : Game) (t : PowerUpType), (∀ effect ∈ g.activePowerUps, 0 ≤ effect.remaining) →
        (∀ effect ∈ (ActivatePowerUp g t).activePowerUps, 0 ≤ effect.remaining) ∧
          ComputePowerStats (ActivatePowerUp g t).activePowerUps =
            specPowerStats (ActivatePowerUp g t).activePowerUps) ∧
      (∀ (rl : Raylib) (g : Game),
        (∀ effect ∈ g.activePowerUps, 0 ≤ effect.remaining) →
        (pickupPass rl g (ComputePowerStats g.activePowerUps)).2.1 =
          specPowerStats
            (pickupPass rl g (ComputePowerStats g.activePowerUps)).1.activePowerUps) := by
  have key := computePowerStats_of_nonneg effects h
  have one_or : ∀ (q : ℚ) (t : PowerUpType), (effectTypes effects).Nodup →
      q ^ (effectTypes effects).count t = 1 ∨ q ^ (effectTypes effects).count t = q := by
    intro q t hnd
    have hle := List.nodup_iff_count_le_one.mp hnd t
    have : (effectTypes effects).count t = 0 ∨ (effectTypes effects).count t = 1 := by omega
    rcases this with h | h
    · left
      rw [h, pow_zero]
    · right
      rw [h, pow_one]
  refine ⟨key, by rw [key]; rfl, by rw [key]; rfl, by rw [key]; rfl, by rw [key]; rfl, ?_,
    by rw [key]; rfl, ?_, ?_, ?_, ?_, ?_⟩
  · rw [key]
    simp only [specPowerStats, decide_eq_true_eq]
  · intro h0
    rw [key]
    simp only [specPowerStats, h0, largestOr]
  · intro hnd
    rw [key]
    exact ⟨one_or _ _ hnd, one_or _ _ hnd, one_or _ _ hnd⟩
  · intro g delta
    have hp := expireEffects_pos delta g.activePowerUps g.player
    exact ⟨hp, computePowerStats_of_nonneg _ fun e he _ => (hp e he).le⟩
  · intro g t hg
    have hn := ActivatePowerUp_nonneg g t hg
    exact ⟨hn, computePowerStats_of_nonneg _ fun e he _ => hn e he⟩
  · intro rl g hp
    obtain ⟨_, b⟩ := pickupLoop_stats rl g.powerUps { g with powerUps := [] }
      (ComputePowerStats g.activePowerUps) false hp
    unfold pickupPass
    rcases b with ⟨b1, b2⟩ | b
    · rw [b1, b2]
      exact computePowerStats_of_nonneg _ fun e he _ => hp e he
    · exact b

/-- C18 at a list with a SHIELD entry of 12 s and a RAPID_FIRE entry of 8 s:
the shield time is 12 and the fire-rate multiplier 1.75. -/
theorem computePowerStats_stacks_witness :
    (∀ effect ∈ [(⟨PowerUpType.SHIELD, 12⟩ : ActivePowerUp), ⟨PowerUpType.RAPID_FIRE, 8⟩],
        effect.type = PowerUpType.SHIELD → 0 ≤ effect.remaining) ∧
      ComputePowerStats [⟨PowerUpType.SHIELD, 12⟩, ⟨PowerUpType.RAPID_FIRE, 8⟩] =
        specPowerStats [⟨PowerUpType.SHIELD, 12⟩, ⟨PowerUpType.RAPID_FIRE, 8⟩] :=
  have h : ∀ effect ∈ [(⟨PowerUpType.SHIELD, 12⟩ : ActivePowerUp), ⟨PowerUpType.RAPID_FIRE, 8⟩],
      effect.type = PowerUpType.SHIELD → 0 ≤ effect.remaining := by
    intro e he _
    simp only [List.mem_cons, List.mem_singleton, List.not_mem_nil, or_false] at he
    rcases he with rfl | rfl <;> norm_num
  ⟨h, (computePowerStats_stacks _ h).1⟩

/-! ## C27: the enemies of `SpawnWave` -/

theorem setMaxHealth32_position (p p2 : Player) (m : ℚ)
    (h : Binary32.SetMaxHealthMultiplier p m = some p2) : p2.position = p.position := by
  unfold Binary32.SetMaxHealthMultiplier at h
  simp only at h
  split at h
  · exact absurd h (by simp)
  · split at h
    · exact absurd h (by simp)
    · simp only [Option.some.injEq] at h
      rw [← h]

theorem spawnWave32_enemies (rl : Raylib) (g g2 : Game) (wave : Int)
    (h : Binary32.SpawnWave rl g wave = some g2) :
    (∃ count n : Nat,
        g2.enemies = (Binary32.spawnLoop rl wave g2.player.position count n []).1) ∧
      (wave ≠ 1 → g2.player.position = g.player.position) ∧
      (wave = 1 → g2.player.position = ⟨500, 500⟩) := by
  unfold Binary32.SpawnWave at h
  split at h
  · rename_i player lo hi count hp _ _ _
    simp only [Option.some.injEq] at h
    have hpos := setMaxHealth32_position _ _ _ hp
    subst h
    refine ⟨⟨_, _, rfl⟩, fun hw => ?_, fun hw => ?_⟩
    · simp only [hw, if_false, Player.ResetStatus, hpos]
    · simp only [hw, if_true, Player.ResetStatus, Player.ResetPosition]
  · exact absurd h (by simp)

theorem f32_abs_le (q c : ℚ) (hq : |q| ≤ c) : |f32 q| ≤ c + c / 16777216 + 1 / 2 ^ 150 := by
  have h1 := f32_err q
  have h2 : |q| / 16777216 ≤ c / 16777216 := div_le_div_of_nonneg_right hq (by norm_num)
  have h3 : |f32 q| ≤ |f32 q - q| + |q| := by
    have := abs_add (f32 q - q) q
    simpa using this
  linarith

theorem castInt_of_abs (z : Int) (h : |z| ≤ 2147483647) : Binary32.castInt z = some z := by
  unfold Binary32.castInt
  rw [abs_le] at h
  rw [if_pos ⟨by omega, by omega⟩]

theorem truncToInt_abs_le (q : ℚ) (N : Int) (h : |q| ≤ N) : |truncToInt q| ≤ N := by
  rw [abs_le] at h ⊢
  unfold truncToInt
  split
  · rename_i h0
    have h1 : 0 ≤ ⌊q⌋ := Int.floor_nonneg.mpr h0
    have h2 : ((⌊q⌋ : Int) : ℚ) ≤ N := (Int.floor_le q).trans h.2
    have h3 : ⌊q⌋ ≤ N := by exact_mod_cast h2
    constructor <;> omega
  · rename_i h0
    have h1 : ⌈q⌉ ≤ 0 := Int.ceil_le.mpr (by push_cast; linarith)
    have h2 : ((-N : Int) : ℚ) ≤ ⌈q⌉ := by
      push_cast
      exact h.1.trans (Int.le_ceil q)
    have h3 : -N ≤ ⌈q⌉ := by exact_mod_cast h2
    constructor <;> omega

theorem roundHalfAway_abs_le (q : ℚ) (N : Int) (h : |q| ≤ N) : |roundHalfAway q| ≤ N := by
  rw [abs_le] at h ⊢
  unfold roundHalfAway
  split
  · rename_i h0
    have h1 : 0 ≤ ⌊q + 1 / 2⌋ := Int.floor_nonneg.mpr (by linarith)
    have h2 : ⌊q + 1 / 2⌋ < N + 1 := Int.floor_lt.mpr (by push_cast; linarith)
    constructor <;> omega
  · rename_i h0
    have h1 : ⌈q - 1 / 2⌉ ≤ 0 := Int.ceil_le.mpr (by push_cast; linarith)
    have h2 : -N - 1 < ⌈q - 1 / 2⌉ := Int.lt_ceil.mpr (by push_cast; linarith)
    constructor <;> omega

/-- The casts of `SpawnWave` stay in the range of `int` for health values up to
4000000, spawn intervals and waves up to 1000000 and a count multiplier up to
100. -/
theorem spawnWave32_defined (rl : Raylib) (g : Game) (wave : Int)
    (hB : 0 < g.player.baseMaxHealth)
    (hBm : (g.player.baseMaxHealth : ℚ) * max g.permanentHealthMultiplier 1 ≤ 4000000)
    (hM : 0 < g.player.maxHealth) (hMb : g.player.maxHealth ≤ 4000000)
    (h0 : 0 ≤ g.player.health) (h1 : g.player.health ≤ g.player.maxHealth)
    (hmin : |g.powerUpSpawnIntervalMin| ≤ 1000000)
    (hmax : |g.powerUpSpawnIntervalMax| ≤ 1000000)
    (hwave : |wave| ≤ 1000000) (hmult : |g.enemyCountMultiplier| ≤ 100) :
    ∃ g2 : Game, Binary32.SpawnWave rl g wave = some g2 := by
  have hη : (1 : ℚ) / 2 ^ 150 ≤ 1 := by norm_num
  have c1 : Binary32.castInt (truncToInt (f32 (g.powerUpSpawnIntervalMin * 10))) =
      some (truncToInt (f32 (g.powerUpSpawnIntervalMin * 10))) := by
    apply castInt_of_abs
    have hq : |g.powerUpSpawnIntervalMin * 10| ≤ 10000000 := by
      rw [abs_mul]; norm_num; linarith
    have := f32_abs_le _ _ hq
    have := truncToInt_abs_le (f32 (g.powerUpSpawnIntervalMin * 10)) 10000002
      (by push_cast; norm_num at this ⊢; linarith)
    omega
  have c2 : Binary32.castInt (truncToInt (f32 (g.powerUpSpawnIntervalMax * 10))) =
      some (truncToInt (f32 (g.powerUpSpawnIntervalMax * 10))) := by
    apply castInt_of_abs
    have hq : |g.powerUpSpawnIntervalMax * 10| ≤ 10000000 := by
      rw [abs_mul]; norm_num; linarith
    have := f32_abs_le _ _ hq
    have := truncToInt_abs_le (f32 (g.powerUpSpawnIntervalMax * 10)) 10000002
      (by push_cast; norm_num at this ⊢; linarith)
    omega
  have c3 : Binary32.castInt
      (roundHalfAway (f32 (f32 ((8 + (wave - 1) * 3 : Int) : ℚ) * g.enemyCountMultiplier))) =
      some (roundHalfAway
        (f32 (f32 ((8 + (wave - 1) * 3 : Int) : ℚ) * g.enemyCountMultiplier))) := by
    apply castInt_of_abs
    have hb : |(8 + (wave - 1) * 3 : Int)| < 16777216 := by
      rw [abs_le] at hwave
      rw [abs_lt]
      constructor <;> omega
    have hb2 : |(8 + (wave - 1) * 3 : Int)| ≤ 3000011 := by
      rw [abs_le] at hwave
      rw [abs_le]
      constructor <;> omega
    rw [f32_intCast _ hb]
    have hq : |(((8 + (wave - 1) * 3 : Int) : ℚ)) * g.enemyCountMultiplier| ≤ 300001100 := by
      rw [abs_mul]
      have : |(((8 + (wave - 1) * 3 : Int) : ℚ))| ≤ 3000011 := by exact_mod_cast hb2
      have := mul_le_mul this hmult (abs_nonneg _) (by norm_num)
      linarith
    have := f32_abs_le _ _ hq
    have := roundHalfAway_abs_le
      (f32 ((((8 + (wave - 1) * 3 : Int) : ℚ)) * g.enemyCountMultiplier)) 300001120
      (by push_cast; norm_num at this ⊢; linarith)
    omega
  unfold Binary32.SpawnWave
  rw [setMaxHealth32_eq g.player g.permanentHealthMultiplier hB hBm hM hMb h0 h1, c1, c2, c3]
  exact ⟨_, rfl⟩

/-- C27, amended: for a player inside the playfield (each coordinate between 20
and the window size less 20, window at most 4000 x 4000) and every random edge
choice, every enemy of the spawn loop is placed at a distance of at least 179.99
from the player, and so is every enemy of the list that `SpawnWave` leaves.
`SpawnWave` is defined (no conversion leaves the range of `int`) for health
values up to 4000000, spawn intervals and waves up to 1000000 and a count
multiplier up to 100. The computed distance `d` of an edge point is at least 79,
so the direction (1, 0) of the case `d = 0` is not used. A point with `d ≥ 180`
is left unchanged; a point with `d < 180` is moved to a distance between 179.99
and 180.01, its offset from the player being `180 / d` times the old offset up
to 0.0025 per coordinate (directly away from the player). Every point closer
than 179.99 is moved and every point at 180.01 or more is left unchanged. For
every pair of points, computed distance 0 moves the point by 180 against
(1, 0). -/
theorem spawn_near_safe_radius (rl : Raylib) (playerPos : Vector2)
    (hW : rl.GetScreenWidth ≤ 4000) (hH : rl.GetScreenHeight ≤ 4000)
    (hx : 20 ≤ playerPos.x ∧ playerPos.x ≤ (rl.GetScreenWidth : ℚ) - 20)
    (hy : 20 ≤ playerPos.y ∧ playerPos.y ≤ (rl.GetScreenHeight : ℚ) - 20) :
    (∀ (wave : Int) (count n : Nat),
      ∀ e ∈ (Binary32.spawnLoop rl wave playerPos count n []).1,
        17999 / 100 * (17999 / 100) ≤ distSq playerPos e.position) ∧
      (∀ (g g2 : Game) (wave : Int),
        Binary32.SpawnWave rl g wave = some g2 → g2.player.position = playerPos →
          ∀ e ∈ g2.enemies, 17999 / 100 * (17999 / 100) ≤ distSq playerPos e.position) ∧
      (∀ (g : Game) (wave : Int),
        0 < g.player.baseMaxHealth →
        (g.player.baseMaxHealth : ℚ) * max g.permanentHealthMultiplier 1 ≤ 4000000 →
        0 < g.player.maxHealth → g.player.maxHealth ≤ 4000000 →
        0 ≤ g.player.health → g.player.health ≤ g.player.maxHealth →
        |g.powerUpSpawnIntervalMin| ≤ 1000000 → |g.powerUpSpawnIntervalMax| ≤ 1000000 →
        |wave| ≤ 1000000 → |g.enemyCountMultiplier| ≤ 100 →
          ∃ g2 : Game, Binary32.SpawnWave rl g wave = some g2 ∧
            (wave ≠ 1 → g2.player.position = g.player.position) ∧
            (wave = 1 → g2.player.position = ⟨500, 500⟩)) ∧
      (∀ n : Nat,
        79 ≤ Binary32.distance playerPos (Binary32.edgeSpawn rl n) ∧
          (180 ≤ Binary32.distance playerPos (Binary32.edgeSpawn rl n) →
            Binary32.pushOutOfSafeRadius playerPos (Binary32.edgeSpawn rl n) =
              Binary32.edgeSpawn rl n) ∧
          (Binary32.distance playerPos (Binary32.edgeSpawn rl n) < 180 →
            17999 / 100 * (17999 / 100) ≤
                distSq playerPos
                  (Binary32.pushOutOfSafeRadius playerPos (Binary32.edgeSpawn rl n)) ∧
              distSq playerPos
                  (Binary32.pushOutOfSafeRadius playerPos (Binary32.edgeSpawn rl n)) ≤
                18001 / 100 * (18001 / 100) ∧
              |(playerPos.x -
                    (Binary32.pushOutOfSafeRadius playerPos (Binary32.edgeSpawn rl n)).x) -
                  180 / Binary32.distance playerPos (Binary32.edgeSpawn rl n) *
                    (playerPos.x - (Binary32.edgeSpawn rl n).x)| ≤ 1 / 400 ∧
              |(playerPos.y -
                    (Binary32.pushOutOfSafeRadius playerPos (Binary32.edgeSpawn rl n)).y) -
                  180 / Binary32.distance playerPos (Binary32.edgeSpawn rl n) *
                    (playerPos.y - (Binary32.edgeSpawn rl n).y)| ≤ 1 / 400) ∧
          (distSq playerPos (Binary32.edgeSpawn rl n) < 17999 / 100 * (17999 / 100) →
            Binary32.distance playerPos (Binary32.edgeSpawn rl n) < 180) ∧
          (18001 / 100 * (18001 / 100) ≤ distSq playerPos (Binary32.edgeSpawn rl n) →
            Binary32.pushOutOfSafeRadius playerPos (Binary32.edgeSpawn rl n) =
              Binary32.edgeSpawn rl n)) ∧
      (∀ p s : Vector2, Binary32.distance p s = 0 →
        Binary32.pushOutOfSafeRadius p s = ⟨f32 (s.x - 180), f32 s.y⟩) := by
  have key : ∀ n : Nat, _ := fun n =>
    pushOut_analysis playerPos (Binary32.edgeSpawn rl n)
      (edge_facts rl n playerPos hW hH hx hy).1 (edge_facts rl n playerPos hW hH hx hy).2.1
      (edge_facts rl n playerPos hW hH hx hy).2.2.1
      (edge_facts rl n playerPos hW hH hx hy).2.2.2.1
      (edge_facts rl n playerPos hW hH hx hy).2.2.2.2
  have loop : ∀ (wave : Int) (count n : Nat),
      ∀ e ∈ (Binary32.spawnLoop rl wave playerPos count n []).1,
        17999 / 100 * (17999 / 100) ≤ distSq playerPos e.position := by
    intro wave count n e he
    obtain ⟨m, hm⟩ := spawnLoop32_positions rl wave playerPos count n [] (by simp) e he
    rw [hm]
    obtain ⟨_, hfar, hnear⟩ := key m
    rcases le_or_lt 180 (Binary32.distance playerPos (Binary32.edgeSpawn rl m)) with h | h
    · rw [(hfar h).1]
      exact (hfar h).2
    · exact (hnear h).1
  refine ⟨loop, ?_, ?_, ?_, pushOut_zero⟩
  · intro g g2 wave hs hp e he
    obtain ⟨⟨count, n, hl⟩, _, _⟩ := spawnWave32_enemies rl g g2 wave hs
    rw [hl, hp] at he
    exact loop wave count n e he
  · intro g wave hB hBm hM hMb h0 h1 hmin hmax hwave hmult
    obtain ⟨g2, hg2⟩ := spawnWave32_defined rl g wave hB hBm hM hMb h0 h1 hmin hmax hwave hmult
    exact ⟨g2, hg2, (spawnWave32_enemies rl g g2 wave hg2).2⟩
  · intro n
    obtain ⟨h79, hfar, hnear⟩ := key n
    refine ⟨h79, fun h => (hfar h).1, fun h => ?_, fun h => ?_, fun h => ?_⟩
    · obtain ⟨a, b, c, d, _⟩ := hnear h
      exact ⟨a, b, c, d⟩
    · by_contra hge
      exact absurd h (not_lt.mpr (hfar (not_lt.mp hge)).2)
    · rcases le_or_lt 180 (Binary32.distance playerPos (Binary32.edgeSpawn rl n)) with h1 | h1
      · exact (hfar h1).1
      · exact absurd (hnear h1).2.2.2.2 (not_lt.mpr h)

/-- C27, amended, in the corner of a 1000 x 1000 window: the enemy of the edge
point (-60, 0) is placed at least 179.99 from the player at (20, 20), and
`SpawnWave` at wave 2 leaves every enemy at least 179.99 from that player. -/
theorem spawn_near_safe_radius_witness :
    (sampleRaylib.GetScreenWidth ≤ 4000 ∧ sampleRaylib.GetScreenHeight ≤ 4000 ∧
        ((20 : ℚ) ≤ 20 ∧ (20 : ℚ) ≤ (sampleRaylib.GetScreenWidth : ℚ) - 20) ∧
        ((20 : ℚ) ≤ 20 ∧ (20 : ℚ) ≤ (sampleRaylib.GetScreenHeight : ℚ) - 20)) ∧
      (∀ e ∈ (Binary32.spawnLoop sampleRaylib 1 ⟨20, 20⟩ 1 0 []).1,
        17999 / 100 * (17999 / 100) ≤ distSq ⟨20, 20⟩ e.position) ∧
      ∃ g2 : Game, Binary32.SpawnWave sampleRaylib cornerGame 2 = some g2 ∧
        ∀ e ∈ g2.enemies, 17999 / 100 * (17999 / 100) ≤ distSq ⟨20, 20⟩ e.position :=
  have h1 : sampleRaylib.GetScreenWidth ≤ 4000 := by decide
  have h2 : sampleRaylib.GetScreenHeight ≤ 4000 := by decide
  have h3 : (20 : ℚ) ≤ 20 ∧ (20 : ℚ) ≤ (sampleRaylib.GetScreenWidth : ℚ) - 20 := by
    norm_num [sampleRaylib]
  have h4 : (20 : ℚ) ≤ 20 ∧ (20 : ℚ) ≤ (sampleRaylib.GetScreenHeight : ℚ) - 20 := by
    norm_num [sampleRaylib]
  have hd := (spawn_near_safe_radius sampleRaylib ⟨20, 20⟩ h1 h2 h3 h4).2.2.1 cornerGame 2
    (by decide) (by norm_num [cornerGame, Game.initial, Player.new]) (by decide) (by decide)
    (by decide) (by decide) (by norm_num [cornerGame, Game.initial])
    (by norm_num [cornerGame, Game.initial]) (by decide)
    (by norm_num [cornerGame, Game.initial])
  ⟨⟨h1, h2, h3, h4⟩,
    (spawn_near_safe_radius sampleRaylib ⟨20, 20⟩ h1 h2 h3 h4).1 1 1 0,
    hd.elim fun g2 hg2 => ⟨g2, hg2.1,
      (spawn_near_safe_radius sampleRaylib ⟨20, 20⟩ h1 h2 h3 h4).2.1 cornerGame g2 2 hg2.1
        (hg2.2.1 (by decide))⟩⟩

end WaveBreaker
